import Mathlib

/-! # Ingress to HAProxy conversion engine

A shallow embedding of `pkg/converters/ingress/ingress.go` (the converter that
turns a list of ingress resources into the frontend/backend model of the proxy)
and of the parts of its collaborators that the converter relies on.

Conventions of the embedding:

* a Go pointer to a frontend is represented by the hostname of the frontend, a
  pointer to a backend by its identity triple, and a pointer to a frontend
  annotation record by an index into the list of records allocated so far
  (`Converter.frontendRecords`), so that two map entries that hold the same Go
  pointer share one record;
* Go `error` values are represented by their message;
* a Go runtime panic is recorded in `Converter.panicked`; once it is set no
  further statement of the converter runs;
* calls to the cache and to the updater are recorded, in order, in
  `Converter.calls`.
-/

namespace IngressConverter

/-! ## Kubernetes objects (the fields the converter reads) -/

/-- An `extensions.IngressBackend`; `ServicePort` holds `ServicePort.IntValue()`. -/
structure IngressBackend where
  ServiceName : String
  ServicePort : Int
deriving DecidableEq, Repr

/-- An `extensions.HTTPIngressPath`. -/
structure HTTPIngressPath where
  Path : String
  Backend : IngressBackend
deriving DecidableEq, Repr

/-- An `extensions.IngressRule`; `HTTP` is `none` for a nil `rule.HTTP` and
otherwise holds `rule.HTTP.Paths`. -/
structure IngressRule where
  Host : String
  HTTP : Option (List HTTPIngressPath)
deriving DecidableEq, Repr

/-- An `extensions.IngressTLS`. -/
structure IngressTLS where
  Hosts : List String
  SecretName : String
deriving DecidableEq, Repr

/-- An `extensions.Ingress`; `Backend`, `Rules` and `TLS` are the fields of
`ing.Spec`, annotations are a key/value list read as a map (first entry of a key). -/
structure Ingress where
  Namespace : String
  Name : String
  Annotations : List (String × String)
  Backend : Option IngressBackend
  Rules : List IngressRule
  TLS : List IngressTLS
deriving DecidableEq, Repr

/-- An `api.ServicePort`: `Port` is the port the service declares and
`TargetPort` holds `TargetPort.IntValue()`, the port of the pods. -/
structure ServicePort where
  Port : Int
  TargetPort : Int
deriving DecidableEq, Repr

/-- An `api.Service`; `Ports` is `svc.Spec.Ports`. -/
structure Service where
  Namespace : String
  Name : String
  Annotations : List (String × String)
  Ports : List ServicePort
deriving DecidableEq, Repr

/-- An `api.ObjectReference`. -/
structure ObjectReference where
  Namespace : String
  Name : String
deriving DecidableEq, Repr

/-- An `api.EndpointAddress`; `TargetRef` is `none` for a nil pointer. -/
structure EndpointAddress where
  IP : String
  TargetRef : Option ObjectReference
deriving DecidableEq, Repr

/-- An `api.EndpointPort`. -/
structure EndpointPort where
  Port : Int
  Protocol : String
deriving DecidableEq, Repr

/-- An `api.EndpointSubset`. -/
structure EndpointSubset where
  Addresses : List EndpointAddress
  Ports : List EndpointPort
deriving DecidableEq, Repr

/-- An `api.Endpoints`. -/
structure Endpoints where
  Subsets : List EndpointSubset
deriving DecidableEq, Repr

/-- The constant `api.ProtocolTCP`. -/
def ProtocolTCP : String := "TCP"

/-! ## Strings -/

/-- Splits a list of characters at every occurrence of `sep`. -/
def splitChars (sep : Char) : List Char → List (List Char)
  | [] => [[]]
  | c :: cs =>
    if c = sep then [] :: splitChars sep cs
    else match splitChars sep cs with
      | [] => [[c]]
      | w :: ws => (c :: w) :: ws

/-- Go `strings.Split(s, sep)` for a separator of one character. -/
def Split (s : String) (sep : Char) : List String :=
  (splitChars sep s.data).map String.mk

/-- Go `strings.HasPrefix`. -/
def HasPrefix (s pfx : String) : Bool := pfx.data.isPrefixOf s.data

/-- Go `strings.TrimPrefix`. -/
def TrimPrefix (s pfx : String) : String :=
  if HasPrefix s pfx then String.mk (s.data.drop pfx.data.length) else s

/-- Lexicographic order on character lists, by code point. -/
def ltChars : List Char → List Char → Bool
  | [], [] => false
  | [], _ :: _ => true
  | _ :: _, [] => false
  | a :: as, b :: bs =>
    if a.toNat < b.toNat then true
    else if b.toNat < a.toNat then false
    else ltChars as bs

/-- Go `a < b` on strings. -/
def strLt (a b : String) : Bool := ltChars a.data b.data

/-- Inserts `x` before the first element that `x` precedes. -/
def insertSorted {α : Type} (lt : α → α → Bool) (x : α) : List α → List α
  | [] => [x]
  | y :: ys => if lt x y then x :: y :: ys else y :: insertSorted lt x ys

/-- Sorts a list by insertion. -/
def sortBy {α : Type} (lt : α → α → Bool) (xs : List α) : List α :=
  xs.foldr (insertSorted lt) []

/-- Modelled from the spec: `utils.FullQualifiedName`, which is not in the
sources at hand; the spec addresses a service as `namespace/name`. -/
def FullQualifiedName (namespace_ name : String) : String :=
  namespace_ ++ "/" ++ name

/-! ## Proxy model (`hatypes`, `haproxy.Config`) -/

/-- Modelled from the spec: the identity of a backend (namespace, service name
and port), which stands for a pointer to the backend. -/
structure BackendKey where
  Namespace : String
  Name : String
  Port : Int
deriving DecidableEq, Repr

/-- Modelled from the spec: the identifier of a backend, rendered as in the
expected configurations of the tests (`default_echo_8080`). -/
def buildID (k : BackendKey) : String :=
  k.Namespace ++ "_" ++ k.Name ++ "_" ++ toString k.Port

/-- Modelled from the spec: a `hatypes.Endpoint`, whose declaration is not in the
sources at hand; the fields are those `NewEndpoint` receives. -/
structure Endpoint where
  IP : String
  Port : Int
  TargetRef : String
deriving DecidableEq, Repr

/-- Modelled from the spec: a `hatypes.Backend`, whose declaration is not in the
sources at hand; the fields are those the converter and the tests refer to. -/
structure Backend where
  Namespace : String
  Name : String
  Port : Int
  Endpoints : List Endpoint
  ModeTCP : Bool
deriving DecidableEq, Repr

/-- Modelled from the spec: the identity triple of a backend. -/
def Backend.key (b : Backend) : BackendKey := ⟨b.Namespace, b.Name, b.Port⟩

/-- Modelled from the spec: the field `ID` of a backend, derived from its
identity. -/
def Backend.ID (b : Backend) : String := buildID b.key

/-- Modelled from the spec: a `hatypes.FrontendPath`, a path and the backend it
is mapped to. -/
structure FrontendPath where
  Path : String
  Backend : BackendKey
deriving DecidableEq, Repr

/-- Modelled from the spec: the field `BackendID` of a path. -/
def FrontendPath.BackendID (p : FrontendPath) : String := buildID p.Backend

/-- Modelled from the spec: a `hatypes.FrontendTLSConfig`, with the fields the
converter, the updater and the tests refer to. -/
structure FrontendTLS where
  TLSFilename : String
  CAFilename : String
  ErrorPage : String
  AddCertHeader : Bool
deriving DecidableEq, Repr

/-- Modelled from the spec: a `hatypes.Frontend`, whose declaration is not in the
sources at hand; the fields are those the converter, the updater and the tests
refer to. -/
structure Frontend where
  Hostname : String
  Paths : List FrontendPath
  RootRedirect : String
  TimeoutClient : String
  TLS : FrontendTLS
  SSLPassthrough : Bool
  HTTPPassthroughBackend : Option BackendKey
deriving DecidableEq, Repr

/-- Modelled from the spec: the proxy model (`haproxy.Config`), which is not in
the sources at hand. Frontends and backends are kept in creation order; the
enumerations `Frontends` and `Backends` sort them. -/
structure Config where
  frontends : List Frontend
  backends : List Backend
  defaultBackend : Option BackendKey
deriving DecidableEq, Repr

/-- Modelled from the spec: `frontend.FindPath`, the entry registered for a path
string, if any. -/
def Frontend.FindPath (f : Frontend) (path : String) : Option FrontendPath :=
  f.Paths.find? (fun p => p.Path = path)

/-- Modelled from the spec: `frontend.AddPath`; the new entry is placed so that
the paths stay in descending order, as in the expected configurations of the
tests (`/app` before `/`). -/
def Frontend.AddPath (f : Frontend) (backend : BackendKey) (path : String) : Frontend :=
  { f with Paths := insertSorted (fun a b => strLt b.Path a.Path) ⟨path, backend⟩ f.Paths }

/-- Modelled from the spec: a frontend as the proxy model creates it, with no
path and no TLS assignment. -/
def createFrontend (hostname : String) : Frontend :=
  { Hostname := hostname, Paths := [], RootRedirect := "", TimeoutClient := "",
    TLS := ⟨"", "", "", false⟩, SSLPassthrough := false, HTTPPassthroughBackend := none }

/-- Modelled from the spec: a backend as the proxy model creates it, with no
endpoint. -/
def createBackend (k : BackendKey) : Backend :=
  { Namespace := k.Namespace, Name := k.Name, Port := k.Port, Endpoints := [], ModeTCP := false }

/-- Modelled from the spec: `Config.FindFrontend`, lookup of a frontend by hostname. -/
def Config.FindFrontend (c : Config) (hostname : String) : Option Frontend :=
  c.frontends.find? (fun f => f.Hostname = hostname)

/-- Modelled from the spec: `Config.AcquireFrontend`, create-or-reuse by hostname. -/
def Config.AcquireFrontend (c : Config) (hostname : String) : Config :=
  match c.FindFrontend hostname with
  | some _ => c
  | none => { c with frontends := c.frontends ++ [createFrontend hostname] }

/-- Modelled from the spec: `Config.FindBackend`, lookup of a backend by identity. -/
def Config.FindBackend (c : Config) (k : BackendKey) : Option Backend :=
  c.backends.find? (fun b => b.key = k)

/-- Modelled from the spec: `Config.AcquireBackend`, create-or-reuse by identity. -/
def Config.AcquireBackend (c : Config) (k : BackendKey) : Config :=
  match c.FindBackend k with
  | some _ => c
  | none => { c with backends := c.backends ++ [createBackend k] }

/-- Applies `g` to the first element of the list that satisfies `p`. -/
def modifyFirst {α : Type} (p : α → Bool) (g : α → α) : List α → List α
  | [] => []
  | x :: xs => if p x then g x :: xs else x :: modifyFirst p g xs

/-- A write through a frontend pointer. -/
def Config.modifyFrontend (c : Config) (hostname : String) (g : Frontend → Frontend) : Config :=
  { c with frontends := modifyFirst (fun f => f.Hostname = hostname) g c.frontends }

/-- A write through a backend pointer. -/
def Config.modifyBackend (c : Config) (k : BackendKey) (g : Backend → Backend) : Config :=
  { c with backends := modifyFirst (fun b => b.key = k) g c.backends }

/-- Modelled from the spec: `backend.NewEndpoint`, which appends an endpoint. -/
def Backend.NewEndpoint (b : Backend) (ip : String) (port : Int) (targetRef : String) : Backend :=
  { b with Endpoints := b.Endpoints ++ [⟨ip, port, targetRef⟩] }

/-- Modelled from the spec: `Config.ConfigDefaultBackend`, the designation of
the default backend. -/
def Config.ConfigDefaultBackend (c : Config) (k : BackendKey) : Config :=
  { c with defaultBackend := some k }

/-- Modelled from the spec: `Config.Frontends`, all frontends sorted by hostname. -/
def Config.Frontends (c : Config) : List Frontend :=
  sortBy (fun a b => strLt a.Hostname b.Hostname) c.frontends

/-- Modelled from the spec: `Config.Backends`, the backends sorted by identifier;
the designated default backend is not enumerated (the tests expect an empty
list when only the default service was acquired). -/
def Config.Backends (c : Config) : List Backend :=
  sortBy (fun a b => strLt a.ID b.ID)
    (c.backends.filter (fun b => decide (some b.key ≠ c.defaultBackend)))

/-! ## Annotation records (`ingtypes`) and the struct merger (`utils`) -/

/-- Modelled from the spec: an `ingtypes.Source`, the origin of a configuration
record; `Kind` is the field `Type` of the source (`ingress` or `service`). -/
structure Source where
  Namespace : String
  Name : String
  Kind : String
deriving DecidableEq, Repr

/-- Modelled from the spec: the rendering of a source in log messages, as the
tests expect it (`ingress 'default/echo'`). -/
def Source.String (s : Source) : String :=
  s.Kind ++ " '" ++ s.Namespace ++ "/" ++ s.Name ++ "'"

/-- Modelled from the spec: `ingtypes.FrontendAnnotations`, whose declaration is
not in the sources at hand; it lists the frontend-scoped fields that the
converter, the updater and the tests refer to. -/
structure FrontendAnnotations where
  Source : Source
  AppRoot : String
  AuthTLSCertHeader : Bool
  AuthTLSErrorPage : String
  AuthTLSSecret : String
  SSLPassthrough : Bool
  SSLPassthroughHTTPPort : Int
  TimeoutClient : String
deriving DecidableEq, Repr

/-- Modelled from the spec: `ingtypes.BackendAnnotations`, whose declaration is
not in the sources at hand; it lists the backend-scoped fields the tests refer to. -/
structure BackendAnnotations where
  Source : Source
  BalanceAlgorithm : String
  MaxconnServer : Int
deriving DecidableEq, Repr

/-- Modelled from the spec: `ingtypes.ConfigDefaults`, the default value of
every annotation field (`c.globalConfig.ConfigDefaults`). -/
structure ConfigDefaults where
  AppRoot : String
  AuthTLSCertHeader : Bool
  AuthTLSErrorPage : String
  AuthTLSSecret : String
  SSLPassthrough : Bool
  SSLPassthroughHTTPPort : Int
  TimeoutClient : String
  BalanceAlgorithm : String
  MaxconnServer : Int
deriving DecidableEq, Repr

/-- The frontend-scoped fields. -/
inductive FrontField where
  | AppRoot
  | AuthTLSCertHeader
  | AuthTLSErrorPage
  | AuthTLSSecret
  | SSLPassthrough
  | SSLPassthroughHTTPPort
  | TimeoutClient
deriving DecidableEq, Repr

/-- The backend-scoped fields. -/
inductive BackField where
  | BalanceAlgorithm
  | MaxconnServer
deriving DecidableEq, Repr

/-- The value of a field of either scope. -/
inductive Value where
  | str (s : String)
  | int (i : Int)
  | bool (b : Bool)
deriving DecidableEq, Repr

/-- The annotation key of a frontend-scoped field. -/
def FrontField.key : FrontField → String
  | .AppRoot => "app-root"
  | .AuthTLSCertHeader => "auth-tls-cert-header"
  | .AuthTLSErrorPage => "auth-tls-error-page"
  | .AuthTLSSecret => "auth-tls-secret"
  | .SSLPassthrough => "ssl-passthrough"
  | .SSLPassthroughHTTPPort => "ssl-passthrough-http-port"
  | .TimeoutClient => "timeout-client"

/-- The annotation key of a backend-scoped field. -/
def BackField.key : BackField → String
  | .BalanceAlgorithm => "balance-algorithm"
  | .MaxconnServer => "maxconn-server"

/-- Reads a field of a frontend record. -/
def FrontendAnnotations.get (a : FrontendAnnotations) : FrontField → Value
  | .AppRoot => .str a.AppRoot
  | .AuthTLSCertHeader => .bool a.AuthTLSCertHeader
  | .AuthTLSErrorPage => .str a.AuthTLSErrorPage
  | .AuthTLSSecret => .str a.AuthTLSSecret
  | .SSLPassthrough => .bool a.SSLPassthrough
  | .SSLPassthroughHTTPPort => .int a.SSLPassthroughHTTPPort
  | .TimeoutClient => .str a.TimeoutClient

/-- Reads a field of a backend record. -/
def BackendAnnotations.get (a : BackendAnnotations) : BackField → Value
  | .BalanceAlgorithm => .str a.BalanceAlgorithm
  | .MaxconnServer => .int a.MaxconnServer

/-- Reads the default of a frontend-scoped field. -/
def ConfigDefaults.front (d : ConfigDefaults) : FrontField → Value
  | .AppRoot => .str d.AppRoot
  | .AuthTLSCertHeader => .bool d.AuthTLSCertHeader
  | .AuthTLSErrorPage => .str d.AuthTLSErrorPage
  | .AuthTLSSecret => .str d.AuthTLSSecret
  | .SSLPassthrough => .bool d.SSLPassthrough
  | .SSLPassthroughHTTPPort => .int d.SSLPassthroughHTTPPort
  | .TimeoutClient => .str d.TimeoutClient

/-- Reads the default of a backend-scoped field. -/
def ConfigDefaults.back (d : ConfigDefaults) : BackField → Value
  | .BalanceAlgorithm => .str d.BalanceAlgorithm
  | .MaxconnServer => .int d.MaxconnServer

/-- Modelled from the spec: the merge of one field by `utils.UpdateStruct`. An
incoming value that differs from the default is written when the accumulated
record still carries the default; otherwise the accumulated value stays. -/
def mergeField {α : Type} [DecidableEq α] (dflt incoming accumulated : α) : α :=
  if incoming ≠ dflt ∧ accumulated = dflt then incoming else accumulated

/-- Modelled from the spec: the conflict test of `utils.UpdateStruct` for one
field: incoming and accumulated values are both non-default and differ. -/
def conflictField {α : Type} [DecidableEq α] (dflt incoming accumulated : α) : Bool :=
  decide (incoming ≠ dflt ∧ accumulated ≠ dflt ∧ accumulated ≠ incoming)

/-- Modelled from the spec: the name of a field when `utils.UpdateStruct` finds
it contested, nothing otherwise. -/
def skippedName {α : Type} [DecidableEq α] (name : String) (dflt incoming accumulated : α) :
    List String :=
  if conflictField dflt incoming accumulated then [name] else []

/-- Modelled from the spec: `utils.UpdateStruct(defaults, src, dst)` on frontend
records: the names of the skipped fields and the new content of `dst`. -/
def UpdateStructFront (d : ConfigDefaults) (src dst : FrontendAnnotations) :
    List String × FrontendAnnotations :=
  (skippedName "app-root" d.AppRoot src.AppRoot dst.AppRoot
    ++ skippedName "auth-tls-cert-header" d.AuthTLSCertHeader src.AuthTLSCertHeader
        dst.AuthTLSCertHeader
    ++ skippedName "auth-tls-error-page" d.AuthTLSErrorPage src.AuthTLSErrorPage
        dst.AuthTLSErrorPage
    ++ skippedName "auth-tls-secret" d.AuthTLSSecret src.AuthTLSSecret dst.AuthTLSSecret
    ++ skippedName "ssl-passthrough" d.SSLPassthrough src.SSLPassthrough dst.SSLPassthrough
    ++ skippedName "ssl-passthrough-http-port" d.SSLPassthroughHTTPPort
        src.SSLPassthroughHTTPPort dst.SSLPassthroughHTTPPort
    ++ skippedName "timeout-client" d.TimeoutClient src.TimeoutClient dst.TimeoutClient,
   { Source := dst.Source
     AppRoot := mergeField d.AppRoot src.AppRoot dst.AppRoot
     AuthTLSCertHeader := mergeField d.AuthTLSCertHeader src.AuthTLSCertHeader
       dst.AuthTLSCertHeader
     AuthTLSErrorPage := mergeField d.AuthTLSErrorPage src.AuthTLSErrorPage dst.AuthTLSErrorPage
     AuthTLSSecret := mergeField d.AuthTLSSecret src.AuthTLSSecret dst.AuthTLSSecret
     SSLPassthrough := mergeField d.SSLPassthrough src.SSLPassthrough dst.SSLPassthrough
     SSLPassthroughHTTPPort := mergeField d.SSLPassthroughHTTPPort src.SSLPassthroughHTTPPort
       dst.SSLPassthroughHTTPPort
     TimeoutClient := mergeField d.TimeoutClient src.TimeoutClient dst.TimeoutClient })

/-- Modelled from the spec: `utils.UpdateStruct(defaults, src, dst)` on backend
records. -/
def UpdateStructBack (d : ConfigDefaults) (src dst : BackendAnnotations) :
    List String × BackendAnnotations :=
  (skippedName "balance-algorithm" d.BalanceAlgorithm src.BalanceAlgorithm dst.BalanceAlgorithm
    ++ skippedName "maxconn-server" d.MaxconnServer src.MaxconnServer dst.MaxconnServer,
   { Source := dst.Source
     BalanceAlgorithm := mergeField d.BalanceAlgorithm src.BalanceAlgorithm dst.BalanceAlgorithm
     MaxconnServer := mergeField d.MaxconnServer src.MaxconnServer dst.MaxconnServer })

/-- Modelled from the spec: `utils.UpdateStruct(struct{}{}, defaults, frontAnn)`
on a freshly allocated frontend record: every field receives its default. -/
def defaultsToFront (source : Source) (d : ConfigDefaults) : FrontendAnnotations :=
  { Source := source, AppRoot := d.AppRoot, AuthTLSCertHeader := d.AuthTLSCertHeader,
    AuthTLSErrorPage := d.AuthTLSErrorPage, AuthTLSSecret := d.AuthTLSSecret,
    SSLPassthrough := d.SSLPassthrough, SSLPassthroughHTTPPort := d.SSLPassthroughHTTPPort,
    TimeoutClient := d.TimeoutClient }

/-- Modelled from the spec: `utils.UpdateStruct(struct{}{}, defaults, backAnn)`
on a freshly allocated backend record: every field receives its default. -/
def defaultsToBack (source : Source) (d : ConfigDefaults) : BackendAnnotations :=
  { Source := source, BalanceAlgorithm := d.BalanceAlgorithm, MaxconnServer := d.MaxconnServer }

/-- Value of a decimal digit. -/
def digitValue (c : Char) : Option Nat :=
  if c.toNat ≥ 48 ∧ c.toNat ≤ 57 then some (c.toNat - 48) else none

/-- Reads a non-empty run of decimal digits. -/
def parseDigits : List Char → Nat → Option Nat
  | [], acc => some acc
  | c :: cs, acc =>
    match digitValue c with
    | some v => parseDigits cs (10 * acc + v)
    | none => none

/-- Modelled from the spec: decoding of an integer annotation value (an optional
sign and decimal digits). -/
def parseInt (s : String) : Option Int :=
  match s.data with
  | [] => none
  | '-' :: c :: cs => (parseDigits (c :: cs) 0).map (fun n => - (n : Int))
  | '+' :: c :: cs => (parseDigits (c :: cs) 0).map (fun n => (n : Int))
  | cs => (parseDigits cs 0).map (fun n => (n : Int))

/-- Modelled from the spec: decoding of a boolean annotation value. -/
def parseBool (s : String) : Option Bool :=
  if s = "1" ∨ s = "t" ∨ s = "T" ∨ s = "TRUE" ∨ s = "true" ∨ s = "True" then some true
  else if s = "0" ∨ s = "f" ∨ s = "F" ∨ s = "FALSE" ∨ s = "false" ∨ s = "False" then some false
  else none

/-- Modelled from the spec: the decoding of the override of one field by
`utils.MergeMap`: the new value and, when the annotation is present but cannot
be decoded, the key. -/
def decodeField {α : Type} (ann : List (String × String)) (key : String)
    (parse : String → Option α) (current : α) : α × List String :=
  match ann.lookup key with
  | none => (current, [])
  | some v =>
    match parse v with
    | some x => (x, [])
    | none => (current, [key])

/-- Modelled from the spec: the error of `utils.MergeMap`, if any key failed. -/
def decodeError (failed : List String) : Option String :=
  if failed = [] then none else some ("cannot decode: " ++ " ".intercalate failed)

/-- Modelled from the spec: `utils.MergeMap(ann, frontAnn)`, the decoding of the
overrides onto a frontend record; fields without an override keep their value
and unknown keys are ignored. -/
def MergeMapFront (ann : List (String × String)) (r : FrontendAnnotations) :
    FrontendAnnotations × Option String :=
  let f1 := decodeField ann "app-root" some r.AppRoot
  let f2 := decodeField ann "auth-tls-cert-header" parseBool r.AuthTLSCertHeader
  let f3 := decodeField ann "auth-tls-error-page" some r.AuthTLSErrorPage
  let f4 := decodeField ann "auth-tls-secret" some r.AuthTLSSecret
  let f5 := decodeField ann "ssl-passthrough" parseBool r.SSLPassthrough
  let f6 := decodeField ann "ssl-passthrough-http-port" parseInt r.SSLPassthroughHTTPPort
  let f7 := decodeField ann "timeout-client" some r.TimeoutClient
  ({ Source := r.Source, AppRoot := f1.1, AuthTLSCertHeader := f2.1, AuthTLSErrorPage := f3.1,
     AuthTLSSecret := f4.1, SSLPassthrough := f5.1, SSLPassthroughHTTPPort := f6.1,
     TimeoutClient := f7.1 },
   decodeError (f1.2 ++ f2.2 ++ f3.2 ++ f4.2 ++ f5.2 ++ f6.2 ++ f7.2))

/-- Modelled from the spec: `utils.MergeMap(ann, backAnn)`, the decoding of the
overrides onto a backend record. -/
def MergeMapBack (ann : List (String × String)) (r : BackendAnnotations) :
    BackendAnnotations × Option String :=
  let f1 := decodeField ann "balance-algorithm" some r.BalanceAlgorithm
  let f2 := decodeField ann "maxconn-server" parseInt r.MaxconnServer
  ({ Source := r.Source, BalanceAlgorithm := f1.1, MaxconnServer := f2.1 },
   decodeError (f1.2 ++ f2.2))

/-! ## Converter state -/

/-- A Go runtime panic. -/
inductive Panic where
  | indexOutOfRange
  | nilPointerDereference
deriving DecidableEq, Repr

/-- A call of the logger: one constructor for each logging statement of the
converter, with the arguments of its format string. -/
inductive LogEntry where
  | errorReadingDefaultService (err : String)
  | skippingDefaultBackend (fullIngName err : String)
  | skippingRedeclaredPath (uri fullIngName : String)
  | skippingBackendConfig (fullIngName err : String)
  | skippingTLSSecret (secretName fullIngName err : String)
  | skippingDefaultTLSSecret (fullIngName err : String)
  | skippingFrontendAnnotations (source : Source) (skipped : List String)
  | errorAddingEndpoints (fullSvcName err : String)
  | skippingBackendAnnotations (backend : BackendKey) (source : Source) (skipped : List String)
  | usingDefaultCertificate (tlsSecretName err : String)
  | errorMergingFrontendAnnotations (source : Source) (err : String)
  | errorMergingBackendAnnotations (source : Source) (err : String)
deriving DecidableEq, Repr

/-- Go `%v` of a list of strings. -/
def showList (xs : List String) : String := "[" ++ " ".intercalate xs ++ "]"

/-- The line a log entry produces: the level followed by the formatted message. -/
def LogEntry.render : LogEntry → String
  | .errorReadingDefaultService err => "ERROR error reading default service: " ++ err
  | .skippingDefaultBackend ing err =>
    "WARN skipping default backend of ingress '" ++ ing ++ "': " ++ err
  | .skippingRedeclaredPath uri ing =>
    "WARN skipping redeclared path '" ++ uri ++ "' of ingress '" ++ ing ++ "'"
  | .skippingBackendConfig ing err =>
    "WARN skipping backend config of ingress '" ++ ing ++ "': " ++ err
  | .skippingTLSSecret secret ing err =>
    "WARN skipping TLS secret '" ++ secret ++ "' of ingress '" ++ ing ++ "': " ++ err
  | .skippingDefaultTLSSecret ing err =>
    "WARN skipping default TLS secret of ingress '" ++ ing ++ "': " ++ err
  | .skippingFrontendAnnotations source skipped =>
    "INFO skipping frontend annotation(s) from " ++ source.String ++ " due to conflict: "
      ++ showList skipped
  | .errorAddingEndpoints svc err =>
    "ERROR error adding endpoints of service '" ++ svc ++ "': " ++ err
  | .skippingBackendAnnotations backend source skipped =>
    "INFO skipping backend '" ++ backend.Namespace ++ "/" ++ backend.Name ++ ":"
      ++ toString backend.Port ++ "' annotation(s) from " ++ source.String
      ++ " due to conflict: " ++ showList skipped
  | .usingDefaultCertificate secret err =>
    "WARN using default certificate due to an error reading secret '" ++ secret ++ "': " ++ err
  | .errorMergingFrontendAnnotations source err =>
    "ERROR error merging frontend annotations from " ++ source.String ++ ": " ++ err
  | .errorMergingBackendAnnotations source err =>
    "ERROR error merging backend annotations from " ++ source.String ++ ": " ++ err

/-- A call to the cache or to the updater. -/
inductive Call where
  | GetService (serviceName : String)
  | GetEndpoints (service : Service)
  | GetTLSSecretPath (secretName : String)
  | UpdateGlobalConfig (config : ConfigDefaults)
  | UpdateFrontendConfig (hostname : String) (ann : FrontendAnnotations)
  | UpdateBackendConfig (id : String) (ann : BackendAnnotations)
deriving DecidableEq, Repr

/-- Modelled from the spec: the cache (`ingtypes.Cache`) as the converter
consumes it; every lookup may fail with an error. -/
structure Cache where
  GetService : String → Except String Service
  GetEndpoints : Service → Except String Endpoints
  GetTLSSecretPath : String → Except String String

/-- Modelled from the spec: the `ingtypes.ConverterOptions` the converter reads. -/
structure ConverterOptions where
  DefaultBackend : String
  DefaultSSLSecret : String
  AnnotationPrefix : String
deriving DecidableEq, Repr

/-- The parts of the converter that a pass does not change: options, cache and
the defaults of the global configuration. -/
structure Env where
  options : ConverterOptions
  cache : Cache
  globalConfig : ConfigDefaults

/-- The mutable state of a `converter` together with the proxy model and the
logger it writes to. -/
structure Converter where
  haproxy : Config
  logger : List LogEntry
  frontendRecords : List FrontendAnnotations
  frontendAnnotations : List (String × Nat)
  backendAnnotations : List (String × BackendAnnotations)
  calls : List Call
  panicked : Option Panic
deriving DecidableEq, Repr

/-- A call of the logger. -/
def Converter.log (c : Converter) (e : LogEntry) : Converter :=
  { c with logger := c.logger ++ [e] }

/-- Records a call to a collaborator. -/
def Converter.call (c : Converter) (x : Call) : Converter :=
  { c with calls := c.calls ++ [x] }

/-- A runtime panic. -/
def Converter.raise (c : Converter) (p : Panic) : Converter :=
  { c with panicked := some p }

/-- The zero value of a frontend record. -/
def zeroFrontendAnnotations : FrontendAnnotations :=
  { Source := ⟨"", "", ""⟩, AppRoot := "", AuthTLSCertHeader := false, AuthTLSErrorPage := "",
    AuthTLSSecret := "", SSLPassthrough := false, SSLPassthroughHTTPPort := 0,
    TimeoutClient := "" }

/-- The zero value of a backend record (`&ingtypes.BackendAnnotations{}`). -/
def zeroBackendAnnotations : BackendAnnotations :=
  { Source := ⟨"", "", ""⟩, BalanceAlgorithm := "", MaxconnServer := 0 }

/-- The frontend record a pointer refers to. -/
def Converter.frontAnn (c : Converter) (ref : Nat) : FrontendAnnotations :=
  c.frontendRecords.getD ref zeroFrontendAnnotations

/-- The frontend a pointer refers to. -/
def Converter.frontend (c : Converter) (hostname : String) : Frontend :=
  (c.haproxy.FindFrontend hostname).getD (createFrontend hostname)

/-- An assignment `m[k] = v` of a Go map. -/
def mapSet {β : Type} (k : String) (v : β) : List (String × β) → List (String × β)
  | [] => [(k, v)]
  | kv :: m => if kv.1 = k then (k, v) :: m else kv :: mapSet k v m

/-- A `for ... range` loop: the body runs for each element in turn and the loop
is left when a panic has occurred. -/
def forEach {α : Type} (body : α → Converter → Converter) : List α → Converter → Converter
  | [], c => c
  | x :: xs, c => if c.panicked.isSome then c else forEach body xs (body x c)

/-! ## The converter (`ingress.go`) -/

/-- The function `readServiceNamePort`. -/
def readServiceNamePort (backend : IngressBackend) : String × Int :=
  (backend.ServiceName, backend.ServicePort)

/-- The override map built by `readAnnotations`: the annotations that carry the
configured prefix, with the prefix removed. -/
def readAnnotationsMap (env : Env) (annotations : List (String × String)) :
    List (String × String) :=
  let pfx := env.options.AnnotationPrefix ++ "/"
  annotations.filterMap (fun kv =>
    if HasPrefix kv.1 pfx then some (TrimPrefix kv.1 pfx, kv.2) else none)

/-- The method `readAnnotations`: the frontend view and the backend view of a
set of annotations. -/
def readAnnotations (env : Env) (source : Source) (annotations : List (String × String))
    (c : Converter) : (FrontendAnnotations × BackendAnnotations) × Converter :=
  let ann := readAnnotationsMap env annotations
  let frontAnn := MergeMapFront ann (defaultsToFront source env.globalConfig)
  let backAnn := MergeMapBack ann (defaultsToBack source env.globalConfig)
  let c1 := match frontAnn.2 with
    | some err => c.log (.errorMergingFrontendAnnotations source err)
    | none => c
  let c2 := match backAnn.2 with
    | some err => c1.log (.errorMergingBackendAnnotations source err)
    | none => c1
  ((frontAnn.1, backAnn.1), c2)

/-- The body of the innermost loop of `addEndpoints`: one address of a subset. -/
def addEndpointsAddr (servicePort : Int) (backend : BackendKey) (addr : EndpointAddress)
    (c : Converter) : Converter :=
  match addr.TargetRef with
  | none => c.raise .nilPointerDereference
  | some ref =>
    let target := ref.Namespace ++ "/" ++ ref.Name
    { c with
      haproxy := c.haproxy.modifyBackend backend (fun b => b.NewEndpoint addr.IP servicePort target) }

/-- The loop of `addEndpoints` over the port entries of one subset. -/
def addEndpointsPort (servicePort : Int) (backend : BackendKey) (subset : EndpointSubset)
    (port : EndpointPort) (c : Converter) : Converter :=
  if port.Port = servicePort ∧ port.Protocol = ProtocolTCP then
    forEach (addEndpointsAddr servicePort backend) subset.Addresses c
  else c

/-- The method `addEndpoints`: the returned error, if any, and the new state. -/
def addEndpoints (env : Env) (svc : Service) (servicePort : Int) (backend : BackendKey)
    (c : Converter) : Option String × Converter :=
  let c1 := c.call (.GetEndpoints svc)
  match env.cache.GetEndpoints svc with
  | .error err => (some err, c1)
  | .ok endpoints =>
    (none, forEach (fun subset => forEach (addEndpointsPort servicePort backend subset)
      subset.Ports) endpoints.Subsets c1)

/-- The method `addBackend`. The result is the returned error or the acquired
backend; it is meaningless when the new state has panicked. -/
def addBackend (env : Env) (fullSvcName : String) (svcPort : Int) (ingAnn : BackendAnnotations)
    (c : Converter) : Except String BackendKey × Converter :=
  let c1 := c.call (.GetService fullSvcName)
  match env.cache.GetService fullSvcName with
  | .error err => (.error err, c1)
  | .ok svc =>
    match Split fullSvcName '/' with
    | namespace_ :: svcName :: _ =>
      match (if svcPort = 0 then svc.Ports.head?.map (fun p => p.TargetPort) else some svcPort) with
      | none => (.error "", c1.raise .indexOutOfRange)
      | some svcPort =>
        let backend : BackendKey := ⟨namespace_, svcName, svcPort⟩
        let c2 := { c1 with haproxy := c1.haproxy.AcquireBackend backend }
        match c2.backendAnnotations.lookup (buildID backend) with
        | some ann =>
          let merged := UpdateStructBack env.globalConfig ingAnn ann
          let c3 := { c2 with
            backendAnnotations := mapSet (buildID backend) merged.2 c2.backendAnnotations }
          (.ok backend,
            if merged.1.length > 0 then
              c3.log (.skippingBackendAnnotations backend ingAnn.Source merged.1)
            else c3)
        | none =>
          let added := addEndpoints env svc svcPort backend c2
          if added.2.panicked.isSome then (.error "", added.2)
          else
            let c3 := match added.1 with
              | some err => added.2.log (.errorAddingEndpoints fullSvcName err)
              | none => added.2
            let read := readAnnotations env ⟨namespace_, svcName, "service"⟩ svc.Annotations c3
            let merged := UpdateStructBack env.globalConfig ingAnn read.1.2
            let c4 := { read.2 with
              backendAnnotations := mapSet (buildID backend) merged.2 read.2.backendAnnotations }
            (.ok backend,
              if merged.1.length > 0 then
                c4.log (.skippingBackendAnnotations backend ingAnn.Source merged.1)
              else c4)
    | _ => (.error "", c1.raise .indexOutOfRange)

/-- The method `addFrontend`; the returned frontend pointer is `host`. -/
def addFrontend (env : Env) (host : String) (ingAnn : Nat) (c : Converter) : Converter :=
  let c1 := { c with haproxy := c.haproxy.AcquireFrontend host }
  match c1.frontendAnnotations.lookup host with
  | some ann =>
    let merged := UpdateStructFront env.globalConfig (c1.frontAnn ingAnn) (c1.frontAnn ann)
    let c2 := { c1 with frontendRecords := c1.frontendRecords.set ann merged.2 }
    if merged.1.length > 0 then
      c2.log (.skippingFrontendAnnotations (c2.frontAnn ingAnn).Source merged.1)
    else c2
  | none => { c1 with frontendAnnotations := mapSet host ingAnn c1.frontendAnnotations }

/-- The method `addHTTPPassthrough`. -/
def addHTTPPassthrough (env : Env) (fullSvcName : String) (ingFrontAnn : Nat)
    (ingBackAnn : BackendAnnotations) (c : Converter) : Converter :=
  if (c.frontAnn ingFrontAnn).SSLPassthrough ∧ (c.frontAnn ingFrontAnn).SSLPassthroughHTTPPort ≠ 0
  then (addBackend env fullSvcName (c.frontAnn ingFrontAnn).SSLPassthroughHTTPPort ingBackAnn c).2
  else c

/-- The secret that `addTLS` looks up first. -/
def tlsSecretName (env : Env) (namespace_ secretName : String) : String :=
  if secretName ≠ "" then namespace_ ++ "/" ++ secretName else env.options.DefaultSSLSecret

/-- The error of `addTLS` when neither the custom nor the default secret is usable. -/
def customAndDefaultError (custom dflt : String) : String :=
  "failed to use custom and default certificate. custom: " ++ custom ++ "; default: " ++ dflt

/-- The method `addTLS`: the certificate path or the error, and the new state. -/
def addTLS (env : Env) (namespace_ secretName : String) (c : Converter) :
    Except String String × Converter :=
  let defaultSecret := env.options.DefaultSSLSecret
  let name := tlsSecretName env namespace_ secretName
  let c1 := c.call (.GetTLSSecretPath name)
  match env.cache.GetTLSSecretPath name with
  | .ok tlsPath => (.ok tlsPath, c1)
  | .error tlsSecretErr =>
    if name = defaultSecret then (.error tlsSecretErr, c1)
    else
      let c2 := c1.call (.GetTLSSecretPath defaultSecret)
      match env.cache.GetTLSSecretPath defaultSecret with
      | .error err => (.error (customAndDefaultError tlsSecretErr err), c2)
      | .ok tlsPath => (.ok tlsPath, c2.log (.usingDefaultCertificate name tlsSecretErr))

/-- The method `addDefaultHostBackend`: the returned error, if any, and the new
state. -/
def addDefaultHostBackend (env : Env) (fullSvcName : String) (svcPort : Int) (ingFrontAnn : Nat)
    (ingBackAnn : BackendAnnotations) (c : Converter) : Option String × Converter :=
  let occupied := match c.haproxy.FindFrontend "*" with
    | some fr => (fr.FindPath "/").isSome
    | none => false
  if occupied then (some "path / was already defined on default host", c)
  else
    let added := addBackend env fullSvcName svcPort ingBackAnn c
    if added.2.panicked.isSome then (none, added.2)
    else match added.1 with
      | .error err => (some err, added.2)
      | .ok backend =>
        let c2 := addFrontend env "*" ingFrontAnn added.2
        (none, { c2 with haproxy := c2.haproxy.modifyFrontend "*" (fun f => f.AddPath backend "/") })

/-- The assignment `frontend.TLS.TLSFilename = tlsPath`. -/
def setTLSFilename (tlsPath : String) (f : Frontend) : Frontend :=
  { f with TLS := { f.TLS with TLSFilename := tlsPath } }

/-- The error raised when a host already has another certificate. -/
def alreadyAssignedError (hostname : String) : String :=
  "TLS of host '" ++ hostname ++ "' was already assigned"

/-- The body of the path loop of `syncIngress`: one path entry of a rule whose
frontend is `hostname`. -/
def syncPath (env : Env) (ing : Ingress) (hostname : String) (ingFrontAnn : Nat)
    (ingBackAnn : BackendAnnotations) (path : HTTPIngressPath) (c : Converter) : Converter :=
  let fullIngName := ing.Namespace ++ "/" ++ ing.Name
  let uri := if path.Path = "" then "/" else path.Path
  if ((c.frontend hostname).FindPath uri).isSome then
    c.log (.skippingRedeclaredPath uri fullIngName)
  else
    let svc := readServiceNamePort path.Backend
    let fullSvcName := FullQualifiedName ing.Namespace svc.1
    let added := addBackend env fullSvcName svc.2 ingBackAnn c
    if added.2.panicked.isSome then added.2
    else match added.1 with
      | .error err => added.2.log (.skippingBackendConfig fullIngName err)
      | .ok backend =>
        addHTTPPassthrough env fullSvcName ingFrontAnn ingBackAnn
          { added.2 with
            haproxy := added.2.haproxy.modifyFrontend hostname (fun f => f.AddPath backend uri) }

/-- The body of the TLS loops of `syncIngress`: one host of one TLS binding,
seen from a rule whose frontend is `hostname`. -/
def syncTLSHost (env : Env) (ing : Ingress) (hostname : String) (tls : IngressTLS)
    (host : String) (c : Converter) : Converter :=
  let fullIngName := ing.Namespace ++ "/" ++ ing.Name
  if host = hostname then
    let resolved := addTLS env ing.Namespace tls.SecretName c
    let assigned : Option String × Converter :=
      match resolved.1 with
      | .ok tlsPath =>
        if (resolved.2.frontend hostname).TLS.TLSFilename = "" then
          (none, { resolved.2 with
            haproxy := resolved.2.haproxy.modifyFrontend hostname (setTLSFilename tlsPath) })
        else if (resolved.2.frontend hostname).TLS.TLSFilename ≠ tlsPath then
          (some (alreadyAssignedError (resolved.2.frontend hostname).Hostname), resolved.2)
        else (none, resolved.2)
      | .error err => (some err, resolved.2)
    match assigned.1 with
    | some err =>
      if tls.SecretName ≠ "" then
        assigned.2.log (.skippingTLSSecret tls.SecretName fullIngName err)
      else assigned.2.log (.skippingDefaultTLSSecret fullIngName err)
    | none => assigned.2
  else c

/-- The body of the rule loop of `syncIngress`. -/
def syncRule (env : Env) (ing : Ingress) (ingFrontAnn : Nat) (ingBackAnn : BackendAnnotations)
    (rule : IngressRule) (c : Converter) : Converter :=
  match rule.HTTP with
  | none => c
  | some paths =>
    let hostname := if rule.Host = "" then "*" else rule.Host
    let c1 := addFrontend env hostname ingFrontAnn c
    let c2 := forEach (syncPath env ing hostname ingFrontAnn ingBackAnn) paths c1
    forEach (fun tls => forEach (syncTLSHost env ing hostname tls) tls.Hosts) ing.TLS c2

/-- The default-backend block of `syncIngress`. -/
def syncDefaultBackend (env : Env) (ing : Ingress) (ingFrontAnn : Nat)
    (ingBackAnn : BackendAnnotations) (c : Converter) : Converter :=
  match ing.Backend with
  | none => c
  | some b =>
    let svc := readServiceNamePort b
    let added := addDefaultHostBackend env (FullQualifiedName ing.Namespace svc.1) svc.2
      ingFrontAnn ingBackAnn c
    if added.2.panicked.isSome then added.2
    else match added.1 with
      | some err => added.2.log (.skippingDefaultBackend (ing.Namespace ++ "/" ++ ing.Name) err)
      | none => added.2

/-- The method `syncIngress`. The frontend view of the resource is allocated
as a new record, to which `ingFrontAnn` points. -/
def syncIngress (env : Env) (ing : Ingress) (c : Converter) : Converter :=
  let read := readAnnotations env ⟨ing.Namespace, ing.Name, "ingress"⟩ ing.Annotations c
  let ingFrontAnn := read.2.frontendRecords.length
  let c1 := { read.2 with frontendRecords := read.2.frontendRecords ++ [read.1.1] }
  let c2 := syncDefaultBackend env ing ingFrontAnn read.1.2 c1
  forEach (syncRule env ing ingFrontAnn read.1.2) ing.Rules c2

/-- The method `syncAnnotations`; the calls to the updater are recorded. -/
def syncAnnotations (env : Env) (c : Converter) : Converter :=
  let c1 := c.call (.UpdateGlobalConfig env.globalConfig)
  let c2 := forEach (fun (frontend : Frontend) c =>
      match c.frontendAnnotations.lookup frontend.Hostname with
      | some ann => c.call (.UpdateFrontendConfig frontend.Hostname (c.frontAnn ann))
      | none => c) c1.haproxy.Frontends c1
  forEach (fun (backend : Backend) c =>
      match c.backendAnnotations.lookup backend.ID with
      | some ann => c.call (.UpdateBackendConfig backend.ID ann)
      | none => c) c2.haproxy.Backends c2

/-- The first phase of `Sync`: the loop over the resources. -/
def syncAll (env : Env) (ingress : List Ingress) (c : Converter) : Converter :=
  forEach (syncIngress env) ingress c

/-- The method `Sync`. -/
def Sync (env : Env) (ingress : List Ingress) (c : Converter) : Converter :=
  let c1 := syncAll env ingress c
  if c1.panicked.isSome then c1 else syncAnnotations env c1

/-- The state of a converter before `NewIngressConverter` acquires the default
backend. -/
def emptyConverter (haproxy : Config) : Converter :=
  { haproxy := haproxy, logger := [], frontendRecords := [], frontendAnnotations := [],
    backendAnnotations := [], calls := [], panicked := none }

/-- The function `NewIngressConverter`. -/
def NewIngressConverter (env : Env) (haproxy : Config) : Converter :=
  let added := addBackend env env.options.DefaultBackend 0 zeroBackendAnnotations
    (emptyConverter haproxy)
  if added.2.panicked.isSome then added.2
  else match added.1 with
    | .ok backend => { added.2 with haproxy := added.2.haproxy.ConfigDefaultBackend backend }
    | .error err => added.2.log (.errorReadingDefaultService err)


/-! ## Auxiliary definitions used in the statements -/

/-- The target reference `addEndpoints` records for an address. -/
def targetOf (addr : EndpointAddress) : String :=
  match addr.TargetRef with
  | some ref => ref.Namespace ++ "/" ++ ref.Name
  | none => ""

/-- The port entries of a subset that `addEndpoints` accepts: the target port
over TCP. -/
def matchingPorts (servicePort : Int) (subset : EndpointSubset) : List EndpointPort :=
  subset.Ports.filter (fun p => decide (p.Port = servicePort ∧ p.Protocol = ProtocolTCP))

/-- The endpoints of one subset: its addresses, in order, once for every
accepted port entry. -/
def subsetEndpoints (servicePort : Int) (subset : EndpointSubset) : List Endpoint :=
  (matchingPorts servicePort subset).flatMap (fun _ =>
    subset.Addresses.map (fun addr => ⟨addr.IP, servicePort, targetOf addr⟩))

/-- The endpoints of a service: those of its subsets, in subset order. -/
def expectedEndpoints (servicePort : Int) (endpoints : Endpoints) : List Endpoint :=
  endpoints.Subsets.flatMap (subsetEndpoints servicePort)

/-- The state in which `es` has been appended to the endpoints of a backend. -/
def appendEndpoints (backend : BackendKey) (es : List Endpoint) (c : Converter) : Converter :=
  { c with
    haproxy := c.haproxy.modifyBackend backend (fun b => { b with Endpoints := b.Endpoints ++ es }) }

/-- Every address of a subset that has an accepted port entry carries a target
reference. -/
def TargetRefsPresent (servicePort : Int) (endpoints : Endpoints) : Prop :=
  ∀ subset ∈ endpoints.Subsets, matchingPorts servicePort subset ≠ [] →
    ∀ addr ∈ subset.Addresses, addr.TargetRef ≠ none

/-- The pending frontend record of a hostname, if any. -/
def Converter.pendingFront (c : Converter) (hostname : String) : Option FrontendAnnotations :=
  (c.frontendAnnotations.lookup hostname).map c.frontAnn

/-- The effective hostname of a rule: `*` for an empty host. -/
def IngressRule.hostname (rule : IngressRule) : String :=
  if rule.Host = "" then "*" else rule.Host

/-- The frontends of `fs` survive in `fs'`: a frontend found under a hostname
is still found under it, an assigned certificate file is kept and every
registered path keeps its entry. -/
def FrontStable (fs fs' : List Frontend) : Prop :=
  ∀ h f, fs.find? (fun x => x.Hostname = h) = some f →
    ∃ f', fs'.find? (fun x => x.Hostname = h) = some f' ∧
      (f.TLS.TLSFilename ≠ "" → f'.TLS.TLSFilename = f.TLS.TLSFilename) ∧
      (∀ p x, f.FindPath p = some x → f'.FindPath p = some x)

/-- No frontend holds two entries with the same path string. -/
def PathsNodup (fs : List Frontend) : Prop :=
  ∀ f ∈ fs, (f.Paths.map (fun p => p.Path)).Nodup

/-- The frontends of `c` survive in `c'` and uniqueness of paths is kept. -/
def FrontEvolves (c c' : Converter) : Prop :=
  FrontStable c.haproxy.frontends c'.haproxy.frontends
    ∧ (PathsNodup c.haproxy.frontends → PathsNodup c'.haproxy.frontends)

/-- The frontends, the frontend records and the pending frontend map are the same
in both states. -/
def KeepsFront (c c' : Converter) : Prop :=
  c'.haproxy.frontends = c.haproxy.frontends
    ∧ c'.frontendRecords = c.frontendRecords
    ∧ c'.frontendAnnotations = c.frontendAnnotations

/-- The effective path of a path entry: `/` for an empty path. -/
def HTTPIngressPath.uri (path : HTTPIngressPath) : String :=
  if path.Path = "" then "/" else path.Path

/-- The qualified name of the service of a path entry of a resource. -/
def HTTPIngressPath.fullSvcName (path : HTTPIngressPath) (ing : Ingress) : String :=
  FullQualifiedName ing.Namespace path.Backend.ServiceName

/-- The qualified name of a resource in log messages. -/
def Ingress.fullName (ing : Ingress) : String := ing.Namespace ++ "/" ++ ing.Name

/-- The warning `syncIngress` logs when a TLS binding is skipped: it names the
secret of the binding, or refers to the default secret when the name is empty. -/
def tlsWarning (ing : Ingress) (tls : IngressTLS) (err : String) : LogEntry :=
  if tls.SecretName ≠ "" then LogEntry.skippingTLSSecret tls.SecretName ing.fullName err
  else LogEntry.skippingDefaultTLSSecret ing.fullName err

/-- The default frontend `*` already has the path `/`. -/
def defaultHostOccupied (c : Converter) : Bool :=
  match c.haproxy.FindFrontend "*" with
  | some fr => (fr.FindPath "/").isSome
  | none => false

/-- The state after `syncIngress` has read the annotations of the resource and
allocated its frontend view. -/
def syncIngressStart (env : Env) (ing : Ingress) (c : Converter) : Converter :=
  let read := readAnnotations env ⟨ing.Namespace, ing.Name, "ingress"⟩ ing.Annotations c
  { read.2 with frontendRecords := read.2.frontendRecords ++ [read.1.1] }

/-- The frontend view of a resource, as `readAnnotations` decodes it. -/
def frontView (env : Env) (ing : Ingress) : FrontendAnnotations :=
  (MergeMapFront (readAnnotationsMap env ing.Annotations)
    (defaultsToFront ⟨ing.Namespace, ing.Name, "ingress"⟩ env.globalConfig)).1

/-- The backend view of a resource, as `readAnnotations` decodes it. -/
def backView (env : Env) (ing : Ingress) : BackendAnnotations :=
  (MergeMapBack (readAnnotationsMap env ing.Annotations)
    (defaultsToBack ⟨ing.Namespace, ing.Name, "ingress"⟩ env.globalConfig)).1

/-- Two states differ at most in the recorded calls. -/
def OnlyCalls (c c' : Converter) : Prop :=
  c'.haproxy = c.haproxy ∧ c'.logger = c.logger ∧ c'.frontendRecords = c.frontendRecords
    ∧ c'.frontendAnnotations = c.frontendAnnotations
    ∧ c'.backendAnnotations = c.backendAnnotations ∧ c'.panicked = c.panicked

/-- The endpoints of the backend with identity `k`; none when the proxy model has
no such backend. -/
def endpointsAt (c : Converter) (k : BackendKey) : List Endpoint :=
  ((c.haproxy.FindBackend k).map (fun b => b.Endpoints)).getD []

/-- Pending backend records are kept, and the endpoints of a backend whose
identifier has a pending record are the same in both states. -/
def BackEvolves (c c' : Converter) : Prop :=
  (∀ id, (c.backendAnnotations.lookup id).isSome = true →
      (c'.backendAnnotations.lookup id).isSome = true)
    ∧ (∀ k, (c.backendAnnotations.lookup (buildID k)).isSome = true →
      endpointsAt c' k = endpointsAt c k)

/-- The pending backend records are the same and only the backend `k0` may differ. -/
def OnlyBackend (k0 : BackendKey) (c c' : Converter) : Prop :=
  c'.backendAnnotations = c.backendAnnotations
    ∧ ∀ k, k ≠ k0 → c'.haproxy.FindBackend k = c.haproxy.FindBackend k

/-- The backends and the pending backend records are the same in both states. -/
def KeepsBack (c c' : Converter) : Prop :=
  c'.haproxy.backends = c.haproxy.backends ∧ c'.backendAnnotations = c.backendAnnotations

/-- What `addBackend` resolves a service reference to, before it touches the
proxy model. -/
inductive Resolved where
  | notFound (err : String)
  | panics
  | backend (svc : Service) (k : BackendKey)

/-- The resolution of a service reference by `addBackend`: the lookup of the
service fails, the split of the name or the read of the first port panics, or
the service and the identity of its backend are known. -/
def resolveBackend (env : Env) (fullSvcName : String) (svcPort : Int) : Resolved :=
  match env.cache.GetService fullSvcName with
  | .error err => .notFound err
  | .ok svc =>
    match Split fullSvcName '/' with
    | namespace_ :: svcName :: _ =>
      match (if svcPort = 0 then svc.Ports.head?.map (fun p => p.TargetPort) else some svcPort) with
      | none => .panics
      | some port => .backend svc ⟨namespace_, svcName, port⟩
    | _ => .panics

/-- The state `addBackend` leaves when the backend already has a pending record
`ann`: the backend is acquired and the view of the resource is merged. -/
def addBackendFound (env : Env) (fullSvcName : String) (ingAnn : BackendAnnotations)
    (k : BackendKey) (ann : BackendAnnotations) (c : Converter) : Converter :=
  let c1 := c.call (.GetService fullSvcName)
  let c2 := { c1 with haproxy := c1.haproxy.AcquireBackend k }
  let merged := UpdateStructBack env.globalConfig ingAnn ann
  let c3 := { c2 with backendAnnotations := mapSet (buildID k) merged.2 c2.backendAnnotations }
  if merged.1.length > 0 then c3.log (.skippingBackendAnnotations k ingAnn.Source merged.1)
  else c3

/-- The state in which `addBackend` has acquired a backend without pending
record and has read its endpoints. -/
def addBackendPopulated (env : Env) (fullSvcName : String) (svc : Service) (k : BackendKey)
    (c : Converter) : Option String × Converter :=
  let c1 := c.call (.GetService fullSvcName)
  addEndpoints env svc k.Port k { c1 with haproxy := c1.haproxy.AcquireBackend k }

/-- The state `addBackend` leaves for a backend without pending record once its
endpoints were read without panic: the record is initialised from the
annotations of the service and the view of the resource is merged. -/
def addBackendNew (env : Env) (fullSvcName : String) (ingAnn : BackendAnnotations)
    (svc : Service) (k : BackendKey) (c : Converter) : Converter :=
  let added := addBackendPopulated env fullSvcName svc k c
  let c3 := match added.1 with
    | some err => added.2.log (.errorAddingEndpoints fullSvcName err)
    | none => added.2
  let read := readAnnotations env ⟨k.Namespace, k.Name, "service"⟩ svc.Annotations c3
  let merged := UpdateStructBack env.globalConfig ingAnn read.1.2
  let c4 := { read.2 with
    backendAnnotations := mapSet (buildID k) merged.2 read.2.backendAnnotations }
  if merged.1.length > 0 then c4.log (.skippingBackendAnnotations k ingAnn.Source merged.1)
  else c4

/-- The log only grows and a panic stays. -/
def Grows (c c' : Converter) : Prop :=
  (∀ e, e ∈ c.logger → e ∈ c'.logger) ∧ (c.panicked ≠ none → c'.panicked ≠ none)

/-- The frontend records of `c` survive in `c'`: no record is dropped, the source
of a record and every field that differs from its default are kept, and a
hostname keeps the record it points to. -/
def RecEvolves (env : Env) (c c' : Converter) : Prop :=
  c.frontendRecords.length ≤ c'.frontendRecords.length
    ∧ (∀ r, r < c.frontendRecords.length →
        (c'.frontAnn r).Source = (c.frontAnn r).Source
          ∧ ∀ f, (c.frontAnn r).get f ≠ env.globalConfig.front f →
              (c'.frontAnn r).get f = (c.frontAnn r).get f)
    ∧ (∀ h r, c.frontendAnnotations.lookup h = some r →
        c'.frontendAnnotations.lookup h = some r)
    ∧ Grows c c'

/-- As `RecEvolves`, and every hostname that points to a record in `c'` either
pointed to it in `c` or points to the record `ref`. -/
def RecEvolvesAt (env : Env) (ref : Nat) (c c' : Converter) : Prop :=
  RecEvolves env c c'
    ∧ ∀ h r, c'.frontendAnnotations.lookup h = some r →
        c.frontendAnnotations.lookup h = some r ∨ r = ref


/-- The state in which `addFrontend` has merged the record `ingAnn` into the
pending record `ann` of the host, before the conflict is logged. -/
def addFrontendMerged (env : Env) (host : String) (ingAnn ann : Nat) (c : Converter) :
    Converter :=
  { c with
    haproxy := c.haproxy.AcquireFrontend host
    frontendRecords := c.frontendRecords.set ann
      (UpdateStructFront env.globalConfig (c.frontAnn ingAnn) (c.frontAnn ann)).2 }

/-- The names `addFrontend` reports as skipped when it merges the record
`ingAnn` into the record `ann`. -/
def addFrontendSkipped (env : Env) (ingAnn ann : Nat) (c : Converter) : List String :=
  (UpdateStructFront env.globalConfig (c.frontAnn ingAnn) (c.frontAnn ann)).1

/-- Every frontend of `c` with an assigned certificate file is found in `c'`
under the same hostname with the same certificate file. -/
def TLSKept (c c' : Converter) : Prop :=
  ∀ h f, c.haproxy.FindFrontend h = some f → f.TLS.TLSFilename ≠ "" →
    ∃ f', c'.haproxy.FindFrontend h = some f' ∧ f'.TLS.TLSFilename = f.TLS.TLSFilename

/-- Every path registered on a frontend of `c` is registered in `c'` on the
frontend of the same hostname, with the same entry. -/
def PathsKept (c c' : Converter) : Prop :=
  ∀ h f p x, c.haproxy.FindFrontend h = some f → f.FindPath p = some x →
    ∃ f', c'.haproxy.FindFrontend h = some f' ∧ f'.FindPath p = some x

/-- Uniqueness of the path strings of every frontend carries over from `c` to `c'`. -/
def NodupKept (c c' : Converter) : Prop :=
  PathsNodup c.haproxy.frontends → PathsNodup c'.haproxy.frontends

/-- The certificate file of the frontend of `h` is the same in both states. -/
def TLSSame (h : String) (c c' : Converter) : Prop :=
  (c'.frontend h).TLS.TLSFilename = (c.frontend h).TLS.TLSFilename

/-- No rule of the resource with an HTTP section for the host `h` meets a TLS
binding of the resource that lists `h`. -/
def NoTLSFor (h : String) (ing : Ingress) : Prop :=
  ∀ rule ∈ ing.Rules, rule.HTTP.isSome = true → rule.hostname = h →
    ∀ tls ∈ ing.TLS, h ∉ tls.Hosts

/-- A relation between converter states that is reflexive and transitive and
that every statement executed by `syncIngress` respects: a call of the logger,
`addBackend`, `addFrontend`, `addTLS`, the registration of a path that the
frontend does not have yet, the assignment of a certificate file to a frontend
that has none, and the decoding of the views of a resource. -/
structure StepInvariant (env : Env) (R : Converter → Converter → Prop) : Prop where
  stepRefl : ∀ c, R c c
  stepTrans : ∀ a b c, R a b → R b c → R a c
  stepLog : ∀ c e, R c (c.log e)
  stepBackend : ∀ fullSvcName svcPort ingAnn c,
    R c (addBackend env fullSvcName svcPort ingAnn c).2
  stepFrontend : ∀ host ingAnn c, R c (addFrontend env host ingAnn c)
  stepTLS : ∀ ns secretName c, R c (addTLS env ns secretName c).2
  stepAddPath : ∀ c host k p, ((c.frontend host).FindPath p).isSome = false →
    R c { c with haproxy := c.haproxy.modifyFrontend host (fun f => f.AddPath k p) }
  stepSetTLS : ∀ c host t, (c.frontend host).TLS.TLSFilename = "" →
    R c { c with haproxy := c.haproxy.modifyFrontend host (setTLSFilename t) }
  stepStart : ∀ ing c, R c (syncIngressStart env ing c)

/-- Whether a call is an operation of the updater. -/
def Call.isUpdater : Call → Bool
  | .UpdateGlobalConfig _ => true
  | .UpdateFrontendConfig _ _ => true
  | .UpdateBackendConfig _ _ => true
  | _ => false

/-- The calls of `c'` are those of `c` followed by calls to the cache only. -/
def CacheCallsOnly (c c' : Converter) : Prop :=
  ∃ extra, c'.calls = c.calls ++ extra ∧ ∀ x ∈ extra, x.isUpdater = false

/-- The calls `syncAnnotations` makes for the frontends: one for each frontend
that the proxy model enumerates and whose hostname has a pending record, in the
order of the enumeration. -/
def frontendUpdates (c : Converter) : List Call :=
  c.haproxy.Frontends.filterMap (fun fr =>
    (c.frontendAnnotations.lookup fr.Hostname).map
      (fun ann => Call.UpdateFrontendConfig fr.Hostname (c.frontAnn ann)))

/-- The calls `syncAnnotations` makes for the backends: one for each backend
that the proxy model enumerates and whose identifier has a pending record, in the
order of the enumeration. -/
def backendUpdates (c : Converter) : List Call :=
  c.haproxy.Backends.filterMap (fun b =>
    (c.backendAnnotations.lookup b.ID).map (fun ann => Call.UpdateBackendConfig b.ID ann))

/-- The backend view of a service as `readAnnotations` decodes it for the
backend `k`. -/
def serviceView (env : Env) (k : BackendKey) (svc : Service) : BackendAnnotations :=
  (MergeMapBack (readAnnotationsMap env svc.Annotations)
    (defaultsToBack ⟨k.Namespace, k.Name, "service"⟩ env.globalConfig)).1

/-- The messages `readAnnotations` logs: the decoding errors of the frontend view
and of the backend view. -/
def readAnnotationsLog (env : Env) (source : Source) (annotations : List (String × String)) :
    List LogEntry :=
  ((MergeMapFront (readAnnotationsMap env annotations)
      (defaultsToFront source env.globalConfig)).2.map
        (fun err => LogEntry.errorMergingFrontendAnnotations source err)).toList
    ++ ((MergeMapBack (readAnnotationsMap env annotations)
      (defaultsToBack source env.globalConfig)).2.map
        (fun err => LogEntry.errorMergingBackendAnnotations source err)).toList

/-- The level of a message: the method of the logger that the converter calls
for it. -/
def LogEntry.level : LogEntry → String
  | .errorReadingDefaultService _ => "ERROR"
  | .skippingDefaultBackend _ _ => "WARN"
  | .skippingRedeclaredPath _ _ => "WARN"
  | .skippingBackendConfig _ _ => "WARN"
  | .skippingTLSSecret _ _ _ => "WARN"
  | .skippingDefaultTLSSecret _ _ => "WARN"
  | .skippingFrontendAnnotations _ _ => "INFO"
  | .errorAddingEndpoints _ _ => "ERROR"
  | .skippingBackendAnnotations _ _ _ => "INFO"
  | .usingDefaultCertificate _ _ => "WARN"
  | .errorMergingFrontendAnnotations _ _ => "ERROR"
  | .errorMergingBackendAnnotations _ _ => "ERROR"

/-- The message `addBackend` logs after it has merged the view `ingAnn` of a
resource into the record `ann` of the backend `k`: none when no field was
skipped. -/
def mergeInfo (env : Env) (k : BackendKey) (ingAnn ann : BackendAnnotations) : List LogEntry :=
  if (UpdateStructBack env.globalConfig ingAnn ann).1.length > 0 then
    [LogEntry.skippingBackendAnnotations k ingAnn.Source
      (UpdateStructBack env.globalConfig ingAnn ann).1]
  else []

/-- The pending backend records of `c` survive in `c'`: no record is dropped,
and the source of a record and every field that differs from its default are
kept. -/
def BackRecEvolves (env : Env) (c c' : Converter) : Prop :=
  ∀ id r, c.backendAnnotations.lookup id = some r →
    ∃ r', c'.backendAnnotations.lookup id = some r' ∧ r'.Source = r.Source
      ∧ ∀ f, r.get f ≠ env.globalConfig.back f → r'.get f = r.get f

/-- The result of `addTLS`: the certificate path of the requested secret, the
path of the default secret when the requested one cannot be read, or the error. -/
def resolveTLS (env : Env) (namespace_ secretName : String) : Except String String :=
  match env.cache.GetTLSSecretPath (tlsSecretName env namespace_ secretName) with
  | .ok p => .ok p
  | .error e =>
    if tlsSecretName env namespace_ secretName = env.options.DefaultSSLSecret then .error e
    else match env.cache.GetTLSSecretPath env.options.DefaultSSLSecret with
      | .error e2 => .error (customAndDefaultError e e2)
      | .ok p => .ok p

/-- Nothing of the resource is left to add to the proxy model: its default
backend cannot be registered (the path `/` of `*` is taken or the service is not
found), the frontend of every rule with an HTTP section exists, every path entry
is registered or refers to a service that is not found, and every TLS binding for
the host of a rule either resolves to no file or meets a frontend that has a
certificate file. -/
def Settled (env : Env) (ing : Ingress) (c : Converter) : Prop :=
  (∀ b, ing.Backend = some b → defaultHostOccupied c = true
      ∨ ∃ err, env.cache.GetService (FullQualifiedName ing.Namespace b.ServiceName)
          = .error err)
  ∧ ∀ rule ∈ ing.Rules, ∀ paths, rule.HTTP = some paths →
      (c.haproxy.FindFrontend rule.hostname).isSome = true
      ∧ (∀ p ∈ paths, ((c.frontend rule.hostname).FindPath p.uri).isSome = true
          ∨ ∃ err, env.cache.GetService (p.fullSvcName ing) = .error err)
      ∧ (∀ tls ∈ ing.TLS, rule.hostname ∈ tls.Hosts → ∀ tlsPath,
          resolveTLS env ing.Namespace tls.SecretName = .ok tlsPath →
          (c.frontend rule.hostname).TLS.TLSFilename ≠ "" ∨ tlsPath = "")

/-- The messages that the processing of a resource can log without changing the
proxy model: the warnings and the informational message that report a skipped
unit, the warning of the fallback to the default certificate, and the decoding
errors of the annotations of the resource. -/
def LogEntry.repeats : LogEntry → Bool
  | .skippingDefaultBackend _ _ => true
  | .skippingRedeclaredPath _ _ => true
  | .skippingBackendConfig _ _ => true
  | .skippingTLSSecret _ _ _ => true
  | .skippingDefaultTLSSecret _ _ => true
  | .skippingFrontendAnnotations _ _ => true
  | .usingDefaultCertificate _ _ => true
  | .errorMergingFrontendAnnotations _ _ => true
  | .errorMergingBackendAnnotations _ _ => true
  | _ => false

/-- Whether a message reports a skipped unit of work. -/
def LogEntry.isSkip : LogEntry → Bool
  | .skippingDefaultBackend _ _ => true
  | .skippingRedeclaredPath _ _ => true
  | .skippingBackendConfig _ _ => true
  | .skippingTLSSecret _ _ _ => true
  | .skippingDefaultTLSSecret _ _ => true
  | .skippingFrontendAnnotations _ _ => true
  | .skippingBackendAnnotations _ _ _ => true
  | _ => false

/-- The state `c'` has the proxy model, the pending backend records and the panic
flag of `c`, and its log is the log of `c` followed by messages that leave the
proxy model alone. -/
def Replays (c c' : Converter) : Prop :=
  c'.haproxy = c.haproxy ∧ c'.backendAnnotations = c.backendAnnotations
    ∧ c'.panicked = c.panicked
    ∧ ∃ extra, c'.logger = c.logger ++ extra ∧ ∀ e ∈ extra, e.repeats = true

/-- The frontends of `c` survive in `c'`, the log only grows and a panic stays. -/
def Advances (c c' : Converter) : Prop :=
  FrontEvolves c c' ∧ Grows c c'

/-- No two frontends have the same hostname and no two backends the same
identity. -/
def UniqueIdentities (cfg : Config) : Prop :=
  (cfg.frontends.map (fun f => f.Hostname)).Nodup ∧ (cfg.backends.map Backend.key).Nodup

/-- Uniqueness of the identities carries over from `c` to `c'`. -/
def UniqueKept (c c' : Converter) : Prop :=
  UniqueIdentities c.haproxy → UniqueIdentities c'.haproxy

/-- Two states agree on everything but the log and the recorded calls: they
have the same proxy model, frontend records, pending records and panic flag. -/
def SameCore (c c' : Converter) : Prop :=
  c'.haproxy = c.haproxy ∧ c'.frontendRecords = c.frontendRecords
    ∧ c'.frontendAnnotations = c.frontendAnnotations
    ∧ c'.backendAnnotations = c.backendAnnotations ∧ c'.panicked = c.panicked

/-- The resource without its default backend. -/
def Ingress.withoutBackend (ing : Ingress) : Ingress := { ing with Backend := none }

/-- The resource with another list of rules. -/
def Ingress.withRules (ing : Ingress) (rules : List IngressRule) : Ingress :=
  { ing with Rules := rules }

/-- The path entry in which an empty path is replaced by `/`. -/
def HTTPIngressPath.normalized (p : HTTPIngressPath) : HTTPIngressPath :=
  { p with Path := if p.Path = "" then "/" else p.Path }

/-- The rule in which an empty host is replaced by `*` and every empty path by `/`. -/
def IngressRule.normalized (r : IngressRule) : IngressRule :=
  { Host := if r.Host = "" then "*" else r.Host
    HTTP := r.HTTP.map (fun paths => paths.map HTTPIngressPath.normalized) }

/-- The resource in which every empty rule host is replaced by `*` and every empty
path by `/`. -/
def Ingress.normalized (ing : Ingress) : Ingress :=
  { ing with Rules := ing.Rules.map IngressRule.normalized }

/-- The resource without its rules that have no HTTP section. -/
def Ingress.withoutEmptyRules (ing : Ingress) : Ingress :=
  { ing with Rules := ing.Rules.filter (fun r => r.HTTP.isSome) }

/-- The resource with another list of TLS bindings. -/
def Ingress.withTLS (ing : Ingress) (tls : List IngressTLS) : Ingress :=
  { ing with TLS := tls }

/-- No host of the TLS binding is the effective hostname of a rule of the resource
that has an HTTP section. -/
def IngressTLS.unmatched (tls : IngressTLS) (ing : Ingress) : Prop :=
  ∀ rule ∈ ing.Rules, rule.HTTP.isSome = true → rule.hostname ∉ tls.Hosts

/-- The string has no `/`. -/
@[reducible] def slashFree (s : String) : Prop := '/' ∉ s.data

/-- The names of the services a resource refers to: the one of its default backend
and those of its path entries. -/
def Ingress.serviceNames (ing : Ingress) : List String :=
  (ing.Backend.map (fun b => b.ServiceName)).toList
    ++ ing.Rules.flatMap (fun r => (r.HTTP.getD []).map (fun p => p.Backend.ServiceName))

/-- Every backend of `c'` has the identity of a backend of `c`, or it lies in the
namespace `ns` and carries one of the names `names`. -/
def BackendsWithin (ns : String) (names : List String) (c c' : Converter) : Prop :=
  ∀ k ∈ c'.haproxy.backends.map Backend.key,
    k ∈ c.haproxy.backends.map Backend.key ∨ (k.Namespace = ns ∧ k.Name ∈ names)

/-! ## The cache of the controller (`pkg/controller/cache.go`) -/

/-- Modelled from the spec: the fields of an `ingress.SSLCert` that the cache
reads; the declaration is not in the sources at hand. -/
structure SSLCert where
  PemFileName : String
  CAFileName : String
deriving DecidableEq, Repr

/-- Modelled from the spec: the `controller.GenericController` as the cache
consumes it: the lookup of the certificate of a secret, which may fail. -/
structure GenericController where
  GetCertificate : String → Except String SSLCert

/-- The struct `cache` of the controller: its field `controller`. -/
structure ControllerCache where
  controller : GenericController

/-- The method `GetTLSSecretPath` of the cache of the controller: the returned
path and the returned error, if any. -/
def ControllerCache.GetTLSSecretPath (c : ControllerCache) (secretName : String) :
    String × Option String :=
  match c.controller.GetCertificate secretName with
  | .error err => ("", some err)
  | .ok sslCert =>
    if sslCert.PemFileName = "" then
      ("", some ("secret '" ++ secretName ++ "' does not have tls/key pair"))
    else (sslCert.PemFileName, none)

/-- The method `GetCASecretPath` of the cache of the controller: the returned
path and the returned error, if any. -/
def ControllerCache.GetCASecretPath (c : ControllerCache) (secretName : String) :
    String × Option String :=
  match c.controller.GetCertificate secretName with
  | .error err => ("", some err)
  | .ok sslCert =>
    if sslCert.CAFileName = "" then
      ("", some ("secret '" ++ secretName ++ "' does not have ca.crt key"))
    else (sslCert.CAFileName, none)


/-- The state `c` as a converter reaches it that had already logged the messages
`l` and made the calls `k` before. -/
def Converter.after (l : List LogEntry) (k : List Call) (c : Converter) : Converter :=
  { c with logger := l ++ c.logger, calls := k ++ c.calls }

/-- The frontend record that the pointer `ref` refers to is the same in both states. -/
def RecordFixed (ref : Nat) (c c' : Converter) : Prop :=
  c'.frontAnn ref = c.frontAnn ref

/-! ## The updater (`annotations/frontend.go`) -/

/-- A call of the logger by the updater: one constructor for each logging
statement of `buildFrontendSSLPassthrough`, with the arguments of its format
string. -/
inductive UpdaterLog where
  | skippingSSL (source : Source)
  | ignoringPath (path : String) (source : Source)
deriving DecidableEq, Repr

/-- The line a message of the updater produces. -/
def UpdaterLog.render : UpdaterLog → String
  | .skippingSSL source =>
    "WARN skipping SSL of " ++ source.String ++ ": root path was not configured"
  | .ignoringPath path source =>
    "WARN ignoring path '" ++ path ++ "' from '" ++ source.String
      ++ "': ssl-passthrough only support root path"

/-- Modelled from the spec: the part of the cache that the updater reads, the
lookup of the CA file of a secret: the returned path and the returned error, if
any. -/
structure UpdaterCache where
  GetCASecretPath : String → String × Option String

/-- The state an `updater` writes to: the proxy model and the logger. -/
structure Updater where
  haproxy : Config
  logger : List UpdaterLog
deriving DecidableEq, Repr

/-- The struct `frontData`: the frontend, a pointer that is represented by the
hostname, and its pending record. -/
structure frontData where
  frontend : String
  ann : FrontendAnnotations
deriving DecidableEq, Repr

/-- The frontend a pointer refers to. -/
def Updater.frontend (u : Updater) (hostname : String) : Frontend :=
  (u.haproxy.FindFrontend hostname).getD (createFrontend hostname)

/-- A call of the logger. -/
def Updater.log (u : Updater) (e : UpdaterLog) : Updater :=
  { u with logger := u.logger ++ [e] }

/-- The method `buildFrontendAuthTLS`. -/
def buildFrontendAuthTLS (cache : UpdaterCache) (d : frontData) (u : Updater) : Updater :=
  if d.ann.AuthTLSSecret = "" then u
  else
    match cache.GetCASecretPath d.ann.AuthTLSSecret with
    | (cafile, none) =>
      { u with
        haproxy := u.haproxy.modifyFrontend d.frontend (fun f =>
          { f with
            TLS := { f.TLS with
              CAFilename := cafile
              ErrorPage := d.ann.AuthTLSErrorPage
              AddCertHeader := d.ann.AuthTLSCertHeader } }) }
    | (_, some _) => u

/-- The loop of `buildFrontendSSLPassthrough` over the paths of the frontend. -/
def warnNonRootPaths (source : Source) (paths : List FrontendPath) (u : Updater) : Updater :=
  paths.foldl (fun s path => if path.Path ≠ "/" then s.log (.ignoringPath path.Path source)
    else s) u

/-- The method `buildFrontendSSLPassthrough`. -/
def buildFrontendSSLPassthrough (d : frontData) (u : Updater) : Updater :=
  if ¬ d.ann.SSLPassthrough then u
  else
    match (u.frontend d.frontend).FindPath "/" with
    | none => u.log (.skippingSSL d.ann.Source)
    | some rootPath =>
      let u1 := warnNonRootPaths d.ann.Source (u.frontend d.frontend).Paths u
      let u2 :=
        if d.ann.SSLPassthroughHTTPPort ≠ 0 then
          { u1 with
            haproxy := u1.haproxy.modifyFrontend d.frontend (fun f =>
              { f with
                HTTPPassthroughBackend :=
                  (u1.haproxy.FindBackend
                    ⟨rootPath.Backend.Namespace, rootPath.Backend.Name,
                      d.ann.SSLPassthroughHTTPPort⟩).map Backend.key }) }
        else u1
      let u3 := { u2 with
        haproxy := u2.haproxy.modifyBackend rootPath.Backend (fun b => { b with ModeTCP := true }) }
      { u3 with
        haproxy := u3.haproxy.modifyFrontend d.frontend (fun f => { f with SSLPassthrough := true }) }

/-- The warnings of `buildFrontendSSLPassthrough` for the paths of a frontend
other than the root path, in the order of the paths. -/
def nonRootWarnings (source : Source) (paths : List FrontendPath) : List UpdaterLog :=
  (paths.filter (fun p => decide (p.Path ≠ "/"))).map (fun p => .ignoringPath p.Path source)

/-- The cache of the controller as the updater consumes it. -/
def ControllerCache.toUpdaterCache (c : ControllerCache) : UpdaterCache :=
  ⟨c.GetCASecretPath⟩

/-- The state in which the second phase reaches the updater: the proxy model that
the first phase leaves, and no message of the updater yet. -/
def Converter.toUpdater (c : Converter) : Updater := ⟨c.haproxy, []⟩

/-- The root path of the frontend of `h`, when the proxy model has it, has the
backend of its service at the port `p` in the proxy model. -/
def RootReady (p : Int) (h : String) (cfg : Config) : Prop :=
  ∀ f root, cfg.FindFrontend h = some f → f.FindPath "/" = some root →
    (cfg.FindBackend ⟨root.Backend.Namespace, root.Backend.Name, p⟩).isSome = true

/-- A step of the first phase for a resource whose frontend record is `v` and is
referred to by `ref`: the record stays as it is, and a proxy model in which the
root path of `h` has the backend of its service at the port `p` stays so. -/
def ReadyStep (p : Int) (h : String) (ref : Nat) (v : FrontendAnnotations)
    (c c' : Converter) : Prop :=
  c'.frontAnn ref = c.frontAnn ref
    ∧ (c.frontAnn ref = v → RootReady p h c.haproxy → RootReady p h c'.haproxy)

/-- Every backend of `c` is a backend of `c'`. -/
def KeysGrow (c c' : Converter) : Prop :=
  ∀ k, k ∈ c.haproxy.backends.map Backend.key → k ∈ c'.haproxy.backends.map Backend.key


/-! ## Scenarios -/

/-- A service with one port entry, which declares `port` and targets `port`. -/
def mkService (ns name : String) (port : Int) : Service := ⟨ns, name, [], [⟨port, port⟩]⟩

/-- Endpoint data with one subset that lists `port` over TCP. -/
def mkEndpoints (ns name : String) (port : Int) (ips : List String) : Endpoints :=
  ⟨[⟨ips.map (fun ip => ⟨ip, some ⟨ns, name ++ "-xxxxx"⟩⟩), [⟨port, "TCP"⟩]⟩]⟩

/-- A lookup that fails with a not-found error. -/
def lookupOrError {β : Type} (what : String) (m : List (String × β)) (k : String) :
    Except String β :=
  match m.lookup k with
  | some v => .ok v
  | none => .error (what ++ " not found: '" ++ k ++ "'")

/-- A cache backed by lists of services, endpoints and certificate paths. -/
def listCache (svcs : List (String × Service)) (eps : List (String × Endpoints))
    (tls : List (String × String)) : Cache :=
  { GetService := lookupOrError "service" svcs
    GetEndpoints := fun s =>
      match eps.lookup (s.Namespace ++ "/" ++ s.Name) with
      | some v => .ok v
      | none => .error ("could not find endpoints for service '" ++ s.Namespace ++ "/"
          ++ s.Name ++ "'")
    GetTLSSecretPath := lookupOrError "secret" tls }

/-- Defaults in which every field has its zero value. -/
def zeroDefaults : ConfigDefaults := ⟨"", false, "", "", false, 0, "", "", 0⟩

/-- The options of the scenarios. -/
def demoOptions : ConverterOptions :=
  ⟨"system/default", "system/ingress-default", "ingress.kubernetes.io"⟩

/-- An environment with two services, `default/echo1` (one address) and
`default/echo2` (two addresses), the default certificate and one custom certificate. -/
def demoEnv : Env :=
  { options := demoOptions
    cache := listCache
      [("default/echo1", mkService "default" "echo1" 8080),
       ("default/echo2", mkService "default" "echo2" 8080)]
      [("default/echo1", mkEndpoints "default" "echo1" 8080 ["172.17.0.11"]),
       ("default/echo2", mkEndpoints "default" "echo2" 8080 ["172.17.0.12", "172.17.0.13"])]
      [("system/ingress-default", "/tls/tls-default.pem"),
       ("default/tls-echo1", "/tls/default/tls-echo1.pem")]
    globalConfig := zeroDefaults }

/-- An environment without any certificate. -/
def noTLSEnv : Env :=
  { options := demoOptions
    cache := listCache [("default/echo1", mkService "default" "echo1" 8080)]
      [("default/echo1", mkEndpoints "default" "echo1" 8080 ["172.17.0.11"])] []
    globalConfig := zeroDefaults }

/-- A resource with one rule of one path. -/
def mkIngress (ns name host path svc : String) (port : Int) (ann : List (String × String))
    (tls : List IngressTLS) : Ingress :=
  { Namespace := ns, Name := name, Annotations := ann, Backend := none,
    Rules := [⟨host, some [⟨path, ⟨svc, port⟩⟩]⟩], TLS := tls }

/-- A resource that only declares a default backend. -/
def mkDefaultIngress (ns name svc : String) (port : Int) : Ingress :=
  { Namespace := ns, Name := name, Annotations := [], Backend := some ⟨svc, port⟩,
    Rules := [], TLS := [] }

/-- A converter on an empty proxy model. -/
def freshConverter : Converter := emptyConverter ⟨[], [], none⟩


/-- Endpoint data of a service whose single address is listed under two port
entries with the same number (two named service ports with one target port). -/
def twoNamesEndpoints : Endpoints :=
  ⟨[⟨[⟨"10.0.0.1", some ⟨"default", "echo-1"⟩⟩], [⟨8080, "TCP"⟩, ⟨8080, "TCP"⟩]⟩]⟩

/-- An environment whose cache returns `twoNamesEndpoints` for `default/echo`. -/
def twoNamesEnv : Env :=
  { options := demoOptions
    cache := listCache [("default/echo", mkService "default" "echo" 8080)]
      [("default/echo", twoNamesEndpoints)] []
    globalConfig := zeroDefaults }

/-- A converter whose proxy model holds the backend `default/echo:8080` without
endpoints. -/
def echoBackendConverter : Converter :=
  emptyConverter ⟨[], [createBackend ⟨"default", "echo", 8080⟩], none⟩

/-- An environment in which the only address of `default/echo` has no target
reference. -/
def noTargetRefEnv : Env :=
  { options := demoOptions
    cache := listCache [("default/echo", mkService "default" "echo" 8080)]
      [("default/echo", ⟨[⟨[⟨"10.0.0.1", none⟩], [⟨8080, "TCP"⟩]⟩]⟩)] []
    globalConfig := zeroDefaults }

/-- An environment in which the service `default/echo` declares no port. -/
def noPortsEnv : Env :=
  { options := demoOptions
    cache := listCache [("default/echo", ⟨"default", "echo", [], []⟩)] [] []
    globalConfig := zeroDefaults }

/-- A resource with rules for two hosts and no annotation. -/
def twoHostsIngress : Ingress :=
  { Namespace := "default", Name := "a", Annotations := [], Backend := none,
    Rules := [⟨"h1.example.com", some [⟨"/", ⟨"echo1", 8080⟩⟩]⟩,
              ⟨"h2.example.com", some [⟨"/", ⟨"echo1", 8080⟩⟩]⟩],
    TLS := [] }

/-- A resource with one rule, for the first of the two hosts, that sets the
client timeout. -/
def firstHostIngress : Ingress :=
  mkIngress "default" "b" "h1.example.com" "/app" "echo1" 8080
    [("ingress.kubernetes.io/timeout-client", "2s")] []

/-- The resource of the first declaration of `/p1` on `echo.example.com`. -/
def echo1Ingress : Ingress :=
  mkIngress "default" "echo1" "echo.example.com" "/p1" "echo1" 8080 [] []

/-- A second resource that declares `/p1` on `echo.example.com`, for another service. -/
def echo2Ingress : Ingress :=
  mkIngress "default" "echo2" "echo.example.com" "/p1" "echo2" 8080 [] []

/-- A resource whose path refers to a service that does not exist. -/
def notFoundIngress : Ingress :=
  mkIngress "default" "echo" "echo.example.com" "/" "notfound" 8080 [] []

/-- The state after the first phase has processed `echo1Ingress`. -/
def echo1Converter : Converter := syncAll demoEnv [echo1Ingress] freshConverter

/-- A resource that binds the default certificate to `echo.example.com`. -/
def defaultTLSIngress : Ingress :=
  mkIngress "default" "echo1" "echo.example.com" "/" "echo1" 8080 [] [⟨["echo.example.com"], ""⟩]

/-- A resource that binds the custom certificate to `echo.example.com`. -/
def customTLSIngress : Ingress :=
  mkIngress "default" "echo2" "echo.example.com" "/app" "echo1" 8080 []
    [⟨["echo.example.com"], "tls-echo1"⟩]

/-- The state after the first phase has processed `defaultTLSIngress`. -/
def defaultTLSConverter : Converter := syncAll demoEnv [defaultTLSIngress] freshConverter

/-- A resource that declares `default/echo1` as default backend. -/
def firstDefaultIngress : Ingress := mkDefaultIngress "default" "echo1" "echo1" 8080

/-- A resource that declares `default/echo2` as default backend. -/
def secondDefaultIngress : Ingress := mkDefaultIngress "default" "echo2" "echo2" 8080

/-- The state after the first phase has processed `firstDefaultIngress`. -/
def firstDefaultConverter : Converter := syncAll demoEnv [firstDefaultIngress] freshConverter


/-- A resource for `echo.example.com` that sets the client timeout to `1s`. -/
def timeout1Ingress : Ingress :=
  mkIngress "default" "echo1" "echo.example.com" "/" "echo1" 8080
    [("ingress.kubernetes.io/timeout-client", "1s")] []

/-- A resource for `echo.example.com` that sets the client timeout to `2s`. -/
def timeout2Ingress : Ingress :=
  mkIngress "default" "echo2" "echo.example.com" "/app" "echo1" 8080
    [("ingress.kubernetes.io/timeout-client", "2s")] []

/-- A resource whose only rule names `echo.example.com` but has no HTTP section,
with the client timeout set to `1s`. -/
def noHTTPIngress : Ingress :=
  { Namespace := "default", Name := "echo1",
    Annotations := [("ingress.kubernetes.io/timeout-client", "1s")], Backend := none,
    Rules := [⟨"echo.example.com", none⟩], TLS := [] }

/-- A resource with two rules for `echo.example.com` that sets the client timeout
to `2s`. -/
def twoRulesIngress : Ingress :=
  { Namespace := "default", Name := "echo2",
    Annotations := [("ingress.kubernetes.io/timeout-client", "2s")], Backend := none,
    Rules := [⟨"echo.example.com", some [⟨"/a", ⟨"echo1", 8080⟩⟩]⟩,
              ⟨"echo.example.com", some [⟨"/b", ⟨"echo1", 8080⟩⟩]⟩],
    TLS := [] }

/-- A resource for `echo.example.com` whose TLS binding names a secret that does
not exist. -/
def missingTLSIngress : Ingress :=
  mkIngress "default" "echo2" "echo.example.com" "/app" "echo1" 8080 []
    [⟨["echo.example.com"], "ing-tls"⟩]

/-- An environment whose service `default/echo` carries the annotation that sets
the balance algorithm to `leastconn`. -/
def annotatedSvcEnv : Env :=
  { options := demoOptions
    cache := listCache
      [("default/echo",
        ⟨"default", "echo", [("ingress.kubernetes.io/balance-algorithm", "leastconn")],
          [⟨8080, 8080⟩]⟩)]
      [("default/echo", mkEndpoints "default" "echo" 8080 ["172.17.0.11"])]
      [("system/ingress-default", "/tls/tls-default.pem")]
    globalConfig := zeroDefaults }

/-- A resource for the annotated service that sets the balance algorithm to
`first` and the limit of connections to 10. -/
def conflictingBackIngress : Ingress :=
  mkIngress "default" "echo" "echo.example.com" "/" "echo" 8080
    [("ingress.kubernetes.io/balance-algorithm", "first"),
     ("ingress.kubernetes.io/maxconn-server", "10")] []

/-- An environment in which the service `default/echo` exists but the cache has
no endpoint data for it. -/
def noEndpointsEnv : Env :=
  { options := demoOptions
    cache := listCache [("default/echo", mkService "default" "echo" 8080)] [] []
    globalConfig := zeroDefaults }

/-- A resource for `echo2.example.com` whose TLS binding names a secret that does
not exist. -/
def fallbackIngress : Ingress :=
  mkIngress "default" "echo" "echo2.example.com" "/" "echo1" 8080 []
    [⟨["echo2.example.com"], "ing-tls"⟩]

/-- An environment in which the service `default/echo` has endpoint data whose
only subset lists the target port without any address. -/
def noAddressEnv : Env :=
  { options := demoOptions
    cache := listCache [("default/echo", mkService "default" "echo" 8080)]
      [("default/echo", mkEndpoints "default" "echo" 8080 [])] []
    globalConfig := zeroDefaults }

/-- An environment in which the addresses of `default/echo` are listed under
another port and under the target port over UDP. -/
def otherPortEnv : Env :=
  { options := demoOptions
    cache := listCache [("default/echo", mkService "default" "echo" 8080)]
      [("default/echo",
        ⟨[⟨[⟨"10.0.0.1", some ⟨"default", "echo-1"⟩⟩], [⟨9090, "TCP"⟩]⟩,
          ⟨[⟨"10.0.0.2", none⟩], [⟨8080, "UDP"⟩]⟩]⟩)] []
    globalConfig := zeroDefaults }

/-- The resource of the scenarios for the service `default/echo`. -/
def echoIngress : Ingress :=
  mkIngress "default" "echo" "echo.example.com" "/" "echo" 8080 [] []

/-- A resource with an empty rule host and an empty path. -/
def emptyHostPathIngress : Ingress :=
  mkIngress "default" "echo" "" "" "echo1" 8080 [] []

/-- An environment with the service `echo` in the namespaces `ns1` and `ns2`. -/
def twoNamespacesEnv : Env :=
  { options := demoOptions
    cache := listCache
      [("ns1/echo", mkService "ns1" "echo" 8080), ("ns2/echo", mkService "ns2" "echo" 8080)]
      [("ns1/echo", mkEndpoints "ns1" "echo" 8080 ["172.17.0.11"]),
       ("ns2/echo", mkEndpoints "ns2" "echo" 8080 ["172.17.0.12"])] []
    globalConfig := zeroDefaults }

/-- The resource of `ns1` that declares `/app1` for the service `echo`. -/
def ns1Ingress : Ingress :=
  mkIngress "ns1" "echo" "echo.example.com" "/app1" "echo" 8080 [] []

/-- The resource of `ns2` that declares `/app2` for the service `echo`. -/
def ns2Ingress : Ingress :=
  mkIngress "ns2" "echo" "echo.example.com" "/app2" "echo" 8080 [] []

/-- An environment with the default service `system/default` and the service
`default/echo1`. -/
def defaultSvcEnv : Env :=
  { options := demoOptions
    cache := listCache
      [("system/default", mkService "system" "default" 8080),
       ("default/echo1", mkService "default" "echo1" 8080)]
      [("system/default", mkEndpoints "system" "default" 8080 ["172.17.0.99"]),
       ("default/echo1", mkEndpoints "default" "echo1" 8080 ["172.17.0.11"])] []
    globalConfig := zeroDefaults }

/-- A resource that enables ssl-passthrough with the HTTP port 8000. -/
def passthroughIngress : Ingress :=
  mkIngress "default" "echo" "echo.example.com" "/" "echo1" 8080
    [("ingress.kubernetes.io/ssl-passthrough", "true"),
     ("ingress.kubernetes.io/ssl-passthrough-http-port", "8000")] []

/-- A resource with a rule for `echo.example.com` and a TLS binding for another
host. -/
def strayTLSIngress : Ingress :=
  mkIngress "default" "echo" "echo.example.com" "/" "echo1" 8080 []
    [⟨["other.example.com"], "tls-echo1"⟩]

/-- A controller with one secret that has a certificate with key and a CA file,
and one secret that has neither. -/
def demoController : ControllerCache :=
  ⟨⟨fun name =>
    if name = "default/tls" then .ok ⟨"/tls/default/tls.pem", "/tls/default/ca.pem"⟩
    else if name = "default/empty" then .ok ⟨"", ""⟩
    else .error ("secret not found: '" ++ name ++ "'")⟩⟩

/-- A resource that declares `default/echo1` as default backend and enables
ssl-passthrough with the HTTP port 8000. -/
def passthroughDefaultIngress : Ingress :=
  { Namespace := "default", Name := "echo",
    Annotations := [("ingress.kubernetes.io/ssl-passthrough", "true"),
      ("ingress.kubernetes.io/ssl-passthrough-http-port", "8000")],
    Backend := some ⟨"echo1", 8080⟩, Rules := [], TLS := [] }

/-- A resource that declares `/` on `echo.example.com` for `default/echo1`
without annotations. -/
def rootIngress : Ingress :=
  mkIngress "default" "echo1" "echo.example.com" "/" "echo1" 8080 [] []

/-- A resource that declares `/app` on `echo.example.com` for `default/echo2`
and enables ssl-passthrough with the HTTP port 8000. -/
def passthroughAppIngress : Ingress :=
  mkIngress "default" "echo2" "echo.example.com" "/app" "echo2" 8080
    [("ingress.kubernetes.io/ssl-passthrough", "true"),
     ("ingress.kubernetes.io/ssl-passthrough-http-port", "8000")] []

/-- An updater state with the frontend `echo.example.com`, which has the paths
`/app` and `/`, and the backends of the two paths. -/
def twoPathsUpdater : Updater :=
  ⟨⟨[{ createFrontend "echo.example.com" with
        Paths := [⟨"/app", ⟨"default", "echo2", 8080⟩⟩, ⟨"/", ⟨"default", "echo1", 8080⟩⟩],
        TLS := ⟨"/tls/tls-default.pem", "", "", false⟩ }],
      [createBackend ⟨"default", "echo1", 8080⟩, createBackend ⟨"default", "echo2", 8080⟩],
      none⟩, []⟩

/-- A pending record of `echo.example.com` that enables ssl-passthrough and
names the secret `default/tls` for the client certificates. -/
def passthroughRecord : FrontendAnnotations :=
  { zeroFrontendAnnotations with
    Source := ⟨"default", "echo", "ingress"⟩, SSLPassthrough := true,
    AuthTLSSecret := "default/tls", AuthTLSErrorPage := "/error.html",
    AuthTLSCertHeader := true }

/-- An environment whose default service `system/default` declares the port 80
and targets the port 8080 of its pods. -/
def mappedPortEnv : Env :=
  { options := demoOptions
    cache := listCache
      [("system/default", ⟨"system", "default", [], [⟨80, 8080⟩]⟩)]
      [("system/default", mkEndpoints "system" "default" 8080 ["172.17.0.99"])] []
    globalConfig := zeroDefaults }

/-- An environment whose default service `system/default` has no port entry. -/
def noPortEnv : Env :=
  { options := demoOptions
    cache := listCache [("system/default", ⟨"system", "default", [], []⟩)] [] []
    globalConfig := zeroDefaults }

/-- An environment in which the service `default/echo` carries an annotation
that cannot be decoded and the cache has no endpoint data for it. -/
def undecodableSvcEnv : Env :=
  { options := demoOptions
    cache := listCache
      [("default/echo",
        ⟨"default", "echo", [("ingress.kubernetes.io/maxconn-server", "many")],
          [⟨8080, 8080⟩]⟩)] [] []
    globalConfig := zeroDefaults }


/-! ## Loops -/

theorem forEach_nil {α : Type} (body : α → Converter → Converter) (c : Converter) :
    forEach body [] c = c := rfl

theorem forEach_cons {α : Type} (body : α → Converter → Converter) (x : α) (xs : List α)
    (c : Converter) (h : c.panicked = none) :
    forEach body (x :: xs) c = forEach body xs (body x c) := by
  simp [forEach, h]

theorem forEach_panicked {α : Type} (body : α → Converter → Converter) (xs : List α)
    (c : Converter) (h : c.panicked ≠ none) : forEach body xs c = c := by
  cases xs with
  | nil => rfl
  | cons x xs =>
    have : c.panicked.isSome = true := by
      cases hp : c.panicked with
      | none => exact absurd hp h
      | some p => rfl
    simp [forEach, this]

/-! ## Lists -/

theorem modifyFirst_id {α : Type} (p : α → Bool) (g : α → α) (l : List α)
    (h : ∀ x, g x = x) : modifyFirst p g l = l := by
  induction l with
  | nil => rfl
  | cons x xs ih => simp [modifyFirst, h, ih]

theorem modifyFirst_modifyFirst {α : Type} (p : α → Bool) (g1 g2 : α → α) (l : List α)
    (h : ∀ x, p (g1 x) = p x) :
    modifyFirst p g2 (modifyFirst p g1 l) = modifyFirst p (fun x => g2 (g1 x)) l := by
  induction l with
  | nil => rfl
  | cons x xs ih =>
    by_cases hx : p x = true
    · simp [modifyFirst, hx, h]
    · simp [modifyFirst, hx, ih]

theorem find?_modifyFirst {α : Type} (p : α → Bool) (g : α → α) (l : List α)
    (h : ∀ x, p (g x) = p x) :
    (modifyFirst p g l).find? p = (l.find? p).map g := by
  induction l with
  | nil => rfl
  | cons x xs ih =>
    by_cases hx : p x = true
    · simp [modifyFirst, hx, h, List.find?]
    · simp [modifyFirst, hx, ih, List.find?]

theorem find?_modifyFirst_other {α : Type} (p q : α → Bool) (g : α → α) (l : List α)
    (h : ∀ x, p x = true → q x = false ∧ q (g x) = false) :
    (modifyFirst p g l).find? q = l.find? q := by
  induction l with
  | nil => rfl
  | cons x xs ih =>
    by_cases hx : p x = true
    · simp [modifyFirst, hx, List.find?, (h x hx).1, (h x hx).2]
    · simp [modifyFirst, hx, List.find?, ih]

theorem mem_modifyFirst {α : Type} (p : α → Bool) (g : α → α) (l : List α) (y : α) :
    y ∈ modifyFirst p g l → y ∈ l ∨ ∃ x, l.find? p = some x ∧ y = g x := by
  induction l with
  | nil => simp [modifyFirst]
  | cons x xs ih =>
    intro h
    by_cases hx : p x = true
    · simp only [modifyFirst, hx, if_true, List.mem_cons] at h
      rcases h with h | h
      · exact Or.inr ⟨x, by simp [List.find?, hx], h⟩
      · exact Or.inl (List.mem_cons_of_mem _ h)
    · simp only [modifyFirst, hx, List.mem_cons, Bool.false_eq_true, if_false] at h
      rcases h with h | h
      · exact Or.inl (by simp [h])
      · rcases ih h with h1 | ⟨z, hz, hy⟩
        · exact Or.inl (List.mem_cons_of_mem _ h1)
        · exact Or.inr ⟨z, by simp [List.find?, hx, hz], hy⟩

theorem insertSorted_perm {α : Type} (lt : α → α → Bool) (x : α) (l : List α) :
    (insertSorted lt x l).Perm (x :: l) := by
  induction l with
  | nil => simp [insertSorted]
  | cons y ys ih =>
    by_cases h : lt x y = true
    · simp [insertSorted, h]
    · simp only [insertSorted, h]
      exact (List.Perm.cons y ih).trans (List.Perm.swap x y ys)

theorem find?_insertSorted_of_not {α : Type} (lt : α → α → Bool) (q : α → Bool) (x : α)
    (l : List α) (h : q x = false) : (insertSorted lt x l).find? q = l.find? q := by
  induction l with
  | nil => simp [insertSorted, List.find?, h]
  | cons y ys ih =>
    by_cases hl : lt x y = true
    · simp [insertSorted, hl, List.find?, h]
    · by_cases hy : q y = true
      · simp [insertSorted, hl, List.find?, hy]
      · simp [insertSorted, hl, List.find?, hy, ih]

theorem find?_insertSorted_of_none {α : Type} (lt : α → α → Bool) (q : α → Bool) (x : α)
    (l : List α) (h : q x = true) (hl : l.find? q = none) :
    (insertSorted lt x l).find? q = some x := by
  induction l with
  | nil => simp [insertSorted, List.find?, h]
  | cons y ys ih =>
    have hy : q y = false := by
      by_cases hy : q y = true
      · simp [List.find?, hy] at hl
      · simpa using hy
    have hys : ys.find? q = none := by simpa [List.find?, hy] using hl
    by_cases hlt : lt x y = true
    · simp [insertSorted, hlt, List.find?, h]
    · simp [insertSorted, hlt, List.find?, hy, ih hys]

/-! ## Frontends -/

theorem FrontStable.stableRefl (fs : List Frontend) : FrontStable fs fs :=
  fun _ f hf => ⟨f, hf, fun _ => rfl, fun _ _ hx => hx⟩

theorem FrontStable.stableThen {a b c : List Frontend} (h1 : FrontStable a b) (h2 : FrontStable b c) :
    FrontStable a c := by
  intro h f hf
  obtain ⟨f1, hf1, ht1, hp1⟩ := h1 h f hf
  obtain ⟨f2, hf2, ht2, hp2⟩ := h2 h f1 hf1
  refine ⟨f2, hf2, ?_, fun p x hx => hp2 p x (hp1 p x hx)⟩
  intro hne
  have e1 := ht1 hne
  rw [ht2 (by rw [e1]; exact hne), e1]

theorem FrontEvolves.frontRefl (c : Converter) : FrontEvolves c c :=
  ⟨FrontStable.stableRefl _, fun h => h⟩

theorem FrontEvolves.frontThen {a b c : Converter} (h1 : FrontEvolves a b) (h2 : FrontEvolves b c) :
    FrontEvolves a c :=
  ⟨h1.1.stableThen h2.1, fun h => h2.2 (h1.2 h)⟩

theorem FrontEvolves.of_eq {c c' : Converter} (h : c'.haproxy.frontends = c.haproxy.frontends) :
    FrontEvolves c c' := by
  unfold FrontEvolves
  rw [h]
  exact ⟨FrontStable.stableRefl _, fun h => h⟩

theorem frontStable_acquire (fs : List Frontend) (h : String) :
    FrontStable fs (fs ++ [createFrontend h]) := by
  intro h' f hf
  exact ⟨f, by simp [List.find?_append, hf], fun _ => rfl, fun _ _ hx => hx⟩

theorem pathsNodup_acquire (fs : List Frontend) (h : String) (hn : PathsNodup fs) :
    PathsNodup (fs ++ [createFrontend h]) := by
  intro f hf
  rcases List.mem_append.mp hf with hf | hf
  · exact hn f hf
  · simp only [List.mem_singleton] at hf
    subst hf
    simp [createFrontend]

theorem frontStable_addPath (fs : List Frontend) (h : String) (k : BackendKey) (p : String)
    (hg : ∀ f, fs.find? (fun x => x.Hostname = h) = some f → f.FindPath p = none) :
    FrontStable fs (modifyFirst (fun x => x.Hostname = h) (fun f => f.AddPath k p) fs) := by
  intro h' f hf
  by_cases hh : h' = h
  · subst hh
    rw [find?_modifyFirst _ _ _ (by intro x; simp [Frontend.AddPath]), hf]
    refine ⟨f.AddPath k p, rfl, fun _ => rfl, ?_⟩
    intro p' x hx
    have hpp : p ≠ p' := by
      intro e
      subst e
      rw [hg f hf] at hx
      exact absurd hx (by simp)
    unfold Frontend.FindPath Frontend.AddPath
    simp only
    rw [find?_insertSorted_of_not _ _ _ _ (by simpa using hpp)]
    exact hx
  · rw [find?_modifyFirst_other]
    · exact ⟨f, hf, fun _ => rfl, fun _ _ hx => hx⟩
    · intro x hx
      have hx' : x.Hostname = h := by simpa using hx
      simp [Frontend.AddPath, hx', Ne.symm hh]

theorem pathsNodup_addPath (fs : List Frontend) (h : String) (k : BackendKey) (p : String)
    (hg : ∀ f, fs.find? (fun x => x.Hostname = h) = some f → f.FindPath p = none)
    (hn : PathsNodup fs) :
    PathsNodup (modifyFirst (fun x => x.Hostname = h) (fun f => f.AddPath k p) fs) := by
  intro f' hf'
  rcases mem_modifyFirst _ _ _ _ hf' with hf | ⟨f, hf, rfl⟩
  · exact hn f' hf
  · have hmem : f ∈ fs := List.mem_of_find?_eq_some hf
    have hnone := hg f hf
    unfold Frontend.AddPath
    simp only
    have hperm := (insertSorted_perm (fun a b : FrontendPath => strLt b.Path a.Path) ⟨p, k⟩
      f.Paths).map (fun q => q.Path)
    rw [hperm.nodup_iff]
    simp only [List.map_cons, List.nodup_cons]
    refine ⟨?_, hn f hmem⟩
    intro hin
    obtain ⟨q, hq, hqp⟩ := List.mem_map.mp hin
    unfold Frontend.FindPath at hnone
    rw [List.find?_eq_none] at hnone
    exact hnone q hq (by simpa using hqp)

theorem frontStable_setTLS (fs : List Frontend) (h t : String)
    (hg : ∀ f, fs.find? (fun x => x.Hostname = h) = some f → f.TLS.TLSFilename = "") :
    FrontStable fs (modifyFirst (fun x => x.Hostname = h) (setTLSFilename t) fs) := by
  intro h' f hf
  by_cases hh : h' = h
  · subst hh
    rw [find?_modifyFirst _ _ _ (by intro x; simp [setTLSFilename]), hf]
    exact ⟨setTLSFilename t f, rfl, fun hne => absurd (hg f hf) hne, fun _ _ hx => hx⟩
  · rw [find?_modifyFirst_other]
    · exact ⟨f, hf, fun _ => rfl, fun _ _ hx => hx⟩
    · intro x hx
      have hx' : x.Hostname = h := by simpa using hx
      simp [setTLSFilename, hx', Ne.symm hh]

theorem pathsNodup_setTLS (fs : List Frontend) (h t : String) (hn : PathsNodup fs) :
    PathsNodup (modifyFirst (fun x => x.Hostname = h) (setTLSFilename t) fs) := by
  intro f' hf'
  rcases mem_modifyFirst _ _ _ _ hf' with hf | ⟨f, hf, rfl⟩
  · exact hn f' hf
  · exact hn f (List.mem_of_find?_eq_some hf)


/-! ## Endpoint attachment -/

theorem appendEndpoints_nil (k : BackendKey) (c : Converter) : appendEndpoints k [] c = c := by
  unfold appendEndpoints Config.modifyBackend
  rw [modifyFirst_id]
  intro b
  simp

theorem appendEndpoints_append (k : BackendKey) (es1 es2 : List Endpoint) (c : Converter) :
    appendEndpoints k es2 (appendEndpoints k es1 c) = appendEndpoints k (es1 ++ es2) c := by
  unfold appendEndpoints Config.modifyBackend
  simp only
  rw [modifyFirst_modifyFirst]
  · simp [List.append_assoc]
  · intro b
    simp [Backend.key]

theorem appendEndpoints_panicked (k : BackendKey) (es : List Endpoint) (c : Converter) :
    (appendEndpoints k es c).panicked = c.panicked := rfl

theorem addEndpointsAddr_loop (servicePort : Int) (k : BackendKey) (addrs : List EndpointAddress)
    (c : Converter) (hc : c.panicked = none) (h : ∀ addr ∈ addrs, addr.TargetRef ≠ none) :
    forEach (addEndpointsAddr servicePort k) addrs c
      = appendEndpoints k (addrs.map (fun addr => ⟨addr.IP, servicePort, targetOf addr⟩)) c := by
  induction addrs generalizing c with
  | nil => simp [forEach_nil, appendEndpoints_nil]
  | cons a as ih =>
    rw [forEach_cons _ _ _ _ hc]
    have ha : a.TargetRef ≠ none := h a (List.mem_cons_self _ _)
    have step : addEndpointsAddr servicePort k a c
        = appendEndpoints k [⟨a.IP, servicePort, targetOf a⟩] c := by
      cases hr : a.TargetRef with
      | none => exact absurd hr ha
      | some ref => simp [addEndpointsAddr, hr, appendEndpoints, targetOf, Backend.NewEndpoint]
    rw [step, ih _ (by rw [appendEndpoints_panicked]; exact hc)
      (fun addr hm => h addr (List.mem_cons_of_mem _ hm)), appendEndpoints_append]
    simp

theorem addEndpointsPort_loop (servicePort : Int) (k : BackendKey) (subset : EndpointSubset)
    (ports : List EndpointPort) (c : Converter) (hc : c.panicked = none)
    (h : (ports.filter (fun p => decide (p.Port = servicePort ∧ p.Protocol = ProtocolTCP))) ≠ [] →
      ∀ addr ∈ subset.Addresses, addr.TargetRef ≠ none) :
    forEach (addEndpointsPort servicePort k subset) ports c
      = appendEndpoints k
          ((ports.filter (fun p => decide (p.Port = servicePort ∧ p.Protocol = ProtocolTCP))).flatMap
            (fun _ => subset.Addresses.map (fun addr => ⟨addr.IP, servicePort, targetOf addr⟩))) c := by
  induction ports generalizing c with
  | nil => simp [forEach_nil, appendEndpoints_nil]
  | cons p ps ih =>
    rw [forEach_cons _ _ _ _ hc]
    by_cases hp : p.Port = servicePort ∧ p.Protocol = ProtocolTCP
    · have hne : ∀ addr ∈ subset.Addresses, addr.TargetRef ≠ none :=
        h (by simp [List.filter_cons, hp])
      have step : addEndpointsPort servicePort k subset p c
          = appendEndpoints k
              (subset.Addresses.map (fun addr => ⟨addr.IP, servicePort, targetOf addr⟩)) c := by
        simp only [addEndpointsPort, hp, and_self, if_true]
        exact addEndpointsAddr_loop servicePort k subset.Addresses c hc hne
      rw [step, ih _ (by rw [appendEndpoints_panicked]; exact hc) (fun _ => hne),
        appendEndpoints_append]
      simp [List.filter_cons, hp]
    · have step : addEndpointsPort servicePort k subset p c = c := by
        simp [addEndpointsPort, hp]
      rw [step, ih c hc (fun hne => h (by simpa [List.filter_cons, hp] using hne))]
      simp [List.filter_cons, hp]

theorem addEndpoints_subsets_loop (servicePort : Int) (k : BackendKey)
    (subsets : List EndpointSubset) (c : Converter) (hc : c.panicked = none)
    (h : ∀ subset ∈ subsets, matchingPorts servicePort subset ≠ [] →
      ∀ addr ∈ subset.Addresses, addr.TargetRef ≠ none) :
    forEach (fun subset => forEach (addEndpointsPort servicePort k subset) subset.Ports) subsets c
      = appendEndpoints k (subsets.flatMap (subsetEndpoints servicePort)) c := by
  induction subsets generalizing c with
  | nil => simp [forEach_nil, appendEndpoints_nil]
  | cons s ss ih =>
    rw [forEach_cons _ _ _ _ hc]
    have step := addEndpointsPort_loop servicePort k s s.Ports c hc
      (h s (List.mem_cons_self _ _))
    simp only [] at step
    rw [step, ih _ (by rw [appendEndpoints_panicked]; exact hc)
      (fun s' hm => h s' (List.mem_cons_of_mem _ hm)), appendEndpoints_append]
    simp [subsetEndpoints, matchingPorts]

theorem findBackend_appendEndpoints (k : BackendKey) (es : List Endpoint) (c : Converter) :
    (appendEndpoints k es c).haproxy.FindBackend k
      = (c.haproxy.FindBackend k).map (fun b => { b with Endpoints := b.Endpoints ++ es }) := by
  unfold appendEndpoints Config.FindBackend Config.modifyBackend
  simp only
  rw [find?_modifyFirst]
  intro b
  simp [Backend.key]

/-- C7, as the code has it: when the cache returns the endpoint data and every
address of a subset with an accepted port entry carries a target reference,
`addEndpoints` returns no error and appends to the backend, in subset order, the
addresses of each subset in address order, once for every port entry of the
subset that equals the target port over TCP; each endpoint carries the IP of
its address and the target port. A subset that lists the target port over TCP
once therefore yields exactly one endpoint per address, and a subset that does
not list it yields none. -/
theorem addEndpoints_appends (env : Env) (svc : Service) (servicePort : Int) (k : BackendKey)
    (c : Converter) (endpoints : Endpoints)
    (hget : env.cache.GetEndpoints svc = .ok endpoints)
    (hc : c.panicked = none)
    (href : TargetRefsPresent servicePort endpoints) :
    addEndpoints env svc servicePort k c
        = (none, appendEndpoints k (expectedEndpoints servicePort endpoints)
            (c.call (Call.GetEndpoints svc)))
    ∧ (∀ b, c.haproxy.FindBackend k = some b →
        (addEndpoints env svc servicePort k c).2.haproxy.FindBackend k
          = some { b with Endpoints := b.Endpoints ++ expectedEndpoints servicePort endpoints })
    ∧ (∀ e ∈ expectedEndpoints servicePort endpoints, e.Port = servicePort
        ∧ ∃ subset ∈ endpoints.Subsets, ∃ addr ∈ subset.Addresses, e.IP = addr.IP)
    ∧ (∀ subset, (matchingPorts servicePort subset).length = 1 →
        subsetEndpoints servicePort subset
          = subset.Addresses.map (fun addr => ⟨addr.IP, servicePort, targetOf addr⟩))
    ∧ (∀ subset, matchingPorts servicePort subset = [] → subsetEndpoints servicePort subset = []) := by
  have main : addEndpoints env svc servicePort k c
        = (none, appendEndpoints k (expectedEndpoints servicePort endpoints)
            (c.call (Call.GetEndpoints svc))) := by
    simp only [addEndpoints, hget]
    rw [addEndpoints_subsets_loop servicePort k endpoints.Subsets _ (by simpa [Converter.call] using hc)
      href]
    rfl
  refine ⟨main, ?_, ?_, ?_, ?_⟩
  · intro b hb
    rw [main]
    simp only
    rw [findBackend_appendEndpoints]
    have : (c.call (Call.GetEndpoints svc)).haproxy = c.haproxy := rfl
    rw [this, hb]
    rfl
  · intro e he
    simp only [expectedEndpoints, subsetEndpoints, List.mem_flatMap, List.mem_map] at he
    obtain ⟨subset, hs, _, _, addr, ha, rfl⟩ := he
    exact ⟨rfl, subset, hs, addr, ha, rfl⟩
  · intro subset h1
    unfold subsetEndpoints
    match hm : matchingPorts servicePort subset, h1 with
    | [p], _ => simp
  · intro subset h0
    simp [subsetEndpoints, h0]

/-- A concrete instance of C7: the two addresses of `default/echo2` on port
8080 over TCP become two endpoints of the backend. -/
theorem addEndpoints_appends_witness :
    addEndpoints demoEnv (mkService "default" "echo2" 8080) 8080 ⟨"default", "echo2", 8080⟩
        freshConverter
      = (none, appendEndpoints ⟨"default", "echo2", 8080⟩
          [⟨"172.17.0.12", 8080, "default/echo2-xxxxx"⟩, ⟨"172.17.0.13", 8080, "default/echo2-xxxxx"⟩]
          (freshConverter.call (Call.GetEndpoints (mkService "default" "echo2" 8080)))) :=
  (addEndpoints_appends demoEnv (mkService "default" "echo2" 8080) 8080
    ⟨"default", "echo2", 8080⟩ freshConverter
    (mkEndpoints "default" "echo2" 8080 ["172.17.0.12", "172.17.0.13"]) rfl rfl
    (by unfold TargetRefsPresent; decide)).1

/-- C7 as stated fails: a subset with one address that lists the target port
over TCP under two port entries yields two endpoints for that address. -/
theorem addEndpoints_two_port_entries :
    (twoNamesEndpoints.Subsets.map (fun s => s.Addresses.length)) = [1]
    ∧ ((addEndpoints twoNamesEnv (mkService "default" "echo" 8080) 8080
          ⟨"default", "echo", 8080⟩ echoBackendConverter).2.haproxy.FindBackend
          ⟨"default", "echo", 8080⟩).map (fun b => b.Endpoints)
        = some [⟨"10.0.0.1", 8080, "default/echo-1"⟩, ⟨"10.0.0.1", 8080, "default/echo-1"⟩] := by
  decide


/-! ## Runtime failures and shared records -/

/-- C6 fails on the code: `Sync` panics with a nil dereference when an endpoint
address has no target reference, and with an index out of range when a backend
reference carries no port and the resolved service declares no ports. -/
theorem Sync_panics :
    (Sync noTargetRefEnv [mkIngress "default" "echo" "echo.example.com" "/" "echo" 8080 [] []]
        freshConverter).panicked = some Panic.nilPointerDereference
    ∧ (Sync noPortsEnv [mkIngress "default" "echo" "echo.example.com" "/" "echo" 0 [] []]
        freshConverter).panicked = some Panic.indexOutOfRange := by
  decide

/-- C5 fails on the code: after a resource with rules for two hosts, a resource
that has a rule for the first host only changes the pending record of the
second host as well, because both hosts hold the same record; the updater is
then called for the second host with the value of that resource. -/
theorem pending_record_shared_between_hosts :
    (firstHostIngress.Rules.map IngressRule.hostname) = ["h1.example.com"]
    ∧ (firstHostIngress.Backend = none)
    ∧ ((Sync demoEnv [twoHostsIngress] freshConverter).pendingFront "h2.example.com").map
        (fun r => r.TimeoutClient) = some ""
    ∧ ((Sync demoEnv [twoHostsIngress, firstHostIngress] freshConverter).pendingFront
        "h2.example.com").map (fun r => r.TimeoutClient) = some "2s"
    ∧ (Sync demoEnv [twoHostsIngress, firstHostIngress] freshConverter).calls.filterMap
        (fun x => match x with
          | Call.UpdateFrontendConfig h r => some (h, r.TimeoutClient)
          | _ => none)
      = [("h1.example.com", "2s"), ("h2.example.com", "2s")] := by
  decide


/-! ## What the steps of a pass leave alone -/

theorem forEach_rel {α : Type} (R : Converter → Converter → Prop) (hrefl : ∀ c, R c c)
    (htrans : ∀ a b c, R a b → R b c → R a c) (body : α → Converter → Converter)
    (xs : List α) (h : ∀ x ∈ xs, ∀ c, c.panicked = none → R c (body x c)) (c : Converter) :
    R c (forEach body xs c) := by
  induction xs generalizing c with
  | nil => exact hrefl c
  | cons x xs ih =>
    cases hp : c.panicked with
    | some p =>
      rw [forEach_panicked _ _ _ (by simp [hp])]
      exact hrefl c
    | none =>
      rw [forEach_cons _ _ _ _ hp]
      exact htrans _ _ _ (h x (List.mem_cons_self _ _) c hp)
        (ih (fun y hy => h y (List.mem_cons_of_mem _ hy)) _)

@[simp] theorem acquireBackend_frontends (c : Config) (k : BackendKey) :
    (c.AcquireBackend k).frontends = c.frontends := by
  unfold Config.AcquireBackend
  split <;> rfl

@[simp] theorem acquireFrontend_backends (c : Config) (h : String) :
    (c.AcquireFrontend h).backends = c.backends := by
  unfold Config.AcquireFrontend
  split <;> rfl

theorem KeepsFront.keepsFrontRefl (c : Converter) : KeepsFront c c := ⟨rfl, rfl, rfl⟩

theorem KeepsFront.keepsFrontThen {a b c : Converter} (h1 : KeepsFront a b) (h2 : KeepsFront b c) :
    KeepsFront a c :=
  ⟨h2.1.trans h1.1, h2.2.1.trans h1.2.1, h2.2.2.trans h1.2.2⟩

theorem keepsFront_forEach {α : Type} (body : α → Converter → Converter) (xs : List α)
    (h : ∀ x c, KeepsFront c (body x c)) (c : Converter) : KeepsFront c (forEach body xs c) :=
  forEach_rel KeepsFront KeepsFront.keepsFrontRefl (fun _ _ _ => KeepsFront.keepsFrontThen) body xs
    (fun x _ c _ => h x c) c

theorem keepsFront_addEndpointsAddr (servicePort : Int) (k : BackendKey) (addr : EndpointAddress)
    (c : Converter) : KeepsFront c (addEndpointsAddr servicePort k addr c) := by
  unfold addEndpointsAddr KeepsFront
  split <;> simp [Converter.raise, Config.modifyBackend]

theorem keepsFront_addEndpointsPort (servicePort : Int) (k : BackendKey) (subset : EndpointSubset)
    (port : EndpointPort) (c : Converter) :
    KeepsFront c (addEndpointsPort servicePort k subset port c) := by
  unfold addEndpointsPort
  split
  · exact keepsFront_forEach _ _ (keepsFront_addEndpointsAddr servicePort k) c
  · exact KeepsFront.keepsFrontRefl c

theorem keepsFront_addEndpoints (env : Env) (svc : Service) (servicePort : Int) (k : BackendKey)
    (c : Converter) : KeepsFront c (addEndpoints env svc servicePort k c).2 := by
  have hcall : KeepsFront c (c.call (Call.GetEndpoints svc)) := ⟨rfl, rfl, rfl⟩
  unfold addEndpoints
  split
  · exact hcall
  · exact hcall.keepsFrontThen
      (keepsFront_forEach _ _
        (fun subset c => keepsFront_forEach _ _ (keepsFront_addEndpointsPort servicePort k subset) c)
        _)

theorem keepsFront_readAnnotations (env : Env) (source : Source)
    (annotations : List (String × String)) (c : Converter) :
    KeepsFront c (readAnnotations env source annotations c).2 := by
  unfold readAnnotations KeepsFront
  simp only
  split <;> split <;> simp [Converter.log]

theorem keepsFront_addBackend (env : Env) (fullSvcName : String) (svcPort : Int)
    (ingAnn : BackendAnnotations) (c : Converter) :
    KeepsFront c (addBackend env fullSvcName svcPort ingAnn c).2 := by
  unfold addBackend
  simp only
  repeat' split
  all_goals
    first
    | exact ⟨rfl, rfl, rfl⟩
    | (unfold KeepsFront
       simp [Converter.call, Converter.log, Converter.raise,
        (keepsFront_addEndpoints _ _ _ _ _).1, (keepsFront_addEndpoints _ _ _ _ _).2.1,
        (keepsFront_addEndpoints _ _ _ _ _).2.2, (keepsFront_readAnnotations _ _ _ _).1,
        (keepsFront_readAnnotations _ _ _ _).2.1, (keepsFront_readAnnotations _ _ _ _).2.2])

theorem keepsFront_addHTTPPassthrough (env : Env) (fullSvcName : String) (ingFrontAnn : Nat)
    (ingBackAnn : BackendAnnotations) (c : Converter) :
    KeepsFront c (addHTTPPassthrough env fullSvcName ingFrontAnn ingBackAnn c) := by
  unfold addHTTPPassthrough
  split
  · exact keepsFront_addBackend _ _ _ _ _
  · exact KeepsFront.keepsFrontRefl c

theorem addTLS_frame (env : Env) (ns secretName : String) (c : Converter) :
    (addTLS env ns secretName c).2.haproxy = c.haproxy
      ∧ (addTLS env ns secretName c).2.frontendRecords = c.frontendRecords
      ∧ (addTLS env ns secretName c).2.frontendAnnotations = c.frontendAnnotations
      ∧ (addTLS env ns secretName c).2.backendAnnotations = c.backendAnnotations
      ∧ (addTLS env ns secretName c).2.panicked = c.panicked := by
  unfold addTLS
  simp only
  repeat' split
  all_goals simp [Converter.call, Converter.log]

/-! ## Frontends through a pass -/

theorem findFrontend_acquire (c : Config) (h : String) :
    (c.AcquireFrontend h).FindFrontend h = some ((c.FindFrontend h).getD (createFrontend h)) := by
  unfold Config.AcquireFrontend
  cases hf : c.FindFrontend h with
  | some f => simp [hf]
  | none =>
    simp only [Config.FindFrontend] at hf ⊢
    simp [List.find?_append, hf, createFrontend]

theorem frontEvolves_acquire (c : Converter) (h : String) (c' : Converter)
    (hc : c'.haproxy.frontends = (c.haproxy.AcquireFrontend h).frontends) : FrontEvolves c c' := by
  unfold FrontEvolves
  rw [hc]
  unfold Config.AcquireFrontend
  split
  · exact ⟨FrontStable.stableRefl _, fun hn => hn⟩
  · exact ⟨frontStable_acquire _ _, pathsNodup_acquire _ _⟩

theorem addFrontend_frontends (env : Env) (host : String) (ingAnn : Nat) (c : Converter) :
    (addFrontend env host ingAnn c).haproxy.frontends
      = (c.haproxy.AcquireFrontend host).frontends := by
  unfold addFrontend
  simp only
  repeat' split
  all_goals simp [Converter.log]

theorem frontEvolves_addFrontend (env : Env) (host : String) (ingAnn : Nat) (c : Converter) :
    FrontEvolves c (addFrontend env host ingAnn c) :=
  frontEvolves_acquire c host _ (addFrontend_frontends env host ingAnn c)

theorem frontEvolves_addPath (c c' : Converter) (h : String) (k : BackendKey) (p : String)
    (hg : ((c.frontend h).FindPath p).isSome = false)
    (hc : c'.haproxy.frontends
      = modifyFirst (fun x => x.Hostname = h) (fun f => f.AddPath k p) c.haproxy.frontends) :
    FrontEvolves c c' := by
  have hg' : ∀ f, c.haproxy.frontends.find? (fun x => x.Hostname = h) = some f →
      f.FindPath p = none := by
    intro f hf
    have : c.frontend h = f := by simp [Converter.frontend, Config.FindFrontend, hf]
    rw [this] at hg
    simpa using hg
  unfold FrontEvolves
  rw [hc]
  exact ⟨frontStable_addPath _ _ _ _ hg', pathsNodup_addPath _ _ _ _ hg'⟩

theorem frontend_congr (c c' : Converter) (h : String)
    (hc : c'.haproxy.frontends = c.haproxy.frontends) : c'.frontend h = c.frontend h := by
  simp [Converter.frontend, Config.FindFrontend, hc]

theorem syncPath_registered (env : Env) (ing : Ingress) (hostname : String) (ingFrontAnn : Nat)
    (ingBackAnn : BackendAnnotations) (path : HTTPIngressPath) (c : Converter)
    (h : ((c.frontend hostname).FindPath path.uri).isSome = true) :
    syncPath env ing hostname ingFrontAnn ingBackAnn path c
      = c.log (LogEntry.skippingRedeclaredPath path.uri ing.fullName) := by
  unfold HTTPIngressPath.uri at h
  simp [syncPath, h, HTTPIngressPath.uri, Ingress.fullName]

theorem syncPath_panicked (env : Env) (ing : Ingress) (hostname : String) (ingFrontAnn : Nat)
    (ingBackAnn : BackendAnnotations) (path : HTTPIngressPath) (c : Converter)
    (h : ((c.frontend hostname).FindPath path.uri).isSome = false)
    (hp : (addBackend env (path.fullSvcName ing) path.Backend.ServicePort ingBackAnn
      c).2.panicked.isSome = true) :
    syncPath env ing hostname ingFrontAnn ingBackAnn path c
      = (addBackend env (path.fullSvcName ing) path.Backend.ServicePort ingBackAnn c).2 := by
  unfold HTTPIngressPath.uri at h
  unfold HTTPIngressPath.fullSvcName at hp
  simp [syncPath, h, hp, HTTPIngressPath.fullSvcName, readServiceNamePort]

theorem syncPath_error (env : Env) (ing : Ingress) (hostname : String) (ingFrontAnn : Nat)
    (ingBackAnn : BackendAnnotations) (path : HTTPIngressPath) (c : Converter) (err : String)
    (h : ((c.frontend hostname).FindPath path.uri).isSome = false)
    (hp : (addBackend env (path.fullSvcName ing) path.Backend.ServicePort ingBackAnn
      c).2.panicked.isSome = false)
    (he : (addBackend env (path.fullSvcName ing) path.Backend.ServicePort ingBackAnn c).1
      = .error err) :
    syncPath env ing hostname ingFrontAnn ingBackAnn path c
      = (addBackend env (path.fullSvcName ing) path.Backend.ServicePort ingBackAnn c).2.log
          (LogEntry.skippingBackendConfig ing.fullName err) := by
  unfold HTTPIngressPath.uri at h
  unfold HTTPIngressPath.fullSvcName at hp he
  simp [syncPath, h, hp, he, HTTPIngressPath.fullSvcName, readServiceNamePort, Ingress.fullName]

theorem syncPath_ok (env : Env) (ing : Ingress) (hostname : String) (ingFrontAnn : Nat)
    (ingBackAnn : BackendAnnotations) (path : HTTPIngressPath) (c : Converter) (k : BackendKey)
    (h : ((c.frontend hostname).FindPath path.uri).isSome = false)
    (hp : (addBackend env (path.fullSvcName ing) path.Backend.ServicePort ingBackAnn
      c).2.panicked.isSome = false)
    (he : (addBackend env (path.fullSvcName ing) path.Backend.ServicePort ingBackAnn c).1 = .ok k) :
    syncPath env ing hostname ingFrontAnn ingBackAnn path c
      = addHTTPPassthrough env (path.fullSvcName ing) ingFrontAnn ingBackAnn
          { (addBackend env (path.fullSvcName ing) path.Backend.ServicePort ingBackAnn c).2 with
            haproxy := (addBackend env (path.fullSvcName ing) path.Backend.ServicePort ingBackAnn
              c).2.haproxy.modifyFrontend hostname (fun f => f.AddPath k path.uri) } := by
  unfold HTTPIngressPath.uri at h
  unfold HTTPIngressPath.fullSvcName at hp he
  simp [syncPath, h, hp, he, HTTPIngressPath.fullSvcName, readServiceNamePort,
    HTTPIngressPath.uri]

theorem frontEvolves_syncPath (env : Env) (ing : Ingress) (hostname : String) (ingFrontAnn : Nat)
    (ingBackAnn : BackendAnnotations) (path : HTTPIngressPath) (c : Converter) :
    FrontEvolves c (syncPath env ing hostname ingFrontAnn ingBackAnn path c) := by
  have hk := keepsFront_addBackend env (path.fullSvcName ing) path.Backend.ServicePort
    ingBackAnn c
  cases h : ((c.frontend hostname).FindPath path.uri).isSome with
  | true =>
    rw [syncPath_registered _ _ _ _ _ _ _ h]
    exact FrontEvolves.of_eq rfl
  | false =>
    cases hp : (addBackend env (path.fullSvcName ing) path.Backend.ServicePort ingBackAnn
        c).2.panicked.isSome with
    | true =>
      rw [syncPath_panicked _ _ _ _ _ _ _ h hp]
      exact FrontEvolves.of_eq hk.1
    | false =>
      cases he : (addBackend env (path.fullSvcName ing) path.Backend.ServicePort ingBackAnn
          c).1 with
      | error err =>
        rw [syncPath_error _ _ _ _ _ _ _ err h hp he]
        exact FrontEvolves.of_eq hk.1
      | ok k =>
        rw [syncPath_ok _ _ _ _ _ _ _ k h hp he]
        refine FrontEvolves.frontThen (frontEvolves_addPath c
          { (addBackend env (path.fullSvcName ing) path.Backend.ServicePort ingBackAnn c).2 with
            haproxy := (addBackend env (path.fullSvcName ing) path.Backend.ServicePort ingBackAnn
              c).2.haproxy.modifyFrontend hostname (fun f => f.AddPath k path.uri) }
          hostname k path.uri h (by simp [Config.modifyFrontend, hk.1])) ?_
        exact FrontEvolves.of_eq (keepsFront_addHTTPPassthrough _ _ _ _ _).1

theorem syncTLSHost_other (env : Env) (ing : Ingress) (hostname : String) (tls : IngressTLS)
    (host : String) (c : Converter) (h : host ≠ hostname) :
    syncTLSHost env ing hostname tls host c = c := by
  simp [syncTLSHost, h]

theorem syncTLSHost_error (env : Env) (ing : Ingress) (hostname : String) (tls : IngressTLS)
    (c : Converter) (err : String)
    (he : (addTLS env ing.Namespace tls.SecretName c).1 = .error err) :
    syncTLSHost env ing hostname tls hostname c
      = (addTLS env ing.Namespace tls.SecretName c).2.log (tlsWarning ing tls err) := by
  simp only [syncTLSHost, he, tlsWarning, Ingress.fullName, if_true]
  split <;> rfl

theorem syncTLSHost_assign (env : Env) (ing : Ingress) (hostname : String) (tls : IngressTLS)
    (c : Converter) (tlsPath : String)
    (he : (addTLS env ing.Namespace tls.SecretName c).1 = .ok tlsPath)
    (ht : ((addTLS env ing.Namespace tls.SecretName c).2.frontend hostname).TLS.TLSFilename = "") :
    syncTLSHost env ing hostname tls hostname c
      = { (addTLS env ing.Namespace tls.SecretName c).2 with
          haproxy := (addTLS env ing.Namespace tls.SecretName c).2.haproxy.modifyFrontend hostname
            (setTLSFilename tlsPath) } := by
  simp [syncTLSHost, he, ht]

theorem syncTLSHost_conflict (env : Env) (ing : Ingress) (hostname : String) (tls : IngressTLS)
    (c : Converter) (tlsPath : String)
    (he : (addTLS env ing.Namespace tls.SecretName c).1 = .ok tlsPath)
    (ht : ((addTLS env ing.Namespace tls.SecretName c).2.frontend hostname).TLS.TLSFilename ≠ "")
    (hd : ((addTLS env ing.Namespace tls.SecretName c).2.frontend hostname).TLS.TLSFilename
      ≠ tlsPath) :
    syncTLSHost env ing hostname tls hostname c
      = (addTLS env ing.Namespace tls.SecretName c).2.log (tlsWarning ing tls
          (alreadyAssignedError
            ((addTLS env ing.Namespace tls.SecretName c).2.frontend hostname).Hostname)) := by
  simp only [syncTLSHost, he, ht, hd, tlsWarning, Ingress.fullName, if_true, if_false, ne_eq,
    not_false_eq_true]
  split <;> rfl

theorem syncTLSHost_same (env : Env) (ing : Ingress) (hostname : String) (tls : IngressTLS)
    (c : Converter) (tlsPath : String)
    (he : (addTLS env ing.Namespace tls.SecretName c).1 = .ok tlsPath)
    (ht : ((addTLS env ing.Namespace tls.SecretName c).2.frontend hostname).TLS.TLSFilename ≠ "")
    (hd : ((addTLS env ing.Namespace tls.SecretName c).2.frontend hostname).TLS.TLSFilename
      = tlsPath) :
    syncTLSHost env ing hostname tls hostname c = (addTLS env ing.Namespace tls.SecretName c).2 := by
  have ht1 : ¬ tlsPath = "" := hd ▸ ht
  simp [syncTLSHost, he, hd, ht1]

theorem frontEvolves_syncTLSHost (env : Env) (ing : Ingress) (hostname : String) (tls : IngressTLS)
    (host : String) (c : Converter) :
    FrontEvolves c (syncTLSHost env ing hostname tls host c) := by
  have hf := (addTLS_frame env ing.Namespace tls.SecretName c).1
  by_cases hh : host = hostname
  · subst hh
    cases he : (addTLS env ing.Namespace tls.SecretName c).1 with
    | error err =>
      rw [syncTLSHost_error _ _ _ _ _ err he]
      exact FrontEvolves.of_eq (by simp [Converter.log, hf])
    | ok tlsPath =>
      by_cases ht : ((addTLS env ing.Namespace tls.SecretName c).2.frontend host).TLS.TLSFilename
          = ""
      · rw [syncTLSHost_assign _ _ _ _ _ tlsPath he ht]
        unfold FrontEvolves
        simp only [Config.modifyFrontend, hf]
        have hg : ∀ f, c.haproxy.frontends.find? (fun x => x.Hostname = host) = some f →
            f.TLS.TLSFilename = "" := by
          intro f hfind
          have : (addTLS env ing.Namespace tls.SecretName c).2.frontend host = f := by
            simp [Converter.frontend, Config.FindFrontend, hf, hfind]
          rw [this] at ht
          exact ht
        exact ⟨frontStable_setTLS _ _ _ hg, pathsNodup_setTLS _ _ _⟩
      · by_cases hd : ((addTLS env ing.Namespace tls.SecretName c).2.frontend host).TLS.TLSFilename
            = tlsPath
        · rw [syncTLSHost_same _ _ _ _ _ tlsPath he ht hd]
          exact FrontEvolves.of_eq (by rw [hf])
        · rw [syncTLSHost_conflict _ _ _ _ _ tlsPath he ht hd]
          exact FrontEvolves.of_eq (by simp [Converter.log, hf])
  · rw [syncTLSHost_other _ _ _ _ _ _ hh]
    exact FrontEvolves.frontRefl c

theorem addDefaultHostBackend_occupied (env : Env) (fullSvcName : String) (svcPort : Int)
    (ingFrontAnn : Nat) (ingBackAnn : BackendAnnotations) (c : Converter)
    (h : defaultHostOccupied c = true) :
    addDefaultHostBackend env fullSvcName svcPort ingFrontAnn ingBackAnn c
      = (some "path / was already defined on default host", c) := by
  unfold defaultHostOccupied at h
  simp [addDefaultHostBackend, h]

theorem addDefaultHostBackend_panicked (env : Env) (fullSvcName : String) (svcPort : Int)
    (ingFrontAnn : Nat) (ingBackAnn : BackendAnnotations) (c : Converter)
    (h : defaultHostOccupied c = false)
    (hp : (addBackend env fullSvcName svcPort ingBackAnn c).2.panicked.isSome = true) :
    addDefaultHostBackend env fullSvcName svcPort ingFrontAnn ingBackAnn c
      = (none, (addBackend env fullSvcName svcPort ingBackAnn c).2) := by
  unfold defaultHostOccupied at h
  simp [addDefaultHostBackend, h, hp]

theorem addDefaultHostBackend_error (env : Env) (fullSvcName : String) (svcPort : Int)
    (ingFrontAnn : Nat) (ingBackAnn : BackendAnnotations) (c : Converter) (err : String)
    (h : defaultHostOccupied c = false)
    (hp : (addBackend env fullSvcName svcPort ingBackAnn c).2.panicked.isSome = false)
    (he : (addBackend env fullSvcName svcPort ingBackAnn c).1 = .error err) :
    addDefaultHostBackend env fullSvcName svcPort ingFrontAnn ingBackAnn c
      = (some err, (addBackend env fullSvcName svcPort ingBackAnn c).2) := by
  unfold defaultHostOccupied at h
  simp [addDefaultHostBackend, h, hp, he]

theorem addDefaultHostBackend_ok (env : Env) (fullSvcName : String) (svcPort : Int)
    (ingFrontAnn : Nat) (ingBackAnn : BackendAnnotations) (c : Converter) (k : BackendKey)
    (h : defaultHostOccupied c = false)
    (hp : (addBackend env fullSvcName svcPort ingBackAnn c).2.panicked.isSome = false)
    (he : (addBackend env fullSvcName svcPort ingBackAnn c).1 = .ok k) :
    addDefaultHostBackend env fullSvcName svcPort ingFrontAnn ingBackAnn c
      = (none,
          { addFrontend env "*" ingFrontAnn (addBackend env fullSvcName svcPort ingBackAnn c).2 with
            haproxy := (addFrontend env "*" ingFrontAnn
              (addBackend env fullSvcName svcPort ingBackAnn c).2).haproxy.modifyFrontend "*"
                (fun f => f.AddPath k "/") }) := by
  unfold defaultHostOccupied at h
  simp [addDefaultHostBackend, h, hp, he]

theorem frontend_addFrontend (env : Env) (host : String) (ingAnn : Nat) (c : Converter) :
    (addFrontend env host ingAnn c).haproxy.FindFrontend host = some (c.frontend host) := by
  unfold Config.FindFrontend
  rw [addFrontend_frontends]
  exact findFrontend_acquire c.haproxy host

theorem frontEvolves_addDefaultHostBackend (env : Env) (fullSvcName : String) (svcPort : Int)
    (ingFrontAnn : Nat) (ingBackAnn : BackendAnnotations) (c : Converter) :
    FrontEvolves c (addDefaultHostBackend env fullSvcName svcPort ingFrontAnn ingBackAnn c).2 := by
  have hk := keepsFront_addBackend env fullSvcName svcPort ingBackAnn c
  cases h : defaultHostOccupied c with
  | true =>
    rw [addDefaultHostBackend_occupied _ _ _ _ _ _ h]
    exact FrontEvolves.frontRefl c
  | false =>
    cases hp : (addBackend env fullSvcName svcPort ingBackAnn c).2.panicked.isSome with
    | true =>
      rw [addDefaultHostBackend_panicked _ _ _ _ _ _ h hp]
      exact FrontEvolves.of_eq hk.1
    | false =>
      cases he : (addBackend env fullSvcName svcPort ingBackAnn c).1 with
      | error err =>
        rw [addDefaultHostBackend_error _ _ _ _ _ _ err h hp he]
        exact FrontEvolves.of_eq hk.1
      | ok k =>
        rw [addDefaultHostBackend_ok _ _ _ _ _ _ k h hp he]
        refine (FrontEvolves.of_eq hk.1).frontThen
          ((frontEvolves_addFrontend env "*" ingFrontAnn _).frontThen ?_)
        refine frontEvolves_addPath _ _ "*" k "/" ?_ rfl
        have hfr : (addFrontend env "*" ingFrontAnn
            (addBackend env fullSvcName svcPort ingBackAnn c).2).frontend "*" = c.frontend "*" := by
          unfold Converter.frontend
          rw [frontend_addFrontend]
          simp [Converter.frontend, Config.FindFrontend, hk.1]
        rw [hfr]
        unfold defaultHostOccupied at h
        unfold Converter.frontend
        cases hf : c.haproxy.FindFrontend "*" with
        | some fr => simpa [hf] using h
        | none => simp [createFrontend, Frontend.FindPath]

theorem frontEvolves_syncDefaultBackend (env : Env) (ing : Ingress) (ingFrontAnn : Nat)
    (ingBackAnn : BackendAnnotations) (c : Converter) :
    FrontEvolves c (syncDefaultBackend env ing ingFrontAnn ingBackAnn c) := by
  unfold syncDefaultBackend
  split
  · exact FrontEvolves.frontRefl c
  · rename_i b _
    have h := frontEvolves_addDefaultHostBackend env
      (FullQualifiedName ing.Namespace (readServiceNamePort b).1) (readServiceNamePort b).2
      ingFrontAnn ingBackAnn c
    simp only
    split
    · exact h
    · split
      · exact h.frontThen (FrontEvolves.of_eq rfl)
      · exact h

theorem frontEvolves_forEach {α : Type} (body : α → Converter → Converter) (xs : List α)
    (h : ∀ x c, FrontEvolves c (body x c)) (c : Converter) :
    FrontEvolves c (forEach body xs c) :=
  forEach_rel FrontEvolves FrontEvolves.frontRefl (fun _ _ _ => FrontEvolves.frontThen) body xs
    (fun x _ c _ => h x c) c

theorem frontEvolves_syncRule (env : Env) (ing : Ingress) (ingFrontAnn : Nat)
    (ingBackAnn : BackendAnnotations) (rule : IngressRule) (c : Converter) :
    FrontEvolves c (syncRule env ing ingFrontAnn ingBackAnn rule c) := by
  unfold syncRule
  split
  · exact FrontEvolves.frontRefl c
  · simp only
    exact (frontEvolves_addFrontend env _ ingFrontAnn c).frontThen
      ((frontEvolves_forEach _ _ (frontEvolves_syncPath env ing _ ingFrontAnn ingBackAnn) _).frontThen
        (frontEvolves_forEach _ _
          (fun tls c => frontEvolves_forEach _ _ (frontEvolves_syncTLSHost env ing _ tls) c) _))

theorem syncIngress_eq (env : Env) (ing : Ingress) (c : Converter) :
    syncIngress env ing c
      = forEach (syncRule env ing c.frontendRecords.length (backView env ing)) ing.Rules
          (syncDefaultBackend env ing c.frontendRecords.length (backView env ing)
            (syncIngressStart env ing c)) := by
  have hl := (keepsFront_readAnnotations env ⟨ing.Namespace, ing.Name, "ingress"⟩
    ing.Annotations c).2.1
  unfold syncIngress syncIngressStart
  simp only [hl]
  rfl

theorem syncIngressStart_frontends (env : Env) (ing : Ingress) (c : Converter) :
    (syncIngressStart env ing c).haproxy.frontends = c.haproxy.frontends :=
  (keepsFront_readAnnotations env _ _ c).1

theorem frontEvolves_syncIngress (env : Env) (ing : Ingress) (c : Converter) :
    FrontEvolves c (syncIngress env ing c) := by
  rw [syncIngress_eq]
  exact (FrontEvolves.of_eq (syncIngressStart_frontends env ing c)).frontThen
    ((frontEvolves_syncDefaultBackend env ing _ _ _).frontThen
      (frontEvolves_forEach _ _ (frontEvolves_syncRule env ing _ _) _))

theorem OnlyCalls.callsRefl (c : Converter) : OnlyCalls c c := ⟨rfl, rfl, rfl, rfl, rfl, rfl⟩

theorem OnlyCalls.callsThen {a b c : Converter} (h1 : OnlyCalls a b) (h2 : OnlyCalls b c) :
    OnlyCalls a c :=
  ⟨h2.1.trans h1.1, h2.2.1.trans h1.2.1, h2.2.2.1.trans h1.2.2.1,
    h2.2.2.2.1.trans h1.2.2.2.1, h2.2.2.2.2.1.trans h1.2.2.2.2.1,
    h2.2.2.2.2.2.trans h1.2.2.2.2.2⟩

theorem onlyCalls_call (c : Converter) (x : Call) : OnlyCalls c (c.call x) :=
  ⟨rfl, rfl, rfl, rfl, rfl, rfl⟩

theorem onlyCalls_syncAnnotations (env : Env) (c : Converter) :
    OnlyCalls c (syncAnnotations env c) := by
  unfold syncAnnotations
  simp only
  refine (onlyCalls_call c _).callsThen ((forEach_rel OnlyCalls OnlyCalls.callsRefl
    (fun _ _ _ => OnlyCalls.callsThen) _ _ ?_ _).callsThen (forEach_rel OnlyCalls OnlyCalls.callsRefl
    (fun _ _ _ => OnlyCalls.callsThen) _ _ ?_ _))
  · intro x _ c _
    split
    · exact onlyCalls_call c _
    · exact OnlyCalls.callsRefl c
  · intro x _ c _
    split
    · exact onlyCalls_call c _
    · exact OnlyCalls.callsRefl c

theorem onlyCalls_Sync (env : Env) (ingress : List Ingress) (c : Converter) :
    OnlyCalls (syncAll env ingress c) (Sync env ingress c) := by
  unfold Sync
  simp only
  split
  · exact OnlyCalls.callsRefl _
  · exact onlyCalls_syncAnnotations env _

theorem frontEvolves_syncAll (env : Env) (ingress : List Ingress) (c : Converter) :
    FrontEvolves c (syncAll env ingress c) :=
  frontEvolves_forEach _ _ (frontEvolves_syncIngress env) c

theorem frontEvolves_Sync (env : Env) (ingress : List Ingress) (c : Converter) :
    FrontEvolves c (Sync env ingress c) :=
  (frontEvolves_syncAll env ingress c).frontThen
    (FrontEvolves.of_eq (by rw [(onlyCalls_Sync env ingress c).1]))

theorem tlsKept_of_frontEvolves {c c' : Converter} (h : FrontEvolves c c') : TLSKept c c' := by
  intro host f hf hne
  obtain ⟨f', hf', ht, _⟩ := h.1 host f hf
  exact ⟨f', hf', ht hne⟩

theorem pathsKept_of_frontEvolves {c c' : Converter} (h : FrontEvolves c c') :
    PathsKept c c' := by
  intro host f p x hf hx
  obtain ⟨f', hf', _, hp⟩ := h.1 host f hf
  exact ⟨f', hf', hp p x hx⟩

theorem forEach_append {α : Type} (body : α → Converter → Converter) (xs ys : List α)
    (c : Converter) : forEach body (xs ++ ys) c = forEach body ys (forEach body xs c) := by
  induction xs generalizing c with
  | nil => rfl
  | cons x xs ih =>
    cases hp : c.panicked with
    | some p =>
      have hne : c.panicked ≠ none := by simp [hp]
      rw [List.cons_append, forEach_panicked _ _ _ hne, forEach_panicked _ _ _ hne,
        forEach_panicked _ _ _ hne]
    | none =>
      rw [List.cons_append, forEach_cons _ _ _ _ hp, forEach_cons _ _ _ _ hp, ih]

theorem Sync_append (env : Env) (pre rest : List Ingress) (c : Converter) :
    Sync env (pre ++ rest) c = Sync env rest (syncAll env pre c) := by
  unfold Sync syncAll
  rw [forEach_append]


/-! ## Paths of a frontend -/

theorem frontend_hostname (c : Converter) (h : String) : (c.frontend h).Hostname = h := by
  unfold Converter.frontend Config.FindFrontend
  cases hf : c.haproxy.frontends.find? (fun f => f.Hostname = h) with
  | none => simp [createFrontend]
  | some f => simpa using List.find?_some hf

theorem frontend_eq_of_find (c : Converter) (h : String) (f : Frontend)
    (hf : c.haproxy.FindFrontend h = some f) : c.frontend h = f := by
  simp [Converter.frontend, hf]

theorem findPath_addPath (f : Frontend) (k : BackendKey) (p : String)
    (h : f.FindPath p = none) : (f.AddPath k p).FindPath p = some ⟨p, k⟩ := by
  unfold Frontend.FindPath Frontend.AddPath
  simp only
  exact find?_insertSorted_of_none _ _ _ _ (by simp) h

theorem newIngressConverter_frontends (env : Env) (haproxy : Config) :
    (NewIngressConverter env haproxy).haproxy.frontends = haproxy.frontends := by
  have hk := keepsFront_addBackend env env.options.DefaultBackend 0 zeroBackendAnnotations
    (emptyConverter haproxy)
  unfold NewIngressConverter
  simp only
  split
  · exact hk.1
  · split
    · exact hk.1
    · exact hk.1

/-- C1, as the code has it. (a) A path entry whose effective path is already
registered on the frontend of its rule changes nothing but the log, which
receives exactly one warning: the path keeps its backend, no service is looked
up, no backend is acquired and no annotations are merged. (b) A path that is not
yet registered is registered to the backend of its service when `addBackend`
acquires that backend. (c) Every step of a pass, and so `Sync` as a whole, keeps
the entry of every registered path and keeps the path strings of every frontend
free of duplicates; a converter created on a proxy model without duplicates
never produces one. -/
theorem syncPath_redeclared (env : Env) :
    (∀ (ing : Ingress) (hostname : String) (ingFrontAnn : Nat) (ingBackAnn : BackendAnnotations)
        (path : HTTPIngressPath) (c : Converter),
        ((c.frontend hostname).FindPath path.uri).isSome = true →
        syncPath env ing hostname ingFrontAnn ingBackAnn path c
          = c.log (LogEntry.skippingRedeclaredPath path.uri ing.fullName))
    ∧ (∀ (ing : Ingress) (hostname : String) (ingFrontAnn : Nat) (ingBackAnn : BackendAnnotations)
        (path : HTTPIngressPath) (c : Converter) (k : BackendKey),
        (c.haproxy.FindFrontend hostname).isSome = true →
        (c.frontend hostname).FindPath path.uri = none →
        (addBackend env (path.fullSvcName ing) path.Backend.ServicePort ingBackAnn c).2.panicked
          = none →
        (addBackend env (path.fullSvcName ing) path.Backend.ServicePort ingBackAnn c).1 = .ok k →
        ((syncPath env ing hostname ingFrontAnn ingBackAnn path c).frontend hostname).FindPath
          path.uri = some ⟨path.uri, k⟩)
    ∧ (∀ (ing : Ingress) (hostname : String) (ingFrontAnn : Nat) (ingBackAnn : BackendAnnotations)
        (path : HTTPIngressPath) (c : Converter),
        PathsKept c (syncPath env ing hostname ingFrontAnn ingBackAnn path c)
          ∧ NodupKept c (syncPath env ing hostname ingFrontAnn ingBackAnn path c))
    ∧ (∀ (ing : Ingress) (hostname : String) (tls : IngressTLS) (host : String) (c : Converter),
        PathsKept c (syncTLSHost env ing hostname tls host c)
          ∧ NodupKept c (syncTLSHost env ing hostname tls host c))
    ∧ (∀ (ing : Ingress) (ingFrontAnn : Nat) (ingBackAnn : BackendAnnotations) (c : Converter),
        PathsKept c (syncDefaultBackend env ing ingFrontAnn ingBackAnn c)
          ∧ NodupKept c (syncDefaultBackend env ing ingFrontAnn ingBackAnn c))
    ∧ (∀ (ing : Ingress) (ingFrontAnn : Nat) (ingBackAnn : BackendAnnotations)
        (rule : IngressRule) (c : Converter),
        PathsKept c (syncRule env ing ingFrontAnn ingBackAnn rule c)
          ∧ NodupKept c (syncRule env ing ingFrontAnn ingBackAnn rule c))
    ∧ (∀ (ing : Ingress) (c : Converter),
        PathsKept c (syncIngress env ing c) ∧ NodupKept c (syncIngress env ing c))
    ∧ (∀ (ingress : List Ingress) (c : Converter),
        PathsKept c (Sync env ingress c) ∧ NodupKept c (Sync env ingress c))
    ∧ (∀ (ingress : List Ingress) (haproxy : Config), PathsNodup haproxy.frontends →
        PathsNodup (Sync env ingress (NewIngressConverter env haproxy)).haproxy.frontends) := by
  have key : ∀ {c c' : Converter}, FrontEvolves c c' → PathsKept c c' ∧ NodupKept c c' :=
    fun h => ⟨pathsKept_of_frontEvolves h, h.2⟩
  refine ⟨fun ing hostname ingFrontAnn ingBackAnn path c h =>
      syncPath_registered env ing hostname ingFrontAnn ingBackAnn path c h, ?_,
    fun ing hostname a b path c => key (frontEvolves_syncPath env ing hostname a b path c),
    fun ing hostname tls host c => key (frontEvolves_syncTLSHost env ing hostname tls host c),
    fun ing a b c => key (frontEvolves_syncDefaultBackend env ing a b c),
    fun ing a b rule c => key (frontEvolves_syncRule env ing a b rule c),
    fun ing c => key (frontEvolves_syncIngress env ing c),
    fun ingress c => key (frontEvolves_Sync env ingress c), ?_⟩
  · intro ing hostname ingFrontAnn ingBackAnn path c k hex hnone hp he
    have h : ((c.frontend hostname).FindPath path.uri).isSome = false := by simp [hnone]
    have hp' : (addBackend env (path.fullSvcName ing) path.Backend.ServicePort ingBackAnn
        c).2.panicked.isSome = false := by simp [hp]
    rw [syncPath_ok _ _ _ _ _ _ _ k h hp' he]
    have hk := keepsFront_addBackend env (path.fullSvcName ing) path.Backend.ServicePort
      ingBackAnn c
    obtain ⟨f, hf⟩ := Option.isSome_iff_exists.mp hex
    have hfr : c.frontend hostname = f := frontend_eq_of_find c hostname f hf
    rw [hfr] at hnone
    have hfind : (addHTTPPassthrough env (path.fullSvcName ing) ingFrontAnn ingBackAnn
        { (addBackend env (path.fullSvcName ing) path.Backend.ServicePort ingBackAnn c).2 with
          haproxy := (addBackend env (path.fullSvcName ing) path.Backend.ServicePort ingBackAnn
            c).2.haproxy.modifyFrontend hostname
              (fun f => f.AddPath k path.uri) }).haproxy.FindFrontend hostname
        = some (f.AddPath k path.uri) := by
      unfold Config.FindFrontend
      rw [(keepsFront_addHTTPPassthrough _ _ _ _ _).1]
      simp only [Config.modifyFrontend, hk.1]
      rw [find?_modifyFirst _ _ _ (by intro x; simp [Frontend.AddPath])]
      unfold Config.FindFrontend at hf
      rw [hf]
      rfl
    rw [frontend_eq_of_find _ _ _ hfind]
    exact findPath_addPath f k path.uri hnone
  · intro ingress haproxy hn
    apply (frontEvolves_Sync env ingress (NewIngressConverter env haproxy)).2
    rw [newIngressConverter_frontends]
    exact hn

/-- A concrete instance of C1: the second declaration of `/p1` on
`echo.example.com` only logs the warning. -/
theorem syncPath_redeclared_witness :
    syncPath demoEnv echo2Ingress "echo.example.com" 1 (backView demoEnv echo2Ingress)
        ⟨"/p1", ⟨"echo2", 8080⟩⟩ echo1Converter
      = echo1Converter.log (LogEntry.skippingRedeclaredPath "/p1" "default/echo2") :=
  (syncPath_redeclared demoEnv).1 echo2Ingress "echo.example.com" 1
    (backView demoEnv echo2Ingress) ⟨"/p1", ⟨"echo2", 8080⟩⟩ echo1Converter (by decide)

/-- C1 as stated fails: a path that is not yet registered on its frontend is not
registered when its service cannot be found. -/
theorem unresolved_path_not_registered :
    (freshConverter.frontend "echo.example.com").FindPath "/" = none
    ∧ ((Sync demoEnv [notFoundIngress] freshConverter).haproxy.FindFrontend
        "echo.example.com").map (fun f => f.Paths) = some []
    ∧ (Sync demoEnv [notFoundIngress] freshConverter).panicked = none := by
  decide


/-! ## TLS assignment of a frontend -/

theorem addTLS_logger (env : Env) (ns secretName : String) (c : Converter) :
    (addTLS env ns secretName c).2.logger = c.logger
      ∨ ∃ name err, (addTLS env ns secretName c).2.logger
          = c.logger ++ [LogEntry.usingDefaultCertificate name err] := by
  unfold addTLS
  simp only
  repeat' split
  all_goals simp [Converter.call, Converter.log]


/-! ## Default backend -/

theorem filter_path_eq_singleton (l : List FrontendPath) (p : String) (x : FrontendPath)
    (hn : (l.map (fun q => q.Path)).Nodup) (hx : l.find? (fun q => q.Path = p) = some x) :
    l.filter (fun q => q.Path = p) = [x] := by
  induction l with
  | nil => simp at hx
  | cons y ys ih =>
    simp only [List.map_cons, List.nodup_cons] at hn
    by_cases hy : y.Path = p
    · have hxy : y = x := by simpa [List.find?, hy] using hx
      have hempty : ys.filter (fun q => q.Path = p) = [] := by
        rw [List.filter_eq_nil_iff]
        intro q hq hqp
        exact hn.1 (List.mem_map.mpr ⟨q, hq, by rw [hy]; simpa using hqp⟩)
      subst hxy
      simp [List.filter_cons, hy, hempty]
    · have hx' : ys.find? (fun q => q.Path = p) = some x := by
        simpa [List.find?, hy] using hx
      simp [List.filter_cons, hy, ih hn.2 hx']

theorem defaultHostOccupied_congr (c c' : Converter)
    (h : c'.haproxy.frontends = c.haproxy.frontends) :
    defaultHostOccupied c' = defaultHostOccupied c := by
  simp [defaultHostOccupied, Config.FindFrontend, h]

theorem addFrontend_panicked (env : Env) (host : String) (ingAnn : Nat) (c : Converter) :
    (addFrontend env host ingAnn c).panicked = c.panicked := by
  unfold addFrontend
  simp only
  repeat' split
  all_goals simp [Converter.log]

theorem addDefaultHostBackend_registers (env : Env) (fullSvcName : String) (svcPort : Int)
    (ingFrontAnn : Nat) (ingBackAnn : BackendAnnotations) (c : Converter) (k : BackendKey)
    (h : defaultHostOccupied c = false)
    (hp : (addBackend env fullSvcName svcPort ingBackAnn c).2.panicked = none)
    (he : (addBackend env fullSvcName svcPort ingBackAnn c).1 = .ok k) :
    (addDefaultHostBackend env fullSvcName svcPort ingFrontAnn ingBackAnn c).1 = none
      ∧ (addDefaultHostBackend env fullSvcName svcPort ingFrontAnn ingBackAnn c).2.panicked = none
      ∧ ∃ f, (addDefaultHostBackend env fullSvcName svcPort ingFrontAnn ingBackAnn
            c).2.haproxy.FindFrontend "*" = some f
          ∧ f.FindPath "/" = some ⟨"/", k⟩ := by
  have hk := keepsFront_addBackend env fullSvcName svcPort ingBackAnn c
  rw [addDefaultHostBackend_ok _ _ _ _ _ _ k h (by simp [hp]) he]
  refine ⟨rfl, by simp [addFrontend_panicked, hp], (c.frontend "*").AddPath k "/", ?_, ?_⟩
  · simp only [Config.FindFrontend, Config.modifyFrontend]
    rw [find?_modifyFirst _ _ _ (by intro x; simp [Frontend.AddPath])]
    have := frontend_addFrontend env "*" ingFrontAnn
      (addBackend env fullSvcName svcPort ingBackAnn c).2
    unfold Config.FindFrontend at this
    rw [this]
    simp [Converter.frontend, Config.FindFrontend, hk.1]
  · apply findPath_addPath
    unfold defaultHostOccupied at h
    unfold Converter.frontend
    cases hf : c.haproxy.FindFrontend "*" with
    | some fr => simpa [hf] using h
    | none => simp [createFrontend, Frontend.FindPath]

/-- C3: (a) when `*` already has the path `/`, whether a default backend or a
host rule registered it, `addDefaultHostBackend` returns the error that the path
was already defined and leaves the whole state unchanged, so no service is
looked up, no backend is acquired and no annotations are accumulated; (b) the
default-backend block of the resource then logs exactly one warning that names
the resource; (c) the entry of `/` on `*` keeps its backend until the end of
the pass, as the only entry of that path; (d) the default backend of a resource
that is reached while `/` is still free on `*`, when its service resolves, is
the backend of `/` on `*` after `Sync`, whatever resources follow. -/
theorem default_backend_first_wins (env : Env) :
    (∀ (fullSvcName : String) (svcPort : Int) (ingFrontAnn : Nat)
        (ingBackAnn : BackendAnnotations) (c : Converter), defaultHostOccupied c = true →
        addDefaultHostBackend env fullSvcName svcPort ingFrontAnn ingBackAnn c
          = (some "path / was already defined on default host", c))
    ∧ (∀ (ing : Ingress) (b : IngressBackend) (ingFrontAnn : Nat)
        (ingBackAnn : BackendAnnotations) (c : Converter), ing.Backend = some b →
        c.panicked = none → defaultHostOccupied c = true →
        syncDefaultBackend env ing ingFrontAnn ingBackAnn c
          = c.log (LogEntry.skippingDefaultBackend ing.fullName
              "path / was already defined on default host"))
    ∧ (∀ (ingress : List Ingress) (c : Converter) (f : Frontend) (x : FrontendPath),
        c.haproxy.FindFrontend "*" = some f → f.FindPath "/" = some x →
        ∃ f', (Sync env ingress c).haproxy.FindFrontend "*" = some f' ∧ f'.FindPath "/" = some x
          ∧ (PathsNodup c.haproxy.frontends →
              f'.Paths.filter (fun q => q.Path = "/") = [x]))
    ∧ (∀ (pre : List Ingress) (first : Ingress) (rest : List Ingress) (b : IngressBackend)
        (c : Converter) (k : BackendKey), first.Backend = some b →
        (syncAll env pre c).panicked = none →
        defaultHostOccupied (syncAll env pre c) = false →
        (addBackend env (FullQualifiedName first.Namespace b.ServiceName) b.ServicePort
          (backView env first) (syncIngressStart env first (syncAll env pre c))).2.panicked
            = none →
        (addBackend env (FullQualifiedName first.Namespace b.ServiceName) b.ServicePort
          (backView env first) (syncIngressStart env first (syncAll env pre c))).1 = .ok k →
        ∃ f', (Sync env (pre ++ first :: rest) c).haproxy.FindFrontend "*" = some f'
          ∧ f'.FindPath "/" = some ⟨"/", k⟩) := by
  refine ⟨fun a b c d e h => addDefaultHostBackend_occupied env a b c d e h, ?_, ?_, ?_⟩
  · intro ing b ingFrontAnn ingBackAnn c hb hc ho
    unfold syncDefaultBackend
    simp [hb, addDefaultHostBackend_occupied _ _ _ _ _ _ ho, hc, Ingress.fullName]
  · intro ingress c f x hf hx
    have hev := frontEvolves_Sync env ingress c
    obtain ⟨f', hf', _, hp⟩ := hev.1 "*" f hf
    refine ⟨f', hf', hp "/" x hx, fun hn => ?_⟩
    have hmem : f' ∈ (Sync env ingress c).haproxy.frontends := List.mem_of_find?_eq_some hf'
    exact filter_path_eq_singleton _ _ _ (hev.2 hn f' hmem) (hp "/" x hx)
  · intro pre first rest b c0 k hb hc ho hp he
    rw [Sync_append]
    generalize syncAll env pre c0 = c at hc ho hp he ⊢
    have hocc : defaultHostOccupied (syncIngressStart env first c) = false := by
      rw [defaultHostOccupied_congr _ _ (syncIngressStart_frontends env first c)]
      exact ho
    obtain ⟨h1, h2, f, hf, hx⟩ := addDefaultHostBackend_registers env
      (FullQualifiedName first.Namespace b.ServiceName) b.ServicePort c.frontendRecords.length
      (backView env first) (syncIngressStart env first c) k hocc hp he
    have hd : syncDefaultBackend env first c.frontendRecords.length (backView env first)
        (syncIngressStart env first c)
        = (addDefaultHostBackend env (FullQualifiedName first.Namespace b.ServiceName)
            b.ServicePort c.frontendRecords.length (backView env first)
            (syncIngressStart env first c)).2 := by
      unfold syncDefaultBackend
      simp [hb, readServiceNamePort, h1, h2]
    have hsync : Sync env (first :: rest) c
        = Sync env rest (syncIngress env first c) := by
      unfold Sync syncAll
      rw [forEach_cons _ _ _ _ hc]
    rw [hsync, syncIngress_eq, hd]
    have hev := (frontEvolves_forEach _ first.Rules
      (frontEvolves_syncRule env first c.frontendRecords.length (backView env first))
      (addDefaultHostBackend env (FullQualifiedName first.Namespace b.ServiceName)
        b.ServicePort c.frontendRecords.length (backView env first)
        (syncIngressStart env first c)).2).frontThen (frontEvolves_Sync env rest _)
    obtain ⟨f', hf', _, hpaths⟩ := hev.1 "*" f hf
    exact ⟨f', hf', hpaths "/" _ hx⟩

/-- A concrete instance of C3: after `default/echo1` was registered as default
backend, the default backend of `default/echo2` is skipped with one warning. -/
theorem default_backend_first_wins_witness :
    syncDefaultBackend demoEnv secondDefaultIngress 1 (backView demoEnv secondDefaultIngress)
        firstDefaultConverter
      = firstDefaultConverter.log (LogEntry.skippingDefaultBackend "default/echo2"
          "path / was already defined on default host")
    ∧ ∃ f', (Sync demoEnv [firstDefaultIngress, secondDefaultIngress]
          freshConverter).haproxy.FindFrontend "*" = some f'
        ∧ f'.FindPath "/" = some ⟨"/", ⟨"default", "echo1", 8080⟩⟩ :=
  ⟨(default_backend_first_wins demoEnv).2.1 secondDefaultIngress ⟨"echo2", 8080⟩ 1
      (backView demoEnv secondDefaultIngress) firstDefaultConverter rfl (by decide) (by decide),
   (default_backend_first_wins demoEnv).2.2.2 [] firstDefaultIngress [secondDefaultIngress]
      ⟨"echo1", 8080⟩ freshConverter ⟨"default", "echo1", 8080⟩ rfl rfl (by decide)
      (by decide) rfl⟩


/-! ## Backends through a pass -/

theorem lookup_cons_eq {β : Type} (k a : String) (b : β) (m : List (String × β)) :
    ((a, b) :: m).lookup k = if k = a then some b else m.lookup k := by
  by_cases h : k = a
  · have hb : (k == a) = true := by simpa using h
    simp [List.lookup, hb, h]
  · have hb : (k == a) = false := by simpa using h
    simp [List.lookup, hb, h]

theorem lookup_mapSet {β : Type} (k k' : String) (v : β) (m : List (String × β)) :
    (mapSet k v m).lookup k' = if k' = k then some v else m.lookup k' := by
  induction m with
  | nil => simp [mapSet, lookup_cons_eq]
  | cons kv m ih =>
    obtain ⟨a, b⟩ := kv
    by_cases hkv : a = k
    · subst hkv
      simp only [mapSet, if_true, lookup_cons_eq]
      split <;> rfl
    · simp only [mapSet, hkv, if_false, lookup_cons_eq, ih]
      by_cases h1 : k' = a
      · have h2 : ¬ k' = k := fun e => hkv (h1 ▸ e)
        simp [h1, h2, hkv]
      · simp [h1]

theorem BackEvolves.backRefl (c : Converter) : BackEvolves c c := ⟨fun _ h => h, fun _ _ => rfl⟩

theorem BackEvolves.backThen {a b c : Converter} (h1 : BackEvolves a b) (h2 : BackEvolves b c) :
    BackEvolves a c :=
  ⟨fun id h => h2.1 id (h1.1 id h),
    fun k h => (h2.2 k (h1.1 _ h)).trans (h1.2 k h)⟩

theorem BackEvolves.of_keeps {c c' : Converter} (h : KeepsBack c c') : BackEvolves c c' := by
  unfold BackEvolves endpointsAt Config.FindBackend
  rw [h.1, h.2]
  exact ⟨fun _ h => h, fun _ _ => rfl⟩

theorem KeepsBack.keepsBackRefl (c : Converter) : KeepsBack c c := ⟨rfl, rfl⟩

theorem KeepsBack.keepsBackThen {a b c : Converter} (h1 : KeepsBack a b) (h2 : KeepsBack b c) :
    KeepsBack a c :=
  ⟨h2.1.trans h1.1, h2.2.trans h1.2⟩

theorem OnlyBackend.onlyRefl (k0 : BackendKey) (c : Converter) : OnlyBackend k0 c c :=
  ⟨rfl, fun _ _ => rfl⟩

theorem OnlyBackend.onlyThen {k0 : BackendKey} {a b c : Converter} (h1 : OnlyBackend k0 a b)
    (h2 : OnlyBackend k0 b c) : OnlyBackend k0 a c :=
  ⟨h2.1.trans h1.1, fun k hk => (h2.2 k hk).trans (h1.2 k hk)⟩

theorem onlyBackend_addEndpointsAddr (servicePort : Int) (k0 : BackendKey)
    (addr : EndpointAddress) (c : Converter) :
    OnlyBackend k0 c (addEndpointsAddr servicePort k0 addr c) := by
  unfold addEndpointsAddr
  split
  · exact ⟨rfl, fun _ _ => rfl⟩
  · refine ⟨rfl, fun k hk => ?_⟩
    simp only [Config.FindBackend, Config.modifyBackend]
    apply find?_modifyFirst_other
    intro x hx
    have hx' : x.key = k0 := by simpa using hx
    have hne : ¬ x.key = k := fun e => hk (e.symm.trans hx')
    constructor
    · simpa using hne
    · simpa [Backend.NewEndpoint, Backend.key] using hne

theorem onlyBackend_addEndpoints (env : Env) (svc : Service) (servicePort : Int) (k0 : BackendKey)
    (c : Converter) : OnlyBackend k0 c (addEndpoints env svc servicePort k0 c).2 := by
  have hcall : OnlyBackend k0 c (c.call (Call.GetEndpoints svc)) := ⟨rfl, fun _ _ => rfl⟩
  have hloop : ∀ (xs : List EndpointAddress) (c : Converter),
      OnlyBackend k0 c (forEach (addEndpointsAddr servicePort k0) xs c) :=
    fun xs c => forEach_rel (OnlyBackend k0) (OnlyBackend.onlyRefl k0)
      (fun _ _ _ => OnlyBackend.onlyThen) _ xs
      (fun x _ c _ => onlyBackend_addEndpointsAddr servicePort k0 x c) c
  have hport : ∀ (subset : EndpointSubset) (port : EndpointPort) (c : Converter),
      OnlyBackend k0 c (addEndpointsPort servicePort k0 subset port c) := by
    intro subset port c
    unfold addEndpointsPort
    split
    · exact hloop _ c
    · exact OnlyBackend.onlyRefl k0 c
  unfold addEndpoints
  split
  · exact hcall
  · exact hcall.onlyThen (forEach_rel (OnlyBackend k0) (OnlyBackend.onlyRefl k0)
      (fun _ _ _ => OnlyBackend.onlyThen) _ _
      (fun subset _ c _ => forEach_rel (OnlyBackend k0) (OnlyBackend.onlyRefl k0)
        (fun _ _ _ => OnlyBackend.onlyThen) _ _ (fun port _ c _ => hport subset port c) c) _)

theorem addBackend_eq (env : Env) (fullSvcName : String) (svcPort : Int)
    (ingAnn : BackendAnnotations) (c : Converter) :
    addBackend env fullSvcName svcPort ingAnn c
      = match resolveBackend env fullSvcName svcPort with
        | .notFound err => (.error err, c.call (Call.GetService fullSvcName))
        | .panics =>
          (.error "", (c.call (Call.GetService fullSvcName)).raise Panic.indexOutOfRange)
        | .backend svc k =>
          match c.backendAnnotations.lookup (buildID k) with
          | some ann => (.ok k, addBackendFound env fullSvcName ingAnn k ann c)
          | none =>
            if (addBackendPopulated env fullSvcName svc k c).2.panicked.isSome then
              (.error "", (addBackendPopulated env fullSvcName svc k c).2)
            else (.ok k, addBackendNew env fullSvcName ingAnn svc k c) := by
  unfold addBackend resolveBackend addBackendFound addBackendNew addBackendPopulated
  cases env.cache.GetService fullSvcName with
  | error e => rfl
  | ok svc =>
    simp only
    cases Split fullSvcName '/' with
    | nil => rfl
    | cons a l =>
      cases l with
      | nil => rfl
      | cons b l2 =>
        simp only
        cases (if svcPort = 0 then svc.Ports.head?.map (fun p => p.TargetPort)
            else some svcPort) with
        | none => rfl
        | some p => rfl

theorem addBackend_notFound (env : Env) (fullSvcName : String) (svcPort : Int)
    (ingAnn : BackendAnnotations) (c : Converter) (err : String)
    (h : resolveBackend env fullSvcName svcPort = .notFound err) :
    addBackend env fullSvcName svcPort ingAnn c
      = (.error err, c.call (Call.GetService fullSvcName)) := by
  rw [addBackend_eq, h]

theorem addBackend_panics (env : Env) (fullSvcName : String) (svcPort : Int)
    (ingAnn : BackendAnnotations) (c : Converter)
    (h : resolveBackend env fullSvcName svcPort = .panics) :
    addBackend env fullSvcName svcPort ingAnn c
      = (.error "", (c.call (Call.GetService fullSvcName)).raise Panic.indexOutOfRange) := by
  rw [addBackend_eq, h]

theorem addBackend_found (env : Env) (fullSvcName : String) (svcPort : Int)
    (ingAnn : BackendAnnotations) (c : Converter) (svc : Service) (k : BackendKey)
    (ann : BackendAnnotations)
    (h : resolveBackend env fullSvcName svcPort = .backend svc k)
    (hl : c.backendAnnotations.lookup (buildID k) = some ann) :
    addBackend env fullSvcName svcPort ingAnn c
      = (.ok k, addBackendFound env fullSvcName ingAnn k ann c) := by
  rw [addBackend_eq, h]
  simp only [hl]

theorem addBackend_new_panicked (env : Env) (fullSvcName : String) (svcPort : Int)
    (ingAnn : BackendAnnotations) (c : Converter) (svc : Service) (k : BackendKey)
    (h : resolveBackend env fullSvcName svcPort = .backend svc k)
    (hl : c.backendAnnotations.lookup (buildID k) = none)
    (hp : (addBackendPopulated env fullSvcName svc k c).2.panicked.isSome = true) :
    addBackend env fullSvcName svcPort ingAnn c
      = (.error "", (addBackendPopulated env fullSvcName svc k c).2) := by
  rw [addBackend_eq, h]
  simp only [hl, hp, if_true]

theorem addBackend_new (env : Env) (fullSvcName : String) (svcPort : Int)
    (ingAnn : BackendAnnotations) (c : Converter) (svc : Service) (k : BackendKey)
    (h : resolveBackend env fullSvcName svcPort = .backend svc k)
    (hl : c.backendAnnotations.lookup (buildID k) = none)
    (hp : (addBackendPopulated env fullSvcName svc k c).2.panicked.isSome = false) :
    addBackend env fullSvcName svcPort ingAnn c
      = (.ok k, addBackendNew env fullSvcName ingAnn svc k c) := by
  rw [addBackend_eq, h]
  simp [hl, hp]

theorem readAnnotations_state (env : Env) (source : Source)
    (annotations : List (String × String)) (c : Converter) :
    (readAnnotations env source annotations c).2
      = { c with logger := (readAnnotations env source annotations c).2.logger } := by
  unfold readAnnotations
  simp only
  split <;> split <;> rfl

theorem endpoints_acquire (cfg : Config) (k0 k : BackendKey) :
    (((cfg.AcquireBackend k0).FindBackend k).map (fun b => b.Endpoints)).getD []
      = ((cfg.FindBackend k).map (fun b => b.Endpoints)).getD [] := by
  unfold Config.AcquireBackend
  cases h0 : cfg.FindBackend k0 with
  | some b => rfl
  | none =>
    simp only [Config.FindBackend, List.find?_append]
    cases hk : cfg.backends.find? (fun b => b.key = k) with
    | some b => simp
    | none =>
      by_cases hkk : k0 = k
      · simp [createBackend, Backend.key, hkk]
      · simp [createBackend, Backend.key, hkk]

theorem backEvolves_addBackendFound (env : Env) (fullSvcName : String)
    (ingAnn : BackendAnnotations) (k : BackendKey) (ann : BackendAnnotations) (c : Converter) :
    BackEvolves c (addBackendFound env fullSvcName ingAnn k ann c) := by
  have hb : (addBackendFound env fullSvcName ingAnn k ann c).backendAnnotations
      = mapSet (buildID k) (UpdateStructBack env.globalConfig ingAnn ann).2
          c.backendAnnotations := by
    unfold addBackendFound
    simp only
    split <;> rfl
  have hh : (addBackendFound env fullSvcName ingAnn k ann c).haproxy
      = c.haproxy.AcquireBackend k := by
    unfold addBackendFound
    simp only
    split <;> rfl
  constructor
  · intro id hid
    rw [hb, lookup_mapSet]
    split
    · rfl
    · exact hid
  · intro k' _
    unfold endpointsAt
    rw [hh]
    exact endpoints_acquire c.haproxy k k'

theorem backEvolves_addBackendPopulated (env : Env) (fullSvcName : String) (svc : Service)
    (k : BackendKey) (c : Converter) (hl : c.backendAnnotations.lookup (buildID k) = none) :
    BackEvolves c (addBackendPopulated env fullSvcName svc k c).2
      ∧ (addBackendPopulated env fullSvcName svc k c).2.backendAnnotations
        = c.backendAnnotations := by
  have ho := onlyBackend_addEndpoints env svc k.Port k
    { c.call (Call.GetService fullSvcName) with
      haproxy := (c.call (Call.GetService fullSvcName)).haproxy.AcquireBackend k }
  have hb : (addBackendPopulated env fullSvcName svc k c).2.backendAnnotations
      = c.backendAnnotations := ho.1
  refine ⟨⟨fun id hid => by rw [hb]; exact hid, fun k' hk' => ?_⟩, hb⟩
  have hne : k' ≠ k := by
    intro e
    rw [e, hl] at hk'
    simp at hk'
  unfold endpointsAt
  have h2 := ho.2 k' hne
  unfold addBackendPopulated
  simp only
  rw [h2]
  exact endpoints_acquire c.haproxy k k'

theorem backEvolves_mapSet_log (c c' : Converter) (id : String) (v : BackendAnnotations)
    (hb : c'.backendAnnotations = mapSet id v c.backendAnnotations)
    (hh : c'.haproxy.backends = c.haproxy.backends) : BackEvolves c c' := by
  constructor
  · intro id' hid
    rw [hb, lookup_mapSet]
    split
    · rfl
    · exact hid
  · intro k _
    simp [endpointsAt, Config.FindBackend, hh]

theorem backEvolves_addBackendNew (env : Env) (fullSvcName : String)
    (ingAnn : BackendAnnotations) (svc : Service) (k : BackendKey) (c : Converter)
    (hl : c.backendAnnotations.lookup (buildID k) = none) :
    BackEvolves c (addBackendNew env fullSvcName ingAnn svc k c) := by
  obtain ⟨hpop, _⟩ := backEvolves_addBackendPopulated env fullSvcName svc k c hl
  refine hpop.backThen ?_
  unfold addBackendNew
  simp only
  generalize addBackendPopulated env fullSvcName svc k c = added
  have hlog : ∀ (c0 : Converter) (e : LogEntry), KeepsBack c0 (c0.log e) := fun _ _ => ⟨rfl, rfl⟩
  have h3 : KeepsBack added.2 (match added.1 with
      | some err => added.2.log (LogEntry.errorAddingEndpoints fullSvcName err)
      | none => added.2) := by
    split
    · exact hlog _ _
    · exact KeepsBack.keepsBackRefl _
  generalize (match added.1 with
      | some err => added.2.log (LogEntry.errorAddingEndpoints fullSvcName err)
      | none => added.2) = c3 at h3 ⊢
  have hread : KeepsBack c3 (readAnnotations env ⟨k.Namespace, k.Name, "service"⟩
      svc.Annotations c3).2 := by
    rw [readAnnotations_state]
    exact ⟨rfl, rfl⟩
  refine (BackEvolves.of_keeps (h3.keepsBackThen hread)).backThen ?_
  split
  · exact backEvolves_mapSet_log _ _ (buildID k) _ rfl rfl
  · exact backEvolves_mapSet_log _ _ (buildID k) _ rfl rfl

theorem backEvolves_addBackend (env : Env) (fullSvcName : String) (svcPort : Int)
    (ingAnn : BackendAnnotations) (c : Converter) :
    BackEvolves c (addBackend env fullSvcName svcPort ingAnn c).2 := by
  rw [addBackend_eq]
  split
  · exact BackEvolves.of_keeps ⟨rfl, rfl⟩
  · exact BackEvolves.of_keeps ⟨rfl, rfl⟩
  · rename_i svc k _
    split
    · exact backEvolves_addBackendFound _ _ _ _ _ _
    · rename_i hl
      split
      · exact (backEvolves_addBackendPopulated env fullSvcName svc k c hl).1
      · exact backEvolves_addBackendNew env fullSvcName ingAnn svc k c hl

theorem keepsBack_addFrontend (env : Env) (host : String) (ingAnn : Nat) (c : Converter) :
    KeepsBack c (addFrontend env host ingAnn c) := by
  unfold addFrontend KeepsBack
  simp only
  repeat' split
  all_goals simp [Converter.log]

theorem keepsBack_modifyFrontend (c : Converter) (h : String) (g : Frontend → Frontend) :
    KeepsBack c { c with haproxy := c.haproxy.modifyFrontend h g } := ⟨rfl, rfl⟩

theorem backEvolves_forEach {α : Type} (body : α → Converter → Converter) (xs : List α)
    (h : ∀ x c, BackEvolves c (body x c)) (c : Converter) :
    BackEvolves c (forEach body xs c) :=
  forEach_rel BackEvolves BackEvolves.backRefl (fun _ _ _ => BackEvolves.backThen) body xs
    (fun x _ c _ => h x c) c

theorem backEvolves_addHTTPPassthrough (env : Env) (fullSvcName : String) (ingFrontAnn : Nat)
    (ingBackAnn : BackendAnnotations) (c : Converter) :
    BackEvolves c (addHTTPPassthrough env fullSvcName ingFrontAnn ingBackAnn c) := by
  unfold addHTTPPassthrough
  split
  · exact backEvolves_addBackend _ _ _ _ _
  · exact BackEvolves.backRefl c

theorem backEvolves_syncPath (env : Env) (ing : Ingress) (hostname : String) (ingFrontAnn : Nat)
    (ingBackAnn : BackendAnnotations) (path : HTTPIngressPath) (c : Converter) :
    BackEvolves c (syncPath env ing hostname ingFrontAnn ingBackAnn path c) := by
  have hb := backEvolves_addBackend env (path.fullSvcName ing) path.Backend.ServicePort
    ingBackAnn c
  cases h : ((c.frontend hostname).FindPath path.uri).isSome with
  | true =>
    rw [syncPath_registered _ _ _ _ _ _ _ h]
    exact BackEvolves.of_keeps ⟨rfl, rfl⟩
  | false =>
    cases hp : (addBackend env (path.fullSvcName ing) path.Backend.ServicePort ingBackAnn
        c).2.panicked.isSome with
    | true =>
      rw [syncPath_panicked _ _ _ _ _ _ _ h hp]
      exact hb
    | false =>
      cases he : (addBackend env (path.fullSvcName ing) path.Backend.ServicePort ingBackAnn
          c).1 with
      | error err =>
        rw [syncPath_error _ _ _ _ _ _ _ err h hp he]
        exact hb.backThen (BackEvolves.of_keeps ⟨rfl, rfl⟩)
      | ok k =>
        rw [syncPath_ok _ _ _ _ _ _ _ k h hp he]
        exact hb.backThen ((BackEvolves.of_keeps (keepsBack_modifyFrontend _ _ _)).backThen
          (backEvolves_addHTTPPassthrough _ _ _ _ _))

theorem keepsBack_syncTLSHost (env : Env) (ing : Ingress) (hostname : String) (tls : IngressTLS)
    (host : String) (c : Converter) :
    KeepsBack c (syncTLSHost env ing hostname tls host c) := by
  have hf := addTLS_frame env ing.Namespace tls.SecretName c
  have hk : KeepsBack c (addTLS env ing.Namespace tls.SecretName c).2 :=
    ⟨by rw [hf.1], hf.2.2.2.1⟩
  by_cases hh : host = hostname
  · subst hh
    cases he : (addTLS env ing.Namespace tls.SecretName c).1 with
    | error err =>
      rw [syncTLSHost_error _ _ _ _ _ err he]
      exact hk.keepsBackThen ⟨rfl, rfl⟩
    | ok tlsPath =>
      by_cases ht : ((addTLS env ing.Namespace tls.SecretName c).2.frontend host).TLS.TLSFilename
          = ""
      · rw [syncTLSHost_assign _ _ _ _ _ tlsPath he ht]
        exact hk.keepsBackThen ⟨rfl, rfl⟩
      · by_cases hd : ((addTLS env ing.Namespace tls.SecretName c).2.frontend host).TLS.TLSFilename
            = tlsPath
        · rw [syncTLSHost_same _ _ _ _ _ tlsPath he ht hd]
          exact hk
        · rw [syncTLSHost_conflict _ _ _ _ _ tlsPath he ht hd]
          exact hk.keepsBackThen ⟨rfl, rfl⟩
  · rw [syncTLSHost_other _ _ _ _ _ _ hh]
    exact KeepsBack.keepsBackRefl c

theorem backEvolves_addDefaultHostBackend (env : Env) (fullSvcName : String) (svcPort : Int)
    (ingFrontAnn : Nat) (ingBackAnn : BackendAnnotations) (c : Converter) :
    BackEvolves c (addDefaultHostBackend env fullSvcName svcPort ingFrontAnn ingBackAnn c).2 := by
  have hb := backEvolves_addBackend env fullSvcName svcPort ingBackAnn c
  cases h : defaultHostOccupied c with
  | true =>
    rw [addDefaultHostBackend_occupied _ _ _ _ _ _ h]
    exact BackEvolves.backRefl c
  | false =>
    cases hp : (addBackend env fullSvcName svcPort ingBackAnn c).2.panicked.isSome with
    | true =>
      rw [addDefaultHostBackend_panicked _ _ _ _ _ _ h hp]
      exact hb
    | false =>
      cases he : (addBackend env fullSvcName svcPort ingBackAnn c).1 with
      | error err =>
        rw [addDefaultHostBackend_error _ _ _ _ _ _ err h hp he]
        exact hb
      | ok k =>
        rw [addDefaultHostBackend_ok _ _ _ _ _ _ k h hp he]
        exact hb.backThen ((BackEvolves.of_keeps (keepsBack_addFrontend _ _ _ _)).backThen
          (BackEvolves.of_keeps (keepsBack_modifyFrontend _ _ _)))

theorem backEvolves_syncDefaultBackend (env : Env) (ing : Ingress) (ingFrontAnn : Nat)
    (ingBackAnn : BackendAnnotations) (c : Converter) :
    BackEvolves c (syncDefaultBackend env ing ingFrontAnn ingBackAnn c) := by
  unfold syncDefaultBackend
  split
  · exact BackEvolves.backRefl c
  · rename_i b _
    have h := backEvolves_addDefaultHostBackend env
      (FullQualifiedName ing.Namespace (readServiceNamePort b).1) (readServiceNamePort b).2
      ingFrontAnn ingBackAnn c
    simp only
    split
    · exact h
    · split
      · exact h.backThen (BackEvolves.of_keeps ⟨rfl, rfl⟩)
      · exact h

theorem backEvolves_syncRule (env : Env) (ing : Ingress) (ingFrontAnn : Nat)
    (ingBackAnn : BackendAnnotations) (rule : IngressRule) (c : Converter) :
    BackEvolves c (syncRule env ing ingFrontAnn ingBackAnn rule c) := by
  unfold syncRule
  split
  · exact BackEvolves.backRefl c
  · simp only
    exact (BackEvolves.of_keeps (keepsBack_addFrontend env _ ingFrontAnn c)).backThen
      ((backEvolves_forEach _ _ (backEvolves_syncPath env ing _ ingFrontAnn ingBackAnn) _).backThen
        (backEvolves_forEach _ _
          (fun tls c => backEvolves_forEach _ _
            (fun host c => BackEvolves.of_keeps (keepsBack_syncTLSHost env ing _ tls host c)) c)
          _))

theorem keepsBack_syncIngressStart (env : Env) (ing : Ingress) (c : Converter) :
    KeepsBack c (syncIngressStart env ing c) := by
  unfold syncIngressStart
  simp only
  rw [readAnnotations_state]
  exact ⟨rfl, rfl⟩

theorem backEvolves_syncIngress (env : Env) (ing : Ingress) (c : Converter) :
    BackEvolves c (syncIngress env ing c) := by
  rw [syncIngress_eq]
  exact (BackEvolves.of_keeps (keepsBack_syncIngressStart env ing c)).backThen
    ((backEvolves_syncDefaultBackend env ing _ _ _).backThen
      (backEvolves_forEach _ _ (backEvolves_syncRule env ing _ _) _))

theorem backEvolves_syncAll (env : Env) (ingress : List Ingress) (c : Converter) :
    BackEvolves c (syncAll env ingress c) :=
  backEvolves_forEach _ _ (backEvolves_syncIngress env) c

theorem backEvolves_Sync (env : Env) (ingress : List Ingress) (c : Converter) :
    BackEvolves c (Sync env ingress c) := by
  have h := onlyCalls_Sync env ingress c
  exact (backEvolves_syncAll env ingress c).backThen
    (BackEvolves.of_keeps ⟨by rw [h.1], h.2.2.2.2.1⟩)


/-- C8: (a) when `addBackend` resolves a reference to a backend whose identifier
already has a pending record, it returns that backend without reading the
endpoints of the service and adds no endpoint to any backend; (b) every backend
that `addBackend` returns has a pending record afterwards; (c) from then on
the endpoints of the backend stay the same until the end of the pass, whatever
resources follow. -/
theorem endpoints_read_once (env : Env) :
    (∀ (fullSvcName : String) (svcPort : Int) (ingAnn : BackendAnnotations) (c : Converter)
        (svc : Service) (k : BackendKey),
        resolveBackend env fullSvcName svcPort = .backend svc k →
        (c.backendAnnotations.lookup (buildID k)).isSome = true →
        (addBackend env fullSvcName svcPort ingAnn c).1 = .ok k
          ∧ (addBackend env fullSvcName svcPort ingAnn c).2.calls
            = c.calls ++ [Call.GetService fullSvcName]
          ∧ ∀ k', endpointsAt (addBackend env fullSvcName svcPort ingAnn c).2 k'
            = endpointsAt c k')
    ∧ (∀ (fullSvcName : String) (svcPort : Int) (ingAnn : BackendAnnotations) (c : Converter)
        (k : BackendKey), (addBackend env fullSvcName svcPort ingAnn c).1 = .ok k →
        ((addBackend env fullSvcName svcPort ingAnn c).2.backendAnnotations.lookup
          (buildID k)).isSome = true)
    ∧ (∀ (ingress : List Ingress) (c : Converter) (k : BackendKey),
        (c.backendAnnotations.lookup (buildID k)).isSome = true →
        endpointsAt (syncAll env ingress c) k = endpointsAt c k
          ∧ endpointsAt (Sync env ingress c) k = endpointsAt c k) := by
  refine ⟨?_, ?_, ?_⟩
  · intro fullSvcName svcPort ingAnn c svc k hr hl
    obtain ⟨ann, hann⟩ := Option.isSome_iff_exists.mp hl
    rw [addBackend_found _ _ _ _ _ svc k ann hr hann]
    refine ⟨rfl, ?_, ?_⟩
    · unfold addBackendFound
      simp only
      split <;> rfl
    · intro k'
      have hh : (addBackendFound env fullSvcName ingAnn k ann c).haproxy
          = c.haproxy.AcquireBackend k := by
        unfold addBackendFound
        simp only
        split <;> rfl
      unfold endpointsAt
      rw [hh]
      exact endpoints_acquire c.haproxy k k'
  · intro fullSvcName svcPort ingAnn c k
    rw [addBackend_eq]
    split
    · simp
    · simp
    · rename_i svc k0 _
      split
      · intro h
        have hk : k0 = k := by simpa using h
        subst hk
        simp only
        unfold addBackendFound
        simp only
        split <;> simp [Converter.log, lookup_mapSet]
      · split
        · simp
        · intro h
          have hk : k0 = k := by simpa using h
          subst hk
          simp only
          unfold addBackendNew
          simp only
          split <;> simp [Converter.log, lookup_mapSet]
  · intro ingress c k hk
    exact ⟨(backEvolves_syncAll env ingress c).2 k hk, (backEvolves_Sync env ingress c).2 k hk⟩

/-- A concrete instance of C8: after `default/echo1:8080` was acquired, a second
reference to it only looks up the service and leaves its endpoint in place. -/
theorem endpoints_read_once_witness :
    (addBackend demoEnv "default/echo1" 8080 (backView demoEnv echo2Ingress) echo1Converter).1
        = .ok ⟨"default", "echo1", 8080⟩
    ∧ (addBackend demoEnv "default/echo1" 8080 (backView demoEnv echo2Ingress)
        echo1Converter).2.calls = echo1Converter.calls ++ [Call.GetService "default/echo1"]
    ∧ endpointsAt (Sync demoEnv [echo2Ingress] echo1Converter) ⟨"default", "echo1", 8080⟩
        = endpointsAt echo1Converter ⟨"default", "echo1", 8080⟩ :=
  ⟨((endpoints_read_once demoEnv).1 "default/echo1" 8080 (backView demoEnv echo2Ingress)
      echo1Converter (mkService "default" "echo1" 8080) ⟨"default", "echo1", 8080⟩ rfl
      (by decide)).1,
   ((endpoints_read_once demoEnv).1 "default/echo1" 8080 (backView demoEnv echo2Ingress)
      echo1Converter (mkService "default" "echo1" 8080) ⟨"default", "echo1", 8080⟩ rfl
      (by decide)).2.1,
   ((endpoints_read_once demoEnv).2.2 [echo2Ingress] echo1Converter ⟨"default", "echo1", 8080⟩
      (by decide)).2⟩


/-! ## Frontend records through a pass -/

theorem Grows.growsRefl (c : Converter) : Grows c c := ⟨fun _ h => h, fun h => h⟩

theorem Grows.growsThen {a b c : Converter} (h1 : Grows a b) (h2 : Grows b c) : Grows a c :=
  ⟨fun e h => h2.1 e (h1.1 e h), fun h => h2.2 (h1.2 h)⟩

theorem grows_log (c : Converter) (e : LogEntry) : Grows c (c.log e) :=
  ⟨fun e' h => by simp [Converter.log, h], fun h => h⟩

theorem grows_call (c : Converter) (x : Call) : Grows c (c.call x) := ⟨fun _ h => h, fun h => h⟩

theorem grows_raise (c : Converter) (p : Panic) : Grows c (c.raise p) :=
  ⟨fun _ h => h, fun _ => by simp [Converter.raise]⟩

theorem grows_of_eq {c c' : Converter} (hl : c'.logger = c.logger)
    (hp : c'.panicked = c.panicked) : Grows c c' := by
  unfold Grows
  rw [hl, hp]
  exact ⟨fun _ h => h, fun h => h⟩

theorem grows_forEach {α : Type} (body : α → Converter → Converter) (xs : List α)
    (h : ∀ x c, Grows c (body x c)) (c : Converter) : Grows c (forEach body xs c) :=
  forEach_rel Grows Grows.growsRefl (fun _ _ _ => Grows.growsThen) body xs (fun x _ c _ => h x c) c

theorem grows_addEndpointsAddr (servicePort : Int) (k : BackendKey) (addr : EndpointAddress)
    (c : Converter) : Grows c (addEndpointsAddr servicePort k addr c) := by
  unfold addEndpointsAddr
  split
  · exact grows_raise c _
  · exact grows_of_eq rfl rfl

theorem grows_addEndpoints (env : Env) (svc : Service) (servicePort : Int) (k : BackendKey)
    (c : Converter) : Grows c (addEndpoints env svc servicePort k c).2 := by
  have hport : ∀ (subset : EndpointSubset) (port : EndpointPort) (c : Converter),
      Grows c (addEndpointsPort servicePort k subset port c) := by
    intro subset port c
    unfold addEndpointsPort
    split
    · exact grows_forEach _ _ (grows_addEndpointsAddr servicePort k) c
    · exact Grows.growsRefl c
  unfold addEndpoints
  split
  · exact grows_call c _
  · exact (grows_call c _).growsThen
      (grows_forEach _ _ (fun subset c => grows_forEach _ _ (hport subset) c) _)

theorem grows_readAnnotations (env : Env) (source : Source)
    (annotations : List (String × String)) (c : Converter) :
    Grows c (readAnnotations env source annotations c).2 := by
  unfold readAnnotations
  simp only
  split <;> split
  · exact (grows_log c _).growsThen (grows_log _ _)
  · exact grows_log c _
  · exact grows_log c _
  · exact Grows.growsRefl c

theorem grows_addBackendFound (env : Env) (fullSvcName : String) (ingAnn : BackendAnnotations)
    (k : BackendKey) (ann : BackendAnnotations) (c : Converter) :
    Grows c (addBackendFound env fullSvcName ingAnn k ann c) := by
  unfold addBackendFound Grows
  simp only
  split <;> simp [Converter.log, Converter.call]
  intro e he
  exact Or.inl he

theorem grows_addBackendPopulated (env : Env) (fullSvcName : String) (svc : Service)
    (k : BackendKey) (c : Converter) :
    Grows c (addBackendPopulated env fullSvcName svc k c).2 := by
  have h := grows_addEndpoints env svc k.Port k
    { c.call (Call.GetService fullSvcName) with
      haproxy := (c.call (Call.GetService fullSvcName)).haproxy.AcquireBackend k }
  exact h

theorem grows_addBackendNew (env : Env) (fullSvcName : String) (ingAnn : BackendAnnotations)
    (svc : Service) (k : BackendKey) (c : Converter) :
    Grows c (addBackendNew env fullSvcName ingAnn svc k c) := by
  refine (grows_addBackendPopulated env fullSvcName svc k c).growsThen ?_
  unfold addBackendNew
  simp only
  generalize addBackendPopulated env fullSvcName svc k c = added
  have h3 : Grows added.2 (match added.1 with
      | some err => added.2.log (LogEntry.errorAddingEndpoints fullSvcName err)
      | none => added.2) := by
    split
    · exact grows_log _ _
    · exact Grows.growsRefl _
  generalize (match added.1 with
      | some err => added.2.log (LogEntry.errorAddingEndpoints fullSvcName err)
      | none => added.2) = c3 at h3 ⊢
  have hread := grows_readAnnotations env ⟨k.Namespace, k.Name, "service"⟩ svc.Annotations c3
  refine (h3.growsThen hread).growsThen ?_
  generalize (readAnnotations env ⟨k.Namespace, k.Name, "service"⟩ svc.Annotations c3) = read
  unfold Grows
  split <;> simp [Converter.log]
  intro e he
  exact Or.inl he

theorem grows_addBackend (env : Env) (fullSvcName : String) (svcPort : Int)
    (ingAnn : BackendAnnotations) (c : Converter) :
    Grows c (addBackend env fullSvcName svcPort ingAnn c).2 := by
  rw [addBackend_eq]
  split
  · exact grows_call c _
  · exact (grows_call c _).growsThen (grows_raise _ _)
  · rename_i svc k _
    split
    · exact grows_addBackendFound _ _ _ _ _ _
    · split
      · exact grows_addBackendPopulated _ _ _ _ _
      · exact grows_addBackendNew _ _ _ _ _ _

theorem grows_addHTTPPassthrough (env : Env) (fullSvcName : String) (ingFrontAnn : Nat)
    (ingBackAnn : BackendAnnotations) (c : Converter) :
    Grows c (addHTTPPassthrough env fullSvcName ingFrontAnn ingBackAnn c) := by
  unfold addHTTPPassthrough
  split
  · exact grows_addBackend _ _ _ _ _
  · exact Grows.growsRefl c

theorem grows_addTLS (env : Env) (ns secretName : String) (c : Converter) :
    Grows c (addTLS env ns secretName c).2 := by
  refine ⟨fun e he => ?_, fun h => by rw [(addTLS_frame env ns secretName c).2.2.2.2]; exact h⟩
  rcases addTLS_logger env ns secretName c with h | ⟨_, _, h⟩
  · rw [h]
    exact he
  · rw [h]
    exact List.mem_append_left _ he


theorem RecEvolves.recRefl (env : Env) (c : Converter) : RecEvolves env c c :=
  ⟨Nat.le_refl _, fun _ _ => ⟨rfl, fun _ _ => rfl⟩, fun _ _ h => h, Grows.growsRefl c⟩

theorem RecEvolves.recThen {env : Env} {a b c : Converter} (h1 : RecEvolves env a b)
    (h2 : RecEvolves env b c) : RecEvolves env a c := by
  obtain ⟨l1, r1, m1, g1⟩ := h1
  obtain ⟨l2, r2, m2, g2⟩ := h2
  refine ⟨Nat.le_trans l1 l2, fun r hr => ?_, fun h r hm => m2 h r (m1 h r hm), g1.growsThen g2⟩
  have hr2 := r2 r (Nat.lt_of_lt_of_le hr l1)
  have hr1 := r1 r hr
  refine ⟨hr2.1.trans hr1.1, fun f hf => ?_⟩
  have e1 := hr1.2 f hf
  rw [hr2.2 f (by rw [e1]; exact hf), e1]

theorem recEvolves_of_eq {env : Env} {c c' : Converter}
    (hr : c'.frontendRecords = c.frontendRecords)
    (hm : c'.frontendAnnotations = c.frontendAnnotations) (hg : Grows c c') :
    RecEvolves env c c' := by
  have hfa : ∀ r, c'.frontAnn r = c.frontAnn r := fun r => by
    simp [Converter.frontAnn, hr]
  refine ⟨by rw [hr], fun r _ => ⟨by rw [hfa], fun f _ => by rw [hfa]⟩, fun h r hl => ?_, hg⟩
  rw [hm]
  exact hl

theorem recEvolves_of_keeps {env : Env} {c c' : Converter} (hk : KeepsFront c c')
    (hg : Grows c c') : RecEvolves env c c' :=
  recEvolves_of_eq hk.2.1 hk.2.2 hg

theorem RecEvolvesAt.atRefl (env : Env) (ref : Nat) (c : Converter) : RecEvolvesAt env ref c c :=
  ⟨RecEvolves.recRefl env c, fun _ _ h => Or.inl h⟩

theorem RecEvolvesAt.atThen {env : Env} {ref : Nat} {a b c : Converter}
    (h1 : RecEvolvesAt env ref a b) (h2 : RecEvolvesAt env ref b c) : RecEvolvesAt env ref a c := by
  refine ⟨h1.1.recThen h2.1, fun h r hm => ?_⟩
  rcases h2.2 h r hm with hb | hb
  · exact h1.2 h r hb
  · exact Or.inr hb

theorem recEvolvesAt_of_eq {env : Env} {ref : Nat} {c c' : Converter}
    (hr : c'.frontendRecords = c.frontendRecords)
    (hm : c'.frontendAnnotations = c.frontendAnnotations) (hg : Grows c c') :
    RecEvolvesAt env ref c c' :=
  ⟨recEvolves_of_eq hr hm hg, fun h r hl => Or.inl (by rw [← hm]; exact hl)⟩

theorem recEvolvesAt_of_keeps {env : Env} {ref : Nat} {c c' : Converter} (hk : KeepsFront c c')
    (hg : Grows c c') : RecEvolvesAt env ref c c' :=
  recEvolvesAt_of_eq hk.2.1 hk.2.2 hg

theorem recEvolvesAt_forEach {α : Type} (env : Env) (ref : Nat)
    (body : α → Converter → Converter) (xs : List α)
    (h : ∀ x c, RecEvolvesAt env ref c (body x c)) (c : Converter) :
    RecEvolvesAt env ref c (forEach body xs c) :=
  forEach_rel (RecEvolvesAt env ref) (RecEvolvesAt.atRefl env ref)
    (fun _ _ _ => RecEvolvesAt.atThen) body xs (fun x _ c _ => h x c) c

theorem mergeField_kept {α : Type} [DecidableEq α] (d i a : α) (h : a ≠ d) :
    mergeField d i a = a := by
  simp [mergeField, h]

theorem updateStructFront_get_kept (d : ConfigDefaults) (src dst : FrontendAnnotations)
    (f : FrontField) (h : dst.get f ≠ d.front f) :
    (UpdateStructFront d src dst).2.get f = dst.get f := by
  cases f <;>
    simp only [FrontendAnnotations.get, ConfigDefaults.front, ne_eq, Value.str.injEq,
      Value.int.injEq, Value.bool.injEq] at h <;>
    simp [UpdateStructFront, FrontendAnnotations.get, mergeField_kept _ _ _ h]

theorem updateStructFront_conflict (d : ConfigDefaults) (src dst : FrontendAnnotations)
    (f : FrontField) (hs : src.get f ≠ d.front f) (hd : dst.get f ≠ d.front f)
    (hne : dst.get f ≠ src.get f) : f.key ∈ (UpdateStructFront d src dst).1 := by
  cases f <;>
    simp only [FrontendAnnotations.get, ConfigDefaults.front, ne_eq, Value.str.injEq,
      Value.int.injEq, Value.bool.injEq] at hs hd hne <;>
    simp [UpdateStructFront, skippedName, conflictField, FrontField.key, hs, hd, hne]

theorem frontAnn_set (c : Converter) (i r : Nat) (v : FrontendAnnotations) (c' : Converter)
    (h : c'.frontendRecords = c.frontendRecords.set i v) :
    c'.frontAnn r = if r = i ∧ i < c.frontendRecords.length then v else c.frontAnn r := by
  unfold Converter.frontAnn
  rw [h, List.getD_eq_getElem?_getD, List.getD_eq_getElem?_getD, List.getElem?_set]
  by_cases hri : i = r
  · subst hri
    by_cases hl : i < c.frontendRecords.length
    · simp [hl]
    · have : c.frontendRecords[i]? = none := by
        simpa using Nat.le_of_not_lt hl
      simp [hl, this]
  · have : ¬ r = i := fun e => hri e.symm
    simp [hri, this]


theorem addFrontend_new (env : Env) (host : String) (ingAnn : Nat) (c : Converter)
    (h : c.frontendAnnotations.lookup host = none) :
    addFrontend env host ingAnn c
      = { c with
          haproxy := c.haproxy.AcquireFrontend host
          frontendAnnotations := mapSet host ingAnn c.frontendAnnotations } := by
  simp [addFrontend, h]

theorem addFrontend_merge (env : Env) (host : String) (ingAnn ann : Nat) (c : Converter)
    (h : c.frontendAnnotations.lookup host = some ann) :
    addFrontend env host ingAnn c
      = if (addFrontendSkipped env ingAnn ann c).length > 0 then
          (addFrontendMerged env host ingAnn ann c).log
            (LogEntry.skippingFrontendAnnotations
              ((addFrontendMerged env host ingAnn ann c).frontAnn ingAnn).Source
              (addFrontendSkipped env ingAnn ann c))
        else addFrontendMerged env host ingAnn ann c := by
  simp only [addFrontend, h, addFrontendSkipped, addFrontendMerged]
  rfl

theorem recEvolvesAt_addFrontendMerged (env : Env) (host : String) (ingAnn ann : Nat)
    (c : Converter) : RecEvolvesAt env ingAnn c (addFrontendMerged env host ingAnn ann c) := by
  have hset : (addFrontendMerged env host ingAnn ann c).frontendRecords
      = c.frontendRecords.set ann
          (UpdateStructFront env.globalConfig (c.frontAnn ingAnn) (c.frontAnn ann)).2 := rfl
  refine ⟨⟨by simp [addFrontendMerged], fun r _ => ?_, fun _ _ h => h, Grows.growsRefl c⟩,
    fun _ _ h => Or.inl h⟩
  rw [frontAnn_set c ann r _ _ hset]
  split
  · rename_i hr
    rw [hr.1]
    exact ⟨rfl, fun f hf => updateStructFront_get_kept _ _ _ f hf⟩
  · exact ⟨rfl, fun _ _ => rfl⟩

theorem recEvolvesAt_log (env : Env) (ref : Nat) (c : Converter) (e : LogEntry) :
    RecEvolvesAt env ref c (c.log e) :=
  recEvolvesAt_of_keeps ⟨rfl, rfl, rfl⟩ (grows_log c e)

theorem recEvolvesAt_addFrontend (env : Env) (host : String) (ingAnn : Nat) (c : Converter) :
    RecEvolvesAt env ingAnn c (addFrontend env host ingAnn c) := by
  cases h : c.frontendAnnotations.lookup host with
  | none =>
    rw [addFrontend_new env host ingAnn c h]
    refine ⟨⟨Nat.le_refl _, fun _ _ => ⟨rfl, fun _ _ => rfl⟩, fun h' r hm => ?_,
      Grows.growsRefl c⟩, fun h' r hm => ?_⟩
    · simp only [lookup_mapSet]
      split
      · rename_i hh
        rw [hh, h] at hm
        exact absurd hm (by simp)
      · exact hm
    · simp only [lookup_mapSet] at hm
      split at hm
      · exact Or.inr (by simpa using hm.symm)
      · exact Or.inl hm
  | some ann =>
    rw [addFrontend_merge env host ingAnn ann c h]
    split
    · exact (recEvolvesAt_addFrontendMerged env host ingAnn ann c).atThen
        (recEvolvesAt_log env ingAnn _ _)
    · exact recEvolvesAt_addFrontendMerged env host ingAnn ann c

theorem recEvolvesAt_syncPath (env : Env) (ing : Ingress) (hostname : String) (ingFrontAnn : Nat)
    (ingBackAnn : BackendAnnotations) (path : HTTPIngressPath) (c : Converter) :
    RecEvolvesAt env ingFrontAnn c (syncPath env ing hostname ingFrontAnn ingBackAnn path c) := by
  have hb : RecEvolvesAt env ingFrontAnn c
      (addBackend env (path.fullSvcName ing) path.Backend.ServicePort ingBackAnn c).2 :=
    recEvolvesAt_of_keeps (keepsFront_addBackend _ _ _ _ _) (grows_addBackend _ _ _ _ _)
  cases h : ((c.frontend hostname).FindPath path.uri).isSome with
  | true =>
    rw [syncPath_registered _ _ _ _ _ _ _ h]
    exact recEvolvesAt_log env _ c _
  | false =>
    cases hp : (addBackend env (path.fullSvcName ing) path.Backend.ServicePort ingBackAnn
        c).2.panicked.isSome with
    | true =>
      rw [syncPath_panicked _ _ _ _ _ _ _ h hp]
      exact hb
    | false =>
      cases he : (addBackend env (path.fullSvcName ing) path.Backend.ServicePort ingBackAnn
          c).1 with
      | error err =>
        rw [syncPath_error _ _ _ _ _ _ _ err h hp he]
        exact hb.atThen (recEvolvesAt_log env _ _ _)
      | ok k =>
        rw [syncPath_ok _ _ _ _ _ _ _ k h hp he]
        refine hb.atThen (RecEvolvesAt.atThen (b := { (addBackend env (path.fullSvcName ing)
            path.Backend.ServicePort ingBackAnn c).2 with
          haproxy := (addBackend env (path.fullSvcName ing) path.Backend.ServicePort ingBackAnn
            c).2.haproxy.modifyFrontend hostname (fun f => f.AddPath k path.uri) })
          (recEvolvesAt_of_eq rfl rfl (grows_of_eq rfl rfl)) ?_)
        exact recEvolvesAt_of_keeps (keepsFront_addHTTPPassthrough _ _ _ _ _)
          (grows_addHTTPPassthrough _ _ _ _ _)

theorem recEvolvesAt_syncTLSHost (env : Env) (ref : Nat) (ing : Ingress) (hostname : String)
    (tls : IngressTLS) (host : String) (c : Converter) :
    RecEvolvesAt env ref c (syncTLSHost env ing hostname tls host c) := by
  have hf := addTLS_frame env ing.Namespace tls.SecretName c
  have hk : RecEvolvesAt env ref c (addTLS env ing.Namespace tls.SecretName c).2 :=
    recEvolvesAt_of_eq hf.2.1 hf.2.2.1 (grows_addTLS _ _ _ _)
  by_cases hh : host = hostname
  · subst hh
    cases he : (addTLS env ing.Namespace tls.SecretName c).1 with
    | error err =>
      rw [syncTLSHost_error _ _ _ _ _ err he]
      exact hk.atThen (recEvolvesAt_log env ref _ _)
    | ok tlsPath =>
      by_cases ht : ((addTLS env ing.Namespace tls.SecretName c).2.frontend host).TLS.TLSFilename
          = ""
      · rw [syncTLSHost_assign _ _ _ _ _ tlsPath he ht]
        exact hk.atThen (recEvolvesAt_of_eq rfl rfl (grows_of_eq rfl rfl))
      · by_cases hd : ((addTLS env ing.Namespace tls.SecretName c).2.frontend host).TLS.TLSFilename
            = tlsPath
        · rw [syncTLSHost_same _ _ _ _ _ tlsPath he ht hd]
          exact hk
        · rw [syncTLSHost_conflict _ _ _ _ _ tlsPath he ht hd]
          exact hk.atThen (recEvolvesAt_log env ref _ _)
  · rw [syncTLSHost_other _ _ _ _ _ _ hh]
    exact RecEvolvesAt.atRefl env ref c

theorem recEvolvesAt_addDefaultHostBackend (env : Env) (fullSvcName : String) (svcPort : Int)
    (ingFrontAnn : Nat) (ingBackAnn : BackendAnnotations) (c : Converter) :
    RecEvolvesAt env ingFrontAnn c
      (addDefaultHostBackend env fullSvcName svcPort ingFrontAnn ingBackAnn c).2 := by
  have hb : RecEvolvesAt env ingFrontAnn c (addBackend env fullSvcName svcPort ingBackAnn c).2 :=
    recEvolvesAt_of_keeps (keepsFront_addBackend _ _ _ _ _) (grows_addBackend _ _ _ _ _)
  cases h : defaultHostOccupied c with
  | true =>
    rw [addDefaultHostBackend_occupied _ _ _ _ _ _ h]
    exact RecEvolvesAt.atRefl env _ c
  | false =>
    cases hp : (addBackend env fullSvcName svcPort ingBackAnn c).2.panicked.isSome with
    | true =>
      rw [addDefaultHostBackend_panicked _ _ _ _ _ _ h hp]
      exact hb
    | false =>
      cases he : (addBackend env fullSvcName svcPort ingBackAnn c).1 with
      | error err =>
        rw [addDefaultHostBackend_error _ _ _ _ _ _ err h hp he]
        exact hb
      | ok k =>
        rw [addDefaultHostBackend_ok _ _ _ _ _ _ k h hp he]
        exact hb.atThen ((recEvolvesAt_addFrontend env "*" ingFrontAnn _).atThen
          (recEvolvesAt_of_eq rfl rfl (grows_of_eq rfl rfl)))

theorem recEvolvesAt_syncDefaultBackend (env : Env) (ing : Ingress) (ingFrontAnn : Nat)
    (ingBackAnn : BackendAnnotations) (c : Converter) :
    RecEvolvesAt env ingFrontAnn c (syncDefaultBackend env ing ingFrontAnn ingBackAnn c) := by
  unfold syncDefaultBackend
  split
  · exact RecEvolvesAt.atRefl env _ c
  · rename_i b _
    have h := recEvolvesAt_addDefaultHostBackend env
      (FullQualifiedName ing.Namespace (readServiceNamePort b).1) (readServiceNamePort b).2
      ingFrontAnn ingBackAnn c
    simp only
    split
    · exact h
    · split
      · exact h.atThen (recEvolvesAt_log env _ _ _)
      · exact h

theorem recEvolvesAt_tlsLoop (env : Env) (ref : Nat) (ing : Ingress) (hostname : String)
    (c : Converter) :
    RecEvolvesAt env ref c
      (forEach (fun tls => forEach (syncTLSHost env ing hostname tls) tls.Hosts) ing.TLS c) :=
  recEvolvesAt_forEach env ref _ _
    (fun tls c => recEvolvesAt_forEach env ref _ _
      (fun host c => recEvolvesAt_syncTLSHost env ref ing hostname tls host c) c) c

theorem syncRule_http (env : Env) (ing : Ingress) (ingFrontAnn : Nat)
    (ingBackAnn : BackendAnnotations) (rule : IngressRule) (paths : List HTTPIngressPath)
    (c : Converter) (h : rule.HTTP = some paths) :
    syncRule env ing ingFrontAnn ingBackAnn rule c
      = forEach (fun tls => forEach (syncTLSHost env ing rule.hostname tls) tls.Hosts) ing.TLS
          (forEach (syncPath env ing rule.hostname ingFrontAnn ingBackAnn) paths
            (addFrontend env rule.hostname ingFrontAnn c)) := by
  simp [syncRule, h, IngressRule.hostname]

theorem recEvolvesAt_syncRule (env : Env) (ing : Ingress) (ingFrontAnn : Nat)
    (ingBackAnn : BackendAnnotations) (rule : IngressRule) (c : Converter) :
    RecEvolvesAt env ingFrontAnn c (syncRule env ing ingFrontAnn ingBackAnn rule c) := by
  cases h : rule.HTTP with
  | none =>
    simp only [syncRule, h]
    exact RecEvolvesAt.atRefl env _ c
  | some paths =>
    rw [syncRule_http _ _ _ _ _ paths _ h]
    exact (recEvolvesAt_addFrontend env _ ingFrontAnn c).atThen
      ((recEvolvesAt_forEach env ingFrontAnn _ _
        (recEvolvesAt_syncPath env ing _ ingFrontAnn ingBackAnn) _).atThen
        (recEvolvesAt_tlsLoop env ingFrontAnn ing _ _))

theorem recEvolves_syncIngressStart (env : Env) (ing : Ingress) (c : Converter) :
    RecEvolves env c (syncIngressStart env ing c) := by
  have hk := keepsFront_readAnnotations env ⟨ing.Namespace, ing.Name, "ingress"⟩
    ing.Annotations c
  have hg := grows_readAnnotations env ⟨ing.Namespace, ing.Name, "ingress"⟩ ing.Annotations c
  have hrec : (syncIngressStart env ing c).frontendRecords
      = c.frontendRecords ++ [frontView env ing] := by
    unfold syncIngressStart frontView
    simp only [hk.2.1]
    rfl
  refine ⟨by simp [hrec], fun r hr => ?_, fun h r hm => ?_, hg⟩
  · have : (syncIngressStart env ing c).frontAnn r = c.frontAnn r := by
      unfold Converter.frontAnn
      rw [hrec, List.getD_append _ _ _ _ hr]
    rw [this]
    exact ⟨rfl, fun _ _ => rfl⟩
  · have : (syncIngressStart env ing c).frontendAnnotations = c.frontendAnnotations := hk.2.2
    rw [this]
    exact hm

theorem recEvolves_syncIngress (env : Env) (ing : Ingress) (c : Converter) :
    RecEvolves env c (syncIngress env ing c) := by
  rw [syncIngress_eq]
  exact (recEvolves_syncIngressStart env ing c).recThen
    ((recEvolvesAt_syncDefaultBackend env ing _ _ _).atThen
      (recEvolvesAt_forEach env _ _ _ (recEvolvesAt_syncRule env ing _ _) _)).1

theorem recEvolves_syncAll (env : Env) (ingress : List Ingress) (c : Converter) :
    RecEvolves env c (syncAll env ingress c) :=
  forEach_rel (RecEvolves env) (RecEvolves.recRefl env) (fun _ _ _ => RecEvolves.recThen) _ _
    (fun ing _ c _ => recEvolves_syncIngress env ing c) c

theorem recEvolves_Sync (env : Env) (ingress : List Ingress) (c : Converter) :
    RecEvolves env c (Sync env ingress c) := by
  have h := onlyCalls_Sync env ingress c
  exact (recEvolves_syncAll env ingress c).recThen
    (recEvolves_of_eq h.2.2.1 h.2.2.2.1 (grows_of_eq h.2.1 h.2.2.2.2.2))


theorem forEach_reach {α : Type} (R : Converter → Converter → Prop) (hrefl : ∀ c, R c c)
    (htrans : ∀ a b c, R a b → R b c → R a c)
    (body : α → Converter → Converter) (hbody : ∀ x c, R c (body x c)) (xs : List α) (x : α)
    (hx : x ∈ xs) (c : Converter) (hfin : (forEach body xs c).panicked = none) :
    ∃ s, R c s ∧ s.panicked = none ∧ R (body x s) (forEach body xs c) := by
  induction xs generalizing c with
  | nil => simp at hx
  | cons y ys ih =>
    have hc : c.panicked = none := by
      by_contra hne
      rw [forEach_panicked _ _ _ hne] at hfin
      exact hne hfin
    rw [forEach_cons _ _ _ _ hc] at hfin ⊢
    rcases List.mem_cons.mp hx with hxy | hxs
    · subst hxy
      exact ⟨c, hrefl c, hc,
        forEach_rel R hrefl htrans body ys (fun z _ c _ => hbody z c) _⟩
    · obtain ⟨s, hs, hp, hr⟩ := ih hxs (body y c) hfin
      exact ⟨s, htrans _ _ _ (hbody y c) hs, hp, hr⟩

theorem addFrontend_lookup (env : Env) (host : String) (ref : Nat) (c : Converter) :
    (addFrontend env host ref c).frontendAnnotations.lookup host
      = some ((c.frontendAnnotations.lookup host).getD ref) := by
  cases h : c.frontendAnnotations.lookup host with
  | none =>
    rw [addFrontend_new env host ref c h]
    simp [lookup_mapSet]
  | some ann =>
    rw [addFrontend_merge env host ref ann c h]
    split <;> simp [Converter.log, addFrontendMerged, h]

theorem syncIngressStart_records (env : Env) (ing : Ingress) (c : Converter) :
    (syncIngressStart env ing c).frontendRecords = c.frontendRecords ++ [frontView env ing] := by
  have hk := keepsFront_readAnnotations env ⟨ing.Namespace, ing.Name, "ingress"⟩
    ing.Annotations c
  unfold syncIngressStart frontView
  simp only [hk.2.1]
  rfl

theorem syncIngressStart_frontAnn (env : Env) (ing : Ingress) (c : Converter) :
    (syncIngressStart env ing c).frontAnn c.frontendRecords.length = frontView env ing := by
  unfold Converter.frontAnn
  rw [syncIngressStart_records, List.getD_eq_getElem?_getD]
  simp

theorem syncIngressStart_lookup (env : Env) (ing : Ingress) (c : Converter) :
    (syncIngressStart env ing c).frontendAnnotations = c.frontendAnnotations :=
  (keepsFront_readAnnotations env ⟨ing.Namespace, ing.Name, "ingress"⟩ ing.Annotations c).2.2

theorem frontView_source (env : Env) (ing : Ingress) :
    (frontView env ing).Source = ⟨ing.Namespace, ing.Name, "ingress"⟩ := rfl

/-- The state right before `syncIngress` accumulates the view of the resource
for a host for which the resource has a rule with an HTTP section. -/
theorem syncIngress_reach (env : Env) (ing : Ingress) (h : String) (c : Converter)
    (hrule : ∃ rule ∈ ing.Rules, rule.HTTP.isSome = true ∧ rule.hostname = h)
    (hfin : (syncIngress env ing c).panicked = none) :
    ∃ s, RecEvolvesAt env c.frontendRecords.length (syncIngressStart env ing c) s
      ∧ RecEvolvesAt env c.frontendRecords.length
          (addFrontend env h c.frontendRecords.length s) (syncIngress env ing c) := by
  obtain ⟨rule, hmem, hhttp, hhost⟩ := hrule
  obtain ⟨paths, hpaths⟩ := Option.isSome_iff_exists.mp hhttp
  rw [syncIngress_eq] at hfin ⊢
  obtain ⟨s, hs, _, hr⟩ := forEach_reach (RecEvolvesAt env c.frontendRecords.length)
    (RecEvolvesAt.atRefl env _) (fun _ _ _ => RecEvolvesAt.atThen)
    (syncRule env ing c.frontendRecords.length (backView env ing))
    (recEvolvesAt_syncRule env ing _ _) ing.Rules rule hmem _ hfin
  refine ⟨s, (recEvolvesAt_syncDefaultBackend env ing _ _ _).atThen hs, ?_⟩
  rw [syncRule_http _ _ _ _ _ paths _ hpaths, hhost] at hr
  exact ((recEvolvesAt_forEach env _ _ _
    (recEvolvesAt_syncPath env ing h _ (backView env ing)) _).atThen
    (recEvolvesAt_tlsLoop env _ ing h _)).atThen hr

theorem pending_after_syncIngress (env : Env) (ing : Ingress) (h : String) (f : FrontField)
    (c : Converter) (hfresh : c.frontendAnnotations.lookup h = none)
    (hrule : ∃ rule ∈ ing.Rules, rule.HTTP.isSome = true ∧ rule.hostname = h)
    (hfin : (syncIngress env ing c).panicked = none)
    (hv : (frontView env ing).get f ≠ env.globalConfig.front f) :
    (syncIngress env ing c).frontendAnnotations.lookup h = some c.frontendRecords.length
      ∧ ((syncIngress env ing c).frontAnn c.frontendRecords.length).get f
          = (frontView env ing).get f
      ∧ c.frontendRecords.length < (syncIngress env ing c).frontendRecords.length := by
  obtain ⟨s, hs, hr⟩ := syncIngress_reach env ing h c hrule hfin
  have hall := (hs.atThen (recEvolvesAt_addFrontend env h c.frontendRecords.length s)).atThen hr
  have hlen : c.frontendRecords.length < (syncIngressStart env ing c).frontendRecords.length := by
    rw [syncIngressStart_records]
    simp
  refine ⟨?_, ?_, Nat.lt_of_lt_of_le hlen hall.1.1⟩
  · apply hr.1.2.2.1
    rw [addFrontend_lookup]
    cases hl : s.frontendAnnotations.lookup h with
    | none => rfl
    | some r =>
      rcases hs.2 h r hl with h1 | h1
      · rw [syncIngressStart_lookup, hfresh] at h1
        exact absurd h1 (by simp)
      · simp [h1]
  · have := (hall.1.2.1 c.frontendRecords.length hlen).2 f
      (by rw [syncIngressStart_frontAnn]; exact hv)
    rw [this, syncIngressStart_frontAnn]

theorem conflict_logged (env : Env) (ing : Ingress) (h : String) (f : FrontField)
    (c : Converter) (r0 : Nat) (hmap : c.frontendAnnotations.lookup h = some r0)
    (hr0 : r0 < c.frontendRecords.length)
    (hacc : (c.frontAnn r0).get f ≠ env.globalConfig.front f)
    (hrule : ∃ rule ∈ ing.Rules, rule.HTTP.isSome = true ∧ rule.hostname = h)
    (hfin : (syncIngress env ing c).panicked = none)
    (hv : (frontView env ing).get f ≠ env.globalConfig.front f)
    (hne : (c.frontAnn r0).get f ≠ (frontView env ing).get f) :
    (∃ skipped, f.key ∈ skipped
        ∧ LogEntry.skippingFrontendAnnotations ⟨ing.Namespace, ing.Name, "ingress"⟩ skipped
          ∈ (syncIngress env ing c).logger)
      ∧ (syncIngress env ing c).frontendAnnotations.lookup h = some r0
      ∧ ((syncIngress env ing c).frontAnn r0).get f = (c.frontAnn r0).get f := by
  have hwhole := recEvolves_syncIngress env ing c
  refine ⟨?_, hwhole.2.2.1 h r0 hmap, (hwhole.2.1 r0 hr0).2 f hacc⟩
  obtain ⟨s, hs, hr⟩ := syncIngress_reach env ing h c hrule hfin
  have hstart := recEvolves_syncIngressStart env ing c
  have hcs := hstart.recThen hs.1
  have hlen : c.frontendRecords.length < (syncIngressStart env ing c).frontendRecords.length := by
    rw [syncIngressStart_records]
    simp
  have hlook : s.frontendAnnotations.lookup h = some r0 := hcs.2.2.1 h r0 hmap
  have hdst : (s.frontAnn r0).get f = (c.frontAnn r0).get f := (hcs.2.1 r0 hr0).2 f hacc
  have hnew := hs.1.2.1 c.frontendRecords.length hlen
  rw [syncIngressStart_frontAnn] at hnew
  have hsrc : (s.frontAnn c.frontendRecords.length).get f = (frontView env ing).get f :=
    hnew.2 f hv
  have hmemkey : f.key ∈ addFrontendSkipped env c.frontendRecords.length r0 s := by
    unfold addFrontendSkipped
    apply updateStructFront_conflict
    · rw [hsrc]
      exact hv
    · rw [hdst]
      exact hacc
    · rw [hsrc, hdst]
      exact hne
  have hpos : (addFrontendSkipped env c.frontendRecords.length r0 s).length > 0 :=
    List.length_pos_of_mem hmemkey
  have hsource : ((addFrontendMerged env h c.frontendRecords.length r0 s).frontAnn
      c.frontendRecords.length).Source = ⟨ing.Namespace, ing.Name, "ingress"⟩ := by
    rw [frontAnn_set s r0 c.frontendRecords.length _ _ rfl]
    have hneq : ¬ c.frontendRecords.length = r0 := fun e => Nat.lt_irrefl _ (e ▸ hr0)
    simp only [hneq, false_and, if_false]
    rw [hnew.1]
    rfl
  refine ⟨addFrontendSkipped env c.frontendRecords.length r0 s, hmemkey, ?_⟩
  apply hr.1.2.2.2.1
  rw [addFrontend_merge env h c.frontendRecords.length r0 s hlook, if_pos hpos, hsource]
  simp [Converter.log]


/-! ## Certificate resolution -/

theorem tlsSecretName_empty (env : Env) (ns : String) :
    tlsSecretName env ns "" = env.options.DefaultSSLSecret := by
  simp [tlsSecretName]

theorem tlsSecretName_named (env : Env) (ns secretName : String) (h : secretName ≠ "") :
    tlsSecretName env ns secretName = ns ++ "/" ++ secretName := by
  simp [tlsSecretName, h]

/-- C10: when the requested identity resolves, `addTLS` returns its path and
logs nothing; when it does not resolve but the default secret does, `addTLS`
returns the path of the default secret and logs exactly one warning that names
the requested secret and its lookup error. The requested identity is the
default secret for an empty secret name and `namespace/secretName` otherwise. -/
theorem addTLS_success (env : Env) (ns secretName : String) (c : Converter) :
    (∀ p, env.cache.GetTLSSecretPath (tlsSecretName env ns secretName) = .ok p →
        (addTLS env ns secretName c).1 = .ok p
          ∧ (addTLS env ns secretName c).2.logger = c.logger)
    ∧ (∀ e p, env.cache.GetTLSSecretPath (tlsSecretName env ns secretName) = .error e →
        tlsSecretName env ns secretName ≠ env.options.DefaultSSLSecret →
        env.cache.GetTLSSecretPath env.options.DefaultSSLSecret = .ok p →
        (addTLS env ns secretName c).1 = .ok p
          ∧ (addTLS env ns secretName c).2.logger
            = c.logger ++ [LogEntry.usingDefaultCertificate (tlsSecretName env ns secretName) e])
    ∧ (∀ p, (addTLS env ns secretName c).1 = .ok p →
        env.cache.GetTLSSecretPath (tlsSecretName env ns secretName) = .ok p
          ∨ ((∃ e, env.cache.GetTLSSecretPath (tlsSecretName env ns secretName) = .error e)
            ∧ env.cache.GetTLSSecretPath env.options.DefaultSSLSecret = .ok p))
    ∧ tlsSecretName env ns "" = env.options.DefaultSSLSecret
    ∧ (secretName ≠ "" → tlsSecretName env ns secretName = ns ++ "/" ++ secretName) := by
  refine ⟨?_, ?_, ?_, tlsSecretName_empty env ns, tlsSecretName_named env ns secretName⟩
  · intro p h1
    simp [addTLS, h1, Converter.call]
  · intro e p h1 hd h2
    simp [addTLS, h1, hd, h2, Converter.call, Converter.log]
  · intro p
    cases h1 : env.cache.GetTLSSecretPath (tlsSecretName env ns secretName) with
    | ok q => simp [addTLS, h1]
    | error e1 =>
      by_cases hd : tlsSecretName env ns secretName = env.options.DefaultSSLSecret
      · rw [hd] at h1
        simp [addTLS, h1, hd]
      · cases h2 : env.cache.GetTLSSecretPath env.options.DefaultSSLSecret with
        | ok q => simp [addTLS, h1, hd, h2]
        | error e2 => simp [addTLS, h1, hd, h2]

/-- A concrete instance of C10: a custom certificate is used when it resolves
and the default certificate, with one warning, when the named secret is missing. -/
theorem addTLS_success_witness :
    ((addTLS demoEnv "default" "tls-echo1" freshConverter).1 = .ok "/tls/default/tls-echo1.pem"
      ∧ (addTLS demoEnv "default" "tls-echo1" freshConverter).2.logger = freshConverter.logger)
    ∧ ((addTLS demoEnv "default" "ing-tls" freshConverter).1 = .ok "/tls/tls-default.pem"
      ∧ (addTLS demoEnv "default" "ing-tls" freshConverter).2.logger
        = freshConverter.logger ++ [LogEntry.usingDefaultCertificate
            (tlsSecretName demoEnv "default" "ing-tls") "secret not found: 'default/ing-tls'"]) :=
  ⟨(addTLS_success demoEnv "default" "tls-echo1" freshConverter).1 _ rfl,
   (addTLS_success demoEnv "default" "ing-tls" freshConverter).2.1 _ _ rfl (by decide) rfl⟩

/-! ## Hosts without a TLS binding -/

theorem TLSSame.sameRefl (h : String) (c : Converter) : TLSSame h c c := rfl

theorem TLSSame.sameThen {h : String} {a b c : Converter} (h1 : TLSSame h a b)
    (h2 : TLSSame h b c) : TLSSame h a c := by
  unfold TLSSame at *
  rw [h2, h1]

theorem TLSSame.of_frontends {h : String} {c c' : Converter}
    (hc : c'.haproxy.frontends = c.haproxy.frontends) : TLSSame h c c' := by
  unfold TLSSame
  rw [frontend_congr c c' h hc]

theorem frontend_acquire (c c' : Converter) (host h : String)
    (hc : c'.haproxy.frontends = (c.haproxy.AcquireFrontend host).frontends) :
    c'.frontend h = c.frontend h := by
  unfold Converter.frontend Config.FindFrontend
  rw [hc]
  unfold Config.AcquireFrontend Config.FindFrontend
  cases hf : c.haproxy.frontends.find? (fun f => f.Hostname = host) with
  | some f => simp
  | none =>
    by_cases hh : h = host
    · subst hh
      simp [List.find?_append, hf, createFrontend]
    · cases hf2 : c.haproxy.frontends.find? (fun f => f.Hostname = h) with
      | some f2 => simp [List.find?_append, hf2]
      | none =>
        have : ¬ (host = h) := fun e => hh e.symm
        simp [List.find?_append, hf2, createFrontend, this]

theorem frontend_modify_other (c c' : Converter) (host h : String) (g : Frontend → Frontend)
    (hg : ∀ f, (g f).Hostname = f.Hostname) (hh : h ≠ host)
    (hc : c'.haproxy.frontends
      = modifyFirst (fun x => x.Hostname = host) g c.haproxy.frontends) :
    c'.frontend h = c.frontend h := by
  unfold Converter.frontend Config.FindFrontend
  rw [hc, find?_modifyFirst_other]
  intro x hx
  have hx' : x.Hostname = host := by simpa using hx
  have hne : ¬ host = h := fun e => hh e.symm
  simp [hg, hx', hne]

theorem frontend_modify_same (c c' : Converter) (h : String) (g : Frontend → Frontend)
    (hg : ∀ f, (g f).Hostname = f.Hostname)
    (hc : c'.haproxy.frontends
      = modifyFirst (fun x => x.Hostname = h) g c.haproxy.frontends) :
    c'.haproxy.FindFrontend h = (c.haproxy.FindFrontend h).map g := by
  unfold Config.FindFrontend
  rw [hc, find?_modifyFirst]
  intro x
  simp [hg]

theorem tlsSame_modify (c c' : Converter) (host h : String) (g : Frontend → Frontend)
    (hg : ∀ f, (g f).Hostname = f.Hostname) (ht : ∀ f, (g f).TLS = f.TLS)
    (hc : c'.haproxy.frontends
      = modifyFirst (fun x => x.Hostname = host) g c.haproxy.frontends) :
    TLSSame h c c' := by
  by_cases hh : h = host
  · subst hh
    unfold TLSSame Converter.frontend
    rw [frontend_modify_same c c' h g hg hc]
    cases c.haproxy.FindFrontend h with
    | none => rfl
    | some f => simp [ht]
  · unfold TLSSame
    rw [frontend_modify_other c c' host h g hg hh hc]

theorem tlsSame_addFrontend (env : Env) (host : String) (ingAnn : Nat) (h : String)
    (c : Converter) : TLSSame h c (addFrontend env host ingAnn c) := by
  unfold TLSSame
  rw [frontend_acquire c _ host h (addFrontend_frontends env host ingAnn c)]

theorem tlsSame_syncPath (env : Env) (ing : Ingress) (hostname : String) (ingFrontAnn : Nat)
    (ingBackAnn : BackendAnnotations) (path : HTTPIngressPath) (h : String) (c : Converter) :
    TLSSame h c (syncPath env ing hostname ingFrontAnn ingBackAnn path c) := by
  have hk := keepsFront_addBackend env (path.fullSvcName ing) path.Backend.ServicePort
    ingBackAnn c
  cases hr : ((c.frontend hostname).FindPath path.uri).isSome with
  | true =>
    rw [syncPath_registered _ _ _ _ _ _ _ hr]
    exact TLSSame.of_frontends rfl
  | false =>
    cases hp : (addBackend env (path.fullSvcName ing) path.Backend.ServicePort ingBackAnn
        c).2.panicked.isSome with
    | true =>
      rw [syncPath_panicked _ _ _ _ _ _ _ hr hp]
      exact TLSSame.of_frontends hk.1
    | false =>
      cases he : (addBackend env (path.fullSvcName ing) path.Backend.ServicePort ingBackAnn
          c).1 with
      | error err =>
        rw [syncPath_error _ _ _ _ _ _ _ err hr hp he]
        exact TLSSame.of_frontends hk.1
      | ok k =>
        rw [syncPath_ok _ _ _ _ _ _ _ k hr hp he]
        refine TLSSame.sameThen (tlsSame_modify c
          { (addBackend env (path.fullSvcName ing) path.Backend.ServicePort ingBackAnn c).2 with
            haproxy := (addBackend env (path.fullSvcName ing) path.Backend.ServicePort ingBackAnn
              c).2.haproxy.modifyFrontend hostname (fun f => f.AddPath k path.uri) }
          hostname h (fun f => f.AddPath k path.uri) (fun _ => rfl) (fun _ => rfl)
          (by simp [Config.modifyFrontend, hk.1])) ?_
        exact TLSSame.of_frontends (keepsFront_addHTTPPassthrough _ _ _ _ _).1

theorem tlsSame_syncTLSHost (env : Env) (ing : Ingress) (hostname : String) (tls : IngressTLS)
    (host h : String) (c : Converter) (hne : ¬ (host = hostname ∧ hostname = h)) :
    TLSSame h c (syncTLSHost env ing hostname tls host c) := by
  have hf := (addTLS_frame env ing.Namespace tls.SecretName c).1
  by_cases hh : host = hostname
  · subst hh
    have hh2 : h ≠ host := fun e => hne ⟨rfl, e.symm⟩
    cases he : (addTLS env ing.Namespace tls.SecretName c).1 with
    | error err =>
      rw [syncTLSHost_error _ _ _ _ _ err he]
      exact TLSSame.of_frontends (by simp [Converter.log, hf])
    | ok tlsPath =>
      by_cases ht : ((addTLS env ing.Namespace tls.SecretName c).2.frontend host).TLS.TLSFilename
          = ""
      · rw [syncTLSHost_assign _ _ _ _ _ tlsPath he ht]
        unfold TLSSame
        rw [frontend_modify_other c _ host h (setTLSFilename tlsPath) (fun _ => rfl) hh2
          (by simp [Config.modifyFrontend, hf])]
      · by_cases hd : ((addTLS env ing.Namespace tls.SecretName c).2.frontend host).TLS.TLSFilename
            = tlsPath
        · rw [syncTLSHost_same _ _ _ _ _ tlsPath he ht hd]
          exact TLSSame.of_frontends (by rw [hf])
        · rw [syncTLSHost_conflict _ _ _ _ _ tlsPath he ht hd]
          exact TLSSame.of_frontends (by simp [Converter.log, hf])
  · rw [syncTLSHost_other _ _ _ _ _ _ hh]
    exact TLSSame.sameRefl h c

theorem tlsSame_addDefaultHostBackend (env : Env) (fullSvcName : String) (svcPort : Int)
    (ingFrontAnn : Nat) (ingBackAnn : BackendAnnotations) (h : String) (c : Converter) :
    TLSSame h c (addDefaultHostBackend env fullSvcName svcPort ingFrontAnn ingBackAnn c).2 := by
  have hk := keepsFront_addBackend env fullSvcName svcPort ingBackAnn c
  cases ho : defaultHostOccupied c with
  | true =>
    rw [addDefaultHostBackend_occupied _ _ _ _ _ _ ho]
    exact TLSSame.sameRefl h c
  | false =>
    cases hp : (addBackend env fullSvcName svcPort ingBackAnn c).2.panicked.isSome with
    | true =>
      rw [addDefaultHostBackend_panicked _ _ _ _ _ _ ho hp]
      exact TLSSame.of_frontends hk.1
    | false =>
      cases he : (addBackend env fullSvcName svcPort ingBackAnn c).1 with
      | error err =>
        rw [addDefaultHostBackend_error _ _ _ _ _ _ err ho hp he]
        exact TLSSame.of_frontends hk.1
      | ok k =>
        rw [addDefaultHostBackend_ok _ _ _ _ _ _ k ho hp he]
        refine TLSSame.sameThen (TLSSame.of_frontends hk.1) ?_
        refine TLSSame.sameThen (tlsSame_addFrontend env "*" ingFrontAnn h _) ?_
        exact tlsSame_modify _ _ "*" h (fun f => f.AddPath k "/") (fun _ => rfl) (fun _ => rfl) rfl

theorem tlsSame_syncDefaultBackend (env : Env) (ing : Ingress) (ingFrontAnn : Nat)
    (ingBackAnn : BackendAnnotations) (h : String) (c : Converter) :
    TLSSame h c (syncDefaultBackend env ing ingFrontAnn ingBackAnn c) := by
  have hd := tlsSame_addDefaultHostBackend env
  unfold syncDefaultBackend
  cases ing.Backend with
  | none => exact TLSSame.sameRefl h c
  | some b =>
    simp only
    split
    · exact hd _ _ _ _ h c
    · split
      · exact TLSSame.sameThen (hd _ _ _ _ h c) (TLSSame.of_frontends rfl)
      · exact hd _ _ _ _ h c

theorem tlsSame_syncRule (env : Env) (ing : Ingress) (ingFrontAnn : Nat)
    (ingBackAnn : BackendAnnotations) (rule : IngressRule) (h : String) (c : Converter)
    (hno : rule.HTTP.isSome = true → rule.hostname = h → ∀ tls ∈ ing.TLS, h ∉ tls.Hosts) :
    TLSSame h c (syncRule env ing ingFrontAnn ingBackAnn rule c) := by
  cases hr : rule.HTTP with
  | none => simp [syncRule, hr, TLSSame]
  | some paths =>
    rw [syncRule_http _ _ _ _ _ paths _ hr]
    refine TLSSame.sameThen (tlsSame_addFrontend env rule.hostname ingFrontAnn h c) ?_
    refine TLSSame.sameThen (forEach_rel (TLSSame h) (TLSSame.sameRefl h)
      (fun _ _ _ => TLSSame.sameThen) _ paths
      (fun p _ s _ => tlsSame_syncPath env ing rule.hostname ingFrontAnn ingBackAnn p h s) _) ?_
    refine forEach_rel (TLSSame h) (TLSSame.sameRefl h) (fun _ _ _ => TLSSame.sameThen) _ ing.TLS
      (fun tls htls s _ => ?_) _
    refine forEach_rel (TLSSame h) (TLSSame.sameRefl h) (fun _ _ _ => TLSSame.sameThen) _
      tls.Hosts (fun host hhost s _ => ?_) _
    refine tlsSame_syncTLSHost env ing rule.hostname tls host h s ?_
    rintro ⟨h1, h2⟩
    subst h1
    exact hno (by simp [hr]) h2 tls htls (h2 ▸ hhost)

theorem tlsSame_syncIngress (env : Env) (ing : Ingress) (h : String) (c : Converter)
    (hno : NoTLSFor h ing) : TLSSame h c (syncIngress env ing c) := by
  rw [syncIngress_eq]
  refine TLSSame.sameThen (TLSSame.of_frontends (syncIngressStart_frontends env ing c)) ?_
  refine TLSSame.sameThen (tlsSame_syncDefaultBackend env ing c.frontendRecords.length
    (backView env ing) h _) ?_
  exact forEach_rel (TLSSame h) (TLSSame.sameRefl h) (fun _ _ _ => TLSSame.sameThen) _ ing.Rules
    (fun rule hrule s _ => tlsSame_syncRule env ing _ _ rule h s (hno rule hrule)) _

theorem tlsSame_syncAll (env : Env) (ingress : List Ingress) (h : String) (c : Converter)
    (hno : ∀ ing ∈ ingress, NoTLSFor h ing) : TLSSame h c (syncAll env ingress c) :=
  forEach_rel (TLSSame h) (TLSSame.sameRefl h) (fun _ _ _ => TLSSame.sameThen) _ ingress
    (fun ing hing s _ => tlsSame_syncIngress env ing h s (hno ing hing)) c

theorem tlsSame_Sync (env : Env) (ingress : List Ingress) (h : String) (c : Converter)
    (hno : ∀ ing ∈ ingress, NoTLSFor h ing) : TLSSame h c (Sync env ingress c) :=
  TLSSame.sameThen (tlsSame_syncAll env ingress h c hno)
    (TLSSame.of_frontends (by rw [(onlyCalls_Sync env ingress c).1]))

/-- C11, as the code has it: a pass never assigns a certificate to a host that
no TLS binding covers. When no resource has both a rule with an HTTP section for
the host and a TLS binding that lists the host (in particular when no TLS
binding of any resource lists it), the certificate file of its frontend after
`Sync` is the one it had before, and so is empty for a frontend that the pass
creates, whether or not the default secret resolves. -/
theorem no_binding_keeps_tls (env : Env) (ingress : List Ingress) (h : String) (c : Converter) :
    ((∀ ing ∈ ingress, NoTLSFor h ing) →
        ((Sync env ingress c).frontend h).TLS.TLSFilename = (c.frontend h).TLS.TLSFilename)
    ∧ ((∀ ing ∈ ingress, ∀ tls ∈ ing.TLS, h ∉ tls.Hosts) →
        ((Sync env ingress c).frontend h).TLS.TLSFilename = (c.frontend h).TLS.TLSFilename)
    ∧ ((∀ ing ∈ ingress, NoTLSFor h ing) → c.haproxy.FindFrontend h = none →
        ∀ f, (Sync env ingress c).haproxy.FindFrontend h = some f → f.TLS.TLSFilename = "") := by
  refine ⟨fun hno => tlsSame_Sync env ingress h c hno,
    fun hno => tlsSame_Sync env ingress h c
      (fun ing hing rule _ _ _ tls htls => hno ing hing tls htls), ?_⟩
  intro hno hnone f hf
  have hs := tlsSame_Sync env ingress h c hno
  unfold TLSSame at hs
  rw [frontend_eq_of_find _ h f hf] at hs
  rw [hs]
  simp [Converter.frontend, hnone, createFrontend]

theorem no_binding_keeps_tls_witness :
    ((Sync demoEnv [echo1Ingress, echo2Ingress] freshConverter).frontend
        "echo.example.com").TLS.TLSFilename
      = (freshConverter.frontend "echo.example.com").TLS.TLSFilename :=
  (no_binding_keeps_tls demoEnv [echo1Ingress, echo2Ingress] "echo.example.com"
    freshConverter).2.1 (by decide)

/-- C11 as stated fails: the default secret resolves and no TLS binding covers
the host, yet the frontend of the host has no certificate file after `Sync`. -/
theorem no_binding_no_default_certificate :
    (echo1Ingress.TLS = [])
    ∧ (addTLS demoEnv "default" "" freshConverter).1 = .ok "/tls/tls-default.pem"
    ∧ ((Sync demoEnv [echo1Ingress] freshConverter).haproxy.FindFrontend
        "echo.example.com").map (fun f => (f.Paths, f.TLS.TLSFilename))
      = some ([⟨"/p1", ⟨"default", "echo1", 8080⟩⟩], "")
    ∧ (Sync demoEnv [echo1Ingress] freshConverter).panicked = none := by
  refine ⟨rfl, rfl, ?_, ?_⟩ <;> decide

/-! ## A binding that resolves to the assigned certificate, and a binding that
does not resolve -/

theorem addTLS_error_logger (env : Env) (ns secretName : String) (c : Converter) (err : String)
    (he : (addTLS env ns secretName c).1 = .error err) :
    (addTLS env ns secretName c).2.logger = c.logger := by
  unfold addTLS at he ⊢
  simp only at he ⊢
  split at he
  · cases he
  · split at he
    · simp_all [Converter.call]
    · split at he
      · simp_all [Converter.call]
      · cases he

theorem addTLS_direct (env : Env) (ns secretName : String) (c : Converter) (p : String)
    (h : env.cache.GetTLSSecretPath (tlsSecretName env ns secretName) = .ok p) :
    addTLS env ns secretName c
      = (.ok p, c.call (Call.GetTLSSecretPath (tlsSecretName env ns secretName))) := by
  simp [addTLS, h]

theorem addTLS_fallback (env : Env) (ns secretName : String) (c : Converter) (e p : String)
    (h : env.cache.GetTLSSecretPath (tlsSecretName env ns secretName) = .error e)
    (hn : tlsSecretName env ns secretName ≠ env.options.DefaultSSLSecret)
    (hd : env.cache.GetTLSSecretPath env.options.DefaultSSLSecret = .ok p) :
    addTLS env ns secretName c
      = (.ok p, ((c.call (Call.GetTLSSecretPath (tlsSecretName env ns secretName))).call
          (Call.GetTLSSecretPath env.options.DefaultSSLSecret)).log
            (LogEntry.usingDefaultCertificate (tlsSecretName env ns secretName) e)) := by
  simp [addTLS, h, hn, hd]

theorem addTLS_default_fails (env : Env) (ns secretName : String) (c : Converter) (e : String)
    (hn : tlsSecretName env ns secretName = env.options.DefaultSSLSecret)
    (hd : env.cache.GetTLSSecretPath env.options.DefaultSSLSecret = .error e) :
    addTLS env ns secretName c
      = (.error e, c.call (Call.GetTLSSecretPath env.options.DefaultSSLSecret)) := by
  simp only [addTLS, hn, hd, if_true]

theorem addTLS_both_fail (env : Env) (ns secretName : String) (c : Converter) (e1 e2 : String)
    (h : env.cache.GetTLSSecretPath (tlsSecretName env ns secretName) = .error e1)
    (hn : tlsSecretName env ns secretName ≠ env.options.DefaultSSLSecret)
    (hd : env.cache.GetTLSSecretPath env.options.DefaultSSLSecret = .error e2) :
    addTLS env ns secretName c
      = (.error (customAndDefaultError e1 e2),
          (c.call (Call.GetTLSSecretPath (tlsSecretName env ns secretName))).call
            (Call.GetTLSSecretPath env.options.DefaultSSLSecret)) := by
  simp [addTLS, h, hn, hd]

/-- C12, as the code has it: when a TLS binding for a host resolves to the
certificate path that the frontend of the host already has, processing the
binding leaves the proxy model unchanged and logs no warning that the binding is
skipped. It logs nothing at all when the requested secret itself resolves; when
the path was reached by the fallback to the default secret it logs exactly the
warning of that fallback. -/
theorem same_certificate_accepted (env : Env) (ing : Ingress) (hostname : String)
    (tls : IngressTLS) (c : Converter) (tlsPath : String)
    (he : (addTLS env ing.Namespace tls.SecretName c).1 = .ok tlsPath)
    (ht : (c.frontend hostname).TLS.TLSFilename ≠ "")
    (hd : (c.frontend hostname).TLS.TLSFilename = tlsPath) :
    syncTLSHost env ing hostname tls hostname c = (addTLS env ing.Namespace tls.SecretName c).2
    ∧ (syncTLSHost env ing hostname tls hostname c).haproxy = c.haproxy
    ∧ ((syncTLSHost env ing hostname tls hostname c).frontend hostname).TLS.TLSFilename = tlsPath
    ∧ (∀ p, env.cache.GetTLSSecretPath (tlsSecretName env ing.Namespace tls.SecretName) = .ok p →
        (syncTLSHost env ing hostname tls hostname c).logger = c.logger)
    ∧ (∀ e, env.cache.GetTLSSecretPath (tlsSecretName env ing.Namespace tls.SecretName)
          = .error e →
        (syncTLSHost env ing hostname tls hostname c).logger
          = c.logger ++ [LogEntry.usingDefaultCertificate
              (tlsSecretName env ing.Namespace tls.SecretName) e]) := by
  have hf := (addTLS_frame env ing.Namespace tls.SecretName c).1
  have hfr : (addTLS env ing.Namespace tls.SecretName c).2.frontend hostname
      = c.frontend hostname := frontend_congr c _ hostname (by rw [hf])
  have hs := syncTLSHost_same env ing hostname tls c tlsPath he (by rw [hfr]; exact ht)
    (by rw [hfr]; exact hd)
  refine ⟨hs, by rw [hs, hf], ?_, ?_, ?_⟩
  · rw [hs, hfr, hd]
  · intro p hp
    rw [hs, addTLS_direct env _ _ c p hp]
    rfl
  · intro e hpe
    rw [hs]
    by_cases hn : tlsSecretName env ing.Namespace tls.SecretName = env.options.DefaultSSLSecret
    · cases hde : env.cache.GetTLSSecretPath env.options.DefaultSSLSecret with
      | error e2 =>
        rw [addTLS_default_fails env _ _ c e2 hn hde] at he
        cases he
      | ok p =>
        rw [hn, hde] at hpe
        cases hpe
    · cases hde : env.cache.GetTLSSecretPath env.options.DefaultSSLSecret with
      | error e2 =>
        rw [addTLS_both_fail env _ _ c e e2 hpe hn hde] at he
        cases he
      | ok p =>
        rw [addTLS_fallback env _ _ c e p hpe hn hde]
        rfl

theorem same_certificate_accepted_witness :
    syncTLSHost demoEnv defaultTLSIngress "echo.example.com" ⟨["echo.example.com"], ""⟩
        "echo.example.com" defaultTLSConverter
      = (addTLS demoEnv "default" "" defaultTLSConverter).2
    ∧ (syncTLSHost demoEnv defaultTLSIngress "echo.example.com" ⟨["echo.example.com"], ""⟩
        "echo.example.com" defaultTLSConverter).logger = defaultTLSConverter.logger :=
  ⟨(same_certificate_accepted demoEnv defaultTLSIngress "echo.example.com"
      ⟨["echo.example.com"], ""⟩ defaultTLSConverter "/tls/tls-default.pem" rfl (by decide)
      (by decide)).1,
   (same_certificate_accepted demoEnv defaultTLSIngress "echo.example.com"
      ⟨["echo.example.com"], ""⟩ defaultTLSConverter "/tls/tls-default.pem" rfl (by decide)
      (by decide)).2.2.2.1 "/tls/tls-default.pem" rfl⟩

/-- C12 as stated fails: the binding of the second resource names a secret that
does not exist, so it resolves, by fallback, to the default certificate that the
host already has; the assignment is unchanged, but processing the binding logs
the warning of the fallback. -/
theorem same_certificate_fallback_warns :
    (syncAll demoEnv [defaultTLSIngress] freshConverter).logger = []
    ∧ ((syncAll demoEnv [defaultTLSIngress] freshConverter).frontend
        "echo.example.com").TLS.TLSFilename = "/tls/tls-default.pem"
    ∧ (addTLS demoEnv "default" "ing-tls"
        (syncAll demoEnv [defaultTLSIngress] freshConverter)).1 = .ok "/tls/tls-default.pem"
    ∧ ((Sync demoEnv [defaultTLSIngress, missingTLSIngress] freshConverter).frontend
        "echo.example.com").TLS.TLSFilename = "/tls/tls-default.pem"
    ∧ ((Sync demoEnv [defaultTLSIngress, missingTLSIngress] freshConverter).logger.map
        LogEntry.render)
      = ["WARN using default certificate due to an error reading secret 'default/ing-tls': "
          ++ "secret not found: 'default/ing-tls'"] := by
  refine ⟨by decide, by decide, rfl, by decide, by decide⟩

/-- C19: when the certificate of a TLS binding cannot be resolved, processing
the binding leaves the proxy model, and so the certificate file of the frontend,
unchanged (empty if it was empty) and logs exactly one warning, which names the
secret of the binding when its name is not empty and refers to the default TLS
secret otherwise. Resolution fails with the error of the cache when the default
secret is requested and its lookup fails, and with the combined error when both
the named secret and the default secret fail. -/
theorem unresolved_binding_skipped (env : Env) (ing : Ingress) (hostname : String)
    (tls : IngressTLS) (c : Converter) :
    (∀ err, (addTLS env ing.Namespace tls.SecretName c).1 = .error err →
        (syncTLSHost env ing hostname tls hostname c).haproxy = c.haproxy
        ∧ ((syncTLSHost env ing hostname tls hostname c).frontend hostname).TLS.TLSFilename
            = (c.frontend hostname).TLS.TLSFilename
        ∧ (syncTLSHost env ing hostname tls hostname c).logger
            = c.logger ++ [tlsWarning ing tls err]
        ∧ (tls.SecretName ≠ "" →
            tlsWarning ing tls err
              = LogEntry.skippingTLSSecret tls.SecretName ing.fullName err)
        ∧ (tls.SecretName = "" →
            tlsWarning ing tls err = LogEntry.skippingDefaultTLSSecret ing.fullName err))
    ∧ (∀ e, tls.SecretName = "" →
        env.cache.GetTLSSecretPath env.options.DefaultSSLSecret = .error e →
        (addTLS env ing.Namespace tls.SecretName c).1 = .error e)
    ∧ (∀ e1 e2, tls.SecretName ≠ "" →
        ing.Namespace ++ "/" ++ tls.SecretName ≠ env.options.DefaultSSLSecret →
        env.cache.GetTLSSecretPath (ing.Namespace ++ "/" ++ tls.SecretName) = .error e1 →
        env.cache.GetTLSSecretPath env.options.DefaultSSLSecret = .error e2 →
        (addTLS env ing.Namespace tls.SecretName c).1 = .error (customAndDefaultError e1 e2)) := by
  have hf := (addTLS_frame env ing.Namespace tls.SecretName c).1
  refine ⟨?_, ?_, ?_⟩
  · intro err he
    have hs := syncTLSHost_error env ing hostname tls c err he
    have hh : (syncTLSHost env ing hostname tls hostname c).haproxy = c.haproxy := by
      rw [hs]
      exact hf
    refine ⟨hh, ?_, ?_, ?_, ?_⟩
    · rw [frontend_congr c _ hostname (by rw [hh])]
    · rw [hs]
      simp [Converter.log, addTLS_error_logger env _ _ c err he]
    · intro hn
      simp [tlsWarning, hn]
    · intro hn
      simp [tlsWarning, hn]
  · intro e hn hd
    have hname : tlsSecretName env ing.Namespace tls.SecretName = env.options.DefaultSSLSecret := by
      simp [tlsSecretName, hn]
    rw [addTLS_default_fails env _ _ c e hname hd]
  · intro e1 e2 hn hne h1 h2
    have hname : tlsSecretName env ing.Namespace tls.SecretName
        = ing.Namespace ++ "/" ++ tls.SecretName := by
      simp [tlsSecretName, hn]
    rw [addTLS_both_fail env _ _ c e1 e2 (by rw [hname]; exact h1) (by rw [hname]; exact hne) h2]

theorem unresolved_binding_skipped_witness :
    (syncTLSHost noTLSEnv defaultTLSIngress "echo.example.com" ⟨["echo.example.com"], ""⟩
        "echo.example.com" freshConverter).logger
      = freshConverter.logger
        ++ [tlsWarning defaultTLSIngress ⟨["echo.example.com"], ""⟩
          "secret not found: 'system/ingress-default'"]
    ∧ (addTLS noTLSEnv "default" "tls-invalid" freshConverter).1
      = .error (customAndDefaultError "secret not found: 'default/tls-invalid'"
          "secret not found: 'system/ingress-default'") :=
  ⟨((unresolved_binding_skipped noTLSEnv defaultTLSIngress "echo.example.com"
      ⟨["echo.example.com"], ""⟩ freshConverter).1
      "secret not found: 'system/ingress-default'" rfl).2.2.1,
   (unresolved_binding_skipped noTLSEnv
      (mkIngress "default" "echo" "echo.example.com" "/" "echo1" 8080 []
        [⟨["echo.example.com"], "tls-invalid"⟩])
      "echo.example.com" ⟨["echo.example.com"], "tls-invalid"⟩ freshConverter).2.2
      "secret not found: 'default/tls-invalid'" "secret not found: 'system/ingress-default'"
      (by decide) (by decide) rfl rfl⟩

/-! ## Relations respected by every statement of a pass -/

theorem invariant_forEach {env : Env} {R : Converter → Converter → Prop}
    (hR : StepInvariant env R) {α : Type} (body : α → Converter → Converter) (xs : List α)
    (h : ∀ x c, R c (body x c)) (c : Converter) : R c (forEach body xs c) :=
  forEach_rel R hR.stepRefl hR.stepTrans body xs (fun x _ c _ => h x c) c

theorem invariant_addHTTPPassthrough {env : Env} {R : Converter → Converter → Prop}
    (hR : StepInvariant env R) (fullSvcName : String) (ingFrontAnn : Nat)
    (ingBackAnn : BackendAnnotations) (c : Converter) :
    R c (addHTTPPassthrough env fullSvcName ingFrontAnn ingBackAnn c) := by
  unfold addHTTPPassthrough
  split
  · exact hR.stepBackend _ _ _ _
  · exact hR.stepRefl c

theorem invariant_syncPath {env : Env} {R : Converter → Converter → Prop}
    (hR : StepInvariant env R) (ing : Ingress) (hostname : String) (ingFrontAnn : Nat)
    (ingBackAnn : BackendAnnotations) (path : HTTPIngressPath) (c : Converter) :
    R c (syncPath env ing hostname ingFrontAnn ingBackAnn path c) := by
  have hb := hR.stepBackend (path.fullSvcName ing) path.Backend.ServicePort ingBackAnn c
  have hk := keepsFront_addBackend env (path.fullSvcName ing) path.Backend.ServicePort
    ingBackAnn c
  cases h : ((c.frontend hostname).FindPath path.uri).isSome with
  | true =>
    rw [syncPath_registered _ _ _ _ _ _ _ h]
    exact hR.stepLog c _
  | false =>
    cases hp : (addBackend env (path.fullSvcName ing) path.Backend.ServicePort ingBackAnn
        c).2.panicked.isSome with
    | true =>
      rw [syncPath_panicked _ _ _ _ _ _ _ h hp]
      exact hb
    | false =>
      cases he : (addBackend env (path.fullSvcName ing) path.Backend.ServicePort ingBackAnn
          c).1 with
      | error err =>
        rw [syncPath_error _ _ _ _ _ _ _ err h hp he]
        exact hR.stepTrans _ _ _ hb (hR.stepLog _ _)
      | ok k =>
        rw [syncPath_ok _ _ _ _ _ _ _ k h hp he]
        refine hR.stepTrans _ _ _ hb (hR.stepTrans _ _ _ (hR.stepAddPath _ hostname k path.uri ?_)
          (invariant_addHTTPPassthrough hR _ _ _ _))
        rw [frontend_congr c _ hostname hk.1]
        exact h

theorem invariant_syncTLSHost {env : Env} {R : Converter → Converter → Prop}
    (hR : StepInvariant env R) (ing : Ingress) (hostname : String) (tls : IngressTLS)
    (host : String) (c : Converter) : R c (syncTLSHost env ing hostname tls host c) := by
  have ht := hR.stepTLS ing.Namespace tls.SecretName c
  by_cases hh : host = hostname
  · subst hh
    cases he : (addTLS env ing.Namespace tls.SecretName c).1 with
    | error err =>
      rw [syncTLSHost_error _ _ _ _ _ err he]
      exact hR.stepTrans _ _ _ ht (hR.stepLog _ _)
    | ok tlsPath =>
      by_cases hempty :
          ((addTLS env ing.Namespace tls.SecretName c).2.frontend host).TLS.TLSFilename = ""
      · rw [syncTLSHost_assign _ _ _ _ _ tlsPath he hempty]
        exact hR.stepTrans _ _ _ ht (hR.stepSetTLS _ host tlsPath hempty)
      · by_cases hd :
            ((addTLS env ing.Namespace tls.SecretName c).2.frontend host).TLS.TLSFilename
              = tlsPath
        · rw [syncTLSHost_same _ _ _ _ _ tlsPath he hempty hd]
          exact ht
        · rw [syncTLSHost_conflict _ _ _ _ _ tlsPath he hempty hd]
          exact hR.stepTrans _ _ _ ht (hR.stepLog _ _)
  · rw [syncTLSHost_other _ _ _ _ _ _ hh]
    exact hR.stepRefl c

theorem defaultHost_free (c : Converter) (h : defaultHostOccupied c = false) :
    ((c.frontend "*").FindPath "/").isSome = false := by
  unfold defaultHostOccupied at h
  unfold Converter.frontend
  cases hf : c.haproxy.FindFrontend "*" with
  | none => simp [createFrontend, Frontend.FindPath]
  | some f =>
    rw [hf] at h
    simpa using h

theorem invariant_addDefaultHostBackend {env : Env} {R : Converter → Converter → Prop}
    (hR : StepInvariant env R) (fullSvcName : String) (svcPort : Int) (ingFrontAnn : Nat)
    (ingBackAnn : BackendAnnotations) (c : Converter) :
    R c (addDefaultHostBackend env fullSvcName svcPort ingFrontAnn ingBackAnn c).2 := by
  have hb := hR.stepBackend fullSvcName svcPort ingBackAnn c
  have hk := keepsFront_addBackend env fullSvcName svcPort ingBackAnn c
  cases ho : defaultHostOccupied c with
  | true =>
    rw [addDefaultHostBackend_occupied _ _ _ _ _ _ ho]
    exact hR.stepRefl c
  | false =>
    cases hp : (addBackend env fullSvcName svcPort ingBackAnn c).2.panicked.isSome with
    | true =>
      rw [addDefaultHostBackend_panicked _ _ _ _ _ _ ho hp]
      exact hb
    | false =>
      cases he : (addBackend env fullSvcName svcPort ingBackAnn c).1 with
      | error err =>
        rw [addDefaultHostBackend_error _ _ _ _ _ _ err ho hp he]
        exact hb
      | ok k =>
        rw [addDefaultHostBackend_ok _ _ _ _ _ _ k ho hp he]
        refine hR.stepTrans _ _ _ hb (hR.stepTrans _ _ _ (hR.stepFrontend "*" ingFrontAnn _)
          (hR.stepAddPath _ "*" k "/" ?_))
        rw [frontend_acquire _ _ "*" "*" (addFrontend_frontends env "*" ingFrontAnn _),
          frontend_congr c _ "*" hk.1]
        exact defaultHost_free c ho

theorem invariant_syncDefaultBackend {env : Env} {R : Converter → Converter → Prop}
    (hR : StepInvariant env R) (ing : Ingress) (ingFrontAnn : Nat)
    (ingBackAnn : BackendAnnotations) (c : Converter) :
    R c (syncDefaultBackend env ing ingFrontAnn ingBackAnn c) := by
  have hd := invariant_addDefaultHostBackend hR
  unfold syncDefaultBackend
  cases ing.Backend with
  | none => exact hR.stepRefl c
  | some b =>
    simp only
    split
    · exact hd _ _ _ _ c
    · split
      · exact hR.stepTrans _ _ _ (hd _ _ _ _ c) (hR.stepLog _ _)
      · exact hd _ _ _ _ c

theorem invariant_syncRule {env : Env} {R : Converter → Converter → Prop}
    (hR : StepInvariant env R) (ing : Ingress) (ingFrontAnn : Nat)
    (ingBackAnn : BackendAnnotations) (rule : IngressRule) (c : Converter) :
    R c (syncRule env ing ingFrontAnn ingBackAnn rule c) := by
  cases hr : rule.HTTP with
  | none =>
    have : syncRule env ing ingFrontAnn ingBackAnn rule c = c := by simp [syncRule, hr]
    rw [this]
    exact hR.stepRefl c
  | some paths =>
    rw [syncRule_http _ _ _ _ _ paths _ hr]
    refine hR.stepTrans _ _ _ (hR.stepFrontend rule.hostname ingFrontAnn c) ?_
    refine hR.stepTrans _ _ _ (invariant_forEach hR _ paths
      (fun p s => invariant_syncPath hR ing rule.hostname ingFrontAnn ingBackAnn p s) _) ?_
    exact invariant_forEach hR _ ing.TLS (fun tls s => invariant_forEach hR _ tls.Hosts
      (fun host s' => invariant_syncTLSHost hR ing rule.hostname tls host s') s) _

theorem invariant_syncIngress {env : Env} {R : Converter → Converter → Prop}
    (hR : StepInvariant env R) (ing : Ingress) (c : Converter) :
    R c (syncIngress env ing c) := by
  rw [syncIngress_eq]
  refine hR.stepTrans _ _ _ (hR.stepStart ing c) ?_
  refine hR.stepTrans _ _ _ (invariant_syncDefaultBackend hR ing c.frontendRecords.length
    (backView env ing) _) ?_
  exact invariant_forEach hR _ ing.Rules
    (fun rule s => invariant_syncRule hR ing _ _ rule s) _

theorem invariant_syncAll {env : Env} {R : Converter → Converter → Prop}
    (hR : StepInvariant env R) (ingress : List Ingress) (c : Converter) :
    R c (syncAll env ingress c) :=
  invariant_forEach hR _ ingress (fun ing s => invariant_syncIngress hR ing s) c

/-! ## Calls to the updater -/

theorem CacheCallsOnly.cacheRefl (c : Converter) : CacheCallsOnly c c :=
  ⟨[], by simp, by simp⟩

theorem CacheCallsOnly.cacheThen {a b c : Converter} (h1 : CacheCallsOnly a b)
    (h2 : CacheCallsOnly b c) : CacheCallsOnly a c := by
  obtain ⟨e1, h1, p1⟩ := h1
  obtain ⟨e2, h2, p2⟩ := h2
  refine ⟨e1 ++ e2, by rw [h2, h1, List.append_assoc], ?_⟩
  intro x hx
  rcases List.mem_append.mp hx with h | h
  · exact p1 x h
  · exact p2 x h

theorem CacheCallsOnly.cacheOfEq {c c' : Converter} (h : c'.calls = c.calls) :
    CacheCallsOnly c c' :=
  ⟨[], by simp [h], by simp⟩

theorem cacheCallsOnly_call (c : Converter) (x : Call) (hx : x.isUpdater = false) :
    CacheCallsOnly c (c.call x) :=
  ⟨[x], rfl, by simpa using hx⟩

theorem addEndpoints_calls (env : Env) (svc : Service) (servicePort : Int) (k : BackendKey)
    (c : Converter) :
    (addEndpoints env svc servicePort k c).2.calls = c.calls ++ [Call.GetEndpoints svc] := by
  have hrefl : ∀ c : Converter, c.calls = c.calls := fun _ => rfl
  have htrans : ∀ a b c : Converter, b.calls = a.calls → c.calls = b.calls →
      c.calls = a.calls := fun _ _ _ h1 h2 => h2.trans h1
  have haddr : ∀ (addr : EndpointAddress) (c : Converter),
      (addEndpointsAddr servicePort k addr c).calls = c.calls := by
    intro addr c
    unfold addEndpointsAddr
    split <;> rfl
  have hport : ∀ (subset : EndpointSubset) (port : EndpointPort) (c : Converter),
      (addEndpointsPort servicePort k subset port c).calls = c.calls := by
    intro subset port c
    unfold addEndpointsPort
    split
    · exact forEach_rel (fun c c' => c'.calls = c.calls) hrefl htrans _ _
        (fun addr _ c _ => haddr addr c) c
    · rfl
  unfold addEndpoints
  simp only
  split
  · rfl
  · exact (forEach_rel (fun c c' => c'.calls = c.calls) hrefl htrans _ _
      (fun subset _ c _ => forEach_rel (fun c c' => c'.calls = c.calls) hrefl htrans _ _
        (fun port _ c _ => hport subset port c) c) (c.call (Call.GetEndpoints svc)))

theorem readAnnotations_calls (env : Env) (source : Source)
    (annotations : List (String × String)) (c : Converter) :
    (readAnnotations env source annotations c).2.calls = c.calls := by
  rw [readAnnotations_state]

theorem addBackendFound_calls (env : Env) (fullSvcName : String) (ingAnn : BackendAnnotations)
    (k : BackendKey) (ann : BackendAnnotations) (c : Converter) :
    (addBackendFound env fullSvcName ingAnn k ann c).calls
      = c.calls ++ [Call.GetService fullSvcName] := by
  unfold addBackendFound
  simp only
  split <;> rfl

theorem addBackendPopulated_calls (env : Env) (fullSvcName : String) (svc : Service)
    (k : BackendKey) (c : Converter) :
    (addBackendPopulated env fullSvcName svc k c).2.calls
      = c.calls ++ [Call.GetService fullSvcName, Call.GetEndpoints svc] := by
  unfold addBackendPopulated
  simp only
  rw [addEndpoints_calls]
  simp [Converter.call]

theorem addBackendNew_calls (env : Env) (fullSvcName : String) (ingAnn : BackendAnnotations)
    (svc : Service) (k : BackendKey) (c : Converter) :
    (addBackendNew env fullSvcName ingAnn svc k c).calls
      = c.calls ++ [Call.GetService fullSvcName, Call.GetEndpoints svc] := by
  rw [← addBackendPopulated_calls env fullSvcName svc k c]
  unfold addBackendNew
  simp only
  split
  · simp only [Converter.log]
    rw [readAnnotations_calls]
    split <;> rfl
  · simp only
    rw [readAnnotations_calls]
    split <;> rfl

theorem cacheCallsOnly_addBackend (env : Env) (fullSvcName : String) (svcPort : Int)
    (ingAnn : BackendAnnotations) (c : Converter) :
    CacheCallsOnly c (addBackend env fullSvcName svcPort ingAnn c).2 := by
  rw [addBackend_eq]
  split
  · exact cacheCallsOnly_call c (Call.GetService fullSvcName) rfl
  · exact ⟨[Call.GetService fullSvcName], rfl, by simp [Call.isUpdater]⟩
  · rename_i svc k _
    split
    · exact ⟨_, addBackendFound_calls _ _ _ _ _ _, by simp [Call.isUpdater]⟩
    · split
      · exact ⟨_, addBackendPopulated_calls _ _ _ _ _, by simp [Call.isUpdater]⟩
      · exact ⟨_, addBackendNew_calls _ _ _ _ _ _, by simp [Call.isUpdater]⟩

theorem addFrontend_calls (env : Env) (host : String) (ingAnn : Nat) (c : Converter) :
    (addFrontend env host ingAnn c).calls = c.calls := by
  unfold addFrontend
  simp only
  repeat' split
  all_goals simp [Converter.log]

theorem cacheCallsOnly_addTLS (env : Env) (ns secretName : String) (c : Converter) :
    CacheCallsOnly c (addTLS env ns secretName c).2 := by
  unfold addTLS
  simp only
  split
  · exact cacheCallsOnly_call c (Call.GetTLSSecretPath _) rfl
  · split
    · exact cacheCallsOnly_call c (Call.GetTLSSecretPath _) rfl
    · split
      · exact (cacheCallsOnly_call c (Call.GetTLSSecretPath _) rfl).cacheThen
          (cacheCallsOnly_call _ (Call.GetTLSSecretPath _) rfl)
      · exact (cacheCallsOnly_call c (Call.GetTLSSecretPath _) rfl).cacheThen
          ((cacheCallsOnly_call _ (Call.GetTLSSecretPath _) rfl).cacheThen
            (CacheCallsOnly.cacheOfEq rfl))

theorem cacheCallsOnly_invariant (env : Env) : StepInvariant env CacheCallsOnly where
  stepRefl := CacheCallsOnly.cacheRefl
  stepTrans := fun _ _ _ => CacheCallsOnly.cacheThen
  stepLog := fun _ _ => CacheCallsOnly.cacheOfEq rfl
  stepBackend := cacheCallsOnly_addBackend env
  stepFrontend := fun host ingAnn c => CacheCallsOnly.cacheOfEq (addFrontend_calls env host ingAnn c)
  stepTLS := cacheCallsOnly_addTLS env
  stepAddPath := fun _ _ _ _ _ => CacheCallsOnly.cacheOfEq rfl
  stepSetTLS := fun _ _ _ _ => CacheCallsOnly.cacheOfEq rfl
  stepStart := fun ing c => CacheCallsOnly.cacheOfEq (by
    unfold syncIngressStart
    simp only
    exact readAnnotations_calls env _ _ c)

theorem forEach_calls {α : Type} (body : α → Converter → Converter) (g : α → Option Call)
    (c : Converter) (xs : List α)
    (hbody : ∀ x (s : Converter), s.haproxy = c.haproxy →
      s.frontendRecords = c.frontendRecords →
      s.frontendAnnotations = c.frontendAnnotations →
      s.backendAnnotations = c.backendAnnotations →
      body x s = { s with calls := s.calls ++ (g x).toList })
    (s : Converter) (hs : s.panicked = none) (h1 : s.haproxy = c.haproxy)
    (h2 : s.frontendRecords = c.frontendRecords)
    (h3 : s.frontendAnnotations = c.frontendAnnotations)
    (h4 : s.backendAnnotations = c.backendAnnotations) :
    forEach body xs s = { s with calls := s.calls ++ xs.filterMap g } := by
  induction xs generalizing s with
  | nil => simp [forEach]
  | cons x xs ih =>
    rw [forEach_cons _ _ _ _ hs, hbody x s h1 h2 h3 h4,
      ih { s with calls := s.calls ++ (g x).toList } hs h1 h2 h3 h4]
    cases hx : g x <;> simp [List.filterMap_cons, hx]

theorem syncAnnotations_calls (env : Env) (c : Converter) (hc : c.panicked = none) :
    (syncAnnotations env c).calls
      = c.calls ++ [Call.UpdateGlobalConfig env.globalConfig] ++ frontendUpdates c
        ++ backendUpdates c := by
  unfold syncAnnotations
  simp only
  rw [forEach_calls _
    (fun (fr : Frontend) => (c.frontendAnnotations.lookup fr.Hostname).map
      (fun ann => Call.UpdateFrontendConfig fr.Hostname (c.frontAnn ann)))
    (c.call (Call.UpdateGlobalConfig env.globalConfig)) _ ?hb1
    (c.call (Call.UpdateGlobalConfig env.globalConfig)) hc rfl rfl rfl rfl]
  case hb1 =>
    intro x s _ h2 h3 _
    have hfa : ∀ r, s.frontAnn r = c.frontAnn r := by
      intro r
      simp [Converter.frontAnn, h2, Converter.call]
    have hl : List.lookup x.Hostname s.frontendAnnotations
        = List.lookup x.Hostname c.frontendAnnotations := by rw [h3]; rfl
    rw [hl]
    cases hlk : List.lookup x.Hostname c.frontendAnnotations with
    | none => simp [hlk]
    | some r => simp [hlk, hfa, Converter.call]
  rw [forEach_calls _
    (fun (b : Backend) => (c.backendAnnotations.lookup b.ID).map
      (fun ann => Call.UpdateBackendConfig b.ID ann))
    (c.call (Call.UpdateGlobalConfig env.globalConfig)) _ ?hb2
    { c.call (Call.UpdateGlobalConfig env.globalConfig) with
      calls := (c.call (Call.UpdateGlobalConfig env.globalConfig)).calls
        ++ (c.call (Call.UpdateGlobalConfig env.globalConfig)).haproxy.Frontends.filterMap
          (fun (fr : Frontend) => (c.frontendAnnotations.lookup fr.Hostname).map
            (fun ann => Call.UpdateFrontendConfig fr.Hostname (c.frontAnn ann))) }
    hc rfl rfl rfl rfl]
  case hb2 =>
    intro x s _ _ _ h4
    have hl : List.lookup x.ID s.backendAnnotations
        = List.lookup x.ID c.backendAnnotations := by rw [h4]; rfl
    rw [hl]
    cases hlk : List.lookup x.ID c.backendAnnotations with
    | none => simp [hlk]
    | some r => simp [hlk, Converter.call]
  simp [frontendUpdates, backendUpdates, Converter.call]

/-- C20: (a) while the resources of a pass are processed only the cache is
called, no operation of the updater; (b) `syncAnnotations` then applies the
global configuration first, calls `UpdateFrontendConfig` once for each
enumerated frontend whose hostname has a pending record, in the order of the
enumeration and for no other frontend, and after that `UpdateBackendConfig` once
for each enumerated backend whose identifier has a pending record and for no
other backend; (c) so does `Sync` when the processing of the resources did not
panic. -/
theorem annotations_applied_last (env : Env) :
    (∀ (ingress : List Ingress) (c : Converter),
        ∃ extra, (syncAll env ingress c).calls = c.calls ++ extra
          ∧ ∀ x ∈ extra, x.isUpdater = false)
    ∧ (∀ (c : Converter), c.panicked = none →
        (syncAnnotations env c).calls
          = c.calls ++ [Call.UpdateGlobalConfig env.globalConfig] ++ frontendUpdates c
            ++ backendUpdates c)
    ∧ (∀ (ingress : List Ingress) (c : Converter), (syncAll env ingress c).panicked = none →
        (Sync env ingress c).calls
          = (syncAll env ingress c).calls ++ [Call.UpdateGlobalConfig env.globalConfig]
            ++ frontendUpdates (syncAll env ingress c)
            ++ backendUpdates (syncAll env ingress c)) := by
  refine ⟨fun ingress c => invariant_syncAll (cacheCallsOnly_invariant env) ingress c,
    fun c hc => syncAnnotations_calls env c hc, ?_⟩
  intro ingress c hc
  unfold Sync
  simp only [hc, Option.isSome_none, Bool.false_eq_true, if_false]
  exact syncAnnotations_calls env _ hc

theorem annotations_applied_last_witness :
    (Sync demoEnv [timeout1Ingress, timeout2Ingress] freshConverter).calls
      = (syncAll demoEnv [timeout1Ingress, timeout2Ingress] freshConverter).calls
        ++ [Call.UpdateGlobalConfig demoEnv.globalConfig]
        ++ frontendUpdates (syncAll demoEnv [timeout1Ingress, timeout2Ingress] freshConverter)
        ++ backendUpdates (syncAll demoEnv [timeout1Ingress, timeout2Ingress] freshConverter) :=
  (annotations_applied_last demoEnv).2.2 [timeout1Ingress, timeout2Ingress] freshConverter
    (by decide)

/-! ## Pending backend records -/

theorem readAnnotations_eq (env : Env) (source : Source) (annotations : List (String × String))
    (c : Converter) :
    readAnnotations env source annotations c
      = (((MergeMapFront (readAnnotationsMap env annotations)
            (defaultsToFront source env.globalConfig)).1,
          (MergeMapBack (readAnnotationsMap env annotations)
            (defaultsToBack source env.globalConfig)).1),
         { c with logger := c.logger ++ readAnnotationsLog env source annotations }) := by
  unfold readAnnotations readAnnotationsLog
  simp only
  split <;> split <;> simp_all [Converter.log]

theorem addEndpoints_logger (env : Env) (svc : Service) (servicePort : Int) (k : BackendKey)
    (c : Converter) : (addEndpoints env svc servicePort k c).2.logger = c.logger := by
  have hrefl : ∀ c : Converter, c.logger = c.logger := fun _ => rfl
  have htrans : ∀ a b c : Converter, b.logger = a.logger → c.logger = b.logger →
      c.logger = a.logger := fun _ _ _ h1 h2 => h2.trans h1
  have haddr : ∀ (addr : EndpointAddress) (c : Converter),
      (addEndpointsAddr servicePort k addr c).logger = c.logger := by
    intro addr c
    unfold addEndpointsAddr
    split <;> rfl
  have hport : ∀ (subset : EndpointSubset) (port : EndpointPort) (c : Converter),
      (addEndpointsPort servicePort k subset port c).logger = c.logger := by
    intro subset port c
    unfold addEndpointsPort
    split
    · exact forEach_rel (fun c c' => c'.logger = c.logger) hrefl htrans _ _
        (fun addr _ c _ => haddr addr c) c
    · rfl
  unfold addEndpoints
  simp only
  split
  · rfl
  · exact (forEach_rel (fun c c' => c'.logger = c.logger) hrefl htrans _ _
      (fun subset _ c _ => forEach_rel (fun c c' => c'.logger = c.logger) hrefl htrans _ _
        (fun port _ c _ => hport subset port c) c) (c.call (Call.GetEndpoints svc)))

theorem addBackendPopulated_logger (env : Env) (fullSvcName : String) (svc : Service)
    (k : BackendKey) (c : Converter) :
    (addBackendPopulated env fullSvcName svc k c).2.logger = c.logger := by
  unfold addBackendPopulated
  simp only
  rw [addEndpoints_logger]
  rfl

theorem addBackendPopulated_backendAnnotations (env : Env) (fullSvcName : String)
    (svc : Service) (k : BackendKey) (c : Converter) :
    (addBackendPopulated env fullSvcName svc k c).2.backendAnnotations
      = c.backendAnnotations :=
  (onlyBackend_addEndpoints env svc k.Port k
    { c.call (Call.GetService fullSvcName) with
      haproxy := (c.call (Call.GetService fullSvcName)).haproxy.AcquireBackend k }).1

theorem addBackendPopulated_error (env : Env) (fullSvcName : String) (svc : Service)
    (k : BackendKey) (c : Converter) (err : String)
    (h : env.cache.GetEndpoints svc = .error err) :
    addBackendPopulated env fullSvcName svc k c
      = (some err,
          ({ c.call (Call.GetService fullSvcName) with
            haproxy := c.haproxy.AcquireBackend k }).call (Call.GetEndpoints svc)) := by
  unfold addBackendPopulated addEndpoints
  simp only [h]
  rfl

theorem addBackendNew_backendAnnotations (env : Env) (fullSvcName : String)
    (ingAnn : BackendAnnotations) (svc : Service) (k : BackendKey) (c : Converter) :
    (addBackendNew env fullSvcName ingAnn svc k c).backendAnnotations
      = mapSet (buildID k) (UpdateStructBack env.globalConfig ingAnn (serviceView env k svc)).2
          c.backendAnnotations := by
  unfold addBackendNew
  simp only [readAnnotations_eq]
  have h3 : (match (addBackendPopulated env fullSvcName svc k c).1 with
      | some err => (addBackendPopulated env fullSvcName svc k c).2.log
          (LogEntry.errorAddingEndpoints fullSvcName err)
      | none => (addBackendPopulated env fullSvcName svc k c).2).backendAnnotations
        = c.backendAnnotations := by
    rw [← addBackendPopulated_backendAnnotations env fullSvcName svc k c]
    split <;> rfl
  split
  · simp only [Converter.log]
    split <;> simp_all [serviceView, Converter.log]
  · simp only
    split <;> simp_all [serviceView, Converter.log]

theorem addBackendNew_logger (env : Env) (fullSvcName : String)
    (ingAnn : BackendAnnotations) (svc : Service) (k : BackendKey) (c : Converter) :
    (addBackendNew env fullSvcName ingAnn svc k c).logger
      = c.logger
        ++ ((addBackendPopulated env fullSvcName svc k c).1.map
            (fun err => LogEntry.errorAddingEndpoints fullSvcName err)).toList
        ++ readAnnotationsLog env ⟨k.Namespace, k.Name, "service"⟩ svc.Annotations
        ++ mergeInfo env k ingAnn (serviceView env k svc) := by
  unfold addBackendNew mergeInfo
  simp only [readAnnotations_eq]
  have hl := addBackendPopulated_logger env fullSvcName svc k c
  split
  · rename_i hlen
    have hlen' : (UpdateStructBack env.globalConfig ingAnn (serviceView env k svc)).1.length > 0 :=
      hlen
    simp only [Converter.log, hlen', if_true]
    split <;> simp_all [Converter.log, serviceView]
  · rename_i hlen
    have hlen' : ¬ (UpdateStructBack env.globalConfig ingAnn (serviceView env k svc)).1.length
        > 0 := hlen
    simp only [hlen', if_false]
    split <;> simp_all [Converter.log, serviceView]

theorem addBackendNew_frame (env : Env) (fullSvcName : String)
    (ingAnn : BackendAnnotations) (svc : Service) (k : BackendKey) (c : Converter) :
    (addBackendNew env fullSvcName ingAnn svc k c).haproxy
        = (addBackendPopulated env fullSvcName svc k c).2.haproxy
      ∧ (addBackendNew env fullSvcName ingAnn svc k c).panicked
        = (addBackendPopulated env fullSvcName svc k c).2.panicked := by
  unfold addBackendNew
  simp only [readAnnotations_eq]
  constructor
  · split
    · simp only [Converter.log]
      split <;> rfl
    · simp only
      split <;> rfl
  · split
    · simp only [Converter.log]
      split <;> rfl
    · simp only
      split <;> rfl

theorem addBackendFound_backendAnnotations (env : Env) (fullSvcName : String)
    (ingAnn : BackendAnnotations) (k : BackendKey) (ann : BackendAnnotations) (c : Converter) :
    (addBackendFound env fullSvcName ingAnn k ann c).backendAnnotations
      = mapSet (buildID k) (UpdateStructBack env.globalConfig ingAnn ann).2
          c.backendAnnotations := by
  unfold addBackendFound
  simp only
  split <;> rfl

theorem addBackendFound_logger (env : Env) (fullSvcName : String)
    (ingAnn : BackendAnnotations) (k : BackendKey) (ann : BackendAnnotations) (c : Converter) :
    (addBackendFound env fullSvcName ingAnn k ann c).logger
      = c.logger ++ mergeInfo env k ingAnn ann := by
  unfold addBackendFound mergeInfo
  simp only
  split <;> simp [Converter.log, Converter.call]

theorem updateStructBack_source (d : ConfigDefaults) (src dst : BackendAnnotations) :
    (UpdateStructBack d src dst).2.Source = dst.Source := rfl

theorem updateStructBack_get_kept (d : ConfigDefaults) (src dst : BackendAnnotations)
    (f : BackField) (h : dst.get f ≠ d.back f) :
    (UpdateStructBack d src dst).2.get f = dst.get f := by
  cases f <;>
    simp only [BackendAnnotations.get, ConfigDefaults.back, ne_eq, Value.str.injEq,
      Value.int.injEq, Value.bool.injEq] at h <;>
    simp [UpdateStructBack, BackendAnnotations.get, mergeField_kept _ _ _ h]

theorem updateStructBack_get_taken (d : ConfigDefaults) (src dst : BackendAnnotations)
    (f : BackField) (h : dst.get f = d.back f) :
    (UpdateStructBack d src dst).2.get f = src.get f := by
  cases f <;>
    simp only [BackendAnnotations.get, ConfigDefaults.back, Value.str.injEq,
      Value.int.injEq, Value.bool.injEq] at h <;>
    simp only [UpdateStructBack, BackendAnnotations.get, mergeField, h, Value.str.injEq,
      Value.int.injEq] <;>
    split <;> simp_all

theorem updateStructBack_conflict (d : ConfigDefaults) (src dst : BackendAnnotations)
    (f : BackField) (hs : src.get f ≠ d.back f) (hd : dst.get f ≠ d.back f)
    (hne : dst.get f ≠ src.get f) : f.key ∈ (UpdateStructBack d src dst).1 := by
  cases f <;>
    simp only [BackendAnnotations.get, ConfigDefaults.back, ne_eq, Value.str.injEq,
      Value.int.injEq, Value.bool.injEq] at hs hd hne <;>
    simp [UpdateStructBack, skippedName, conflictField, BackField.key, hs, hd, hne]

theorem updateStructFront_get_taken (d : ConfigDefaults) (src dst : FrontendAnnotations)
    (f : FrontField) (h : dst.get f = d.front f) :
    (UpdateStructFront d src dst).2.get f = src.get f := by
  cases f <;>
    simp only [FrontendAnnotations.get, ConfigDefaults.front, Value.str.injEq,
      Value.int.injEq, Value.bool.injEq] at h <;>
    simp only [UpdateStructFront, FrontendAnnotations.get, mergeField, h, Value.str.injEq,
      Value.int.injEq, Value.bool.injEq] <;>
    split <;> simp_all

theorem BackRecEvolves.backRecRefl (env : Env) (c : Converter) : BackRecEvolves env c c :=
  fun _ r h => ⟨r, h, rfl, fun _ _ => rfl⟩

theorem BackRecEvolves.backRecThen {env : Env} {a b c : Converter}
    (h1 : BackRecEvolves env a b) (h2 : BackRecEvolves env b c) : BackRecEvolves env a c := by
  intro id r hr
  obtain ⟨r1, hr1, hs1, hf1⟩ := h1 id r hr
  obtain ⟨r2, hr2, hs2, hf2⟩ := h2 id r1 hr1
  refine ⟨r2, hr2, hs2.trans hs1, fun f hf => ?_⟩
  have e1 := hf1 f hf
  rw [hf2 f (by rw [e1]; exact hf), e1]

theorem BackRecEvolves.backRecOfEq {env : Env} {c c' : Converter}
    (h : c'.backendAnnotations = c.backendAnnotations) : BackRecEvolves env c c' :=
  fun _ r hr => ⟨r, by rw [h]; exact hr, rfl, fun _ _ => rfl⟩

theorem backRecEvolves_addBackend (env : Env) (fullSvcName : String) (svcPort : Int)
    (ingAnn : BackendAnnotations) (c : Converter) :
    BackRecEvolves env c (addBackend env fullSvcName svcPort ingAnn c).2 := by
  rw [addBackend_eq]
  split
  · exact BackRecEvolves.backRecOfEq rfl
  · exact BackRecEvolves.backRecOfEq rfl
  · rename_i svc k _
    split
    · rename_i ann hl
      intro id r hr
      simp only [addBackendFound_backendAnnotations, lookup_mapSet]
      by_cases hid : id = buildID k
      · subst hid
        rw [hl] at hr
        cases hr
        exact ⟨(UpdateStructBack env.globalConfig ingAnn ann).2, by simp, rfl,
          fun f hf => updateStructBack_get_kept _ _ _ f hf⟩
      · exact ⟨r, by simp [hid, hr], rfl, fun _ _ => rfl⟩
    · rename_i hl
      split
      · exact BackRecEvolves.backRecOfEq (addBackendPopulated_backendAnnotations _ _ _ _ _)
      · intro id r hr
        simp only [addBackendNew_backendAnnotations, lookup_mapSet]
        by_cases hid : id = buildID k
        · subst hid
          rw [hl] at hr
          cases hr
        · exact ⟨r, by simp [hid, hr], rfl, fun _ _ => rfl⟩

theorem backRecEvolves_invariant (env : Env) : StepInvariant env (BackRecEvolves env) where
  stepRefl := BackRecEvolves.backRecRefl env
  stepTrans := fun _ _ _ => BackRecEvolves.backRecThen
  stepLog := fun _ _ => BackRecEvolves.backRecOfEq rfl
  stepBackend := backRecEvolves_addBackend env
  stepFrontend := fun host ingAnn c => BackRecEvolves.backRecOfEq (keepsBack_addFrontend env host ingAnn c).2
  stepTLS := fun ns secretName c => BackRecEvolves.backRecOfEq (addTLS_frame env ns secretName c).2.2.2.1
  stepAddPath := fun _ _ _ _ _ => BackRecEvolves.backRecOfEq rfl
  stepSetTLS := fun _ _ _ _ => BackRecEvolves.backRecOfEq rfl
  stepStart := fun ing c => BackRecEvolves.backRecOfEq (keepsBack_syncIngressStart env ing c).2

theorem backRecEvolves_Sync (env : Env) (ingress : List Ingress) (c : Converter) :
    BackRecEvolves env c (Sync env ingress c) :=
  (invariant_syncAll (backRecEvolves_invariant env) ingress c).backRecThen
    (BackRecEvolves.backRecOfEq (onlyCalls_Sync env ingress c).2.2.2.2.1)

/-! ## Service annotations, unreadable endpoints and the order of merges -/

theorem syncPath_registers (env : Env) (ing : Ingress) (hostname : String) (ingFrontAnn : Nat)
    (ingBackAnn : BackendAnnotations) (path : HTTPIngressPath) (c : Converter) (k : BackendKey)
    (hex : (c.haproxy.FindFrontend hostname).isSome = true)
    (hnone : (c.frontend hostname).FindPath path.uri = none)
    (hp : (addBackend env (path.fullSvcName ing) path.Backend.ServicePort ingBackAnn c).2.panicked
      = none)
    (he : (addBackend env (path.fullSvcName ing) path.Backend.ServicePort ingBackAnn c).1
      = .ok k) :
    ((syncPath env ing hostname ingFrontAnn ingBackAnn path c).frontend hostname).FindPath
      path.uri = some ⟨path.uri, k⟩ := by
  have h : ((c.frontend hostname).FindPath path.uri).isSome = false := by simp [hnone]
  have hp' : (addBackend env (path.fullSvcName ing) path.Backend.ServicePort ingBackAnn
      c).2.panicked.isSome = false := by simp [hp]
  rw [syncPath_ok _ _ _ _ _ _ _ k h hp' he]
  have hk := keepsFront_addBackend env (path.fullSvcName ing) path.Backend.ServicePort
    ingBackAnn c
  obtain ⟨f, hf⟩ := Option.isSome_iff_exists.mp hex
  have hfr : c.frontend hostname = f := frontend_eq_of_find c hostname f hf
  rw [hfr] at hnone
  have hfind : (addHTTPPassthrough env (path.fullSvcName ing) ingFrontAnn ingBackAnn
      { (addBackend env (path.fullSvcName ing) path.Backend.ServicePort ingBackAnn c).2 with
        haproxy := (addBackend env (path.fullSvcName ing) path.Backend.ServicePort ingBackAnn
          c).2.haproxy.modifyFrontend hostname
            (fun f => f.AddPath k path.uri) }).haproxy.FindFrontend hostname
      = some (f.AddPath k path.uri) := by
    unfold Config.FindFrontend
    rw [(keepsFront_addHTTPPassthrough _ _ _ _ _).1]
    simp only [Config.modifyFrontend, hk.1]
    rw [find?_modifyFirst _ _ _ (by intro x; simp [Frontend.AddPath])]
    unfold Config.FindFrontend at hf
    rw [hf]
    rfl
  rw [frontend_eq_of_find _ _ _ hfind]
  exact findPath_addPath f k path.uri hnone

theorem findBackend_acquire (cfg : Config) (k : BackendKey) :
    (cfg.AcquireBackend k).FindBackend k = some ((cfg.FindBackend k).getD (createBackend k)) := by
  unfold Config.AcquireBackend
  cases h : cfg.FindBackend k with
  | some b => simp [h]
  | none =>
    unfold Config.FindBackend at h ⊢
    have hk : (createBackend k).key = k := by cases k; rfl
    simp [List.find?_append, h, hk]

/-- C14: when `addBackend` resolves a reference to a backend that has no pending
record yet and reads its endpoints without a panic, the record it creates is the
backend view of the annotations of the service (decoded from the annotations
that carry the prefix, with a source of kind `service`) into which the view of
the resource is merged. So the record keeps the source of the service and every
value of the service that differs from the default, takes the value of the
resource for every field that the service leaves at its default, and for a field
where both supply different values that differ from the default the only
informational message logged names the backend, the source of the resource and
the field; the messages logged before it are error messages. -/
theorem service_annotations_first (env : Env) (fullSvcName : String) (svcPort : Int)
    (ingAnn : BackendAnnotations) (c : Converter) (svc : Service) (k : BackendKey)
    (hres : resolveBackend env fullSvcName svcPort = .backend svc k)
    (hnew : c.backendAnnotations.lookup (buildID k) = none)
    (hp : (addBackendPopulated env fullSvcName svc k c).2.panicked = none) :
    (addBackend env fullSvcName svcPort ingAnn c).1 = .ok k
    ∧ (addBackend env fullSvcName svcPort ingAnn c).2.backendAnnotations.lookup (buildID k)
        = some (UpdateStructBack env.globalConfig ingAnn (serviceView env k svc)).2
    ∧ (serviceView env k svc).Source = ⟨k.Namespace, k.Name, "service"⟩
    ∧ (UpdateStructBack env.globalConfig ingAnn (serviceView env k svc)).2.Source
        = ⟨k.Namespace, k.Name, "service"⟩
    ∧ (∀ f, (serviceView env k svc).get f ≠ env.globalConfig.back f →
        (UpdateStructBack env.globalConfig ingAnn (serviceView env k svc)).2.get f
          = (serviceView env k svc).get f)
    ∧ (∀ f, (serviceView env k svc).get f = env.globalConfig.back f →
        (UpdateStructBack env.globalConfig ingAnn (serviceView env k svc)).2.get f
          = ingAnn.get f)
    ∧ (addBackend env fullSvcName svcPort ingAnn c).2.logger
        = c.logger
          ++ ((addBackendPopulated env fullSvcName svc k c).1.map
              (fun err => LogEntry.errorAddingEndpoints fullSvcName err)).toList
          ++ readAnnotationsLog env ⟨k.Namespace, k.Name, "service"⟩ svc.Annotations
          ++ mergeInfo env k ingAnn (serviceView env k svc)
    ∧ (∀ e ∈ ((addBackendPopulated env fullSvcName svc k c).1.map
              (fun err => LogEntry.errorAddingEndpoints fullSvcName err)).toList
          ++ readAnnotationsLog env ⟨k.Namespace, k.Name, "service"⟩ svc.Annotations,
        e.level = "ERROR")
    ∧ (∀ f, (serviceView env k svc).get f ≠ env.globalConfig.back f →
        ingAnn.get f ≠ env.globalConfig.back f →
        (serviceView env k svc).get f ≠ ingAnn.get f →
        ∃ skipped, f.key ∈ skipped
          ∧ mergeInfo env k ingAnn (serviceView env k svc)
            = [LogEntry.skippingBackendAnnotations k ingAnn.Source skipped]) := by
  have hp' : (addBackendPopulated env fullSvcName svc k c).2.panicked.isSome = false := by
    simp [hp]
  have hadd := addBackend_new env fullSvcName svcPort ingAnn c svc k hres hnew hp'
  refine ⟨by rw [hadd], ?_, rfl, rfl, fun f hf => updateStructBack_get_kept _ _ _ f hf,
    fun f hf => updateStructBack_get_taken _ _ _ f hf, ?_, ?_, ?_⟩
  · rw [hadd]
    simp only [addBackendNew_backendAnnotations, lookup_mapSet, if_true]
  · rw [hadd]
    exact addBackendNew_logger env fullSvcName ingAnn svc k c
  · intro e he
    rcases List.mem_append.mp he with h | h
    · cases hx : (addBackendPopulated env fullSvcName svc k c).1 with
      | none => simp [hx] at h
      | some err =>
        simp [hx] at h
        subst h
        rfl
    · unfold readAnnotationsLog at h
      rcases List.mem_append.mp h with h | h
      · cases hx : (MergeMapFront (readAnnotationsMap env svc.Annotations)
            (defaultsToFront ⟨k.Namespace, k.Name, "service"⟩ env.globalConfig)).2 with
        | none => simp [hx] at h
        | some err =>
          simp [hx] at h
          subst h
          rfl
      · cases hx : (MergeMapBack (readAnnotationsMap env svc.Annotations)
            (defaultsToBack ⟨k.Namespace, k.Name, "service"⟩ env.globalConfig)).2 with
        | none => simp [hx] at h
        | some err =>
          simp [hx] at h
          subst h
          rfl
  · intro f hs hi hne
    have hmem := updateStructBack_conflict env.globalConfig ingAnn (serviceView env k svc) f hi
      hs hne
    refine ⟨_, hmem, ?_⟩
    unfold mergeInfo
    have hpos : (UpdateStructBack env.globalConfig ingAnn (serviceView env k svc)).1.length > 0 :=
      List.length_pos_of_mem hmem
    simp [hpos]

theorem service_annotations_first_witness :
    (addBackend annotatedSvcEnv "default/echo" 8080 (backView annotatedSvcEnv
        conflictingBackIngress) freshConverter).2.backendAnnotations.lookup
        (buildID ⟨"default", "echo", 8080⟩)
      = some (UpdateStructBack annotatedSvcEnv.globalConfig
          (backView annotatedSvcEnv conflictingBackIngress)
          (serviceView annotatedSvcEnv ⟨"default", "echo", 8080⟩
            ⟨"default", "echo", [("ingress.kubernetes.io/balance-algorithm", "leastconn")],
              [⟨8080, 8080⟩]⟩)).2 :=
  (service_annotations_first annotatedSvcEnv "default/echo" 8080
    (backView annotatedSvcEnv conflictingBackIngress) freshConverter
    ⟨"default", "echo", [("ingress.kubernetes.io/balance-algorithm", "leastconn")], [⟨8080, 8080⟩]⟩
    ⟨"default", "echo", 8080⟩ rfl rfl (by decide)).2.1

/-! ## Which value wins a contested field -/

theorem addFrontend_merged_record (env : Env) (host : String) (ingAnn ann : Nat) (c : Converter)
    (h : c.frontendAnnotations.lookup host = some ann) (hlt : ann < c.frontendRecords.length) :
    (addFrontend env host ingAnn c).frontAnn ann
      = (UpdateStructFront env.globalConfig (c.frontAnn ingAnn) (c.frontAnn ann)).2 := by
  have hset : (addFrontend env host ingAnn c).frontendRecords
      = c.frontendRecords.set ann
          (UpdateStructFront env.globalConfig (c.frontAnn ingAnn) (c.frontAnn ann)).2 := by
    rw [addFrontend_merge env host ingAnn ann c h]
    unfold addFrontendMerged
    split <;> rfl
  rw [frontAnn_set c ann ann _ _ hset]
  simp [hlt]

/-- C13, as the code has it. Which value a pending record keeps for a field is
decided by the order in which views are merged into the record: (a, b) when
`addBackend` or `addFrontend` finds a pending record it merges the view of the
resource into it, and (c) the merge keeps every value of the record that differs
from the default and takes the value of the view only for a field that the
record still has at its default; (d) the record of a backend without pending
record starts from the view of the service, into which the view of the resource
is merged, so the values of the service outrank those of every resource; (e, f)
a value that differs from the default, once in a pending record, is kept by
every resource that follows in the list. -/
theorem first_merge_wins (env : Env) :
    (∀ (fullSvcName : String) (svcPort : Int) (ingAnn : BackendAnnotations) (c : Converter)
        (svc : Service) (k : BackendKey) (ann : BackendAnnotations),
        resolveBackend env fullSvcName svcPort = .backend svc k →
        c.backendAnnotations.lookup (buildID k) = some ann →
        (addBackend env fullSvcName svcPort ingAnn c).2.backendAnnotations.lookup (buildID k)
          = some (UpdateStructBack env.globalConfig ingAnn ann).2)
    ∧ (∀ (host : String) (ingAnn ann : Nat) (c : Converter),
        c.frontendAnnotations.lookup host = some ann → ann < c.frontendRecords.length →
        (addFrontend env host ingAnn c).frontendAnnotations.lookup host = some ann
          ∧ (addFrontend env host ingAnn c).frontAnn ann
            = (UpdateStructFront env.globalConfig (c.frontAnn ingAnn) (c.frontAnn ann)).2)
    ∧ (∀ (src dst : BackendAnnotations) (f : BackField),
        (dst.get f ≠ env.globalConfig.back f →
          (UpdateStructBack env.globalConfig src dst).2.get f = dst.get f)
        ∧ (dst.get f = env.globalConfig.back f →
          (UpdateStructBack env.globalConfig src dst).2.get f = src.get f))
    ∧ (∀ (src dst : FrontendAnnotations) (f : FrontField),
        (dst.get f ≠ env.globalConfig.front f →
          (UpdateStructFront env.globalConfig src dst).2.get f = dst.get f)
        ∧ (dst.get f = env.globalConfig.front f →
          (UpdateStructFront env.globalConfig src dst).2.get f = src.get f))
    ∧ (∀ (fullSvcName : String) (svcPort : Int) (ingAnn : BackendAnnotations) (c : Converter)
        (svc : Service) (k : BackendKey),
        resolveBackend env fullSvcName svcPort = .backend svc k →
        c.backendAnnotations.lookup (buildID k) = none →
        (addBackendPopulated env fullSvcName svc k c).2.panicked = none →
        (addBackend env fullSvcName svcPort ingAnn c).2.backendAnnotations.lookup (buildID k)
          = some (UpdateStructBack env.globalConfig ingAnn (serviceView env k svc)).2)
    ∧ (∀ (pre rest : List Ingress) (c : Converter) (id : String) (r : BackendAnnotations),
        (syncAll env pre c).backendAnnotations.lookup id = some r →
        ∃ r', (Sync env (pre ++ rest) c).backendAnnotations.lookup id = some r'
          ∧ r'.Source = r.Source
          ∧ ∀ f, r.get f ≠ env.globalConfig.back f → r'.get f = r.get f)
    ∧ (∀ (pre rest : List Ingress) (c : Converter) (h : String) (r : Nat),
        (syncAll env pre c).frontendAnnotations.lookup h = some r →
        r < (syncAll env pre c).frontendRecords.length →
        (Sync env (pre ++ rest) c).frontendAnnotations.lookup h = some r
          ∧ ((Sync env (pre ++ rest) c).frontAnn r).Source
            = ((syncAll env pre c).frontAnn r).Source
          ∧ ∀ f, ((syncAll env pre c).frontAnn r).get f ≠ env.globalConfig.front f →
              ((Sync env (pre ++ rest) c).frontAnn r).get f
                = ((syncAll env pre c).frontAnn r).get f) := by
  refine ⟨?_, ?_, ?_, ?_, ?_, ?_, ?_⟩
  · intro fullSvcName svcPort ingAnn c svc k ann hres hl
    rw [addBackend_found env fullSvcName svcPort ingAnn c svc k ann hres hl]
    simp only [addBackendFound_backendAnnotations, lookup_mapSet, if_true]
  · intro host ingAnn ann c hl hlt
    refine ⟨?_, addFrontend_merged_record env host ingAnn ann c hl hlt⟩
    rw [addFrontend_lookup, hl]
    rfl
  · intro src dst f
    exact ⟨updateStructBack_get_kept _ _ _ f, updateStructBack_get_taken _ _ _ f⟩
  · intro src dst f
    exact ⟨updateStructFront_get_kept _ _ _ f, updateStructFront_get_taken _ _ _ f⟩
  · intro fullSvcName svcPort ingAnn c svc k hres hl hp
    rw [addBackend_new env fullSvcName svcPort ingAnn c svc k hres hl (by simp [hp])]
    simp only [addBackendNew_backendAnnotations, lookup_mapSet, if_true]
  · intro pre rest c id r hr
    rw [Sync_append]
    exact backRecEvolves_Sync env rest (syncAll env pre c) id r hr
  · intro pre rest c h r hr hlt
    rw [Sync_append]
    have hev := recEvolves_Sync env rest (syncAll env pre c)
    exact ⟨hev.2.2.1 h r hr, (hev.2.1 r hlt).1, (hev.2.1 r hlt).2⟩

theorem first_merge_wins_witness :
    ∃ r', (Sync annotatedSvcEnv ([conflictingBackIngress] ++ [conflictingBackIngress])
        freshConverter).backendAnnotations.lookup "default_echo_8080" = some r'
      ∧ r'.Source = (UpdateStructBack annotatedSvcEnv.globalConfig
          (backView annotatedSvcEnv conflictingBackIngress)
          (serviceView annotatedSvcEnv ⟨"default", "echo", 8080⟩
            ⟨"default", "echo", [("ingress.kubernetes.io/balance-algorithm", "leastconn")],
              [⟨8080, 8080⟩]⟩)).2.Source
      ∧ ∀ f, (UpdateStructBack annotatedSvcEnv.globalConfig
          (backView annotatedSvcEnv conflictingBackIngress)
          (serviceView annotatedSvcEnv ⟨"default", "echo", 8080⟩
            ⟨"default", "echo", [("ingress.kubernetes.io/balance-algorithm", "leastconn")],
              [⟨8080, 8080⟩]⟩)).2.get f ≠ annotatedSvcEnv.globalConfig.back f →
        r'.get f = (UpdateStructBack annotatedSvcEnv.globalConfig
          (backView annotatedSvcEnv conflictingBackIngress)
          (serviceView annotatedSvcEnv ⟨"default", "echo", 8080⟩
            ⟨"default", "echo", [("ingress.kubernetes.io/balance-algorithm", "leastconn")],
              [⟨8080, 8080⟩]⟩)).2.get f :=
  (first_merge_wins annotatedSvcEnv).2.2.2.2.2.1 [conflictingBackIngress]
    [conflictingBackIngress] freshConverter "default_echo_8080" _ (by decide)

/-- C13 as stated fails: the only resource of the list sets the balance algorithm
to `first`, which differs from the default, yet the pending record of the backend
keeps `leastconn`, the value of the annotation of the service; the value of the
resource is reported as skipped. -/
theorem service_outranks_first_resource :
    (backView annotatedSvcEnv conflictingBackIngress).BalanceAlgorithm = "first"
    ∧ annotatedSvcEnv.globalConfig.BalanceAlgorithm = ""
    ∧ ((Sync annotatedSvcEnv [conflictingBackIngress] freshConverter).backendAnnotations.lookup
        "default_echo_8080").map (fun r => (r.Source.Kind, r.BalanceAlgorithm, r.MaxconnServer))
      = some ("service", "leastconn", 10)
    ∧ (Sync annotatedSvcEnv [conflictingBackIngress] freshConverter).logger
      = [LogEntry.skippingBackendAnnotations ⟨"default", "echo", 8080⟩
          ⟨"default", "echo", "ingress"⟩ ["balance-algorithm"]]
    ∧ (Sync annotatedSvcEnv [conflictingBackIngress] freshConverter).panicked = none := by
  refine ⟨by decide, rfl, by decide, by decide, by decide⟩

/-- C15 fails on the code: neither resource declares a default backend or a TLS
binding, they declare different paths, and only the second supplies a value that
differs from a default; yet the pending record of `h2.example.com`, for which
only the first resource has a rule, depends on the order of the two resources,
and so does the configuration that the updater receives for that host. -/
theorem order_changes_pending_record :
    (twoHostsIngress.Backend = none ∧ firstHostIngress.Backend = none
      ∧ twoHostsIngress.TLS = [] ∧ firstHostIngress.TLS = [])
    ∧ (twoHostsIngress.Rules.map (fun r => (r.hostname, (r.HTTP.getD []).map (fun p => p.uri)))
        = [("h1.example.com", ["/"]), ("h2.example.com", ["/"])]
      ∧ firstHostIngress.Rules.map (fun r => (r.hostname, (r.HTTP.getD []).map (fun p => p.uri)))
        = [("h1.example.com", ["/app"])])
    ∧ (∀ f, (frontView demoEnv twoHostsIngress).get f = demoEnv.globalConfig.front f)
    ∧ (∀ f, (backView demoEnv twoHostsIngress).get f = demoEnv.globalConfig.back f)
    ∧ (∀ f, (backView demoEnv firstHostIngress).get f = demoEnv.globalConfig.back f)
    ∧ ((Sync demoEnv [twoHostsIngress, firstHostIngress] freshConverter).pendingFront
        "h2.example.com").map (fun r => r.TimeoutClient) = some "2s"
    ∧ ((Sync demoEnv [firstHostIngress, twoHostsIngress] freshConverter).pendingFront
        "h2.example.com").map (fun r => r.TimeoutClient) = some ""
    ∧ (Sync demoEnv [twoHostsIngress, firstHostIngress] freshConverter).calls.filterMap
        (fun x => match x with
          | Call.UpdateFrontendConfig h r => some (h, r.TimeoutClient)
          | _ => none)
      = [("h1.example.com", "2s"), ("h2.example.com", "2s")]
    ∧ (Sync demoEnv [firstHostIngress, twoHostsIngress] freshConverter).calls.filterMap
        (fun x => match x with
          | Call.UpdateFrontendConfig h r => some (h, r.TimeoutClient)
          | _ => none)
      = [("h1.example.com", "2s"), ("h2.example.com", "")]
    ∧ (Sync demoEnv [twoHostsIngress, firstHostIngress] freshConverter).panicked = none
    ∧ (Sync demoEnv [firstHostIngress, twoHostsIngress] freshConverter).panicked = none := by
  refine ⟨by decide, by decide, ?_, ?_, ?_, by decide, by decide, by decide, by decide,
    by decide, by decide⟩
  · intro f
    cases f <;> decide
  · intro f
    cases f <;> decide
  · intro f
    cases f <;> decide

/-! ## A resource that is processed again -/

theorem addTLS_fst (env : Env) (ns secretName : String) (c : Converter) :
    (addTLS env ns secretName c).1 = resolveTLS env ns secretName := by
  cases h1 : env.cache.GetTLSSecretPath (tlsSecretName env ns secretName) with
  | ok p =>
    rw [addTLS_direct env ns secretName c p h1]
    simp [resolveTLS, h1]
  | error e =>
    by_cases hn : tlsSecretName env ns secretName = env.options.DefaultSSLSecret
    · have hd : env.cache.GetTLSSecretPath env.options.DefaultSSLSecret = .error e := by
        rw [← hn]
        exact h1
      rw [addTLS_default_fails env ns secretName c e hn hd]
      unfold resolveTLS
      rw [h1]
      simp [hn]
    · cases h2 : env.cache.GetTLSSecretPath env.options.DefaultSSLSecret with
      | ok p =>
        rw [addTLS_fallback env ns secretName c e p h1 hn h2]
        unfold resolveTLS
        rw [h1]
        simp [hn, h2]
      | error e2 =>
        rw [addTLS_both_fail env ns secretName c e e2 h1 hn h2]
        unfold resolveTLS
        rw [h1]
        simp [hn, h2]

theorem modifyFirst_fix {α : Type} (p : α → Bool) (g : α → α) (l : List α)
    (h : ∀ x, l.find? p = some x → g x = x) : modifyFirst p g l = l := by
  induction l with
  | nil => rfl
  | cons x xs ih =>
    unfold modifyFirst
    cases hp : p x with
    | true =>
      have : g x = x := h x (by simp [List.find?_cons, hp])
      simp [this]
    | false =>
      have hxs : ∀ y, xs.find? p = some y → g y = y := by
        intro y hy
        exact h y (by simp [List.find?_cons, hp, hy])
      simp [ih hxs]

theorem setTLSFilename_fix (t : String) (f : Frontend) (h : f.TLS.TLSFilename = t) :
    setTLSFilename t f = f := by
  cases f with
  | mk hostname paths root timeout tls pass http =>
    cases tls
    simp_all [setTLSFilename]

theorem acquire_existing (cfg : Config) (h : String)
    (hex : (cfg.FindFrontend h).isSome = true) : cfg.AcquireFrontend h = cfg := by
  unfold Config.AcquireFrontend
  cases hf : cfg.FindFrontend h with
  | some f => rfl
  | none => simp [hf] at hex

theorem addFrontend_haproxy (env : Env) (host : String) (ingAnn : Nat) (c : Converter) :
    (addFrontend env host ingAnn c).haproxy = c.haproxy.AcquireFrontend host := by
  unfold addFrontend
  simp only
  repeat' split
  all_goals simp [Converter.log]

theorem resolveBackend_notFound (env : Env) (fullSvcName : String) (svcPort : Int)
    (err : String) (h : env.cache.GetService fullSvcName = .error err) :
    resolveBackend env fullSvcName svcPort = .notFound err := by
  simp [resolveBackend, h]

theorem syncDefaultBackend_skip (env : Env) (ing : Ingress) (ingFrontAnn : Nat)
    (ingBackAnn : BackendAnnotations) (c : Converter) (b : IngressBackend) (err : String)
    (hb : ing.Backend = some b)
    (hp : (addDefaultHostBackend env (FullQualifiedName ing.Namespace b.ServiceName)
      b.ServicePort ingFrontAnn ingBackAnn c).2.panicked = none)
    (he : (addDefaultHostBackend env (FullQualifiedName ing.Namespace b.ServiceName)
      b.ServicePort ingFrontAnn ingBackAnn c).1 = some err) :
    syncDefaultBackend env ing ingFrontAnn ingBackAnn c
      = (addDefaultHostBackend env (FullQualifiedName ing.Namespace b.ServiceName)
          b.ServicePort ingFrontAnn ingBackAnn c).2.log
            (LogEntry.skippingDefaultBackend ing.fullName err) := by
  unfold syncDefaultBackend
  simp only [hb, readServiceNamePort, hp, he, Option.isSome_none, Bool.false_eq_true, if_false,
    Ingress.fullName]

theorem syncDefaultBackend_pass (env : Env) (ing : Ingress) (ingFrontAnn : Nat)
    (ingBackAnn : BackendAnnotations) (c : Converter) (b : IngressBackend)
    (hb : ing.Backend = some b)
    (h : (addDefaultHostBackend env (FullQualifiedName ing.Namespace b.ServiceName)
        b.ServicePort ingFrontAnn ingBackAnn c).2.panicked.isSome = true
      ∨ (addDefaultHostBackend env (FullQualifiedName ing.Namespace b.ServiceName)
        b.ServicePort ingFrontAnn ingBackAnn c).1 = none) :
    syncDefaultBackend env ing ingFrontAnn ingBackAnn c
      = (addDefaultHostBackend env (FullQualifiedName ing.Namespace b.ServiceName)
          b.ServicePort ingFrontAnn ingBackAnn c).2 := by
  unfold syncDefaultBackend
  simp only [hb, readServiceNamePort]
  rcases h with h | h
  · simp only [h, if_true]
  · simp only [h]
    split <;> rfl

theorem syncDefaultBackend_none (env : Env) (ing : Ingress) (ingFrontAnn : Nat)
    (ingBackAnn : BackendAnnotations) (c : Converter) (hb : ing.Backend = none) :
    syncDefaultBackend env ing ingFrontAnn ingBackAnn c = c := by
  unfold syncDefaultBackend
  simp only [hb]

theorem Replays.replaysRefl (c : Converter) : Replays c c :=
  ⟨rfl, rfl, rfl, [], by simp, by simp⟩

theorem Replays.replaysThen {a b c : Converter} (h1 : Replays a b) (h2 : Replays b c) :
    Replays a c := by
  obtain ⟨a1, a2, a3, e1, a4, a5⟩ := h1
  obtain ⟨b1, b2, b3, e2, b4, b5⟩ := h2
  refine ⟨b1.trans a1, b2.trans a2, b3.trans a3, e1 ++ e2, ?_, ?_⟩
  · rw [b4, a4, List.append_assoc]
  · intro e he
    rcases List.mem_append.mp he with h | h
    · exact a5 e h
    · exact b5 e h

theorem replays_log (c : Converter) (e : LogEntry) (h : e.repeats = true) :
    Replays c (c.log e) :=
  ⟨rfl, rfl, rfl, [e], rfl, by simpa using h⟩

theorem replays_call (c : Converter) (x : Call) : Replays c (c.call x) :=
  ⟨rfl, rfl, rfl, [], by simp [Converter.call], by simp⟩

theorem settled_congr {env : Env} {ing : Ingress} {c c' : Converter}
    (h : c'.haproxy = c.haproxy) (hs : Settled env ing c) : Settled env ing c' := by
  have hfr : ∀ host, c'.frontend host = c.frontend host :=
    fun host => frontend_congr c c' host (by rw [h])
  have ho : defaultHostOccupied c' = defaultHostOccupied c :=
    defaultHostOccupied_congr c c' (by rw [h])
  unfold Settled at hs ⊢
  simp only [hfr, ho, h]
  exact hs

theorem replays_addTLS (env : Env) (ns secretName : String) (c : Converter) :
    Replays c (addTLS env ns secretName c).2 := by
  have hf := addTLS_frame env ns secretName c
  refine ⟨hf.1, hf.2.2.2.1, hf.2.2.2.2, ?_⟩
  rcases addTLS_logger env ns secretName c with h | ⟨name, err, h⟩
  · exact ⟨[], by simp [h], by simp⟩
  · exact ⟨[LogEntry.usingDefaultCertificate name err], h, by simp [LogEntry.repeats]⟩

theorem tlsWarning_repeats (ing : Ingress) (tls : IngressTLS) (err : String) :
    (tlsWarning ing tls err).repeats = true := by
  unfold tlsWarning
  split <;> rfl

theorem replays_syncTLSHost (env : Env) (ing : Ingress) (hostname : String) (tls : IngressTLS)
    (host : String) (c : Converter)
    (h : host = hostname → ∀ tlsPath, resolveTLS env ing.Namespace tls.SecretName = .ok tlsPath →
      (c.frontend hostname).TLS.TLSFilename ≠ "" ∨ tlsPath = "") :
    Replays c (syncTLSHost env ing hostname tls host c) := by
  have ht := replays_addTLS env ing.Namespace tls.SecretName c
  have hfr : (addTLS env ing.Namespace tls.SecretName c).2.frontend hostname
      = c.frontend hostname := frontend_congr c _ hostname (by rw [ht.1])
  by_cases hh : host = hostname
  · subst hh
    cases he : (addTLS env ing.Namespace tls.SecretName c).1 with
    | error err =>
      rw [syncTLSHost_error _ _ _ _ _ err he]
      exact ht.replaysThen (replays_log _ _ (tlsWarning_repeats ing tls err))
    | ok tlsPath =>
      have hres : resolveTLS env ing.Namespace tls.SecretName = .ok tlsPath := by
        rw [← addTLS_fst env ing.Namespace tls.SecretName c, he]
      by_cases hempty :
          ((addTLS env ing.Namespace tls.SecretName c).2.frontend host).TLS.TLSFilename = ""
      · rw [syncTLSHost_assign _ _ _ _ _ tlsPath he hempty]
        have hpath : tlsPath = "" := by
          rcases h rfl tlsPath hres with h1 | h1
          · rw [hfr] at hempty
            exact absurd hempty h1
          · exact h1
        refine ht.replaysThen ⟨?_, rfl, rfl, [], by simp, by simp⟩
        have hfix : modifyFirst (fun x => x.Hostname = host) (setTLSFilename tlsPath)
            (addTLS env ing.Namespace tls.SecretName c).2.haproxy.frontends
            = (addTLS env ing.Namespace tls.SecretName c).2.haproxy.frontends := by
          apply modifyFirst_fix
          intro x hx
          have hx' : (addTLS env ing.Namespace tls.SecretName c).2.frontend host = x :=
            frontend_eq_of_find _ host x hx
          rw [hx'] at hempty
          exact setTLSFilename_fix tlsPath x (by rw [hempty, hpath])
        simp only [Config.modifyFrontend, hfix]
      · by_cases hd :
            ((addTLS env ing.Namespace tls.SecretName c).2.frontend host).TLS.TLSFilename
              = tlsPath
        · rw [syncTLSHost_same _ _ _ _ _ tlsPath he hempty hd]
          exact ht
        · rw [syncTLSHost_conflict _ _ _ _ _ tlsPath he hempty hd]
          exact ht.replaysThen (replays_log _ _ (tlsWarning_repeats ing tls _))
  · rw [syncTLSHost_other _ _ _ _ _ _ hh]
    exact Replays.replaysRefl c

theorem replays_syncPath (env : Env) (ing : Ingress) (hostname : String) (ingFrontAnn : Nat)
    (ingBackAnn : BackendAnnotations) (path : HTTPIngressPath) (c : Converter)
    (h : ((c.frontend hostname).FindPath path.uri).isSome = true
      ∨ ∃ err, env.cache.GetService (path.fullSvcName ing) = .error err) :
    Replays c (syncPath env ing hostname ingFrontAnn ingBackAnn path c) := by
  cases hr : ((c.frontend hostname).FindPath path.uri).isSome with
  | true =>
    rw [syncPath_registered _ _ _ _ _ _ _ hr]
    exact replays_log _ _ rfl
  | false =>
    rcases h with h | ⟨err, herr⟩
    · rw [hr] at h
      cases h
    · have hadd := addBackend_notFound env (path.fullSvcName ing) path.Backend.ServicePort
        ingBackAnn c err (resolveBackend_notFound env _ _ err herr)
      cases hp : (addBackend env (path.fullSvcName ing) path.Backend.ServicePort ingBackAnn
          c).2.panicked.isSome with
      | true =>
        rw [syncPath_panicked _ _ _ _ _ _ _ hr hp, hadd]
        exact replays_call c _
      | false =>
        rw [syncPath_error _ _ _ _ _ _ _ err hr hp (by rw [hadd]), hadd]
        exact (replays_call c _).replaysThen (replays_log _ _ rfl)

theorem replays_syncDefaultBackend (env : Env) (ing : Ingress) (ingFrontAnn : Nat)
    (ingBackAnn : BackendAnnotations) (c : Converter)
    (h : ∀ b, ing.Backend = some b → defaultHostOccupied c = true
      ∨ ∃ err, env.cache.GetService (FullQualifiedName ing.Namespace b.ServiceName)
          = .error err) :
    Replays c (syncDefaultBackend env ing ingFrontAnn ingBackAnn c) := by
  cases hb : ing.Backend with
  | none =>
    rw [syncDefaultBackend_none _ _ _ _ _ hb]
    exact Replays.replaysRefl c
  | some b =>
    cases ho : defaultHostOccupied c with
    | true =>
      have hadd := addDefaultHostBackend_occupied env
        (FullQualifiedName ing.Namespace b.ServiceName) b.ServicePort ingFrontAnn ingBackAnn c ho
      cases hc : c.panicked with
      | none =>
        rw [syncDefaultBackend_skip env ing ingFrontAnn ingBackAnn c b _ hb (by rw [hadd]; exact hc)
          (by rw [hadd]), hadd]
        exact replays_log _ _ rfl
      | some p =>
        rw [syncDefaultBackend_pass env ing ingFrontAnn ingBackAnn c b hb
          (Or.inl (by rw [hadd]; simp [hc])), hadd]
        exact Replays.replaysRefl c
    | false =>
      rcases h b hb with h1 | ⟨err, herr⟩
      · rw [ho] at h1
        cases h1
      · have hback := addBackend_notFound env (FullQualifiedName ing.Namespace b.ServiceName)
          b.ServicePort ingBackAnn c err (resolveBackend_notFound env _ _ err herr)
        cases hp : (addBackend env (FullQualifiedName ing.Namespace b.ServiceName)
            b.ServicePort ingBackAnn c).2.panicked.isSome with
        | true =>
          have hadd := addDefaultHostBackend_panicked env
            (FullQualifiedName ing.Namespace b.ServiceName) b.ServicePort ingFrontAnn
            ingBackAnn c ho hp
          rw [syncDefaultBackend_pass env ing ingFrontAnn ingBackAnn c b hb
            (Or.inl (by rw [hadd]; exact hp)), hadd, hback]
          exact replays_call c _
        | false =>
          have hadd := addDefaultHostBackend_error env
            (FullQualifiedName ing.Namespace b.ServiceName) b.ServicePort ingFrontAnn
            ingBackAnn c err ho hp (by rw [hback])
          have hp2 : (addDefaultHostBackend env (FullQualifiedName ing.Namespace b.ServiceName)
              b.ServicePort ingFrontAnn ingBackAnn c).2.panicked = none := by
            rw [hadd]
            simpa using hp
          rw [syncDefaultBackend_skip env ing ingFrontAnn ingBackAnn c b err hb hp2
            (by rw [hadd]), hadd, hback]
          exact (replays_call c _).replaysThen (replays_log _ _ rfl)

theorem replays_addFrontend (env : Env) (host : String) (ingAnn : Nat) (c : Converter)
    (hex : (c.haproxy.FindFrontend host).isSome = true) :
    Replays c (addFrontend env host ingAnn c) := by
  refine ⟨?_, (keepsBack_addFrontend env host ingAnn c).2, addFrontend_panicked env host ingAnn c,
    ?_⟩
  · rw [addFrontend_haproxy, acquire_existing _ _ hex]
  · cases hl : c.frontendAnnotations.lookup host with
    | none =>
      rw [addFrontend_new env host ingAnn c hl]
      exact ⟨[], by simp, by simp⟩
    | some ann =>
      rw [addFrontend_merge env host ingAnn ann c hl]
      split
      · exact ⟨[_], rfl, by simp [LogEntry.repeats]⟩
      · exact ⟨[], by simp [addFrontendMerged], by simp⟩

theorem readAnnotationsLog_repeats (env : Env) (source : Source)
    (annotations : List (String × String)) :
    ∀ e ∈ readAnnotationsLog env source annotations, e.repeats = true := by
  intro e he
  unfold readAnnotationsLog at he
  rcases List.mem_append.mp he with h | h
  · cases hx : (MergeMapFront (readAnnotationsMap env annotations)
        (defaultsToFront source env.globalConfig)).2 with
    | none => simp [hx] at h
    | some err =>
      simp [hx] at h
      subst h
      rfl
  · cases hx : (MergeMapBack (readAnnotationsMap env annotations)
        (defaultsToBack source env.globalConfig)).2 with
    | none => simp [hx] at h
    | some err =>
      simp [hx] at h
      subst h
      rfl

theorem replays_syncIngressStart (env : Env) (ing : Ingress) (c : Converter) :
    Replays c (syncIngressStart env ing c) := by
  unfold syncIngressStart
  simp only [readAnnotations_eq]
  exact ⟨rfl, rfl, rfl, _, rfl, readAnnotationsLog_repeats env _ _⟩

theorem replays_syncRule (env : Env) (ing : Ingress) (ingFrontAnn : Nat)
    (ingBackAnn : BackendAnnotations) (rule : IngressRule) (hrule : rule ∈ ing.Rules)
    (c : Converter) (hs : Settled env ing c) :
    Replays c (syncRule env ing ingFrontAnn ingBackAnn rule c) := by
  have hrefl : ∀ c : Converter, Settled env ing c → Replays c c :=
    fun c _ => Replays.replaysRefl c
  have htrans : ∀ a b c : Converter, (Settled env ing a → Replays a b) →
      (Settled env ing b → Replays b c) → Settled env ing a → Replays a c :=
    fun a b c h1 h2 hs => (h1 hs).replaysThen (h2 (settled_congr (h1 hs).1 hs))
  cases hr : rule.HTTP with
  | none =>
    have : syncRule env ing ingFrontAnn ingBackAnn rule c = c := by simp [syncRule, hr]
    rw [this]
    exact Replays.replaysRefl c
  | some paths =>
    rw [syncRule_http _ _ _ _ _ paths _ hr]
    have h1 := replays_addFrontend env rule.hostname ingFrontAnn c (hs.2 rule hrule paths hr).1
    have hs1 := settled_congr h1.1 hs
    have h2 := forEach_rel (fun c c' => Settled env ing c → Replays c c') hrefl htrans
      (syncPath env ing rule.hostname ingFrontAnn ingBackAnn) paths
      (fun p hp s _ hss => replays_syncPath env ing rule.hostname ingFrontAnn ingBackAnn p s
        ((hss.2 rule hrule paths hr).2.1 p hp))
      (addFrontend env rule.hostname ingFrontAnn c) hs1
    have hs2 := settled_congr h2.1 hs1
    have h3 := forEach_rel (fun c c' => Settled env ing c → Replays c c') hrefl htrans
      (fun tls => forEach (syncTLSHost env ing rule.hostname tls) tls.Hosts) ing.TLS
      (fun tls htls s _ hss =>
        forEach_rel (fun c c' => Settled env ing c → Replays c c') hrefl htrans
          (syncTLSHost env ing rule.hostname tls) tls.Hosts
          (fun host hhost t _ hst => replays_syncTLSHost env ing rule.hostname tls host t
            (fun hh => (hst.2 rule hrule paths hr).2.2 tls htls (hh ▸ hhost))) s hss)
      _ hs2
    exact h1.replaysThen (h2.replaysThen h3)

theorem replays_syncIngress (env : Env) (ing : Ingress) (c : Converter)
    (hs : Settled env ing c) : Replays c (syncIngress env ing c) := by
  have hrefl : ∀ c : Converter, Settled env ing c → Replays c c :=
    fun c _ => Replays.replaysRefl c
  have htrans : ∀ a b c : Converter, (Settled env ing a → Replays a b) →
      (Settled env ing b → Replays b c) → Settled env ing a → Replays a c :=
    fun a b c h1 h2 hs => (h1 hs).replaysThen (h2 (settled_congr (h1 hs).1 hs))
  rw [syncIngress_eq]
  have h1 := replays_syncIngressStart env ing c
  have hs1 := settled_congr h1.1 hs
  have h2 := replays_syncDefaultBackend env ing c.frontendRecords.length (backView env ing)
    (syncIngressStart env ing c) hs1.1
  have hs2 := settled_congr h2.1 hs1
  have h3 := forEach_rel (fun c c' => Settled env ing c → Replays c c') hrefl htrans
    (syncRule env ing c.frontendRecords.length (backView env ing)) ing.Rules
    (fun rule hrule s _ hss => replays_syncRule env ing _ _ rule hrule s hss) _ hs2
  exact h1.replaysThen (h2.replaysThen h3)

/-! ## The state after a resource has been processed -/

theorem Advances.advRefl (c : Converter) : Advances c c :=
  ⟨FrontEvolves.frontRefl c, Grows.growsRefl c⟩

theorem Advances.advThen {a b c : Converter} (h1 : Advances a b) (h2 : Advances b c) :
    Advances a c :=
  ⟨h1.1.frontThen h2.1, h1.2.growsThen h2.2⟩

theorem Advances.nopanic {c c' : Converter} (h : Advances c c') (hp : c'.panicked = none) :
    c.panicked = none := by
  by_contra hne
  exact h.2.2 hne hp

theorem advances_invariant (env : Env) : StepInvariant env Advances where
  stepRefl := Advances.advRefl
  stepTrans := fun _ _ _ => Advances.advThen
  stepLog := fun c e => ⟨FrontEvolves.of_eq rfl, grows_log c e⟩
  stepBackend := fun fullSvcName svcPort ingAnn c =>
    ⟨FrontEvolves.of_eq (keepsFront_addBackend env fullSvcName svcPort ingAnn c).1,
      grows_addBackend env fullSvcName svcPort ingAnn c⟩
  stepFrontend := fun host ingAnn c =>
    ⟨frontEvolves_addFrontend env host ingAnn c,
      (recEvolvesAt_addFrontend env host ingAnn c).1.2.2.2⟩
  stepTLS := fun ns secretName c =>
    ⟨FrontEvolves.of_eq (by rw [(addTLS_frame env ns secretName c).1]),
      grows_addTLS env ns secretName c⟩
  stepAddPath := fun c host k p hg =>
    ⟨frontEvolves_addPath c _ host k p hg rfl, grows_of_eq rfl rfl⟩
  stepSetTLS := fun c host t ht => by
    refine ⟨?_, grows_of_eq rfl rfl⟩
    have hg : ∀ f, c.haproxy.frontends.find? (fun x => x.Hostname = host) = some f →
        f.TLS.TLSFilename = "" := by
      intro f hfind
      have : c.frontend host = f := frontend_eq_of_find c host f hfind
      rw [this] at ht
      exact ht
    exact ⟨frontStable_setTLS _ _ _ hg, pathsNodup_setTLS _ _ _⟩
  stepStart := fun ing c =>
    ⟨FrontEvolves.of_eq (syncIngressStart_frontends env ing c),
      (recEvolves_syncIngressStart env ing c).2.2.2⟩

theorem frontEvolves_exists {c c' : Converter} (h : FrontEvolves c c') (host : String)
    (hex : (c.haproxy.FindFrontend host).isSome = true) :
    (c'.haproxy.FindFrontend host).isSome = true := by
  obtain ⟨f, hf⟩ := Option.isSome_iff_exists.mp hex
  obtain ⟨f', hf', _⟩ := h.1 host f hf
  unfold Config.FindFrontend
  rw [hf']
  rfl

theorem frontEvolves_path {c c' : Converter} (h : FrontEvolves c c') (host p : String)
    (hp : ((c.frontend host).FindPath p).isSome = true) :
    ((c'.frontend host).FindPath p).isSome = true := by
  cases hf : c.haproxy.FindFrontend host with
  | none =>
    simp [Converter.frontend, hf, createFrontend, Frontend.FindPath] at hp
  | some f =>
    rw [frontend_eq_of_find c host f hf] at hp
    obtain ⟨x, hx⟩ := Option.isSome_iff_exists.mp hp
    obtain ⟨f', hf', _, hpaths⟩ := h.1 host f hf
    rw [frontend_eq_of_find c' host f' hf', hpaths p x hx]
    rfl

theorem frontEvolves_tls {c c' : Converter} (h : FrontEvolves c c') (host : String)
    (ht : (c.frontend host).TLS.TLSFilename ≠ "") :
    (c'.frontend host).TLS.TLSFilename ≠ "" := by
  cases hf : c.haproxy.FindFrontend host with
  | none =>
    simp [Converter.frontend, hf, createFrontend] at ht
  | some f =>
    rw [frontend_eq_of_find c host f hf] at ht
    obtain ⟨f', hf', htls, _⟩ := h.1 host f hf
    rw [frontend_eq_of_find c' host f' hf', htls ht]
    exact ht

theorem occupied_iff (c : Converter) :
    defaultHostOccupied c = ((c.frontend "*").FindPath "/").isSome := by
  unfold defaultHostOccupied Converter.frontend
  cases c.haproxy.FindFrontend "*" with
  | none => simp [createFrontend, Frontend.FindPath]
  | some f => rfl

theorem frontEvolves_occupied {c c' : Converter} (h : FrontEvolves c c')
    (ho : defaultHostOccupied c = true) : defaultHostOccupied c' = true := by
  rw [occupied_iff] at ho ⊢
  exact frontEvolves_path h "*" "/" ho

theorem resolveBackend_notFound_inv (env : Env) (fullSvcName : String) (svcPort : Int)
    (err : String) (h : resolveBackend env fullSvcName svcPort = .notFound err) :
    env.cache.GetService fullSvcName = .error err := by
  cases hg : env.cache.GetService fullSvcName with
  | error e =>
    rw [resolveBackend_notFound env fullSvcName svcPort e hg] at h
    cases h
    rfl
  | ok svc =>
    simp [resolveBackend, hg] at h
    split at h
    · split at h <;> cases h
    · cases h

theorem addBackend_error_notFound (env : Env) (fullSvcName : String) (svcPort : Int)
    (ingAnn : BackendAnnotations) (c : Converter) (err : String)
    (hp : (addBackend env fullSvcName svcPort ingAnn c).2.panicked = none)
    (he : (addBackend env fullSvcName svcPort ingAnn c).1 = .error err) :
    env.cache.GetService fullSvcName = .error err := by
  cases hres : resolveBackend env fullSvcName svcPort with
  | notFound e =>
    rw [addBackend_notFound env _ _ _ c e hres] at he
    cases he
    exact resolveBackend_notFound_inv env fullSvcName svcPort _ hres
  | panics =>
    rw [addBackend_panics env _ _ _ c hres] at hp
    simp [Converter.raise] at hp
  | backend svc k =>
    cases hl : c.backendAnnotations.lookup (buildID k) with
    | some ann =>
      rw [addBackend_found env _ _ _ c svc k ann hres hl] at he
      cases he
    | none =>
      cases hpan : (addBackendPopulated env fullSvcName svc k c).2.panicked.isSome with
      | true =>
        rw [addBackend_new_panicked env _ _ _ c svc k hres hl hpan] at hp
        have hp2 : (addBackendPopulated env fullSvcName svc k c).2.panicked = none := hp
        rw [hp2] at hpan
        simp at hpan
      | false =>
        rw [addBackend_new env _ _ _ c svc k hres hl hpan] at he
        cases he

theorem syncPath_settles (env : Env) (ing : Ingress) (hostname : String) (ingFrontAnn : Nat)
    (ingBackAnn : BackendAnnotations) (path : HTTPIngressPath) (c : Converter)
    (hfin : (syncPath env ing hostname ingFrontAnn ingBackAnn path c).panicked = none)
    (hex : (c.haproxy.FindFrontend hostname).isSome = true) :
    (((syncPath env ing hostname ingFrontAnn ingBackAnn path c).frontend hostname).FindPath
        path.uri).isSome = true
      ∨ ∃ err, env.cache.GetService (path.fullSvcName ing) = .error err := by
  cases hr : ((c.frontend hostname).FindPath path.uri).isSome with
  | true =>
    left
    rw [syncPath_registered _ _ _ _ _ _ _ hr]
    exact hr
  | false =>
    cases hp : (addBackend env (path.fullSvcName ing) path.Backend.ServicePort ingBackAnn
        c).2.panicked.isSome with
    | true =>
      rw [syncPath_panicked _ _ _ _ _ _ _ hr hp] at hfin
      rw [hfin] at hp
      simp at hp
    | false =>
      have hp' : (addBackend env (path.fullSvcName ing) path.Backend.ServicePort ingBackAnn
          c).2.panicked = none := by simpa using hp
      cases he : (addBackend env (path.fullSvcName ing) path.Backend.ServicePort ingBackAnn
          c).1 with
      | error err =>
        right
        exact ⟨err, addBackend_error_notFound env _ _ _ c err hp' he⟩
      | ok k =>
        left
        rw [syncPath_registers env ing hostname ingFrontAnn ingBackAnn path c k hex
          (by simpa using hr) hp' he]
        rfl

theorem syncDefaultBackend_settles (env : Env) (ing : Ingress) (ingFrontAnn : Nat)
    (ingBackAnn : BackendAnnotations) (c : Converter) (b : IngressBackend)
    (hb : ing.Backend = some b)
    (hfin : (syncDefaultBackend env ing ingFrontAnn ingBackAnn c).panicked = none) :
    defaultHostOccupied (syncDefaultBackend env ing ingFrontAnn ingBackAnn c) = true
      ∨ ∃ err, env.cache.GetService (FullQualifiedName ing.Namespace b.ServiceName)
          = .error err := by
  cases ho : defaultHostOccupied c with
  | true =>
    left
    exact frontEvolves_occupied (frontEvolves_syncDefaultBackend env ing _ _ c) ho
  | false =>
    cases hp : (addBackend env (FullQualifiedName ing.Namespace b.ServiceName)
        b.ServicePort ingBackAnn c).2.panicked.isSome with
    | true =>
      have hadd := addDefaultHostBackend_panicked env
        (FullQualifiedName ing.Namespace b.ServiceName) b.ServicePort ingFrontAnn
        ingBackAnn c ho hp
      rw [syncDefaultBackend_pass env ing ingFrontAnn ingBackAnn c b hb
        (Or.inl (by rw [hadd]; exact hp)), hadd] at hfin
      rw [hfin] at hp
      simp at hp
    | false =>
      have hp' : (addBackend env (FullQualifiedName ing.Namespace b.ServiceName)
          b.ServicePort ingBackAnn c).2.panicked = none := by simpa using hp
      cases he : (addBackend env (FullQualifiedName ing.Namespace b.ServiceName)
          b.ServicePort ingBackAnn c).1 with
      | error err =>
        right
        exact ⟨err, addBackend_error_notFound env _ _ _ c err hp' he⟩
      | ok k =>
        left
        obtain ⟨h1, _, f, hf, hpath⟩ := addDefaultHostBackend_registers env
          (FullQualifiedName ing.Namespace b.ServiceName) b.ServicePort ingFrontAnn
          ingBackAnn c k ho hp' he
        rw [syncDefaultBackend_pass env ing ingFrontAnn ingBackAnn c b hb (Or.inr h1)]
        unfold defaultHostOccupied
        rw [hf]
        show (f.FindPath "/").isSome = true
        rw [hpath]
        rfl

theorem syncTLSHost_settles (env : Env) (ing : Ingress) (hostname : String) (tls : IngressTLS)
    (c : Converter) (hex : (c.haproxy.FindFrontend hostname).isSome = true) (tlsPath : String)
    (hres : resolveTLS env ing.Namespace tls.SecretName = .ok tlsPath) :
    ((syncTLSHost env ing hostname tls hostname c).frontend hostname).TLS.TLSFilename ≠ ""
      ∨ tlsPath = "" := by
  have hf := (addTLS_frame env ing.Namespace tls.SecretName c).1
  have he : (addTLS env ing.Namespace tls.SecretName c).1 = .ok tlsPath := by
    rw [addTLS_fst, hres]
  by_cases hempty :
      ((addTLS env ing.Namespace tls.SecretName c).2.frontend hostname).TLS.TLSFilename = ""
  · by_cases hpath : tlsPath = ""
    · exact Or.inr hpath
    · left
      rw [syncTLSHost_assign _ _ _ _ _ tlsPath he hempty]
      obtain ⟨f, hfind⟩ := Option.isSome_iff_exists.mp hex
      have hfind' : ({ (addTLS env ing.Namespace tls.SecretName c).2 with
          haproxy := (addTLS env ing.Namespace tls.SecretName c).2.haproxy.modifyFrontend
            hostname (setTLSFilename tlsPath) } : Converter).haproxy.FindFrontend hostname
          = some (setTLSFilename tlsPath f) := by
        rw [frontend_modify_same c _ hostname (setTLSFilename tlsPath) (fun _ => rfl)
          (by simp [Config.modifyFrontend, hf]), hfind]
        rfl
      rw [frontend_eq_of_find _ hostname _ hfind']
      exact hpath
  · left
    by_cases hd :
        ((addTLS env ing.Namespace tls.SecretName c).2.frontend hostname).TLS.TLSFilename
          = tlsPath
    · rw [syncTLSHost_same _ _ _ _ _ tlsPath he hempty hd]
      exact hempty
    · rw [syncTLSHost_conflict _ _ _ _ _ tlsPath he hempty hd]
      rw [frontend_congr (addTLS env ing.Namespace tls.SecretName c).2 _ hostname rfl]
      exact hempty

theorem settled_after (env : Env) (ing : Ingress) (c : Converter)
    (hfin : (syncIngress env ing c).panicked = none) :
    Settled env ing (syncIngress env ing c) := by
  have hI := advances_invariant env
  rw [syncIngress_eq] at hfin ⊢
  have hrules : Advances
      (syncDefaultBackend env ing c.frontendRecords.length (backView env ing)
        (syncIngressStart env ing c))
      (forEach (syncRule env ing c.frontendRecords.length (backView env ing)) ing.Rules
        (syncDefaultBackend env ing c.frontendRecords.length (backView env ing)
          (syncIngressStart env ing c))) :=
    invariant_forEach hI _ ing.Rules (fun rule s => invariant_syncRule hI ing _ _ rule s) _
  constructor
  · intro b hb
    rcases syncDefaultBackend_settles env ing c.frontendRecords.length (backView env ing)
      (syncIngressStart env ing c) b hb (hrules.nopanic hfin) with h | h
    · exact Or.inl (frontEvolves_occupied hrules.1 h)
    · exact Or.inr h
  · intro rule hrule paths hr
    obtain ⟨s, _, _, hs2⟩ := forEach_reach Advances Advances.advRefl
      (fun _ _ _ => Advances.advThen)
      (syncRule env ing c.frontendRecords.length (backView env ing))
      (fun rule s => invariant_syncRule hI ing _ _ rule s) ing.Rules rule hrule _ hfin
    have hR := hs2.nopanic hfin
    rw [syncRule_http _ _ _ _ _ paths _ hr] at hs2 hR
    have hex1 : ((addFrontend env rule.hostname c.frontendRecords.length s).haproxy.FindFrontend
        rule.hostname).isSome = true := by
      rw [frontend_addFrontend]
      rfl
    have hA12 : Advances (addFrontend env rule.hostname c.frontendRecords.length s)
        (forEach (syncPath env ing rule.hostname c.frontendRecords.length (backView env ing))
          paths (addFrontend env rule.hostname c.frontendRecords.length s)) :=
      invariant_forEach hI _ paths (fun p t => invariant_syncPath hI ing _ _ _ p t) _
    have hA23 : Advances
        (forEach (syncPath env ing rule.hostname c.frontendRecords.length (backView env ing))
          paths (addFrontend env rule.hostname c.frontendRecords.length s))
        (forEach (fun tls => forEach (syncTLSHost env ing rule.hostname tls) tls.Hosts) ing.TLS
          (forEach (syncPath env ing rule.hostname c.frontendRecords.length (backView env ing))
            paths (addFrontend env rule.hostname c.frontendRecords.length s))) :=
      invariant_forEach hI _ ing.TLS (fun tls t => invariant_forEach hI _ tls.Hosts
        (fun host u => invariant_syncTLSHost hI ing rule.hostname tls host u) t) _
    have hp2 := hA23.nopanic hR
    refine ⟨frontEvolves_exists (hA12.advThen (hA23.advThen hs2)).1 _ hex1, ?_, ?_⟩
    · intro p hp
      obtain ⟨t, ht1, _, ht2⟩ := forEach_reach Advances Advances.advRefl
        (fun _ _ _ => Advances.advThen)
        (syncPath env ing rule.hostname c.frontendRecords.length (backView env ing))
        (fun p t => invariant_syncPath hI ing _ _ _ p t) paths p hp _ hp2
      rcases syncPath_settles env ing rule.hostname c.frontendRecords.length (backView env ing)
        p t (ht2.nopanic hp2) (frontEvolves_exists ht1.1 _ hex1) with h | h
      · exact Or.inl (frontEvolves_path (ht2.advThen (hA23.advThen hs2)).1 _ _ h)
      · exact Or.inr h
    · intro tls htls hhost tlsPath hres
      obtain ⟨u, hu1, _, hu2⟩ := forEach_reach Advances Advances.advRefl
        (fun _ _ _ => Advances.advThen)
        (fun tls => forEach (syncTLSHost env ing rule.hostname tls) tls.Hosts)
        (fun tls t => invariant_forEach hI _ tls.Hosts
          (fun host u => invariant_syncTLSHost hI ing rule.hostname tls host u) t)
        ing.TLS tls htls _ hR
      have hbody := hu2.nopanic hR
      obtain ⟨v, hv1, _, hv2⟩ := forEach_reach Advances Advances.advRefl
        (fun _ _ _ => Advances.advThen) (syncTLSHost env ing rule.hostname tls)
        (fun host u => invariant_syncTLSHost hI ing rule.hostname tls host u)
        tls.Hosts rule.hostname hhost u hbody
      rcases syncTLSHost_settles env ing rule.hostname tls v
        (frontEvolves_exists (hA12.advThen (hu1.advThen hv1)).1 _ hex1) tlsPath hres with h | h
      · exact Or.inl (frontEvolves_tls (hv2.advThen (hu2.advThen hs2)).1 _ h)
      · exact Or.inr h

/-! ## The same resource twice in one pass -/

theorem modifyFirst_map {α β : Type} (p : α → Bool) (g : α → α) (φ : α → β) (l : List α)
    (h : ∀ x, φ (g x) = φ x) : (modifyFirst p g l).map φ = l.map φ := by
  induction l with
  | nil => rfl
  | cons x xs ih =>
    unfold modifyFirst
    split
    · simp [h]
    · simp [ih]

theorem unique_acquireFrontend (cfg : Config) (h : String) (hu : UniqueIdentities cfg) :
    UniqueIdentities (cfg.AcquireFrontend h) := by
  unfold Config.AcquireFrontend
  cases hf : cfg.FindFrontend h with
  | some f => exact hu
  | none =>
    refine ⟨?_, hu.2⟩
    have hnot : ∀ f ∈ cfg.frontends, ¬ f.Hostname = h := by
      intro f hmem
      have := List.find?_eq_none.mp hf f hmem
      simpa using this
    simp only [List.map_append, List.map_cons, List.map_nil]
    rw [List.nodup_append]
    refine ⟨hu.1, by simp, ?_⟩
    intro a ha hb
    simp only [List.mem_singleton] at hb
    obtain ⟨f, hmem, hfa⟩ := List.mem_map.mp ha
    exact hnot f hmem (by rw [hfa, hb]; rfl)

theorem unique_acquireBackend (cfg : Config) (k : BackendKey) (hu : UniqueIdentities cfg) :
    UniqueIdentities (cfg.AcquireBackend k) := by
  unfold Config.AcquireBackend
  cases hf : cfg.FindBackend k with
  | some f => exact hu
  | none =>
    refine ⟨hu.1, ?_⟩
    have hnot : ∀ b ∈ cfg.backends, ¬ b.key = k := by
      intro b hmem
      have := List.find?_eq_none.mp hf b hmem
      simpa using this
    have hk : (createBackend k).key = k := by cases k; rfl
    simp only [List.map_append, List.map_cons, List.map_nil]
    rw [List.nodup_append]
    refine ⟨hu.2, by simp, ?_⟩
    intro a ha hb
    simp only [List.mem_singleton] at hb
    obtain ⟨f, hmem, hfa⟩ := List.mem_map.mp ha
    exact hnot f hmem (by rw [hfa, hb, hk])

theorem UniqueKept.uniqueRefl (c : Converter) : UniqueKept c c := fun h => h

theorem UniqueKept.uniqueThen {a b c : Converter} (h1 : UniqueKept a b) (h2 : UniqueKept b c) :
    UniqueKept a c := fun h => h2 (h1 h)

theorem UniqueKept.uniqueOfEq {c c' : Converter} (h : c'.haproxy = c.haproxy) : UniqueKept c c' := by
  unfold UniqueKept
  rw [h]
  exact fun hu => hu

theorem UniqueKept.of_maps {c c' : Converter}
    (hf : c'.haproxy.frontends.map (fun f => f.Hostname)
      = c.haproxy.frontends.map (fun f => f.Hostname))
    (hb : c'.haproxy.backends.map Backend.key = c.haproxy.backends.map Backend.key) :
    UniqueKept c c' := by
  unfold UniqueKept UniqueIdentities
  rw [hf, hb]
  exact fun hu => hu

theorem uniqueKept_addEndpoints (env : Env) (svc : Service) (servicePort : Int) (k : BackendKey)
    (c : Converter) : UniqueKept c (addEndpoints env svc servicePort k c).2 := by
  have hmaps : ∀ c : Converter,
      (addEndpoints env svc servicePort k c).2.haproxy.frontends.map (fun f => f.Hostname)
          = c.haproxy.frontends.map (fun f => f.Hostname)
        ∧ (addEndpoints env svc servicePort k c).2.haproxy.backends.map Backend.key
          = c.haproxy.backends.map Backend.key := by
    intro c
    have hrefl : ∀ c : Converter,
        c.haproxy.frontends.map (fun f => f.Hostname)
            = c.haproxy.frontends.map (fun f => f.Hostname)
          ∧ c.haproxy.backends.map Backend.key = c.haproxy.backends.map Backend.key :=
      fun _ => ⟨rfl, rfl⟩
    have htrans : ∀ a b c : Converter,
        (b.haproxy.frontends.map (fun f => f.Hostname)
            = a.haproxy.frontends.map (fun f => f.Hostname)
          ∧ b.haproxy.backends.map Backend.key = a.haproxy.backends.map Backend.key) →
        (c.haproxy.frontends.map (fun f => f.Hostname)
            = b.haproxy.frontends.map (fun f => f.Hostname)
          ∧ c.haproxy.backends.map Backend.key = b.haproxy.backends.map Backend.key) →
        (c.haproxy.frontends.map (fun f => f.Hostname)
            = a.haproxy.frontends.map (fun f => f.Hostname)
          ∧ c.haproxy.backends.map Backend.key = a.haproxy.backends.map Backend.key) :=
      fun _ _ _ h1 h2 => ⟨h2.1.trans h1.1, h2.2.trans h1.2⟩
    have haddr : ∀ (addr : EndpointAddress) (c : Converter),
        (addEndpointsAddr servicePort k addr c).haproxy.frontends.map (fun f => f.Hostname)
            = c.haproxy.frontends.map (fun f => f.Hostname)
          ∧ (addEndpointsAddr servicePort k addr c).haproxy.backends.map Backend.key
            = c.haproxy.backends.map Backend.key := by
      intro addr c
      unfold addEndpointsAddr
      split
      · exact ⟨rfl, rfl⟩
      · refine ⟨rfl, ?_⟩
        simp only [Config.modifyBackend]
        exact modifyFirst_map _ _ _ _ (fun _ => rfl)
    have hport : ∀ (subset : EndpointSubset) (port : EndpointPort) (c : Converter),
        (addEndpointsPort servicePort k subset port c).haproxy.frontends.map
            (fun f => f.Hostname) = c.haproxy.frontends.map (fun f => f.Hostname)
          ∧ (addEndpointsPort servicePort k subset port c).haproxy.backends.map Backend.key
            = c.haproxy.backends.map Backend.key := by
      intro subset port c
      unfold addEndpointsPort
      split
      · exact forEach_rel (fun c c' =>
          c'.haproxy.frontends.map (fun f => f.Hostname)
              = c.haproxy.frontends.map (fun f => f.Hostname)
            ∧ c'.haproxy.backends.map Backend.key = c.haproxy.backends.map Backend.key)
          hrefl htrans _ _ (fun addr _ c _ => haddr addr c) c
      · exact ⟨rfl, rfl⟩
    unfold addEndpoints
    simp only
    split
    · exact ⟨rfl, rfl⟩
    · exact forEach_rel (fun c c' =>
        c'.haproxy.frontends.map (fun f => f.Hostname)
            = c.haproxy.frontends.map (fun f => f.Hostname)
          ∧ c'.haproxy.backends.map Backend.key = c.haproxy.backends.map Backend.key)
        hrefl htrans _ _
        (fun subset _ c _ => forEach_rel (fun c c' =>
          c'.haproxy.frontends.map (fun f => f.Hostname)
              = c.haproxy.frontends.map (fun f => f.Hostname)
            ∧ c'.haproxy.backends.map Backend.key = c.haproxy.backends.map Backend.key)
          hrefl htrans _ _ (fun port _ c _ => hport subset port c) c)
        (c.call (Call.GetEndpoints svc))
  exact UniqueKept.of_maps (hmaps c).1 (hmaps c).2

theorem uniqueKept_addBackendPopulated (env : Env) (fullSvcName : String) (svc : Service)
    (k : BackendKey) (c : Converter) :
    UniqueKept c (addBackendPopulated env fullSvcName svc k c).2 := by
  have h1 : UniqueKept c
      { c.call (Call.GetService fullSvcName) with
        haproxy := (c.call (Call.GetService fullSvcName)).haproxy.AcquireBackend k } :=
    fun hu => unique_acquireBackend c.haproxy k hu
  exact h1.uniqueThen (uniqueKept_addEndpoints env svc k.Port k _)

theorem uniqueKept_addBackend (env : Env) (fullSvcName : String) (svcPort : Int)
    (ingAnn : BackendAnnotations) (c : Converter) :
    UniqueKept c (addBackend env fullSvcName svcPort ingAnn c).2 := by
  rw [addBackend_eq]
  split
  · exact UniqueKept.uniqueOfEq rfl
  · exact UniqueKept.uniqueOfEq rfl
  · rename_i svc k _
    split
    · rename_i ann _
      have hh : (addBackendFound env fullSvcName ingAnn k ann c).haproxy
          = c.haproxy.AcquireBackend k := by
        unfold addBackendFound
        simp only
        split <;> rfl
      intro hu
      show UniqueIdentities (addBackendFound env fullSvcName ingAnn k ann c).haproxy
      rw [hh]
      exact unique_acquireBackend c.haproxy k hu
    · split
      · exact uniqueKept_addBackendPopulated env fullSvcName svc k c
      · exact (uniqueKept_addBackendPopulated env fullSvcName svc k c).uniqueThen
          (UniqueKept.uniqueOfEq (addBackendNew_frame env fullSvcName ingAnn svc k c).1)

theorem uniqueKept_modifyFrontend (c : Converter) (host : String) (g : Frontend → Frontend)
    (hg : ∀ f, (g f).Hostname = f.Hostname) :
    UniqueKept c { c with haproxy := c.haproxy.modifyFrontend host g } :=
  UniqueKept.of_maps (modifyFirst_map _ _ _ _ hg) rfl

theorem uniqueKept_invariant (env : Env) : StepInvariant env UniqueKept where
  stepRefl := UniqueKept.uniqueRefl
  stepTrans := fun _ _ _ => UniqueKept.uniqueThen
  stepLog := fun _ _ => UniqueKept.uniqueOfEq rfl
  stepBackend := uniqueKept_addBackend env
  stepFrontend := fun host ingAnn c hu => by
    rw [addFrontend_haproxy]
    exact unique_acquireFrontend c.haproxy host hu
  stepTLS := fun ns secretName c => UniqueKept.uniqueOfEq (addTLS_frame env ns secretName c).1
  stepAddPath := fun c host k p _ =>
    uniqueKept_modifyFrontend c host (fun f => f.AddPath k p) (fun _ => rfl)
  stepSetTLS := fun c host t _ => uniqueKept_modifyFrontend c host (setTLSFilename t) (fun _ => rfl)
  stepStart := fun ing c => UniqueKept.uniqueOfEq (by
    unfold syncIngressStart
    simp only [readAnnotations_eq])

theorem uniqueKept_Sync (env : Env) (ingress : List Ingress) (c : Converter) :
    UniqueKept c (Sync env ingress c) :=
  (invariant_syncAll (uniqueKept_invariant env) ingress c).uniqueThen
    (UniqueKept.uniqueOfEq (onlyCalls_Sync env ingress c).1)

theorem uniqueKept_NewIngressConverter (env : Env) (haproxy : Config)
    (hu : UniqueIdentities haproxy) : UniqueIdentities (NewIngressConverter env haproxy).haproxy := by
  have hb := uniqueKept_addBackend env env.options.DefaultBackend 0 zeroBackendAnnotations
    (emptyConverter haproxy) hu
  unfold NewIngressConverter
  simp only
  split
  · exact hb
  · split
    · exact hb
    · exact hb

theorem syncAll_twice (env : Env) (ing : Ingress) (c : Converter) :
    Replays (syncAll env [ing] c) (syncAll env [ing, ing] c) := by
  unfold syncAll
  cases hc : c.panicked with
  | some p =>
    rw [forEach_panicked _ _ _ (by simp [hc]), forEach_panicked _ _ _ (by simp [hc])]
    exact Replays.replaysRefl c
  | none =>
    rw [forEach_cons _ _ _ _ hc, forEach_cons _ _ _ _ hc, forEach_nil]
    cases h1 : (syncIngress env ing c).panicked with
    | some p =>
      rw [forEach_panicked _ _ _ (by simp [h1])]
      exact Replays.replaysRefl _
    | none =>
      rw [forEach_cons _ _ _ _ h1, forEach_nil]
      exact replays_syncIngress env ing _ (settled_after env ing c h1)

/-- C16, as the code has it: for every resource and every state of the
converter and of the cache, `Sync` of the resource twice leaves the proxy model
(frontends with their paths and certificate files, backends with their
endpoints), the pending backend records and the panic flag that `Sync` of the
resource once leaves; identities stay unique when they were unique before, in
particular on a converter created on a proxy model with unique identities; and
the log is the log of the single occurrence followed only by messages that
report a skipped unit, the warning of the fallback to the default certificate,
or a decoding error of the annotations of the resource. -/
theorem same_resource_twice (env : Env) (ing : Ingress) (c : Converter) :
    (Sync env [ing, ing] c).haproxy = (Sync env [ing] c).haproxy
    ∧ (Sync env [ing, ing] c).backendAnnotations = (Sync env [ing] c).backendAnnotations
    ∧ (Sync env [ing, ing] c).panicked = (Sync env [ing] c).panicked
    ∧ (UniqueIdentities c.haproxy → UniqueIdentities (Sync env [ing, ing] c).haproxy)
    ∧ (∀ haproxy, UniqueIdentities haproxy →
        UniqueIdentities (Sync env [ing, ing] (NewIngressConverter env haproxy)).haproxy)
    ∧ (∃ extra, (Sync env [ing, ing] c).logger = (Sync env [ing] c).logger ++ extra
        ∧ ∀ e ∈ extra, e.repeats = true) := by
  have hr := syncAll_twice env ing c
  have h1 := onlyCalls_Sync env [ing] c
  have h2 := onlyCalls_Sync env [ing, ing] c
  refine ⟨?_, ?_, ?_, uniqueKept_Sync env [ing, ing] c, ?_, ?_⟩
  · rw [h2.1, h1.1, hr.1]
  · rw [h2.2.2.2.2.1, h1.2.2.2.2.1, hr.2.1]
  · rw [h2.2.2.2.2.2, h1.2.2.2.2.2, hr.2.2.1]
  · intro haproxy hu
    exact uniqueKept_Sync env [ing, ing] _ (uniqueKept_NewIngressConverter env haproxy hu)
  · obtain ⟨extra, he, hall⟩ := hr.2.2.2
    exact ⟨extra, by rw [h2.2.1, h1.2.1, he], hall⟩

theorem same_resource_twice_witness :
    UniqueIdentities (Sync demoEnv [fallbackIngress, fallbackIngress] freshConverter).haproxy :=
  (same_resource_twice demoEnv fallbackIngress freshConverter).2.2.2.1
    (by unfold UniqueIdentities; decide)

/-- C16 as stated fails: the TLS binding of the resource names a secret that does
not exist, so each occurrence falls back to the default certificate and logs the
warning of the fallback; the second occurrence therefore adds, besides the
warning that the path is skipped, a warning that reports no skipped unit. The
proxy model is the same after one and after two occurrences. -/
theorem second_occurrence_repeats_fallback :
    (Sync demoEnv [fallbackIngress] freshConverter).logger
      = [LogEntry.usingDefaultCertificate "default/ing-tls" "secret not found: 'default/ing-tls'"]
    ∧ (Sync demoEnv [fallbackIngress, fallbackIngress] freshConverter).logger
      = [LogEntry.usingDefaultCertificate "default/ing-tls" "secret not found: 'default/ing-tls'",
         LogEntry.skippingRedeclaredPath "/" "default/echo",
         LogEntry.usingDefaultCertificate "default/ing-tls" "secret not found: 'default/ing-tls'"]
    ∧ (LogEntry.usingDefaultCertificate "default/ing-tls"
        "secret not found: 'default/ing-tls'").isSkip = false
    ∧ (LogEntry.usingDefaultCertificate "default/ing-tls"
        "secret not found: 'default/ing-tls'").render
      = "WARN using default certificate due to an error reading secret 'default/ing-tls': "
        ++ "secret not found: 'default/ing-tls'"
    ∧ (Sync demoEnv [fallbackIngress, fallbackIngress] freshConverter).haproxy
      = (Sync demoEnv [fallbackIngress] freshConverter).haproxy := by
  refine ⟨by decide, by decide, rfl, by decide, by decide⟩

/-! ## The log and the recorded calls do not influence a pass -/

theorem SameCore.coreRefl (c : Converter) : SameCore c c := ⟨rfl, rfl, rfl, rfl, rfl⟩

theorem SameCore.coreSymm {c c' : Converter} (h : SameCore c c') : SameCore c' c :=
  ⟨h.1.symm, h.2.1.symm, h.2.2.1.symm, h.2.2.2.1.symm, h.2.2.2.2.symm⟩

theorem SameCore.coreThen {a b c : Converter} (h1 : SameCore a b) (h2 : SameCore b c) :
    SameCore a c :=
  ⟨h2.1.trans h1.1, h2.2.1.trans h1.2.1, h2.2.2.1.trans h1.2.2.1,
    h2.2.2.2.1.trans h1.2.2.2.1, h2.2.2.2.2.trans h1.2.2.2.2⟩

theorem sameCore_log (c : Converter) (e : LogEntry) : SameCore c (c.log e) :=
  ⟨rfl, rfl, rfl, rfl, rfl⟩

theorem sameCore_call (c : Converter) (x : Call) : SameCore c (c.call x) :=
  ⟨rfl, rfl, rfl, rfl, rfl⟩

theorem sameCore_eq {c c' : Converter} (h : SameCore c c') :
    c' = { c with logger := c'.logger, calls := c'.calls } := by
  obtain ⟨h1, h2, h3, h4, h5⟩ := h
  cases c
  cases c'
  simp_all

theorem sameCore_frontend {c c' : Converter} (h : SameCore c c') (host : String) :
    c'.frontend host = c.frontend host :=
  frontend_congr c c' host (by rw [h.1])

theorem sameCore_frontAnn {c c' : Converter} (h : SameCore c c') (r : Nat) :
    c'.frontAnn r = c.frontAnn r := by
  unfold Converter.frontAnn
  rw [h.2.1]

theorem sameCore_setHaproxy {c c' : Converter} (h : SameCore c c') (g : Config → Config) :
    SameCore { c with haproxy := g c.haproxy } { c' with haproxy := g c'.haproxy } :=
  ⟨by simp [h.1], h.2.1, h.2.2.1, h.2.2.2.1, h.2.2.2.2⟩

theorem sameCore_forEach {α : Type} (body : α → Converter → Converter) (xs : List α)
    (hbody : ∀ x ∈ xs, ∀ c c', SameCore c c' → SameCore (body x c) (body x c'))
    (c c' : Converter) (h : SameCore c c') :
    SameCore (forEach body xs c) (forEach body xs c') := by
  induction xs generalizing c c' with
  | nil => exact h
  | cons x xs ih =>
    cases hp : c.panicked with
    | some p =>
      rw [forEach_panicked _ _ _ (by simp [hp]),
        forEach_panicked _ _ _ (by rw [h.2.2.2.2]; simp [hp])]
      exact h
    | none =>
      rw [forEach_cons _ _ _ _ hp, forEach_cons _ _ _ _ (by rw [h.2.2.2.2]; exact hp)]
      exact ih (fun y hy => hbody y (List.mem_cons_of_mem _ hy)) _ _
        (hbody x (List.mem_cons_self _ _) c c' h)

theorem sameCore_addEndpoints (env : Env) (svc : Service) (servicePort : Int) (k : BackendKey)
    {c c' : Converter} (h : SameCore c c') :
    (addEndpoints env svc servicePort k c').1 = (addEndpoints env svc servicePort k c).1
      ∧ SameCore (addEndpoints env svc servicePort k c).2
          (addEndpoints env svc servicePort k c').2 := by
  have haddr : ∀ (addr : EndpointAddress) (c c' : Converter), SameCore c c' →
      SameCore (addEndpointsAddr servicePort k addr c) (addEndpointsAddr servicePort k addr c') := by
    intro addr c c' h
    unfold addEndpointsAddr
    split
    · exact ⟨h.1, h.2.1, h.2.2.1, h.2.2.2.1, rfl⟩
    · exact ⟨by simp [h.1], h.2.1, h.2.2.1, h.2.2.2.1, h.2.2.2.2⟩
  have hport : ∀ (subset : EndpointSubset) (port : EndpointPort) (c c' : Converter),
      SameCore c c' →
      SameCore (addEndpointsPort servicePort k subset port c)
        (addEndpointsPort servicePort k subset port c') := by
    intro subset port c c' h
    unfold addEndpointsPort
    split
    · exact sameCore_forEach (addEndpointsAddr servicePort k) subset.Addresses
        (fun addr _ => haddr addr) c c' h
    · exact h
  unfold addEndpoints
  simp only
  split
  · exact ⟨rfl, ((sameCore_call c _).coreSymm.coreThen h).coreThen (sameCore_call c' _)⟩
  · rename_i endpoints _
    refine ⟨rfl, ?_⟩
    exact sameCore_forEach
      (fun subset => forEach (addEndpointsPort servicePort k subset) subset.Ports)
      endpoints.Subsets
      (fun subset _ a a' ha => sameCore_forEach (addEndpointsPort servicePort k subset)
        subset.Ports (fun port _ => hport subset port) a a' ha)
      _ _ (((sameCore_call c (Call.GetEndpoints svc)).coreSymm.coreThen h).coreThen
        (sameCore_call c' (Call.GetEndpoints svc)))

theorem sameCore_addBackendPopulated (env : Env) (fullSvcName : String) (svc : Service)
    (k : BackendKey) {c c' : Converter} (h : SameCore c c') :
    (addBackendPopulated env fullSvcName svc k c').1 = (addBackendPopulated env fullSvcName svc k c).1
      ∧ SameCore (addBackendPopulated env fullSvcName svc k c).2
          (addBackendPopulated env fullSvcName svc k c').2 := by
  unfold addBackendPopulated
  simp only
  exact sameCore_addEndpoints env svc k.Port k
    ⟨by simp [Converter.call, h.1], h.2.1, h.2.2.1, h.2.2.2.1, h.2.2.2.2⟩

theorem sameCore_addBackend (env : Env) (fullSvcName : String) (svcPort : Int)
    (ingAnn : BackendAnnotations) {c c' : Converter} (h : SameCore c c') :
    (addBackend env fullSvcName svcPort ingAnn c').1
        = (addBackend env fullSvcName svcPort ingAnn c).1
      ∧ SameCore (addBackend env fullSvcName svcPort ingAnn c).2
          (addBackend env fullSvcName svcPort ingAnn c').2 := by
  cases hres : resolveBackend env fullSvcName svcPort with
  | notFound err =>
    rw [addBackend_notFound env _ _ _ c err hres, addBackend_notFound env _ _ _ c' err hres]
    exact ⟨rfl, ((sameCore_call c _).coreSymm.coreThen h).coreThen (sameCore_call c' _)⟩
  | panics =>
    rw [addBackend_panics env _ _ _ c hres, addBackend_panics env _ _ _ c' hres]
    exact ⟨rfl, h.1, h.2.1, h.2.2.1, h.2.2.2.1, rfl⟩
  | backend svc k =>
    cases hl : c.backendAnnotations.lookup (buildID k) with
    | some ann =>
      have hl' : c'.backendAnnotations.lookup (buildID k) = some ann := by
        rw [h.2.2.2.1]
        exact hl
      rw [addBackend_found env _ _ _ c svc k ann hres hl,
        addBackend_found env _ _ _ c' svc k ann hres hl']
      refine ⟨rfl, ?_⟩
      unfold addBackendFound
      simp only
      split
      · exact ⟨by simp [Converter.log, Converter.call, h.1], h.2.1, h.2.2.1,
          by simp [Converter.log, Converter.call, h.2.2.2.1], h.2.2.2.2⟩
      · exact ⟨by simp [Converter.call, h.1], h.2.1, h.2.2.1,
          by simp [Converter.call, h.2.2.2.1], h.2.2.2.2⟩
    | none =>
      have hl' : c'.backendAnnotations.lookup (buildID k) = none := by
        rw [h.2.2.2.1]
        exact hl
      have hpop := sameCore_addBackendPopulated env fullSvcName svc k h
      cases hpan : (addBackendPopulated env fullSvcName svc k c).2.panicked.isSome with
      | true =>
        have hpan' : (addBackendPopulated env fullSvcName svc k c').2.panicked.isSome = true := by
          rw [hpop.2.2.2.2.2]
          exact hpan
        rw [addBackend_new_panicked env _ _ _ c svc k hres hl hpan,
          addBackend_new_panicked env _ _ _ c' svc k hres hl' hpan']
        exact ⟨rfl, hpop.2⟩
      | false =>
        have hpan' : (addBackendPopulated env fullSvcName svc k c').2.panicked.isSome = false := by
          rw [hpop.2.2.2.2.2]
          exact hpan
        have hk := keepsFront_addBackend env fullSvcName svcPort ingAnn c
        have hk' := keepsFront_addBackend env fullSvcName svcPort ingAnn c'
        rw [addBackend_new env _ _ _ c svc k hres hl hpan] at hk ⊢
        rw [addBackend_new env _ _ _ c' svc k hres hl' hpan'] at hk' ⊢
        have hf := addBackendNew_frame env fullSvcName ingAnn svc k c
        have hf' := addBackendNew_frame env fullSvcName ingAnn svc k c'
        refine ⟨rfl, ?_, ?_, ?_, ?_, ?_⟩
        · show (addBackendNew env fullSvcName ingAnn svc k c').haproxy
            = (addBackendNew env fullSvcName ingAnn svc k c).haproxy
          rw [hf.1, hf'.1, hpop.2.1]
        · show (addBackendNew env fullSvcName ingAnn svc k c').frontendRecords
            = (addBackendNew env fullSvcName ingAnn svc k c).frontendRecords
          rw [hk.2.1, hk'.2.1, h.2.1]
        · show (addBackendNew env fullSvcName ingAnn svc k c').frontendAnnotations
            = (addBackendNew env fullSvcName ingAnn svc k c).frontendAnnotations
          rw [hk.2.2, hk'.2.2, h.2.2.1]
        · show (addBackendNew env fullSvcName ingAnn svc k c').backendAnnotations
            = (addBackendNew env fullSvcName ingAnn svc k c).backendAnnotations
          rw [addBackendNew_backendAnnotations, addBackendNew_backendAnnotations, h.2.2.2.1]
        · show (addBackendNew env fullSvcName ingAnn svc k c').panicked
            = (addBackendNew env fullSvcName ingAnn svc k c).panicked
          rw [hf.2, hf'.2, hpop.2.2.2.2.2]

theorem sameCore_addFrontend (env : Env) (host : String) (ingAnn : Nat) {c c' : Converter}
    (h : SameCore c c') :
    SameCore (addFrontend env host ingAnn c) (addFrontend env host ingAnn c') := by
  cases hl : c.frontendAnnotations.lookup host with
  | none =>
    have hl' : c'.frontendAnnotations.lookup host = none := by
      rw [h.2.2.1]
      exact hl
    rw [addFrontend_new env host ingAnn c hl, addFrontend_new env host ingAnn c' hl']
    exact ⟨by simp [h.1], h.2.1, by simp [h.2.2.1], h.2.2.2.1, h.2.2.2.2⟩
  | some ann =>
    have hl' : c'.frontendAnnotations.lookup host = some ann := by
      rw [h.2.2.1]
      exact hl
    rw [addFrontend_merge env host ingAnn ann c hl, addFrontend_merge env host ingAnn ann c' hl']
    have hm : SameCore (addFrontendMerged env host ingAnn ann c)
        (addFrontendMerged env host ingAnn ann c') := by
      unfold addFrontendMerged
      exact ⟨by simp [h.1],
        by simp [h.2.1, sameCore_frontAnn h], h.2.2.1, h.2.2.2.1, h.2.2.2.2⟩
    have hs : addFrontendSkipped env ingAnn ann c' = addFrontendSkipped env ingAnn ann c := by
      unfold addFrontendSkipped
      rw [sameCore_frontAnn h, sameCore_frontAnn h]
    rw [hs]
    split
    · exact ((sameCore_log _ _).coreSymm.coreThen hm).coreThen (sameCore_log _ _)
    · exact hm

theorem sameCore_addTLS (env : Env) (ns secretName : String) {c c' : Converter}
    (h : SameCore c c') :
    SameCore (addTLS env ns secretName c).2 (addTLS env ns secretName c').2 := by
  have hf := addTLS_frame env ns secretName c
  have hf' := addTLS_frame env ns secretName c'
  exact ⟨by rw [hf.1, hf'.1, h.1], by rw [hf.2.1, hf'.2.1, h.2.1],
    by rw [hf.2.2.1, hf'.2.2.1, h.2.2.1], by rw [hf.2.2.2.1, hf'.2.2.2.1, h.2.2.2.1],
    by rw [hf.2.2.2.2, hf'.2.2.2.2, h.2.2.2.2]⟩

theorem sameCore_addHTTPPassthrough (env : Env) (fullSvcName : String) (ingFrontAnn : Nat)
    (ingBackAnn : BackendAnnotations) {c c' : Converter} (h : SameCore c c') :
    SameCore (addHTTPPassthrough env fullSvcName ingFrontAnn ingBackAnn c)
      (addHTTPPassthrough env fullSvcName ingFrontAnn ingBackAnn c') := by
  unfold addHTTPPassthrough
  rw [sameCore_frontAnn h]
  split
  · exact (sameCore_addBackend env fullSvcName _ ingBackAnn h).2
  · exact h

theorem sameCore_syncPath (env : Env) (ing : Ingress) (hostname : String) (ingFrontAnn : Nat)
    (ingBackAnn : BackendAnnotations) (path : HTTPIngressPath) {c c' : Converter}
    (h : SameCore c c') :
    SameCore (syncPath env ing hostname ingFrontAnn ingBackAnn path c)
      (syncPath env ing hostname ingFrontAnn ingBackAnn path c') := by
  have hb := sameCore_addBackend env (path.fullSvcName ing) path.Backend.ServicePort
    ingBackAnn h
  cases hr : ((c.frontend hostname).FindPath path.uri).isSome with
  | true =>
    have hr' : ((c'.frontend hostname).FindPath path.uri).isSome = true := by
      rw [sameCore_frontend h]
      exact hr
    rw [syncPath_registered _ _ _ _ _ _ _ hr, syncPath_registered _ _ _ _ _ _ _ hr']
    exact ((sameCore_log _ _).coreSymm.coreThen h).coreThen (sameCore_log _ _)
  | false =>
    have hr' : ((c'.frontend hostname).FindPath path.uri).isSome = false := by
      rw [sameCore_frontend h]
      exact hr
    cases hp : (addBackend env (path.fullSvcName ing) path.Backend.ServicePort ingBackAnn
        c).2.panicked.isSome with
    | true =>
      have hp' : (addBackend env (path.fullSvcName ing) path.Backend.ServicePort ingBackAnn
          c').2.panicked.isSome = true := by
        rw [hb.2.2.2.2.2]
        exact hp
      rw [syncPath_panicked _ _ _ _ _ _ _ hr hp, syncPath_panicked _ _ _ _ _ _ _ hr' hp']
      exact hb.2
    | false =>
      have hp' : (addBackend env (path.fullSvcName ing) path.Backend.ServicePort ingBackAnn
          c').2.panicked.isSome = false := by
        rw [hb.2.2.2.2.2]
        exact hp
      cases he : (addBackend env (path.fullSvcName ing) path.Backend.ServicePort ingBackAnn
          c).1 with
      | error err =>
        rw [syncPath_error _ _ _ _ _ _ _ err hr hp he,
          syncPath_error _ _ _ _ _ _ _ err hr' hp' (by rw [hb.1, he])]
        exact ((sameCore_log _ _).coreSymm.coreThen hb.2).coreThen (sameCore_log _ _)
      | ok k =>
        rw [syncPath_ok _ _ _ _ _ _ _ k hr hp he,
          syncPath_ok _ _ _ _ _ _ _ k hr' hp' (by rw [hb.1, he])]
        exact sameCore_addHTTPPassthrough env _ _ _
          (sameCore_setHaproxy hb.2
            (fun cfg => cfg.modifyFrontend hostname (fun f => f.AddPath k path.uri)))

theorem sameCore_syncTLSHost (env : Env) (ing : Ingress) (hostname : String) (tls : IngressTLS)
    (host : String) {c c' : Converter} (h : SameCore c c') :
    SameCore (syncTLSHost env ing hostname tls host c)
      (syncTLSHost env ing hostname tls host c') := by
  have ht := sameCore_addTLS env ing.Namespace tls.SecretName h
  have hfst : (addTLS env ing.Namespace tls.SecretName c').1
      = (addTLS env ing.Namespace tls.SecretName c).1 := by
    rw [addTLS_fst, addTLS_fst]
  by_cases hh : host = hostname
  · subst hh
    cases he : (addTLS env ing.Namespace tls.SecretName c).1 with
    | error err =>
      rw [syncTLSHost_error _ _ _ _ _ err he,
        syncTLSHost_error _ _ _ _ _ err (by rw [hfst, he])]
      exact ((sameCore_log _ _).coreSymm.coreThen ht).coreThen (sameCore_log _ _)
    | ok tlsPath =>
      have he' : (addTLS env ing.Namespace tls.SecretName c').1 = .ok tlsPath := by
        rw [hfst, he]
      have hfr := sameCore_frontend ht host
      by_cases hempty :
          ((addTLS env ing.Namespace tls.SecretName c).2.frontend host).TLS.TLSFilename = ""
      · rw [syncTLSHost_assign _ _ _ _ _ tlsPath he hempty,
          syncTLSHost_assign _ _ _ _ _ tlsPath he' (by rw [hfr]; exact hempty)]
        exact sameCore_setHaproxy ht
          (fun cfg => cfg.modifyFrontend host (setTLSFilename tlsPath))
      · by_cases hd :
            ((addTLS env ing.Namespace tls.SecretName c).2.frontend host).TLS.TLSFilename
              = tlsPath
        · rw [syncTLSHost_same _ _ _ _ _ tlsPath he hempty hd,
            syncTLSHost_same _ _ _ _ _ tlsPath he' (by rw [hfr]; exact hempty)
              (by rw [hfr]; exact hd)]
          exact ht
        · rw [syncTLSHost_conflict _ _ _ _ _ tlsPath he hempty hd,
            syncTLSHost_conflict _ _ _ _ _ tlsPath he' (by rw [hfr]; exact hempty)
              (by rw [hfr]; exact hd)]
          exact ((sameCore_log _ _).coreSymm.coreThen ht).coreThen (sameCore_log _ _)
  · rw [syncTLSHost_other _ _ _ _ _ _ hh, syncTLSHost_other _ _ _ _ _ _ hh]
    exact h

theorem sameCore_addDefaultHostBackend (env : Env) (fullSvcName : String) (svcPort : Int)
    (ingFrontAnn : Nat) (ingBackAnn : BackendAnnotations) {c c' : Converter}
    (h : SameCore c c') :
    (addDefaultHostBackend env fullSvcName svcPort ingFrontAnn ingBackAnn c').1
        = (addDefaultHostBackend env fullSvcName svcPort ingFrontAnn ingBackAnn c).1
      ∧ SameCore (addDefaultHostBackend env fullSvcName svcPort ingFrontAnn ingBackAnn c).2
          (addDefaultHostBackend env fullSvcName svcPort ingFrontAnn ingBackAnn c').2 := by
  have hb := sameCore_addBackend env fullSvcName svcPort ingBackAnn h
  have hocc : defaultHostOccupied c' = defaultHostOccupied c :=
    defaultHostOccupied_congr c c' (by rw [h.1])
  cases ho : defaultHostOccupied c with
  | true =>
    rw [addDefaultHostBackend_occupied _ _ _ _ _ _ ho,
      addDefaultHostBackend_occupied _ _ _ _ _ _ (by rw [hocc]; exact ho)]
    exact ⟨rfl, h⟩
  | false =>
    have ho' : defaultHostOccupied c' = false := by rw [hocc]; exact ho
    cases hp : (addBackend env fullSvcName svcPort ingBackAnn c).2.panicked.isSome with
    | true =>
      rw [addDefaultHostBackend_panicked _ _ _ _ _ _ ho hp,
        addDefaultHostBackend_panicked _ _ _ _ _ _ ho' (by rw [hb.2.2.2.2.2]; exact hp)]
      exact ⟨rfl, hb.2⟩
    | false =>
      have hp' : (addBackend env fullSvcName svcPort ingBackAnn c').2.panicked.isSome
          = false := by rw [hb.2.2.2.2.2]; exact hp
      cases he : (addBackend env fullSvcName svcPort ingBackAnn c).1 with
      | error err =>
        rw [addDefaultHostBackend_error _ _ _ _ _ _ err ho hp he,
          addDefaultHostBackend_error _ _ _ _ _ _ err ho' hp' (by rw [hb.1, he])]
        exact ⟨rfl, hb.2⟩
      | ok k =>
        rw [addDefaultHostBackend_ok _ _ _ _ _ _ k ho hp he,
          addDefaultHostBackend_ok _ _ _ _ _ _ k ho' hp' (by rw [hb.1, he])]
        exact ⟨rfl, sameCore_setHaproxy (sameCore_addFrontend env "*" ingFrontAnn hb.2)
          (fun cfg => cfg.modifyFrontend "*" (fun f => f.AddPath k "/"))⟩

theorem sameCore_syncDefaultBackend (env : Env) (ing : Ingress) (ingFrontAnn : Nat)
    (ingBackAnn : BackendAnnotations) {c c' : Converter} (h : SameCore c c') :
    SameCore (syncDefaultBackend env ing ingFrontAnn ingBackAnn c)
      (syncDefaultBackend env ing ingFrontAnn ingBackAnn c') := by
  cases hb : ing.Backend with
  | none =>
    rw [syncDefaultBackend_none _ _ _ _ _ hb, syncDefaultBackend_none _ _ _ _ _ hb]
    exact h
  | some b =>
    have hd := sameCore_addDefaultHostBackend env
      (FullQualifiedName ing.Namespace b.ServiceName) b.ServicePort ingFrontAnn ingBackAnn h
    cases hp : (addDefaultHostBackend env (FullQualifiedName ing.Namespace b.ServiceName)
        b.ServicePort ingFrontAnn ingBackAnn c).2.panicked with
    | some p =>
      rw [syncDefaultBackend_pass env ing _ _ c b hb (Or.inl (by simp [hp])),
        syncDefaultBackend_pass env ing _ _ c' b hb
          (Or.inl (by rw [hd.2.2.2.2.2]; simp [hp]))]
      exact hd.2
    | none =>
      cases he : (addDefaultHostBackend env (FullQualifiedName ing.Namespace b.ServiceName)
          b.ServicePort ingFrontAnn ingBackAnn c).1 with
      | none =>
        rw [syncDefaultBackend_pass env ing _ _ c b hb (Or.inr he),
          syncDefaultBackend_pass env ing _ _ c' b hb (Or.inr (by rw [hd.1, he]))]
        exact hd.2
      | some err =>
        rw [syncDefaultBackend_skip env ing _ _ c b err hb hp he,
          syncDefaultBackend_skip env ing _ _ c' b err hb (by rw [hd.2.2.2.2.2, hp])
            (by rw [hd.1, he])]
        exact ((sameCore_log _ _).coreSymm.coreThen hd.2).coreThen (sameCore_log _ _)

theorem sameCore_tlsLoop (env : Env) (ing : Ingress) (hostname : String) {c c' : Converter}
    (h : SameCore c c') :
    SameCore
      (forEach (fun tls => forEach (syncTLSHost env ing hostname tls) tls.Hosts) ing.TLS c)
      (forEach (fun tls => forEach (syncTLSHost env ing hostname tls) tls.Hosts) ing.TLS c') :=
  sameCore_forEach (fun tls => forEach (syncTLSHost env ing hostname tls) tls.Hosts) ing.TLS
    (fun tls _ a a' ha => sameCore_forEach (syncTLSHost env ing hostname tls) tls.Hosts
      (fun host _ _ _ hb => sameCore_syncTLSHost env ing hostname tls host hb) a a' ha) c c' h

theorem sameCore_syncRule (env : Env) (ing : Ingress) (ingFrontAnn : Nat)
    (ingBackAnn : BackendAnnotations) (rule : IngressRule) {c c' : Converter}
    (h : SameCore c c') :
    SameCore (syncRule env ing ingFrontAnn ingBackAnn rule c)
      (syncRule env ing ingFrontAnn ingBackAnn rule c') := by
  cases hr : rule.HTTP with
  | none =>
    have e : ∀ s, syncRule env ing ingFrontAnn ingBackAnn rule s = s := by
      intro s
      simp [syncRule, hr]
    rw [e, e]
    exact h
  | some paths =>
    rw [syncRule_http _ _ _ _ _ paths _ hr, syncRule_http _ _ _ _ _ paths _ hr]
    exact sameCore_tlsLoop env ing rule.hostname
      (sameCore_forEach _ _
        (fun p _ a a' ha => sameCore_syncPath env ing rule.hostname ingFrontAnn ingBackAnn p ha)
        _ _ (sameCore_addFrontend env rule.hostname ingFrontAnn h))

theorem sameCore_syncIngressStart (env : Env) (ing : Ingress) {c c' : Converter}
    (h : SameCore c c') :
    SameCore (syncIngressStart env ing c) (syncIngressStart env ing c') := by
  unfold syncIngressStart
  simp only [readAnnotations_eq]
  exact ⟨h.1, by simp [h.2.1], h.2.2.1, h.2.2.2.1, h.2.2.2.2⟩

theorem sameCore_syncIngress (env : Env) (ing : Ingress) {c c' : Converter}
    (h : SameCore c c') : SameCore (syncIngress env ing c) (syncIngress env ing c') := by
  rw [syncIngress_eq, syncIngress_eq, h.2.1]
  exact sameCore_forEach _ _
    (fun rule _ a a' ha => sameCore_syncRule env ing _ _ rule ha) _ _
    (sameCore_syncDefaultBackend env ing _ _ (sameCore_syncIngressStart env ing h))

/-! ## A service that cannot be found -/

theorem forEach_skip {α : Type} (body : α → Converter → Converter) (xs ys : List α) (x : α)
    (hskip : ∀ s, SameCore s (body x s))
    (hbody : ∀ y ∈ ys, ∀ c c', SameCore c c' → SameCore (body y c) (body y c'))
    (c : Converter) :
    SameCore (forEach body (xs ++ x :: ys) c) (forEach body (xs ++ ys) c) := by
  rw [forEach_append, forEach_append]
  generalize forEach body xs c = s
  cases hp : s.panicked with
  | some p =>
    rw [forEach_panicked _ _ _ (by simp [hp]), forEach_panicked _ _ _ (by simp [hp])]
    exact SameCore.coreRefl _
  | none =>
    rw [forEach_cons _ _ _ _ hp]
    exact sameCore_forEach body ys hbody _ _ (hskip _).coreSymm

theorem forEach_replace {α : Type} (body : α → Converter → Converter) (xs ys : List α)
    (x x' : α) (hrep : ∀ s, SameCore (body x s) (body x' s))
    (hbody : ∀ y ∈ ys, ∀ c c', SameCore c c' → SameCore (body y c) (body y c'))
    (c : Converter) :
    SameCore (forEach body (xs ++ x :: ys) c) (forEach body (xs ++ x' :: ys) c) := by
  rw [forEach_append, forEach_append]
  generalize forEach body xs c = s
  cases hp : s.panicked with
  | some p =>
    rw [forEach_panicked _ _ _ (by simp [hp]), forEach_panicked _ _ _ (by simp [hp])]
    exact SameCore.coreRefl _
  | none =>
    rw [forEach_cons _ _ _ _ hp, forEach_cons _ _ _ _ hp]
    exact sameCore_forEach body ys hbody _ _ (hrep _)

theorem syncPath_notFound (env : Env) (ing : Ingress) (hostname : String) (ingFrontAnn : Nat)
    (ingBackAnn : BackendAnnotations) (path : HTTPIngressPath) (c : Converter) (err : String)
    (h : env.cache.GetService (path.fullSvcName ing) = .error err)
    (hr : ((c.frontend hostname).FindPath path.uri).isSome = false) (hp : c.panicked = none) :
    syncPath env ing hostname ingFrontAnn ingBackAnn path c
      = (c.call (Call.GetService (path.fullSvcName ing))).log
          (LogEntry.skippingBackendConfig ing.fullName err) := by
  have hb := addBackend_notFound env (path.fullSvcName ing) path.Backend.ServicePort ingBackAnn
    c err (resolveBackend_notFound env _ _ err h)
  rw [syncPath_error _ _ _ _ _ _ _ err hr (by rw [hb]; simp [Converter.call, hp])
    (by rw [hb]), hb]

theorem syncPath_unresolved (env : Env) (ing : Ingress) (hostname : String) (ingFrontAnn : Nat)
    (ingBackAnn : BackendAnnotations) (path : HTTPIngressPath) (c : Converter) (err : String)
    (h : env.cache.GetService (path.fullSvcName ing) = .error err) :
    SameCore c (syncPath env ing hostname ingFrontAnn ingBackAnn path c) := by
  have hb := addBackend_notFound env (path.fullSvcName ing) path.Backend.ServicePort ingBackAnn
    c err (resolveBackend_notFound env _ _ err h)
  cases hr : ((c.frontend hostname).FindPath path.uri).isSome with
  | true =>
    rw [syncPath_registered _ _ _ _ _ _ _ hr]
    exact sameCore_log _ _
  | false =>
    cases hp : c.panicked with
    | some p =>
      rw [syncPath_panicked _ _ _ _ _ _ _ hr (by rw [hb]; simp [Converter.call, hp]), hb]
      exact sameCore_call _ _
    | none =>
      rw [syncPath_notFound _ _ _ _ _ _ _ err h hr hp]
      exact (sameCore_call _ _).coreThen (sameCore_log _ _)

theorem syncDefaultBackend_notFound (env : Env) (ing : Ingress) (ingFrontAnn : Nat)
    (ingBackAnn : BackendAnnotations) (c : Converter) (b : IngressBackend) (err : String)
    (hb : ing.Backend = some b)
    (h : env.cache.GetService (FullQualifiedName ing.Namespace b.ServiceName) = .error err)
    (ho : defaultHostOccupied c = false) (hp : c.panicked = none) :
    syncDefaultBackend env ing ingFrontAnn ingBackAnn c
      = (c.call (Call.GetService (FullQualifiedName ing.Namespace b.ServiceName))).log
          (LogEntry.skippingDefaultBackend ing.fullName err) := by
  have hadd := addBackend_notFound env (FullQualifiedName ing.Namespace b.ServiceName)
    b.ServicePort ingBackAnn c err (resolveBackend_notFound env _ _ err h)
  have hd := addDefaultHostBackend_error env (FullQualifiedName ing.Namespace b.ServiceName)
    b.ServicePort ingFrontAnn ingBackAnn c err ho (by rw [hadd]; simp [Converter.call, hp])
    (by rw [hadd])
  rw [syncDefaultBackend_skip env ing _ _ c b err hb (by rw [hd, hadd]; exact hp)
    (by rw [hd]), hd, hadd]

theorem syncDefaultBackend_unresolved (env : Env) (ing : Ingress) (ingFrontAnn : Nat)
    (ingBackAnn : BackendAnnotations) (c : Converter) (b : IngressBackend) (err : String)
    (hb : ing.Backend = some b)
    (h : env.cache.GetService (FullQualifiedName ing.Namespace b.ServiceName) = .error err) :
    SameCore c (syncDefaultBackend env ing ingFrontAnn ingBackAnn c) := by
  have hadd := addBackend_notFound env (FullQualifiedName ing.Namespace b.ServiceName)
    b.ServicePort ingBackAnn c err (resolveBackend_notFound env _ _ err h)
  have hd : SameCore c (addDefaultHostBackend env
      (FullQualifiedName ing.Namespace b.ServiceName) b.ServicePort ingFrontAnn ingBackAnn
      c).2 := by
    cases ho : defaultHostOccupied c with
    | true =>
      rw [addDefaultHostBackend_occupied _ _ _ _ _ _ ho]
      exact SameCore.coreRefl c
    | false =>
      cases hp : c.panicked with
      | some p =>
        rw [addDefaultHostBackend_panicked _ _ _ _ _ _ ho
          (by rw [hadd]; simp [Converter.call, hp]), hadd]
        exact sameCore_call _ _
      | none =>
        rw [addDefaultHostBackend_error _ _ _ _ _ _ err ho
          (by rw [hadd]; simp [Converter.call, hp]) (by rw [hadd]), hadd]
        exact sameCore_call _ _
  cases hp : (addDefaultHostBackend env (FullQualifiedName ing.Namespace b.ServiceName)
      b.ServicePort ingFrontAnn ingBackAnn c).2.panicked with
  | some p =>
    rw [syncDefaultBackend_pass env ing _ _ c b hb (Or.inl (by simp [hp]))]
    exact hd
  | none =>
    cases he : (addDefaultHostBackend env (FullQualifiedName ing.Namespace b.ServiceName)
        b.ServicePort ingFrontAnn ingBackAnn c).1 with
    | none =>
      rw [syncDefaultBackend_pass env ing _ _ c b hb (Or.inr he)]
      exact hd
    | some e =>
      rw [syncDefaultBackend_skip env ing _ _ c b e hb hp he]
      exact hd.coreThen (sameCore_log _ _)

theorem syncRule_acquires (env : Env) (ing : Ingress) (ingFrontAnn : Nat)
    (ingBackAnn : BackendAnnotations) (rule : IngressRule) (paths : List HTTPIngressPath)
    (c : Converter) (hr : rule.HTTP = some paths) :
    ((syncRule env ing ingFrontAnn ingBackAnn rule c).haproxy.FindFrontend
      rule.hostname).isSome = true := by
  rw [syncRule_http _ _ _ _ _ paths _ hr]
  have hR := advances_invariant env
  have h1 : Advances (addFrontend env rule.hostname ingFrontAnn c)
      (forEach (fun tls => forEach (syncTLSHost env ing rule.hostname tls) tls.Hosts) ing.TLS
        (forEach (syncPath env ing rule.hostname ingFrontAnn ingBackAnn) paths
          (addFrontend env rule.hostname ingFrontAnn c))) :=
    hR.stepTrans _ _ _
      (invariant_forEach hR _ paths
        (fun p s => invariant_syncPath hR ing rule.hostname ingFrontAnn ingBackAnn p s) _)
      (invariant_forEach hR _ ing.TLS (fun tls s => invariant_forEach hR _ tls.Hosts
        (fun host s' => invariant_syncTLSHost hR ing rule.hostname tls host s') s) _)
  exact frontEvolves_exists h1.1 rule.hostname (by rw [frontend_addFrontend]; rfl)

theorem syncIngress_withRules (env : Env) (ing : Ingress) (rules : List IngressRule)
    (c : Converter) :
    syncIngress env (ing.withRules rules) c
      = forEach (syncRule env ing c.frontendRecords.length (backView env ing)) rules
          (syncDefaultBackend env ing c.frontendRecords.length (backView env ing)
            (syncIngressStart env ing c)) := by
  rw [syncIngress_eq]
  rfl

theorem syncIngress_withoutBackend (env : Env) (ing : Ingress) (c : Converter) :
    syncIngress env ing.withoutBackend c
      = forEach (syncRule env ing c.frontendRecords.length (backView env ing)) ing.Rules
          (syncIngressStart env ing c) := by
  rw [syncIngress_eq, syncDefaultBackend_none _ _ _ _ _ rfl]
  rfl

theorem syncIngress_skip_path (env : Env) (ing : Ingress) (err : String)
    (before after : List IngressRule) (rule : IngressRule)
    (earlier later : List HTTPIngressPath) (path : HTTPIngressPath) (c : Converter)
    (hrules : ing.Rules = before ++ rule :: after)
    (hr : rule.HTTP = some (earlier ++ path :: later))
    (h : env.cache.GetService (path.fullSvcName ing) = .error err) :
    SameCore (syncIngress env ing c)
      (syncIngress env
        (ing.withRules (before ++ ⟨rule.Host, some (earlier ++ later)⟩ :: after)) c) := by
  rw [syncIngress_withRules, syncIngress_eq, hrules]
  refine forEach_replace _ before after rule ⟨rule.Host, some (earlier ++ later)⟩ ?_
    (fun y _ a a' ha => sameCore_syncRule env ing _ _ y ha) _
  intro s
  rw [syncRule_http _ _ _ _ _ _ _ hr,
    syncRule_http env ing _ _ ⟨rule.Host, some (earlier ++ later)⟩ (earlier ++ later) s rfl]
  exact sameCore_tlsLoop env ing rule.hostname
    (forEach_skip _ earlier later path
      (fun t => syncPath_unresolved env ing rule.hostname _ _ path t err h)
      (fun y _ a a' ha => sameCore_syncPath env ing rule.hostname _ _ y ha) _)

theorem syncIngress_skip_default (env : Env) (ing : Ingress) (err : String)
    (b : IngressBackend) (c : Converter) (hb : ing.Backend = some b)
    (h : env.cache.GetService (FullQualifiedName ing.Namespace b.ServiceName) = .error err) :
    SameCore (syncIngress env ing c) (syncIngress env ing.withoutBackend c) := by
  rw [syncIngress_withoutBackend, syncIngress_eq]
  exact sameCore_forEach _ _ (fun y _ a a' ha => sameCore_syncRule env ing _ _ y ha) _ _
    (syncDefaultBackend_unresolved env ing _ _ _ b err hb h).coreSymm

/-- C17: when the service of a path entry or of the default backend of a resource
cannot be found, only that unit is skipped. A path entry that is not yet registered
leaves the state as it was but for the recorded service lookup and one warning that
names the resource, so the path is not registered and no backend is acquired; the
same holds for the default backend while path `/` of the default host is free, so no
`*` frontend is acquired. The resource is then processed as the resource without
the failing path entry, or without the default backend, is: both passes end with the
same proxy model, frontend records, pending records and panic flag, also inside a
list of resources. The frontend of a rule with path entries is found after the
rule, whatever happened to its entries. -/
theorem unresolved_service_skips_unit (env : Env) (ing : Ingress) (err : String) :
    (∀ (hostname : String) (ingFrontAnn : Nat) (ingBackAnn : BackendAnnotations)
        (path : HTTPIngressPath) (c : Converter),
        env.cache.GetService (path.fullSvcName ing) = .error err →
        ((c.frontend hostname).FindPath path.uri).isSome = false → c.panicked = none →
        syncPath env ing hostname ingFrontAnn ingBackAnn path c
          = (c.call (Call.GetService (path.fullSvcName ing))).log
              (LogEntry.skippingBackendConfig ing.fullName err))
    ∧ (∀ (b : IngressBackend) (ingFrontAnn : Nat) (ingBackAnn : BackendAnnotations)
        (c : Converter), ing.Backend = some b →
        env.cache.GetService (FullQualifiedName ing.Namespace b.ServiceName) = .error err →
        (syncDefaultBackend env ing ingFrontAnn ingBackAnn c).haproxy = c.haproxy
        ∧ (defaultHostOccupied c = false → c.panicked = none →
            syncDefaultBackend env ing ingFrontAnn ingBackAnn c
              = (c.call (Call.GetService
                  (FullQualifiedName ing.Namespace b.ServiceName))).log
                  (LogEntry.skippingDefaultBackend ing.fullName err)))
    ∧ (∀ (before after : List IngressRule) (rule : IngressRule)
        (earlier later : List HTTPIngressPath) (path : HTTPIngressPath)
        (first rest : List Ingress) (c : Converter),
        ing.Rules = before ++ rule :: after →
        rule.HTTP = some (earlier ++ path :: later) →
        env.cache.GetService (path.fullSvcName ing) = .error err →
        SameCore (syncIngress env ing c)
            (syncIngress env
              (ing.withRules (before ++ ⟨rule.Host, some (earlier ++ later)⟩ :: after)) c)
        ∧ SameCore (syncAll env (first ++ ing :: rest) c)
            (syncAll env (first
              ++ ing.withRules (before ++ ⟨rule.Host, some (earlier ++ later)⟩ :: after)
                :: rest) c))
    ∧ (∀ (b : IngressBackend) (first rest : List Ingress) (c : Converter),
        ing.Backend = some b →
        env.cache.GetService (FullQualifiedName ing.Namespace b.ServiceName) = .error err →
        SameCore (syncIngress env ing c) (syncIngress env ing.withoutBackend c)
        ∧ SameCore (syncAll env (first ++ ing :: rest) c)
            (syncAll env (first ++ ing.withoutBackend :: rest) c))
    ∧ (∀ (ingFrontAnn : Nat) (ingBackAnn : BackendAnnotations) (rule : IngressRule)
        (paths : List HTTPIngressPath) (c : Converter), rule.HTTP = some paths →
        ((syncRule env ing ingFrontAnn ingBackAnn rule c).haproxy.FindFrontend
          rule.hostname).isSome = true) := by
  refine ⟨?_, ?_, ?_, ?_, ?_⟩
  · intro hostname ingFrontAnn ingBackAnn path c h hr hp
    exact syncPath_notFound env ing hostname ingFrontAnn ingBackAnn path c err h hr hp
  · intro b ingFrontAnn ingBackAnn c hb h
    exact ⟨(syncDefaultBackend_unresolved env ing ingFrontAnn ingBackAnn c b err hb h).1,
      fun ho hp => syncDefaultBackend_notFound env ing ingFrontAnn ingBackAnn c b err hb h ho hp⟩
  · intro before after rule earlier later path first rest c hrules hr h
    refine ⟨syncIngress_skip_path env ing err before after rule earlier later path c hrules hr h,
      ?_⟩
    unfold syncAll
    exact forEach_replace _ first rest _ _
      (fun s => syncIngress_skip_path env ing err before after rule earlier later path s
        hrules hr h)
      (fun y _ a a' ha => sameCore_syncIngress env y ha) c
  · intro b first rest c hb h
    refine ⟨syncIngress_skip_default env ing err b c hb h, ?_⟩
    unfold syncAll
    exact forEach_replace _ first rest _ _
      (fun s => syncIngress_skip_default env ing err b s hb h)
      (fun y _ a a' ha => sameCore_syncIngress env y ha) c
  · intro ingFrontAnn ingBackAnn rule paths c hr
    exact syncRule_acquires env ing ingFrontAnn ingBackAnn rule paths c hr

/-- C17 on the scenario of the missing service: the resource `notFoundIngress` is
processed as the resource whose rule has no path entry is. -/
theorem unresolved_service_skips_unit_witness :
    notFoundIngress.Rules
        = [] ++ ⟨"echo.example.com", some ([] ++ ⟨"/", ⟨"notfound", 8080⟩⟩ :: [])⟩ :: []
    ∧ demoEnv.cache.GetService
        (HTTPIngressPath.fullSvcName ⟨"/", ⟨"notfound", 8080⟩⟩ notFoundIngress)
        = .error "service not found: 'default/notfound'"
    ∧ SameCore (syncIngress demoEnv notFoundIngress freshConverter)
        (syncIngress demoEnv
          (notFoundIngress.withRules [⟨"echo.example.com", some []⟩]) freshConverter) :=
  ⟨rfl, rfl,
    ((unresolved_service_skips_unit demoEnv notFoundIngress
      "service not found: 'default/notfound'").2.2.1 [] []
      ⟨"echo.example.com", some [⟨"/", ⟨"notfound", 8080⟩⟩]⟩ [] []
      ⟨"/", ⟨"notfound", 8080⟩⟩ [] [] freshConverter rfl rfl rfl).1⟩

/-! ## Passes over lists that differ in elements without effect -/

theorem forEach_congr {α : Type} (body body' : α → Converter → Converter) (xs : List α)
    (h : ∀ x ∈ xs, ∀ s, body x s = body' x s) (c : Converter) :
    forEach body xs c = forEach body' xs c := by
  induction xs generalizing c with
  | nil => rfl
  | cons x xs ih =>
    cases hp : c.panicked with
    | some p =>
      rw [forEach_panicked _ _ _ (by simp [hp]), forEach_panicked _ _ _ (by simp [hp])]
    | none =>
      rw [forEach_cons _ _ _ _ hp, forEach_cons _ _ _ _ hp, h x (List.mem_cons_self _ _)]
      exact ih (fun y hy => h y (List.mem_cons_of_mem _ hy)) _

theorem forEach_map {α β : Type} (f : α → β) (body : β → Converter → Converter) (xs : List α)
    (c : Converter) : forEach body (xs.map f) c = forEach (fun x => body (f x)) xs c := by
  induction xs generalizing c with
  | nil => rfl
  | cons x xs ih =>
    cases hp : c.panicked with
    | some p =>
      rw [forEach_panicked _ _ _ (by simp [hp]), forEach_panicked _ _ _ (by simp [hp])]
    | none =>
      rw [List.map_cons, forEach_cons _ _ _ _ hp, forEach_cons _ _ _ _ hp]
      exact ih _

theorem forEach_id {α : Type} (body : α → Converter → Converter) (xs : List α)
    (h : ∀ x ∈ xs, ∀ s, body x s = s) (c : Converter) : forEach body xs c = c := by
  induction xs generalizing c with
  | nil => rfl
  | cons x xs ih =>
    cases hp : c.panicked with
    | some p => rw [forEach_panicked _ _ _ (by simp [hp])]
    | none =>
      rw [forEach_cons _ _ _ _ hp, h x (List.mem_cons_self _ _)]
      exact ih (fun y hy => h y (List.mem_cons_of_mem _ hy)) _

theorem forEach_filter {α : Type} (p : α → Bool) (body : α → Converter → Converter)
    (xs : List α) (h : ∀ x ∈ xs, p x = false → ∀ s, body x s = s) (c : Converter) :
    forEach body (xs.filter p) c = forEach body xs c := by
  induction xs generalizing c with
  | nil => rfl
  | cons x xs ih =>
    have ih' := ih (fun y hy => h y (List.mem_cons_of_mem _ hy))
    cases hc : c.panicked with
    | some q =>
      rw [forEach_panicked _ _ _ (by simp [hc]), forEach_panicked _ _ _ (by simp [hc])]
    | none =>
      cases hx : p x with
      | true =>
        rw [List.filter_cons_of_pos (by simpa using hx), forEach_cons _ _ _ _ hc,
          forEach_cons _ _ _ _ hc]
        exact ih' _
      | false =>
        rw [List.filter_cons_of_neg (by simp [hx]), forEach_cons _ _ _ _ hc,
          h x (List.mem_cons_self _ _) hx]
        exact ih' _

theorem forEach_remove {α : Type} (body : α → Converter → Converter) (xs ys : List α) (x : α)
    (h : ∀ s, body x s = s) (c : Converter) :
    forEach body (xs ++ x :: ys) c = forEach body (xs ++ ys) c := by
  rw [forEach_append, forEach_append]
  generalize forEach body xs c = s
  cases hp : s.panicked with
  | some p =>
    rw [forEach_panicked _ _ _ (by simp [hp]), forEach_panicked _ _ _ (by simp [hp])]
  | none => rw [forEach_cons _ _ _ _ hp, h]

theorem forEach_exchange {α : Type} (body : α → Converter → Converter) (xs ys : List α)
    (x x' : α) (h : ∀ s, body x s = body x' s) (c : Converter) :
    forEach body (xs ++ x :: ys) c = forEach body (xs ++ x' :: ys) c := by
  rw [forEach_append, forEach_append]
  generalize forEach body xs c = s
  cases hp : s.panicked with
  | some p =>
    rw [forEach_panicked _ _ _ (by simp [hp]), forEach_panicked _ _ _ (by simp [hp])]
  | none => rw [forEach_cons _ _ _ _ hp, forEach_cons _ _ _ _ hp, h]

theorem Sync_congr (env : Env) (ings ings' : List Ingress) (c : Converter)
    (h : syncAll env ings c = syncAll env ings' c) : Sync env ings c = Sync env ings' c := by
  unfold Sync
  rw [h]

theorem syncRule_none (env : Env) (ing : Ingress) (ingFrontAnn : Nat)
    (ingBackAnn : BackendAnnotations) (rule : IngressRule) (c : Converter)
    (h : rule.HTTP = none) : syncRule env ing ingFrontAnn ingBackAnn rule c = c := by
  simp [syncRule, h]

/-! ## Rules without an HTTP section -/

theorem syncIngress_withoutEmptyRules (env : Env) (ing : Ingress) (c : Converter) :
    syncIngress env ing.withoutEmptyRules c = syncIngress env ing c := by
  have h := syncIngress_withRules env ing (ing.Rules.filter (fun r => r.HTTP.isSome)) c
  have e : ing.withoutEmptyRules = ing.withRules (ing.Rules.filter (fun r => r.HTTP.isSome)) :=
    rfl
  rw [e, h, syncIngress_eq]
  apply forEach_filter
  intro rule _ hr s
  have hn : rule.HTTP = none := by
    cases hh : rule.HTTP with
    | none => rfl
    | some paths => simp [hh] at hr
  exact syncRule_none env ing _ _ rule s hn

/-- C28: a rule without an HTTP section contributes nothing. The body of the rule
loop returns the state as it received it, so no frontend is acquired, no record
is accumulated, no path or backend is touched, no TLS binding is evaluated, no
collaborator is called and nothing is logged for the rule; a resource, alone or
in a list, is processed exactly as the resource without such rules is. -/
theorem rule_without_http_skipped (env : Env) :
    (∀ (ing : Ingress) (ingFrontAnn : Nat) (ingBackAnn : BackendAnnotations)
        (rule : IngressRule) (c : Converter), rule.HTTP = none →
        syncRule env ing ingFrontAnn ingBackAnn rule c = c)
    ∧ (∀ (ing : Ingress) (c : Converter),
        syncIngress env ing.withoutEmptyRules c = syncIngress env ing c)
    ∧ (∀ (ings : List Ingress) (c : Converter),
        Sync env (ings.map Ingress.withoutEmptyRules) c = Sync env ings c) := by
  refine ⟨fun ing a bA rule c h => syncRule_none env ing a bA rule c h,
    syncIngress_withoutEmptyRules env, ?_⟩
  intro ings c
  apply Sync_congr
  unfold syncAll
  rw [forEach_map]
  exact forEach_congr _ _ _ (fun ing _ s => syncIngress_withoutEmptyRules env ing s) c

/-- C28 on the scenario of the rule without HTTP section: the rule of
`noHTTPIngress` leaves the state alone, and `Sync` of the resource acquires no
frontend and accumulates no frontend record. -/
theorem rule_without_http_skipped_witness :
    (⟨"echo.example.com", none⟩ : IngressRule).HTTP = none
    ∧ syncRule demoEnv noHTTPIngress 0 (backView demoEnv noHTTPIngress)
        ⟨"echo.example.com", none⟩ freshConverter = freshConverter
    ∧ (Sync demoEnv [noHTTPIngress] freshConverter).haproxy.frontends = []
    ∧ (Sync demoEnv [noHTTPIngress] freshConverter).frontendAnnotations = []
    ∧ (Sync demoEnv [noHTTPIngress] freshConverter).logger = [] :=
  ⟨rfl, (rule_without_http_skipped demoEnv).1 noHTTPIngress 0 (backView demoEnv noHTTPIngress)
    ⟨"echo.example.com", none⟩ freshConverter rfl, by decide, by decide, by decide⟩

/-! ## TLS bindings for other hosts -/

theorem syncIngress_withTLS (env : Env) (ing : Ingress) (tls : List IngressTLS)
    (c : Converter) :
    syncIngress env (ing.withTLS tls) c
      = forEach (fun rule s =>
          match rule.HTTP with
          | none => s
          | some paths =>
            forEach (fun t => forEach (syncTLSHost env ing rule.hostname t) t.Hosts) tls
              (forEach (syncPath env ing rule.hostname c.frontendRecords.length
                (backView env ing)) paths
                (addFrontend env rule.hostname c.frontendRecords.length s))) ing.Rules
          (syncDefaultBackend env ing c.frontendRecords.length (backView env ing)
            (syncIngressStart env ing c)) := by
  rw [syncIngress_eq]
  rfl

theorem tlsBinding_unmatched (env : Env) (ing : Ingress) (tls : IngressTLS)
    (rule : IngressRule) (h : rule.hostname ∉ tls.Hosts) (s : Converter) :
    forEach (syncTLSHost env ing rule.hostname tls) tls.Hosts s = s := by
  apply forEach_id
  intro host hh t
  apply syncTLSHost_other
  intro e
  exact h (e ▸ hh)

theorem syncIngress_unmatched (env : Env) (ing : Ingress) (before after : List IngressTLS)
    (tls : IngressTLS) (hTLS : ing.TLS = before ++ tls :: after) (hun : tls.unmatched ing)
    (c : Converter) :
    syncIngress env ing c = syncIngress env (ing.withTLS (before ++ after)) c := by
  have e : ing = ing.withTLS (before ++ tls :: after) := by
    cases ing
    simp only [Ingress.withTLS] at hTLS ⊢
    rw [hTLS]
  rw [syncIngress_withTLS env ing (before ++ after) c]
  conv => lhs; rw [e, syncIngress_withTLS env ing (before ++ tls :: after) c]
  apply forEach_congr
  intro rule hr s
  cases hh : rule.HTTP with
  | none => rfl
  | some paths =>
    simp only
    apply forEach_remove
    intro t
    exact tlsBinding_unmatched env ing tls rule (hun rule hr (by simp [hh])) t

/-- C30: a TLS binding of a resource none of whose hosts is the effective
hostname of a rule of the resource that has an HTTP section has no effect. For
every such rule the loop over the hosts of the binding returns the state as it
received it, so no certificate is looked up, no frontend receives a certificate
file and nothing is logged; the resource, alone or in a list, is processed
exactly as the resource without the binding is, with the same proxy model,
records, log and calls. -/
theorem unmatched_tls_binding_ignored (env : Env) (ing : Ingress)
    (before after : List IngressTLS) (tls : IngressTLS)
    (hTLS : ing.TLS = before ++ tls :: after) (hun : tls.unmatched ing) :
    (∀ rule ∈ ing.Rules, rule.HTTP.isSome = true → ∀ s,
        forEach (syncTLSHost env ing rule.hostname tls) tls.Hosts s = s)
    ∧ (∀ c, syncIngress env ing c = syncIngress env (ing.withTLS (before ++ after)) c)
    ∧ (∀ first rest c, Sync env (first ++ ing :: rest) c
        = Sync env (first ++ ing.withTLS (before ++ after) :: rest) c) := by
  refine ⟨fun rule hr hh s => tlsBinding_unmatched env ing tls rule (hun rule hr hh) s,
    syncIngress_unmatched env ing before after tls hTLS hun, ?_⟩
  intro first rest c
  apply Sync_congr
  unfold syncAll
  exact forEach_exchange _ first rest _ _
    (syncIngress_unmatched env ing before after tls hTLS hun) c

/-- C30 on a scenario: the binding of `strayTLSIngress` lists another host than
the one of its rule, so the resource is processed as the resource without TLS
bindings is, and no certificate is looked up. -/
theorem unmatched_tls_binding_ignored_witness :
    strayTLSIngress.TLS = [] ++ ⟨["other.example.com"], "tls-echo1"⟩ :: []
    ∧ IngressTLS.unmatched ⟨["other.example.com"], "tls-echo1"⟩ strayTLSIngress
    ∧ syncIngress demoEnv strayTLSIngress freshConverter
        = syncIngress demoEnv (strayTLSIngress.withTLS []) freshConverter
    ∧ (Sync demoEnv [strayTLSIngress] freshConverter).calls.filter
        (fun x => match x with
          | Call.GetTLSSecretPath _ => true
          | _ => false) = [] := by
  have hun : IngressTLS.unmatched ⟨["other.example.com"], "tls-echo1"⟩ strayTLSIngress := by
    unfold IngressTLS.unmatched
    decide
  exact ⟨rfl, hun,
    (unmatched_tls_binding_ignored demoEnv strayTLSIngress [] []
      ⟨["other.example.com"], "tls-echo1"⟩ rfl hun).2.1 freshConverter, by decide⟩

/-! ## Empty hosts and empty paths -/

theorem hostname_normalized (rule : IngressRule) : rule.normalized.hostname = rule.hostname := by
  unfold IngressRule.hostname IngressRule.normalized
  by_cases h : rule.Host = ""
  · simp [h]
  · simp [h]

theorem syncPath_normalized (env : Env) (ing : Ingress) (hostname : String) (ingFrontAnn : Nat)
    (ingBackAnn : BackendAnnotations) (path : HTTPIngressPath) (c : Converter) :
    syncPath env ing hostname ingFrontAnn ingBackAnn path.normalized c
      = syncPath env ing hostname ingFrontAnn ingBackAnn path c := by
  by_cases h : path.Path = ""
  · have e : path.normalized = { path with Path := "/" } := by
      simp [HTTPIngressPath.normalized, h]
    rw [e]
    unfold syncPath
    simp [h]
  · have e : path.normalized = path := by
      cases path
      simp only [HTTPIngressPath.normalized] at h ⊢
      simp [h]
    rw [e]

theorem syncRule_normalized (env : Env) (ing : Ingress) (ingFrontAnn : Nat)
    (ingBackAnn : BackendAnnotations) (rule : IngressRule) (c : Converter) :
    syncRule env ing ingFrontAnn ingBackAnn rule.normalized c
      = syncRule env ing ingFrontAnn ingBackAnn rule c := by
  cases h : rule.HTTP with
  | none =>
    rw [syncRule_none _ _ _ _ _ _ h,
      syncRule_none _ _ _ _ _ _ (by simp [IngressRule.normalized, h])]
  | some paths =>
    rw [syncRule_http _ _ _ _ rule paths _ h,
      syncRule_http _ _ _ _ rule.normalized (paths.map HTTPIngressPath.normalized) _
        (by simp [IngressRule.normalized, h]),
      hostname_normalized, forEach_map]
    congr 1
    exact forEach_congr _ _ _
      (fun p _ s => syncPath_normalized env ing rule.hostname ingFrontAnn ingBackAnn p s) _

theorem syncIngress_normalized (env : Env) (ing : Ingress) (c : Converter) :
    syncIngress env ing.normalized c = syncIngress env ing c := by
  have e : ing.normalized = ing.withRules (ing.Rules.map IngressRule.normalized) := rfl
  rw [e, syncIngress_withRules, syncIngress_eq, forEach_map]
  exact forEach_congr _ _ _ (fun rule _ s => syncRule_normalized env ing _ _ rule s) _

/-- C23: `Sync` treats an empty rule host as the host `*` and an empty path as
`/`. The resources in which every empty rule host is replaced by `*` and every
empty path by `/` have no empty rule host and no empty path left, and `Sync` of
them ends in the same state as `Sync` of the original resources: the same
frontends, paths, backends, certificate files, pending records, log and calls. -/
theorem empty_host_and_path_defaults (env : Env) (ings : List Ingress) (c : Converter) :
    Sync env (ings.map Ingress.normalized) c = Sync env ings c
    ∧ (∀ ing ∈ ings.map Ingress.normalized, ∀ rule ∈ ing.Rules,
        rule.Host ≠ "" ∧ ∀ paths, rule.HTTP = some paths → ∀ p ∈ paths, p.Path ≠ "")
    ∧ (∀ (ing : Ingress) (s : Converter),
        syncIngress env ing.normalized s = syncIngress env ing s) := by
  refine ⟨?_, ?_, syncIngress_normalized env⟩
  · apply Sync_congr
    unfold syncAll
    rw [forEach_map]
    exact forEach_congr _ _ _ (fun ing _ s => syncIngress_normalized env ing s) c
  · intro ing hing rule hrule
    obtain ⟨ing0, _, rfl⟩ := List.mem_map.mp hing
    obtain ⟨rule0, _, rfl⟩ := List.mem_map.mp hrule
    constructor
    · unfold IngressRule.normalized
      by_cases h : rule0.Host = ""
      · simp [h]
      · simp [h]
    · intro paths hp p hmem
      cases h0 : rule0.HTTP with
      | none => simp [IngressRule.normalized, h0] at hp
      | some paths0 =>
        simp only [IngressRule.normalized, h0, Option.map_some', Option.some.injEq] at hp
        subst hp
        obtain ⟨p0, _, rfl⟩ := List.mem_map.mp hmem
        unfold HTTPIngressPath.normalized
        by_cases h : p0.Path = ""
        · simp [h]
        · simp [h]

/-- C23 on the scenario of the empty host and the empty path: the resource and
its replacement end in the same state, in which the path `/` is registered on
the frontend `*`. -/
theorem empty_host_and_path_defaults_witness :
    Sync demoEnv ([emptyHostPathIngress].map Ingress.normalized) freshConverter
      = Sync demoEnv [emptyHostPathIngress] freshConverter
    ∧ emptyHostPathIngress.normalized
      = mkIngress "default" "echo" "*" "/" "echo1" 8080 [] []
    ∧ (Sync demoEnv [emptyHostPathIngress] freshConverter).haproxy.frontends.map
        (fun f => (f.Hostname, f.Paths))
      = [("*", [⟨"/", ⟨"default", "echo1", 8080⟩⟩])] :=
  ⟨(empty_host_and_path_defaults demoEnv [emptyHostPathIngress] freshConverter).1,
    by decide, by decide⟩

/-! ## Subsets without a matching port entry -/

theorem subsetLoop_unmatched (servicePort : Int) (k : BackendKey) (subset : EndpointSubset)
    (c : Converter) (h : matchingPorts servicePort subset = []) :
    forEach (addEndpointsPort servicePort k subset) subset.Ports c = c := by
  apply forEach_id
  intro port hport s
  unfold matchingPorts at h
  have hn := (List.filter_eq_nil_iff.mp h) port hport
  have hn' : ¬ (port.Port = servicePort ∧ port.Protocol = ProtocolTCP) := by simpa using hn
  simp only [addEndpointsPort, hn', if_false]

theorem subsetLoop_noAddress (servicePort : Int) (k : BackendKey) (subset : EndpointSubset)
    (c : Converter) (h : subset.Addresses = []) :
    forEach (addEndpointsPort servicePort k subset) subset.Ports c = c := by
  apply forEach_id
  intro port _ s
  unfold addEndpointsPort
  rw [h]
  split <;> rfl

theorem addEndpoints_nothing (env : Env) (svc : Service) (servicePort : Int) (k : BackendKey)
    (endpoints : Endpoints) (c : Converter)
    (hget : env.cache.GetEndpoints svc = .ok endpoints)
    (h : ∀ subset ∈ endpoints.Subsets,
      matchingPorts servicePort subset = [] ∨ subset.Addresses = []) :
    addEndpoints env svc servicePort k c = (none, c.call (Call.GetEndpoints svc)) := by
  unfold addEndpoints
  simp only [hget]
  rw [forEach_id]
  intro subset hs s
  rcases h subset hs with h1 | h1
  · exact subsetLoop_unmatched servicePort k subset s h1
  · exact subsetLoop_noAddress servicePort k subset s h1

theorem addBackend_new_empty (env : Env) (fullSvcName : String) (svcPort : Int)
    (ingAnn : BackendAnnotations) (svc : Service) (k : BackendKey) (endpoints : Endpoints)
    (c : Converter)
    (hres : resolveBackend env fullSvcName svcPort = .backend svc k)
    (hl : c.backendAnnotations.lookup (buildID k) = none)
    (hnew : c.haproxy.FindBackend k = none) (hc : c.panicked = none)
    (hget : env.cache.GetEndpoints svc = .ok endpoints)
    (h : ∀ subset ∈ endpoints.Subsets,
      matchingPorts k.Port subset = [] ∨ subset.Addresses = []) :
    (addBackend env fullSvcName svcPort ingAnn c).1 = .ok k
      ∧ (addBackend env fullSvcName svcPort ingAnn c).2.haproxy.FindBackend k
        = some (createBackend k)
      ∧ (addBackend env fullSvcName svcPort ingAnn c).2.panicked = none := by
  have hpop : addBackendPopulated env fullSvcName svc k c
      = (none, ({ c.call (Call.GetService fullSvcName) with
          haproxy := c.haproxy.AcquireBackend k }).call (Call.GetEndpoints svc)) := by
    unfold addBackendPopulated
    rw [addEndpoints_nothing env svc k.Port k endpoints _ hget h]
    rfl
  have hp : (addBackendPopulated env fullSvcName svc k c).2.panicked.isSome = false := by
    rw [hpop]
    simp [Converter.call, hc]
  rw [addBackend_new env _ _ _ c svc k hres hl hp]
  have hf := addBackendNew_frame env fullSvcName ingAnn svc k c
  refine ⟨rfl, ?_, ?_⟩
  · show (addBackendNew env fullSvcName ingAnn svc k c).haproxy.FindBackend k = _
    rw [hf.1, hpop]
    show (c.haproxy.AcquireBackend k).FindBackend k = _
    rw [findBackend_acquire, hnew]
    rfl
  · show (addBackendNew env fullSvcName ingAnn svc k c).panicked = none
    rw [hf.2, hpop]
    exact hc

/-- C22: a subset of the endpoint data none of whose port entries is the target
port over TCP adds no endpoint. The loop of `addEndpoints` over the port entries
of such a subset returns the state as it received it, whatever the addresses of
the subset are, so the loop over the subsets gives the same state as the loop
over the subsets that have a matching port entry. When every subset has no
matching port entry or no address, `addEndpoints` returns no error and only
records the lookup of the endpoints, and a backend that `addBackend` creates for
such a service has no endpoint. -/
theorem unmatched_subset_adds_nothing (env : Env) (servicePort : Int) (k : BackendKey) :
    (∀ (subset : EndpointSubset) (c : Converter), matchingPorts servicePort subset = [] →
        forEach (addEndpointsPort servicePort k subset) subset.Ports c = c)
    ∧ (∀ (subsets : List EndpointSubset) (c : Converter),
        forEach (fun subset => forEach (addEndpointsPort servicePort k subset) subset.Ports)
            (subsets.filter (fun s => decide (matchingPorts servicePort s ≠ []))) c
          = forEach (fun subset => forEach (addEndpointsPort servicePort k subset)
              subset.Ports) subsets c)
    ∧ (∀ (svc : Service) (endpoints : Endpoints) (c : Converter),
        env.cache.GetEndpoints svc = .ok endpoints →
        (∀ subset ∈ endpoints.Subsets,
          matchingPorts servicePort subset = [] ∨ subset.Addresses = []) →
        addEndpoints env svc servicePort k c = (none, c.call (Call.GetEndpoints svc)))
    ∧ (∀ (fullSvcName : String) (svcPort : Int) (ingAnn : BackendAnnotations) (svc : Service)
        (endpoints : Endpoints) (c : Converter),
        resolveBackend env fullSvcName svcPort = .backend svc k →
        c.backendAnnotations.lookup (buildID k) = none →
        c.haproxy.FindBackend k = none → c.panicked = none →
        env.cache.GetEndpoints svc = .ok endpoints →
        (∀ subset ∈ endpoints.Subsets,
          matchingPorts k.Port subset = [] ∨ subset.Addresses = []) →
        (addBackend env fullSvcName svcPort ingAnn c).1 = .ok k
          ∧ (addBackend env fullSvcName svcPort ingAnn c).2.haproxy.FindBackend k
            = some (createBackend k)
          ∧ (createBackend k).Endpoints = []) := by
  refine ⟨fun subset c h => subsetLoop_unmatched servicePort k subset c h, ?_, ?_, ?_⟩
  · intro subsets c
    apply forEach_filter
    intro subset _ hs s
    have h0 : matchingPorts servicePort subset = [] := by simpa using hs
    exact subsetLoop_unmatched servicePort k subset s h0
  · intro svc endpoints c hget h
    exact addEndpoints_nothing env svc servicePort k endpoints c hget h
  · intro fullSvcName svcPort ingAnn svc endpoints c hres hl hnew hc hget h
    have := addBackend_new_empty env fullSvcName svcPort ingAnn svc k endpoints c hres hl hnew
      hc hget h
    exact ⟨this.1, this.2.1, rfl⟩

/-- C22 on two scenarios: the addresses of `default/echo` are listed under
another port and under the target port over UDP, or the subset of the target
port has no address; in both the backend of the resource has no endpoint. -/
theorem unmatched_subset_adds_nothing_witness :
    addEndpoints otherPortEnv (mkService "default" "echo" 8080) 8080
        ⟨"default", "echo", 8080⟩ echoBackendConverter
      = (none, echoBackendConverter.call (Call.GetEndpoints (mkService "default" "echo" 8080)))
    ∧ (Sync otherPortEnv [echoIngress] freshConverter).haproxy.backends
      = [createBackend ⟨"default", "echo", 8080⟩]
    ∧ (Sync noAddressEnv [echoIngress] freshConverter).haproxy.backends
      = [createBackend ⟨"default", "echo", 8080⟩]
    ∧ (Sync noAddressEnv [echoIngress] freshConverter).logger = [] :=
  ⟨(unmatched_subset_adds_nothing otherPortEnv 8080 ⟨"default", "echo", 8080⟩).2.2.1
      (mkService "default" "echo" 8080)
      ⟨[⟨[⟨"10.0.0.1", some ⟨"default", "echo-1"⟩⟩], [⟨9090, "TCP"⟩]⟩,
        ⟨[⟨"10.0.0.2", none⟩], [⟨8080, "UDP"⟩]⟩]⟩
      echoBackendConverter rfl (by decide),
    by decide, by decide, by decide⟩

/-! ## The annotations that `readAnnotations` decodes -/

theorem hasPrefix_iff (s pfx : String) : HasPrefix s pfx = true ↔ ∃ k, s = pfx ++ k := by
  unfold HasPrefix
  rw [List.isPrefixOf_iff_prefix]
  constructor
  · rintro ⟨t, ht⟩
    exact ⟨String.mk t, String.ext (by simp [ht])⟩
  · rintro ⟨k, rfl⟩
    exact ⟨k.data, by simp⟩

theorem trimPrefix_append (pfx k : String) : TrimPrefix (pfx ++ k) pfx = k := by
  have h : HasPrefix (pfx ++ k) pfx = true := (hasPrefix_iff _ _).mpr ⟨k, rfl⟩
  unfold TrimPrefix
  rw [if_pos h]
  apply String.ext
  simp

theorem trimPrefix_eq_iff (s pfx k : String) (h : HasPrefix s pfx = true) :
    TrimPrefix s pfx = k ↔ s = pfx ++ k := by
  obtain ⟨k0, rfl⟩ := (hasPrefix_iff s pfx).mp h
  rw [trimPrefix_append]
  constructor
  · rintro rfl
    rfl
  · intro e
    have := congrArg String.data e
    simp only [String.data_append, List.append_cancel_left_eq] at this
    exact String.ext this

theorem readAnnotationsMap_cons (env : Env) (a v : String) (rest : List (String × String)) :
    readAnnotationsMap env ((a, v) :: rest)
      = if HasPrefix a (env.options.AnnotationPrefix ++ "/") then
          (TrimPrefix a (env.options.AnnotationPrefix ++ "/"), v) :: readAnnotationsMap env rest
        else readAnnotationsMap env rest := by
  unfold readAnnotationsMap
  by_cases hp : HasPrefix a (env.options.AnnotationPrefix ++ "/") = true
  · simp [List.filterMap_cons, hp]
  · simp [List.filterMap_cons, hp]

theorem readAnnotationsMap_lookup (env : Env) (annotations : List (String × String))
    (k : String) :
    (readAnnotationsMap env annotations).lookup k
      = annotations.lookup (env.options.AnnotationPrefix ++ "/" ++ k) := by
  induction annotations with
  | nil => rfl
  | cons kv rest ih =>
    obtain ⟨a, v⟩ := kv
    rw [readAnnotationsMap_cons, lookup_cons_eq]
    by_cases hp : HasPrefix a (env.options.AnnotationPrefix ++ "/") = true
    · rw [if_pos hp, lookup_cons_eq, ih]
      have hiff := trimPrefix_eq_iff a (env.options.AnnotationPrefix ++ "/") k hp
      by_cases hk : k = TrimPrefix a (env.options.AnnotationPrefix ++ "/")
      · rw [if_pos hk, if_pos (hiff.mp hk.symm).symm]
      · rw [if_neg hk, if_neg (fun e => hk (hiff.mpr e.symm).symm)]
    · rw [if_neg hp, ih]
      have hne : ¬ env.options.AnnotationPrefix ++ "/" ++ k = a := by
        intro e
        exact hp ((hasPrefix_iff _ _).mpr ⟨k, e.symm⟩)
      rw [if_neg hne]

theorem readAnnotationsMap_mem (env : Env) (annotations : List (String × String))
    (k v : String) :
    (k, v) ∈ readAnnotationsMap env annotations
      ↔ (env.options.AnnotationPrefix ++ "/" ++ k, v) ∈ annotations := by
  induction annotations with
  | nil => simp [readAnnotationsMap]
  | cons kv rest ih =>
    obtain ⟨a, w⟩ := kv
    rw [readAnnotationsMap_cons]
    by_cases hp : HasPrefix a (env.options.AnnotationPrefix ++ "/") = true
    · rw [if_pos hp, List.mem_cons, List.mem_cons, ih]
      have hiff := trimPrefix_eq_iff a (env.options.AnnotationPrefix ++ "/") k hp
      constructor
      · rintro (h | h)
        · left
          simp only [Prod.mk.injEq] at h ⊢
          exact ⟨(hiff.mp h.1.symm).symm, h.2⟩
        · exact Or.inr h
      · rintro (h | h)
        · left
          simp only [Prod.mk.injEq] at h ⊢
          exact ⟨(hiff.mpr h.1.symm).symm, h.2⟩
        · exact Or.inr h
    · rw [if_neg hp, List.mem_cons, ih]
      constructor
      · exact Or.inr
      · rintro (h | h)
        · simp only [Prod.mk.injEq] at h
          exact absurd ((hasPrefix_iff _ _).mpr ⟨k, h.1.symm⟩) hp
        · exact h

theorem readAnnotationsMap_filter (env : Env) (annotations : List (String × String)) :
    readAnnotationsMap env
        (annotations.filter (fun kv => HasPrefix kv.1 (env.options.AnnotationPrefix ++ "/")))
      = readAnnotationsMap env annotations := by
  induction annotations with
  | nil => rfl
  | cons kv rest ih =>
    obtain ⟨a, v⟩ := kv
    by_cases hp : HasPrefix a (env.options.AnnotationPrefix ++ "/") = true
    · rw [List.filter_cons_of_pos (by simpa using hp), readAnnotationsMap_cons,
        readAnnotationsMap_cons, ih]
    · rw [List.filter_cons_of_neg (by simpa using hp), readAnnotationsMap_cons, if_neg hp, ih]

/-- C24: `readAnnotations` decodes exactly the annotations whose key starts with
the configured prefix followed by `/`. The override map it hands to the decoder
maps `k` to what the annotations map `prefix/k` to, and holds the entry `(k, v)`
exactly when the annotations hold `(prefix/k, v)`; the annotations without the
prefix are ignored, as the result is the one for the annotations that carry it;
the two views are the decodings of that map onto the defaults, and both carry
the given source. -/
theorem readAnnotations_prefixed_only (env : Env) (source : Source)
    (annotations : List (String × String)) (c : Converter) :
    (∀ k, (readAnnotationsMap env annotations).lookup k
        = annotations.lookup (env.options.AnnotationPrefix ++ "/" ++ k))
    ∧ (∀ k v, (k, v) ∈ readAnnotationsMap env annotations
        ↔ (env.options.AnnotationPrefix ++ "/" ++ k, v) ∈ annotations)
    ∧ (∀ key, HasPrefix key (env.options.AnnotationPrefix ++ "/") = true
        ↔ ∃ k, key = env.options.AnnotationPrefix ++ "/" ++ k)
    ∧ readAnnotations env source
          (annotations.filter
            (fun kv => HasPrefix kv.1 (env.options.AnnotationPrefix ++ "/"))) c
        = readAnnotations env source annotations c
    ∧ (readAnnotations env source annotations c).1.1
        = (MergeMapFront (readAnnotationsMap env annotations)
            (defaultsToFront source env.globalConfig)).1
    ∧ (readAnnotations env source annotations c).1.2
        = (MergeMapBack (readAnnotationsMap env annotations)
            (defaultsToBack source env.globalConfig)).1
    ∧ (readAnnotations env source annotations c).1.1.Source = source
    ∧ (readAnnotations env source annotations c).1.2.Source = source := by
  refine ⟨readAnnotationsMap_lookup env annotations, readAnnotationsMap_mem env annotations,
    fun key => hasPrefix_iff key _, ?_, ?_, ?_, ?_, ?_⟩
  · rw [readAnnotations_eq, readAnnotations_eq]
    unfold readAnnotationsLog
    rw [readAnnotationsMap_filter]
  · rw [readAnnotations_eq]
  · rw [readAnnotations_eq]
  · rw [readAnnotations_eq]
    rfl
  · rw [readAnnotations_eq]
    rfl

/-- C24 on the annotations of a resource: only the annotation that carries the
prefix followed by `/` reaches the decoder, without the prefix. -/
theorem readAnnotations_prefixed_only_witness :
    (readAnnotationsMap demoEnv
        [("ingress.kubernetes.io/timeout-client", "1s"), ("kubernetes.io/ingress.class", "x"),
         ("ingress.kubernetes.io", "y"), ("ingress.kubernetes.iox/app-root", "/z")]).lookup
        "timeout-client"
      = List.lookup (demoEnv.options.AnnotationPrefix ++ "/" ++ "timeout-client")
          [("ingress.kubernetes.io/timeout-client", "1s"), ("kubernetes.io/ingress.class", "x"),
           ("ingress.kubernetes.io", "y"), ("ingress.kubernetes.iox/app-root", "/z")]
    ∧ readAnnotationsMap demoEnv
        [("ingress.kubernetes.io/timeout-client", "1s"), ("kubernetes.io/ingress.class", "x"),
         ("ingress.kubernetes.io", "y"), ("ingress.kubernetes.iox/app-root", "/z")]
      = [("timeout-client", "1s")] :=
  ⟨(readAnnotations_prefixed_only demoEnv ⟨"default", "echo", "ingress"⟩
      [("ingress.kubernetes.io/timeout-client", "1s"), ("kubernetes.io/ingress.class", "x"),
       ("ingress.kubernetes.io", "y"), ("ingress.kubernetes.iox/app-root", "/z")]
      freshConverter).1 "timeout-client",
    by decide⟩

/-! ## Certificate paths of the cache of the controller -/

theorem getTLSSecretPath_cases (c : ControllerCache) (secretName : String) :
    (∀ err, c.controller.GetCertificate secretName = .error err →
        c.GetTLSSecretPath secretName = ("", some err))
    ∧ (∀ cert, c.controller.GetCertificate secretName = .ok cert → cert.PemFileName = "" →
        c.GetTLSSecretPath secretName
          = ("", some ("secret '" ++ secretName ++ "' does not have tls/key pair")))
    ∧ (∀ cert, c.controller.GetCertificate secretName = .ok cert → cert.PemFileName ≠ "" →
        c.GetTLSSecretPath secretName = (cert.PemFileName, none)) := by
  unfold ControllerCache.GetTLSSecretPath
  refine ⟨?_, ?_, ?_⟩
  · intro err h
    simp [h]
  · intro cert h he
    simp [h, he]
  · intro cert h he
    simp [h, he]

theorem getCASecretPath_cases (c : ControllerCache) (secretName : String) :
    (∀ err, c.controller.GetCertificate secretName = .error err →
        c.GetCASecretPath secretName = ("", some err))
    ∧ (∀ cert, c.controller.GetCertificate secretName = .ok cert → cert.CAFileName = "" →
        c.GetCASecretPath secretName
          = ("", some ("secret '" ++ secretName ++ "' does not have ca.crt key")))
    ∧ (∀ cert, c.controller.GetCertificate secretName = .ok cert → cert.CAFileName ≠ "" →
        c.GetCASecretPath secretName = (cert.CAFileName, none)) := by
  unfold ControllerCache.GetCASecretPath
  refine ⟨?_, ?_, ?_⟩
  · intro err h
    simp [h]
  · intro cert h he
    simp [h, he]
  · intro cert h he
    simp [h, he]

/-- C25: `GetTLSSecretPath` returns no error exactly when the lookup of the
certificate of the secret succeeds and the certificate has a non-empty PEM file
name, and `GetCASecretPath` exactly when the lookup succeeds and the certificate
has a non-empty CA file name. On success each returns that file name, which is
not empty; on failure each returns the empty path, with the error of the lookup
or the error that the secret lacks the pair or the CA entry. -/
theorem secret_path_success (c : ControllerCache) (secretName : String) :
    ((c.GetTLSSecretPath secretName).2 = none
        ↔ ∃ cert, c.controller.GetCertificate secretName = .ok cert ∧ cert.PemFileName ≠ "")
    ∧ (∀ cert, c.controller.GetCertificate secretName = .ok cert → cert.PemFileName ≠ "" →
        c.GetTLSSecretPath secretName = (cert.PemFileName, none))
    ∧ ((c.GetTLSSecretPath secretName).2 = none → (c.GetTLSSecretPath secretName).1 ≠ "")
    ∧ ((c.GetTLSSecretPath secretName).2 ≠ none → (c.GetTLSSecretPath secretName).1 = "")
    ∧ (∀ err, c.controller.GetCertificate secretName = .error err →
        (c.GetTLSSecretPath secretName).2 = some err)
    ∧ (∀ cert, c.controller.GetCertificate secretName = .ok cert → cert.PemFileName = "" →
        (c.GetTLSSecretPath secretName).2
          = some ("secret '" ++ secretName ++ "' does not have tls/key pair"))
    ∧ ((c.GetCASecretPath secretName).2 = none
        ↔ ∃ cert, c.controller.GetCertificate secretName = .ok cert ∧ cert.CAFileName ≠ "")
    ∧ (∀ cert, c.controller.GetCertificate secretName = .ok cert → cert.CAFileName ≠ "" →
        c.GetCASecretPath secretName = (cert.CAFileName, none))
    ∧ ((c.GetCASecretPath secretName).2 = none → (c.GetCASecretPath secretName).1 ≠ "")
    ∧ ((c.GetCASecretPath secretName).2 ≠ none → (c.GetCASecretPath secretName).1 = "")
    ∧ (∀ err, c.controller.GetCertificate secretName = .error err →
        (c.GetCASecretPath secretName).2 = some err)
    ∧ (∀ cert, c.controller.GetCertificate secretName = .ok cert → cert.CAFileName = "" →
        (c.GetCASecretPath secretName).2
          = some ("secret '" ++ secretName ++ "' does not have ca.crt key")) := by
  obtain ⟨t1, t2, t3⟩ := getTLSSecretPath_cases c secretName
  obtain ⟨a1, a2, a3⟩ := getCASecretPath_cases c secretName
  cases h : c.controller.GetCertificate secretName with
  | error err =>
    rw [t1 err h, a1 err h]
    simp
  | ok cert =>
    by_cases hp : cert.PemFileName = ""
    · by_cases hc : cert.CAFileName = ""
      · rw [t2 cert h hp, a2 cert h hc]
        simp [hp, hc]
      · rw [t2 cert h hp, a3 cert h hc]
        simp [hp, hc]
    · by_cases hc : cert.CAFileName = ""
      · rw [t3 cert h hp, a2 cert h hc]
        simp [hp, hc]
      · rw [t3 cert h hp, a3 cert h hc]
        simp [hp, hc]

/-- C25 on a controller with a complete secret, a secret without files and no
other secret. -/
theorem secret_path_success_witness :
    demoController.GetTLSSecretPath "default/tls" = ("/tls/default/tls.pem", none)
    ∧ demoController.GetCASecretPath "default/tls" = ("/tls/default/ca.pem", none)
    ∧ demoController.GetTLSSecretPath "default/empty"
      = ("", some "secret 'default/empty' does not have tls/key pair")
    ∧ demoController.GetCASecretPath "default/empty"
      = ("", some "secret 'default/empty' does not have ca.crt key")
    ∧ demoController.GetTLSSecretPath "default/none"
      = ("", some "secret not found: 'default/none'") :=
  ⟨(secret_path_success demoController "default/tls").2.1
      ⟨"/tls/default/tls.pem", "/tls/default/ca.pem"⟩ rfl (by decide),
    rfl, rfl, rfl, rfl⟩

/-! ## The identities of the backends -/

theorem findBackend_isSome (cfg : Config) (k : BackendKey) :
    (cfg.FindBackend k).isSome = true ↔ k ∈ cfg.backends.map Backend.key := by
  unfold Config.FindBackend
  rw [List.find?_isSome, List.mem_map]
  constructor
  · rintro ⟨b, hb, hk⟩
    exact ⟨b, hb, by simpa using hk⟩
  · rintro ⟨b, hb, hk⟩
    exact ⟨b, hb, by simpa using hk⟩

theorem acquireBackend_keys (cfg : Config) (k k' : BackendKey) :
    k' ∈ (cfg.AcquireBackend k).backends.map Backend.key
      ↔ k' ∈ cfg.backends.map Backend.key ∨ k' = k := by
  unfold Config.AcquireBackend
  cases h : cfg.FindBackend k with
  | some b =>
    simp only
    have hk : k ∈ cfg.backends.map Backend.key :=
      (findBackend_isSome cfg k).mp (by rw [h]; rfl)
    constructor
    · exact Or.inl
    · rintro (h1 | h1)
      · exact h1
      · rw [h1]
        exact hk
  | none =>
    have hkey : (createBackend k).key = k := by cases k; rfl
    simp only [List.map_append, List.map_cons, List.map_nil, List.mem_append,
      List.mem_singleton, hkey]

theorem addEndpoints_keys (env : Env) (svc : Service) (servicePort : Int) (k : BackendKey)
    (c : Converter) :
    (addEndpoints env svc servicePort k c).2.haproxy.backends.map Backend.key
      = c.haproxy.backends.map Backend.key := by
  have hrefl : ∀ c : Converter,
      c.haproxy.backends.map Backend.key = c.haproxy.backends.map Backend.key := fun _ => rfl
  have htrans : ∀ a b c : Converter,
      b.haproxy.backends.map Backend.key = a.haproxy.backends.map Backend.key →
      c.haproxy.backends.map Backend.key = b.haproxy.backends.map Backend.key →
      c.haproxy.backends.map Backend.key = a.haproxy.backends.map Backend.key :=
    fun _ _ _ h1 h2 => h2.trans h1
  have haddr : ∀ (addr : EndpointAddress) (c : Converter),
      (addEndpointsAddr servicePort k addr c).haproxy.backends.map Backend.key
        = c.haproxy.backends.map Backend.key := by
    intro addr c
    unfold addEndpointsAddr
    split
    · rfl
    · simp only [Config.modifyBackend]
      exact modifyFirst_map _ _ _ _ (fun _ => rfl)
  have hport : ∀ (subset : EndpointSubset) (port : EndpointPort) (c : Converter),
      (addEndpointsPort servicePort k subset port c).haproxy.backends.map Backend.key
        = c.haproxy.backends.map Backend.key := by
    intro subset port c
    unfold addEndpointsPort
    split
    · exact forEach_rel (fun c c' =>
        c'.haproxy.backends.map Backend.key = c.haproxy.backends.map Backend.key)
        hrefl htrans _ _ (fun addr _ c _ => haddr addr c) c
    · rfl
  unfold addEndpoints
  simp only
  split
  · rfl
  · exact forEach_rel (fun c c' =>
      c'.haproxy.backends.map Backend.key = c.haproxy.backends.map Backend.key)
      hrefl htrans _ _
      (fun subset _ c _ => forEach_rel (fun c c' =>
        c'.haproxy.backends.map Backend.key = c.haproxy.backends.map Backend.key)
        hrefl htrans _ _ (fun port _ c _ => hport subset port c) c)
      (c.call (Call.GetEndpoints svc))

theorem addBackendFound_haproxy (env : Env) (fullSvcName : String)
    (ingAnn : BackendAnnotations) (k : BackendKey) (ann : BackendAnnotations) (c : Converter) :
    (addBackendFound env fullSvcName ingAnn k ann c).haproxy = c.haproxy.AcquireBackend k := by
  unfold addBackendFound
  simp only
  split <;> rfl

theorem addBackendPopulated_keys (env : Env) (fullSvcName : String) (svc : Service)
    (k : BackendKey) (c : Converter) :
    (addBackendPopulated env fullSvcName svc k c).2.haproxy.backends.map Backend.key
      = (c.haproxy.AcquireBackend k).backends.map Backend.key := by
  unfold addBackendPopulated
  simp only
  rw [addEndpoints_keys]
  rfl

theorem addBackend_keys (env : Env) (fullSvcName : String) (svcPort : Int)
    (ingAnn : BackendAnnotations) (c : Converter) (svc : Service) (k : BackendKey)
    (hres : resolveBackend env fullSvcName svcPort = .backend svc k) :
    (addBackend env fullSvcName svcPort ingAnn c).2.haproxy.backends.map Backend.key
      = (c.haproxy.AcquireBackend k).backends.map Backend.key := by
  cases hl : c.backendAnnotations.lookup (buildID k) with
  | some ann =>
    rw [addBackend_found env _ _ _ c svc k ann hres hl]
    show (addBackendFound env fullSvcName ingAnn k ann c).haproxy.backends.map Backend.key = _
    rw [addBackendFound_haproxy]
  | none =>
    cases hp : (addBackendPopulated env fullSvcName svc k c).2.panicked.isSome with
    | true =>
      rw [addBackend_new_panicked env _ _ _ c svc k hres hl hp]
      exact addBackendPopulated_keys env fullSvcName svc k c
    | false =>
      rw [addBackend_new env _ _ _ c svc k hres hl hp]
      show (addBackendNew env fullSvcName ingAnn svc k c).haproxy.backends.map Backend.key = _
      rw [(addBackendNew_frame env fullSvcName ingAnn svc k c).1]
      exact addBackendPopulated_keys env fullSvcName svc k c

theorem addBackend_acquired (env : Env) (fullSvcName : String) (svcPort : Int)
    (ingAnn : BackendAnnotations) (c : Converter) (svc : Service) (k : BackendKey)
    (hres : resolveBackend env fullSvcName svcPort = .backend svc k) :
    ((addBackend env fullSvcName svcPort ingAnn c).2.haproxy.FindBackend k).isSome = true := by
  rw [findBackend_isSome, addBackend_keys env _ _ _ c svc k hres, acquireBackend_keys]
  exact Or.inr rfl

theorem addBackend_result (env : Env) (fullSvcName : String) (svcPort : Int)
    (ingAnn : BackendAnnotations) (c : Converter) (svc : Service) (k : BackendKey)
    (hres : resolveBackend env fullSvcName svcPort = .backend svc k)
    (hp : (addBackend env fullSvcName svcPort ingAnn c).2.panicked = none) :
    (addBackend env fullSvcName svcPort ingAnn c).1 = .ok k := by
  cases hl : c.backendAnnotations.lookup (buildID k) with
  | some ann => rw [addBackend_found env _ _ _ c svc k ann hres hl]
  | none =>
    cases hpop : (addBackendPopulated env fullSvcName svc k c).2.panicked.isSome with
    | true =>
      rw [addBackend_new_panicked env _ _ _ c svc k hres hl hpop] at hp
      simp only at hp
      rw [hp] at hpop
      simp at hpop
    | false => rw [addBackend_new env _ _ _ c svc k hres hl hpop]

theorem addBackend_ok_resolved (env : Env) (fullSvcName : String) (svcPort : Int)
    (ingAnn : BackendAnnotations) (c : Converter) (k : BackendKey)
    (hp : (addBackend env fullSvcName svcPort ingAnn c).2.panicked = none)
    (he : (addBackend env fullSvcName svcPort ingAnn c).1 = .ok k) :
    ∃ svc, resolveBackend env fullSvcName svcPort = .backend svc k := by
  cases hres : resolveBackend env fullSvcName svcPort with
  | notFound err =>
    rw [addBackend_notFound env _ _ _ c err hres] at he
    cases he
  | panics =>
    rw [addBackend_panics env _ _ _ c hres] at hp
    simp [Converter.raise] at hp
  | backend svc k' =>
    have := addBackend_result env _ _ ingAnn c svc k' hres hp
    rw [this] at he
    cases he
    exact ⟨svc, rfl⟩

/-! ## The port of a backend -/

theorem resolveBackend_port (env : Env) (fullSvcName : String) (svcPort : Int) (svc : Service)
    (ns name : String) (rest : List String)
    (hget : env.cache.GetService fullSvcName = .ok svc)
    (hsplit : Split fullSvcName '/' = ns :: name :: rest) (hport : svcPort ≠ 0) :
    resolveBackend env fullSvcName svcPort = .backend svc ⟨ns, name, svcPort⟩ := by
  unfold resolveBackend
  simp only [hget, hsplit, hport, if_false]

theorem resolveBackend_first (env : Env) (fullSvcName : String) (svc : Service)
    (ns name : String) (rest : List String) (p : ServicePort) (ports : List ServicePort)
    (hget : env.cache.GetService fullSvcName = .ok svc)
    (hsplit : Split fullSvcName '/' = ns :: name :: rest) (hports : svc.Ports = p :: ports) :
    resolveBackend env fullSvcName 0 = .backend svc ⟨ns, name, p.TargetPort⟩ := by
  unfold resolveBackend
  simp only [hget, hsplit, hports, if_true, List.head?_cons, Option.map_some']

theorem resolveBackend_noPorts (env : Env) (fullSvcName : String) (svc : Service)
    (hget : env.cache.GetService fullSvcName = .ok svc) (hports : svc.Ports = []) :
    resolveBackend env fullSvcName 0 = .panics := by
  unfold resolveBackend
  simp only [hget, hports, if_true, List.head?_nil, Option.map_none']
  split <;> rfl

/-! ## A pass does not read the log or the recorded calls -/

theorem after_log (l : List LogEntry) (k : List Call) (c : Converter) (e : LogEntry) :
    (c.after l k).log e = (c.log e).after l k := by
  simp [Converter.after, Converter.log, List.append_assoc]

theorem after_call (l : List LogEntry) (k : List Call) (c : Converter) (x : Call) :
    (c.after l k).call x = (c.call x).after l k := by
  simp [Converter.after, Converter.call, List.append_assoc]

theorem forEach_after {α : Type} (l : List LogEntry) (k : List Call)
    (body : α → Converter → Converter) (xs : List α)
    (h : ∀ x ∈ xs, ∀ s, body x (Converter.after l k s) = Converter.after l k (body x s))
    (c : Converter) : forEach body xs (c.after l k) = (forEach body xs c).after l k := by
  induction xs generalizing c with
  | nil => rfl
  | cons x xs ih =>
    cases hp : c.panicked with
    | some p =>
      rw [forEach_panicked _ _ c (by simp [hp]),
        forEach_panicked _ _ (c.after l k) (by simp [Converter.after, hp])]
    | none =>
      rw [forEach_cons _ _ _ c hp, forEach_cons _ _ _ (c.after l k) hp,
        h x (List.mem_cons_self _ _)]
      exact ih (fun y hy => h y (List.mem_cons_of_mem _ hy)) _

theorem after_addEndpoints (env : Env) (svc : Service) (servicePort : Int) (key : BackendKey)
    (l : List LogEntry) (k : List Call) (c : Converter) :
    (addEndpoints env svc servicePort key (c.after l k)).1
        = (addEndpoints env svc servicePort key c).1
      ∧ (addEndpoints env svc servicePort key (c.after l k)).2
        = (addEndpoints env svc servicePort key c).2.after l k := by
  have haddr : ∀ (addr : EndpointAddress) (s : Converter),
      addEndpointsAddr servicePort key addr (Converter.after l k s)
        = Converter.after l k (addEndpointsAddr servicePort key addr s) := by
    intro addr s
    unfold addEndpointsAddr
    split <;> rfl
  have hport : ∀ (subset : EndpointSubset) (port : EndpointPort) (s : Converter),
      addEndpointsPort servicePort key subset port (Converter.after l k s)
        = Converter.after l k (addEndpointsPort servicePort key subset port s) := by
    intro subset port s
    unfold addEndpointsPort
    split
    · exact forEach_after l k (addEndpointsAddr servicePort key) subset.Addresses
        (fun addr _ => haddr addr) s
    · rfl
  cases h : env.cache.GetEndpoints svc with
  | error err =>
    refine ⟨by simp only [addEndpoints, h], ?_⟩
    simp only [addEndpoints, h]
    exact after_call l k c _
  | ok endpoints =>
    refine ⟨by simp only [addEndpoints, h], ?_⟩
    simp only [addEndpoints, h]
    rw [after_call]
    exact forEach_after l k
      (fun subset => forEach (addEndpointsPort servicePort key subset) subset.Ports)
      endpoints.Subsets
      (fun subset _ s => forEach_after l k (addEndpointsPort servicePort key subset)
        subset.Ports (fun port _ => hport subset port) s) _

theorem after_readAnnotations (env : Env) (source : Source)
    (annotations : List (String × String)) (l : List LogEntry) (k : List Call) (c : Converter) :
    (readAnnotations env source annotations (c.after l k)).1
        = (readAnnotations env source annotations c).1
      ∧ (readAnnotations env source annotations (c.after l k)).2
        = (readAnnotations env source annotations c).2.after l k := by
  rw [readAnnotations_eq, readAnnotations_eq]
  exact ⟨rfl, by simp [Converter.after, List.append_assoc]⟩

theorem after_addBackendFound (env : Env) (fullSvcName : String) (ingAnn : BackendAnnotations)
    (key : BackendKey) (ann : BackendAnnotations) (l : List LogEntry) (k : List Call)
    (c : Converter) :
    addBackendFound env fullSvcName ingAnn key ann (c.after l k)
      = (addBackendFound env fullSvcName ingAnn key ann c).after l k := by
  unfold addBackendFound
  simp only
  split
  · simp [Converter.after, Converter.log, Converter.call, List.append_assoc]
  · simp [Converter.after, Converter.call, List.append_assoc]

theorem after_addBackendPopulated (env : Env) (fullSvcName : String) (svc : Service)
    (key : BackendKey) (l : List LogEntry) (k : List Call) (c : Converter) :
    (addBackendPopulated env fullSvcName svc key (c.after l k)).1
        = (addBackendPopulated env fullSvcName svc key c).1
      ∧ (addBackendPopulated env fullSvcName svc key (c.after l k)).2
        = (addBackendPopulated env fullSvcName svc key c).2.after l k := by
  have e : ({ (c.after l k).call (Call.GetService fullSvcName) with
        haproxy := ((c.after l k).call (Call.GetService fullSvcName)).haproxy.AcquireBackend
          key } : Converter)
      = Converter.after l k { c.call (Call.GetService fullSvcName) with
          haproxy := (c.call (Call.GetService fullSvcName)).haproxy.AcquireBackend key } := by
    simp [Converter.after, Converter.call, List.append_assoc]
  unfold addBackendPopulated
  simp only
  rw [e]
  exact after_addEndpoints env svc key.Port key l k _

theorem after_addBackendNew (env : Env) (fullSvcName : String) (ingAnn : BackendAnnotations)
    (svc : Service) (key : BackendKey) (l : List LogEntry) (k : List Call) (c : Converter) :
    addBackendNew env fullSvcName ingAnn svc key (c.after l k)
      = (addBackendNew env fullSvcName ingAnn svc key c).after l k := by
  have hpop := after_addBackendPopulated env fullSvcName svc key l k c
  unfold addBackendNew
  simp only [readAnnotations_eq]
  rw [hpop.1, hpop.2]
  cases (addBackendPopulated env fullSvcName svc key c).1 with
  | none =>
    simp only
    split
    · simp [Converter.after, Converter.log, List.append_assoc]
    · simp [Converter.after, List.append_assoc]
  | some err =>
    simp only
    split
    · simp [Converter.after, Converter.log, List.append_assoc]
    · simp [Converter.after, Converter.log, List.append_assoc]

theorem after_addBackend (env : Env) (fullSvcName : String) (svcPort : Int)
    (ingAnn : BackendAnnotations) (l : List LogEntry) (k : List Call) (c : Converter) :
    (addBackend env fullSvcName svcPort ingAnn (c.after l k)).1
        = (addBackend env fullSvcName svcPort ingAnn c).1
      ∧ (addBackend env fullSvcName svcPort ingAnn (c.after l k)).2
        = (addBackend env fullSvcName svcPort ingAnn c).2.after l k := by
  cases hres : resolveBackend env fullSvcName svcPort with
  | notFound err =>
    rw [addBackend_notFound env _ _ _ c err hres,
      addBackend_notFound env _ _ _ (c.after l k) err hres]
    exact ⟨rfl, after_call l k c _⟩
  | panics =>
    rw [addBackend_panics env _ _ _ c hres, addBackend_panics env _ _ _ (c.after l k) hres]
    refine ⟨rfl, ?_⟩
    simp only
    rw [after_call]
    rfl
  | backend svc key =>
    cases hl : c.backendAnnotations.lookup (buildID key) with
    | some ann =>
      rw [addBackend_found env _ _ _ c svc key ann hres hl,
        addBackend_found env _ _ _ (c.after l k) svc key ann hres hl]
      exact ⟨rfl, after_addBackendFound env fullSvcName ingAnn key ann l k c⟩
    | none =>
      have hpop := after_addBackendPopulated env fullSvcName svc key l k c
      cases hpan : (addBackendPopulated env fullSvcName svc key c).2.panicked.isSome with
      | true =>
        have hpan' : (addBackendPopulated env fullSvcName svc key
            (c.after l k)).2.panicked.isSome = true := by
          rw [hpop.2]
          exact hpan
        rw [addBackend_new_panicked env _ _ _ c svc key hres hl hpan,
          addBackend_new_panicked env _ _ _ (c.after l k) svc key hres hl hpan']
        exact ⟨rfl, hpop.2⟩
      | false =>
        have hpan' : (addBackendPopulated env fullSvcName svc key
            (c.after l k)).2.panicked.isSome = false := by
          rw [hpop.2]
          exact hpan
        rw [addBackend_new env _ _ _ c svc key hres hl hpan,
          addBackend_new env _ _ _ (c.after l k) svc key hres hl hpan']
        exact ⟨rfl, after_addBackendNew env fullSvcName ingAnn svc key l k c⟩

theorem after_addFrontend (env : Env) (host : String) (ingAnn : Nat) (l : List LogEntry)
    (k : List Call) (c : Converter) :
    addFrontend env host ingAnn (c.after l k) = (addFrontend env host ingAnn c).after l k := by
  cases hl : c.frontendAnnotations.lookup host with
  | none =>
    rw [addFrontend_new env host ingAnn c hl, addFrontend_new env host ingAnn (c.after l k) hl]
    rfl
  | some ann =>
    rw [addFrontend_merge env host ingAnn ann c hl,
      addFrontend_merge env host ingAnn ann (c.after l k) hl]
    have hm : addFrontendMerged env host ingAnn ann (c.after l k)
        = (addFrontendMerged env host ingAnn ann c).after l k := rfl
    have hs : addFrontendSkipped env ingAnn ann (c.after l k)
        = addFrontendSkipped env ingAnn ann c := rfl
    rw [hm, hs]
    split
    · exact after_log l k _ _
    · rfl

theorem after_addTLS (env : Env) (ns secretName : String) (l : List LogEntry) (k : List Call)
    (c : Converter) :
    (addTLS env ns secretName (c.after l k)).1 = (addTLS env ns secretName c).1
      ∧ (addTLS env ns secretName (c.after l k)).2
        = (addTLS env ns secretName c).2.after l k := by
  refine ⟨by rw [addTLS_fst, addTLS_fst], ?_⟩
  cases h1 : env.cache.GetTLSSecretPath (tlsSecretName env ns secretName) with
  | ok p =>
    rw [addTLS_direct env ns secretName c p h1, addTLS_direct env ns secretName _ p h1]
    exact after_call l k c _
  | error e =>
    by_cases hn : tlsSecretName env ns secretName = env.options.DefaultSSLSecret
    · have hd : env.cache.GetTLSSecretPath env.options.DefaultSSLSecret = .error e := by
        rw [← hn]
        exact h1
      rw [addTLS_default_fails env ns secretName c e hn hd,
        addTLS_default_fails env ns secretName _ e hn hd]
      exact after_call l k c _
    · cases hd : env.cache.GetTLSSecretPath env.options.DefaultSSLSecret with
      | error e2 =>
        rw [addTLS_both_fail env ns secretName c e e2 h1 hn hd,
          addTLS_both_fail env ns secretName _ e e2 h1 hn hd]
        simp only
        rw [after_call, after_call]
      | ok p =>
        rw [addTLS_fallback env ns secretName c e p h1 hn hd,
          addTLS_fallback env ns secretName _ e p h1 hn hd]
        simp only
        rw [after_call, after_call, after_log]

theorem after_addHTTPPassthrough (env : Env) (fullSvcName : String) (ingFrontAnn : Nat)
    (ingBackAnn : BackendAnnotations) (l : List LogEntry) (k : List Call) (c : Converter) :
    addHTTPPassthrough env fullSvcName ingFrontAnn ingBackAnn (c.after l k)
      = (addHTTPPassthrough env fullSvcName ingFrontAnn ingBackAnn c).after l k := by
  have hf : (c.after l k).frontAnn ingFrontAnn = c.frontAnn ingFrontAnn := rfl
  unfold addHTTPPassthrough
  rw [hf]
  split
  · exact (after_addBackend env fullSvcName _ ingBackAnn l k c).2
  · rfl

theorem after_syncPath (env : Env) (ing : Ingress) (hostname : String) (ingFrontAnn : Nat)
    (ingBackAnn : BackendAnnotations) (path : HTTPIngressPath) (l : List LogEntry)
    (k : List Call) (c : Converter) :
    syncPath env ing hostname ingFrontAnn ingBackAnn path (c.after l k)
      = (syncPath env ing hostname ingFrontAnn ingBackAnn path c).after l k := by
  have hb := after_addBackend env (path.fullSvcName ing) path.Backend.ServicePort ingBackAnn
    l k c
  cases hr : ((c.frontend hostname).FindPath path.uri).isSome with
  | true =>
    rw [syncPath_registered _ _ _ _ _ _ c hr, syncPath_registered _ _ _ _ _ _ (c.after l k) hr]
    exact after_log l k c _
  | false =>
    cases hp : (addBackend env (path.fullSvcName ing) path.Backend.ServicePort ingBackAnn
        c).2.panicked.isSome with
    | true =>
      rw [syncPath_panicked _ _ _ _ _ _ c hr hp,
        syncPath_panicked _ _ _ _ _ _ (c.after l k) hr (by rw [hb.2]; exact hp)]
      exact hb.2
    | false =>
      have hp' : (addBackend env (path.fullSvcName ing) path.Backend.ServicePort ingBackAnn
          (c.after l k)).2.panicked.isSome = false := by
        rw [hb.2]
        exact hp
      cases he : (addBackend env (path.fullSvcName ing) path.Backend.ServicePort ingBackAnn
          c).1 with
      | error err =>
        rw [syncPath_error _ _ _ _ _ _ c err hr hp he,
          syncPath_error _ _ _ _ _ _ (c.after l k) err hr hp' (by rw [hb.1, he]), hb.2]
        exact after_log l k _ _
      | ok key =>
        rw [syncPath_ok _ _ _ _ _ _ c key hr hp he,
          syncPath_ok _ _ _ _ _ _ (c.after l k) key hr hp' (by rw [hb.1, he]), hb.2]
        exact after_addHTTPPassthrough env (path.fullSvcName ing) ingFrontAnn ingBackAnn l k
          { (addBackend env (path.fullSvcName ing) path.Backend.ServicePort ingBackAnn c).2 with
            haproxy := (addBackend env (path.fullSvcName ing) path.Backend.ServicePort
              ingBackAnn c).2.haproxy.modifyFrontend hostname
                (fun f => f.AddPath key path.uri) }

theorem after_syncTLSHost (env : Env) (ing : Ingress) (hostname : String) (tls : IngressTLS)
    (host : String) (l : List LogEntry) (k : List Call) (c : Converter) :
    syncTLSHost env ing hostname tls host (c.after l k)
      = (syncTLSHost env ing hostname tls host c).after l k := by
  have ht := after_addTLS env ing.Namespace tls.SecretName l k c
  by_cases hh : host = hostname
  · subst hh
    cases he : (addTLS env ing.Namespace tls.SecretName c).1 with
    | error err =>
      rw [syncTLSHost_error _ _ _ _ c err he,
        syncTLSHost_error _ _ _ _ (c.after l k) err (by rw [ht.1, he]), ht.2]
      exact after_log l k _ _
    | ok tlsPath =>
      have he' : (addTLS env ing.Namespace tls.SecretName (c.after l k)).1 = .ok tlsPath := by
        rw [ht.1, he]
      by_cases hempty :
          ((addTLS env ing.Namespace tls.SecretName c).2.frontend host).TLS.TLSFilename = ""
      · rw [syncTLSHost_assign _ _ _ _ c tlsPath he hempty,
          syncTLSHost_assign _ _ _ _ (c.after l k) tlsPath he' (by rw [ht.2]; exact hempty),
          ht.2]
        rfl
      · by_cases hd :
            ((addTLS env ing.Namespace tls.SecretName c).2.frontend host).TLS.TLSFilename
              = tlsPath
        · rw [syncTLSHost_same _ _ _ _ c tlsPath he hempty hd,
            syncTLSHost_same _ _ _ _ (c.after l k) tlsPath he' (by rw [ht.2]; exact hempty)
              (by rw [ht.2]; exact hd)]
          exact ht.2
        · rw [syncTLSHost_conflict _ _ _ _ c tlsPath he hempty hd,
            syncTLSHost_conflict _ _ _ _ (c.after l k) tlsPath he' (by rw [ht.2]; exact hempty)
              (by rw [ht.2]; exact hd), ht.2]
          exact after_log l k _ _
  · rw [syncTLSHost_other _ _ _ _ _ c hh, syncTLSHost_other _ _ _ _ _ (c.after l k) hh]

theorem after_addDefaultHostBackend (env : Env) (fullSvcName : String) (svcPort : Int)
    (ingFrontAnn : Nat) (ingBackAnn : BackendAnnotations) (l : List LogEntry) (k : List Call)
    (c : Converter) :
    (addDefaultHostBackend env fullSvcName svcPort ingFrontAnn ingBackAnn (c.after l k)).1
        = (addDefaultHostBackend env fullSvcName svcPort ingFrontAnn ingBackAnn c).1
      ∧ (addDefaultHostBackend env fullSvcName svcPort ingFrontAnn ingBackAnn (c.after l k)).2
        = (addDefaultHostBackend env fullSvcName svcPort ingFrontAnn ingBackAnn c).2.after
            l k := by
  have hb := after_addBackend env fullSvcName svcPort ingBackAnn l k c
  cases ho : defaultHostOccupied c with
  | true =>
    rw [addDefaultHostBackend_occupied _ _ _ _ _ c ho,
      addDefaultHostBackend_occupied _ _ _ _ _ (c.after l k) ho]
    exact ⟨rfl, rfl⟩
  | false =>
    have ho' : defaultHostOccupied (c.after l k) = false := ho
    cases hp : (addBackend env fullSvcName svcPort ingBackAnn c).2.panicked.isSome with
    | true =>
      rw [addDefaultHostBackend_panicked _ _ _ _ _ c ho hp,
        addDefaultHostBackend_panicked _ _ _ _ _ (c.after l k) ho' (by rw [hb.2]; exact hp)]
      exact ⟨rfl, hb.2⟩
    | false =>
      have hp' : (addBackend env fullSvcName svcPort ingBackAnn (c.after l k)).2.panicked.isSome
          = false := by rw [hb.2]; exact hp
      cases he : (addBackend env fullSvcName svcPort ingBackAnn c).1 with
      | error err =>
        rw [addDefaultHostBackend_error _ _ _ _ _ c err ho hp he,
          addDefaultHostBackend_error _ _ _ _ _ (c.after l k) err ho' hp' (by rw [hb.1, he])]
        exact ⟨rfl, hb.2⟩
      | ok key =>
        rw [addDefaultHostBackend_ok _ _ _ _ _ c key ho hp he,
          addDefaultHostBackend_ok _ _ _ _ _ (c.after l k) key ho' hp' (by rw [hb.1, he])]
        refine ⟨rfl, ?_⟩
        simp only
        rw [hb.2, after_addFrontend]
        rfl

theorem after_syncDefaultBackend (env : Env) (ing : Ingress) (ingFrontAnn : Nat)
    (ingBackAnn : BackendAnnotations) (l : List LogEntry) (k : List Call) (c : Converter) :
    syncDefaultBackend env ing ingFrontAnn ingBackAnn (c.after l k)
      = (syncDefaultBackend env ing ingFrontAnn ingBackAnn c).after l k := by
  cases hb : ing.Backend with
  | none =>
    rw [syncDefaultBackend_none _ _ _ _ c hb, syncDefaultBackend_none _ _ _ _ (c.after l k) hb]
  | some b =>
    have hd := after_addDefaultHostBackend env
      (FullQualifiedName ing.Namespace b.ServiceName) b.ServicePort ingFrontAnn ingBackAnn l k c
    cases hp : (addDefaultHostBackend env (FullQualifiedName ing.Namespace b.ServiceName)
        b.ServicePort ingFrontAnn ingBackAnn c).2.panicked with
    | some p =>
      rw [syncDefaultBackend_pass env ing _ _ c b hb (Or.inl (by simp [hp])),
        syncDefaultBackend_pass env ing _ _ (c.after l k) b hb
          (Or.inl (by rw [hd.2]; simp [Converter.after, hp]))]
      exact hd.2
    | none =>
      cases he : (addDefaultHostBackend env (FullQualifiedName ing.Namespace b.ServiceName)
          b.ServicePort ingFrontAnn ingBackAnn c).1 with
      | none =>
        rw [syncDefaultBackend_pass env ing _ _ c b hb (Or.inr he),
          syncDefaultBackend_pass env ing _ _ (c.after l k) b hb (Or.inr (by rw [hd.1, he]))]
        exact hd.2
      | some err =>
        rw [syncDefaultBackend_skip env ing _ _ c b err hb hp he,
          syncDefaultBackend_skip env ing _ _ (c.after l k) b err hb
            (by rw [hd.2]; exact hp) (by rw [hd.1, he]), hd.2]
        exact after_log l k _ _

theorem after_syncRule (env : Env) (ing : Ingress) (ingFrontAnn : Nat)
    (ingBackAnn : BackendAnnotations) (rule : IngressRule) (l : List LogEntry) (k : List Call)
    (c : Converter) :
    syncRule env ing ingFrontAnn ingBackAnn rule (c.after l k)
      = (syncRule env ing ingFrontAnn ingBackAnn rule c).after l k := by
  cases hr : rule.HTTP with
  | none => rw [syncRule_none _ _ _ _ _ c hr, syncRule_none _ _ _ _ _ (c.after l k) hr]
  | some paths =>
    rw [syncRule_http _ _ _ _ _ paths c hr, syncRule_http _ _ _ _ _ paths (c.after l k) hr,
      after_addFrontend,
      forEach_after l k (syncPath env ing rule.hostname ingFrontAnn ingBackAnn) paths
        (fun p _ s => after_syncPath env ing rule.hostname ingFrontAnn ingBackAnn p l k s)]
    exact forEach_after l k
      (fun tls => forEach (syncTLSHost env ing rule.hostname tls) tls.Hosts) ing.TLS
      (fun tls _ s => forEach_after l k (syncTLSHost env ing rule.hostname tls) tls.Hosts
        (fun host _ t => after_syncTLSHost env ing rule.hostname tls host l k t) s) _

theorem after_syncIngress (env : Env) (ing : Ingress) (l : List LogEntry) (k : List Call)
    (c : Converter) : syncIngress env ing (c.after l k) = (syncIngress env ing c).after l k := by
  have hs : syncIngressStart env ing (c.after l k) = (syncIngressStart env ing c).after l k := by
    unfold syncIngressStart
    simp only [readAnnotations_eq]
    simp [Converter.after, List.append_assoc]
  have hlen : (c.after l k).frontendRecords.length = c.frontendRecords.length := rfl
  rw [syncIngress_eq, syncIngress_eq, hlen, hs, after_syncDefaultBackend]
  exact forEach_after l k (syncRule env ing c.frontendRecords.length (backView env ing))
    ing.Rules (fun rule _ s => after_syncRule env ing _ _ rule l k s) _

theorem after_twoLoops {α β : Type} (l : List LogEntry) (k : List Call)
    (b1 : α → Converter → Converter) (b2 : β → Converter → Converter)
    (xs : Converter → List α) (ys : Converter → List β)
    (hx : ∀ s, xs (Converter.after l k s) = xs s)
    (hy : ∀ s, ys (Converter.after l k s) = ys s)
    (h1 : ∀ x s, b1 x (Converter.after l k s) = Converter.after l k (b1 x s))
    (h2 : ∀ y s, b2 y (Converter.after l k s) = Converter.after l k (b2 y s))
    (c : Converter) :
    forEach b2 (ys (forEach b1 (xs (c.after l k)) (c.after l k)))
        (forEach b1 (xs (c.after l k)) (c.after l k))
      = (forEach b2 (ys (forEach b1 (xs c) c)) (forEach b1 (xs c) c)).after l k := by
  rw [hx, forEach_after l k b1 (xs c) (fun x _ => h1 x), hy]
  exact forEach_after l k b2 _ (fun y _ => h2 y) _

theorem after_syncAnnotations (env : Env) (l : List LogEntry) (k : List Call)
    (c : Converter) : syncAnnotations env (c.after l k) = (syncAnnotations env c).after l k := by
  unfold syncAnnotations
  simp only
  rw [after_call]
  refine after_twoLoops l k _ _ (fun s => s.haproxy.Frontends) (fun s => s.haproxy.Backends)
    (fun _ => rfl) (fun _ => rfl) ?_ ?_ _
  · intro fr s
    have e : (Converter.after l k s).frontendAnnotations = s.frontendAnnotations := rfl
    simp only [e]
    cases s.frontendAnnotations.lookup fr.Hostname with
    | none => rfl
    | some ann => exact after_call l k s _
  · intro b s
    have e : (Converter.after l k s).backendAnnotations = s.backendAnnotations := rfl
    simp only [e]
    cases s.backendAnnotations.lookup b.ID with
    | none => rfl
    | some ann => exact after_call l k s _

theorem after_Sync (env : Env) (ingress : List Ingress) (l : List LogEntry) (k : List Call)
    (c : Converter) : Sync env ingress (c.after l k) = (Sync env ingress c).after l k := by
  have h : syncAll env ingress (c.after l k) = (syncAll env ingress c).after l k :=
    forEach_after l k (syncIngress env) ingress
      (fun ing _ s => after_syncIngress env ing l k s) c
  unfold Sync
  simp only
  rw [h]
  cases hp : (syncAll env ingress c).panicked with
  | none =>
    have hp' : (Converter.after l k (syncAll env ingress c)).panicked = none := hp
    simp only [hp', Option.isSome_none, Bool.false_eq_true, if_false]
    exact after_syncAnnotations env l k _
  | some p =>
    have hp' : (Converter.after l k (syncAll env ingress c)).panicked = some p := hp
    simp only [hp', Option.isSome_some, if_true]

/-! ## The default service -/

theorem newIngressConverter_notFound (env : Env) (haproxy : Config) (err : String)
    (h : env.cache.GetService env.options.DefaultBackend = .error err) :
    NewIngressConverter env haproxy
      = (emptyConverter haproxy).after [LogEntry.errorReadingDefaultService err]
          [Call.GetService env.options.DefaultBackend] := by
  unfold NewIngressConverter
  rw [addBackend_notFound env _ _ _ _ err (resolveBackend_notFound env _ _ err h)]
  rfl

theorem newIngressConverter_resolved (env : Env) (haproxy : Config) (svc : Service)
    (k : BackendKey)
    (hres : resolveBackend env env.options.DefaultBackend 0 = .backend svc k)
    (hp : (NewIngressConverter env haproxy).panicked = none) :
    NewIngressConverter env haproxy
      = { addBackendNew env env.options.DefaultBackend zeroBackendAnnotations svc k
            (emptyConverter haproxy) with
          haproxy := (addBackendNew env env.options.DefaultBackend zeroBackendAnnotations svc k
            (emptyConverter haproxy)).haproxy.ConfigDefaultBackend k } := by
  have hl : (emptyConverter haproxy).backendAnnotations.lookup (buildID k) = none := rfl
  cases hpop : (addBackendPopulated env env.options.DefaultBackend svc k
      (emptyConverter haproxy)).2.panicked.isSome with
  | true =>
    have hadd := addBackend_new_panicked env env.options.DefaultBackend 0
      zeroBackendAnnotations (emptyConverter haproxy) svc k hres hl hpop
    unfold NewIngressConverter at hp
    rw [hadd] at hp
    simp only [hpop, if_true] at hp
    rw [hp] at hpop
    simp at hpop
  | false =>
    have hadd := addBackend_new env env.options.DefaultBackend 0
      zeroBackendAnnotations (emptyConverter haproxy) svc k hres hl hpop
    have hpn : (addBackendNew env env.options.DefaultBackend zeroBackendAnnotations svc k
        (emptyConverter haproxy)).panicked.isSome = false := by
      rw [(addBackendNew_frame env _ zeroBackendAnnotations svc k _).2]
      exact hpop
    unfold NewIngressConverter
    rw [hadd]
    simp only [hpn, Bool.false_eq_true, if_false]

theorem resolveBackend_firstPort (env : Env) (fullSvcName : String) (svc : Service)
    (k : BackendKey) (h : resolveBackend env fullSvcName 0 = .backend svc k) :
    svc.Ports.head?.map (fun p => p.TargetPort) = some k.Port := by
  unfold resolveBackend at h
  cases hg : env.cache.GetService fullSvcName with
  | error e =>
    rw [hg] at h
    cases h
  | ok svc0 =>
    rw [hg] at h
    simp only at h
    cases hs : Split fullSvcName '/' with
    | nil =>
      rw [hs] at h
      cases h
    | cons a rest =>
      cases rest with
      | nil =>
        rw [hs] at h
        cases h
      | cons b rest2 =>
        rw [hs] at h
        simp only [if_true] at h
        cases hport : svc0.Ports.head?.map (fun p => p.TargetPort) with
        | none =>
          rw [hport] at h
          cases h
        | some port =>
          rw [hport] at h
          simp only [Resolved.backend.injEq] at h
          obtain ⟨h1, h2⟩ := h
          subst h1
          subst h2
          exact hport

theorem resolveBackend_service (env : Env) (fullSvcName : String) (svcPort : Int)
    (svc : Service) (h : env.cache.GetService fullSvcName = .ok svc) :
    resolveBackend env fullSvcName svcPort = .panics
      ∨ ∃ k, resolveBackend env fullSvcName svcPort = .backend svc k := by
  unfold resolveBackend
  rw [h]
  simp only
  split
  · split
    · exact Or.inl rfl
    · exact Or.inr ⟨_, rfl⟩
  · exact Or.inl rfl

theorem addBackendNew_populates (env : Env) (fullSvcName : String)
    (ingAnn : BackendAnnotations) (svc : Service) (k : BackendKey) (endpoints : Endpoints)
    (c : Converter) (hc : c.panicked = none)
    (hget : env.cache.GetEndpoints svc = .ok endpoints)
    (href : TargetRefsPresent k.Port endpoints) :
    (addBackendNew env fullSvcName ingAnn svc k c).haproxy.FindBackend k
      = some { (c.haproxy.FindBackend k).getD (createBackend k) with
          Endpoints := ((c.haproxy.FindBackend k).getD (createBackend k)).Endpoints
            ++ expectedEndpoints k.Port endpoints } := by
  rw [(addBackendNew_frame env fullSvcName ingAnn svc k c).1]
  unfold addBackendPopulated
  simp only
  exact (addEndpoints_appends env svc k.Port k
    { c.call (Call.GetService fullSvcName) with
      haproxy := (c.call (Call.GetService fullSvcName)).haproxy.AcquireBackend k }
    endpoints hget hc href).2.1 _ (findBackend_acquire c.haproxy k)

theorem newIngressConverter_logger (env : Env) (haproxy : Config) (svc : Service)
    (k : BackendKey)
    (hres : resolveBackend env env.options.DefaultBackend 0 = .backend svc k)
    (hp : (NewIngressConverter env haproxy).panicked = none) (err : String) :
    LogEntry.errorReadingDefaultService err ∉ (NewIngressConverter env haproxy).logger := by
  rw [newIngressConverter_resolved env haproxy svc k hres hp]
  show LogEntry.errorReadingDefaultService err
    ∉ (addBackendNew env env.options.DefaultBackend zeroBackendAnnotations svc k
        (emptyConverter haproxy)).logger
  rw [addBackendNew_logger]
  intro hmem
  simp only [List.mem_append] at hmem
  rcases hmem with ((hmem | hmem) | hmem) | hmem
  · simp [emptyConverter] at hmem
  · cases (addBackendPopulated env env.options.DefaultBackend svc k
        (emptyConverter haproxy)).1 with
    | none => simp at hmem
    | some e => simp at hmem
  · unfold readAnnotationsLog at hmem
    simp only [List.mem_append] at hmem
    rcases hmem with hmem | hmem
    · cases (MergeMapFront (readAnnotationsMap env svc.Annotations)
          (defaultsToFront ⟨k.Namespace, k.Name, "service"⟩ env.globalConfig)).2 with
      | none => simp at hmem
      | some e => simp at hmem
    · cases (MergeMapBack (readAnnotationsMap env svc.Annotations)
          (defaultsToBack ⟨k.Namespace, k.Name, "service"⟩ env.globalConfig)).2 with
      | none => simp at hmem
      | some e => simp at hmem
  · unfold mergeInfo at hmem
    split at hmem
    · simp at hmem
    · simp at hmem

/-! ## The namespace of a backend -/

theorem splitChars_free (sep : Char) (l : List Char) (h : sep ∉ l) :
    splitChars sep l = [l] := by
  induction l with
  | nil => rfl
  | cons c cs ih =>
    have hc : ¬ c = sep := fun e => h (by simp [e])
    have hcs : sep ∉ cs := fun hm => h (List.mem_cons_of_mem _ hm)
    simp only [splitChars, hc, if_false, ih hcs]

theorem splitChars_append (sep : Char) (l r : List Char) (h : sep ∉ l) :
    splitChars sep (l ++ sep :: r) = l :: splitChars sep r := by
  induction l with
  | nil => simp [splitChars]
  | cons c cs ih =>
    have hc : ¬ c = sep := fun e => h (by simp [e])
    have hcs : sep ∉ cs := fun hm => h (List.mem_cons_of_mem _ hm)
    have e : splitChars sep (cs.append (sep :: r)) = cs :: splitChars sep r := ih hcs
    simp only [List.cons_append, splitChars, hc, if_false, e]

theorem split_fullQualifiedName (ns name : String) (hns : slashFree ns)
    (hname : slashFree name) : Split (FullQualifiedName ns name) '/' = [ns, name] := by
  have hd : (FullQualifiedName ns name).data = ns.data ++ '/' :: name.data := by
    simp [FullQualifiedName, String.data_append]
  unfold Split
  rw [hd, splitChars_append '/' ns.data name.data hns, splitChars_free '/' name.data hname]
  rfl

theorem resolveBackend_namespace (env : Env) (ns name : String) (svcPort : Int)
    (svc : Service) (k : BackendKey) (hns : slashFree ns) (hname : slashFree name)
    (h : resolveBackend env (FullQualifiedName ns name) svcPort = .backend svc k) :
    k.Namespace = ns ∧ k.Name = name
      ∧ env.cache.GetService (FullQualifiedName ns name) = .ok svc := by
  unfold resolveBackend at h
  rw [split_fullQualifiedName ns name hns hname] at h
  cases hg : env.cache.GetService (FullQualifiedName ns name) with
  | error e =>
    rw [hg] at h
    cases h
  | ok svc0 =>
    rw [hg] at h
    simp only at h
    cases hport : (if svcPort = 0 then svc0.Ports.head?.map (fun p => p.TargetPort)
        else some svcPort) with
    | none =>
      rw [hport] at h
      cases h
    | some port =>
      rw [hport] at h
      simp only [Resolved.backend.injEq] at h
      obtain ⟨h1, h2⟩ := h
      subst h1
      subst h2
      exact ⟨rfl, rfl, rfl⟩

theorem BackendsWithin.withinRefl (ns : String) (names : List String) (c : Converter) :
    BackendsWithin ns names c c := fun _ hk => Or.inl hk

theorem BackendsWithin.withinThen {ns : String} {names : List String} {a b c : Converter}
    (h1 : BackendsWithin ns names a b) (h2 : BackendsWithin ns names b c) :
    BackendsWithin ns names a c := by
  intro k hk
  rcases h2 k hk with h | h
  · exact h1 k h
  · exact Or.inr h

theorem BackendsWithin.of_backends {ns : String} {names : List String} {c c' : Converter}
    (h : c'.haproxy.backends = c.haproxy.backends) : BackendsWithin ns names c c' := by
  intro k hk
  rw [h] at hk
  exact Or.inl hk

theorem within_addBackend (env : Env) (ns : String) (names : List String) (name : String)
    (svcPort : Int) (ingAnn : BackendAnnotations) (c : Converter) (hns : slashFree ns)
    (hname : slashFree name) (hmem : name ∈ names) :
    BackendsWithin ns names c
      (addBackend env (FullQualifiedName ns name) svcPort ingAnn c).2 := by
  cases hres : resolveBackend env (FullQualifiedName ns name) svcPort with
  | notFound err =>
    rw [addBackend_notFound env _ _ _ c err hres]
    exact BackendsWithin.of_backends rfl
  | panics =>
    rw [addBackend_panics env _ _ _ c hres]
    exact BackendsWithin.of_backends rfl
  | backend svc k =>
    intro k' hk'
    rw [addBackend_keys env _ _ _ c svc k hres, acquireBackend_keys] at hk'
    rcases hk' with h | h
    · exact Or.inl h
    · subst h
      have hk := resolveBackend_namespace env ns name svcPort svc k' hns hname hres
      exact Or.inr ⟨hk.1, by rw [hk.2.1]; exact hmem⟩

theorem within_addHTTPPassthrough (env : Env) (ns : String) (names : List String)
    (name : String) (ingFrontAnn : Nat) (ingBackAnn : BackendAnnotations) (c : Converter)
    (hns : slashFree ns) (hname : slashFree name) (hmem : name ∈ names) :
    BackendsWithin ns names c
      (addHTTPPassthrough env (FullQualifiedName ns name) ingFrontAnn ingBackAnn c) := by
  unfold addHTTPPassthrough
  split
  · exact within_addBackend env ns names name _ ingBackAnn c hns hname hmem
  · exact BackendsWithin.withinRefl ns names c

theorem within_syncPath (env : Env) (ing : Ingress) (names : List String) (hostname : String)
    (ingFrontAnn : Nat) (ingBackAnn : BackendAnnotations) (path : HTTPIngressPath)
    (c : Converter) (hns : slashFree ing.Namespace)
    (hname : slashFree path.Backend.ServiceName) (hmem : path.Backend.ServiceName ∈ names) :
    BackendsWithin ing.Namespace names c
      (syncPath env ing hostname ingFrontAnn ingBackAnn path c) := by
  have hb : BackendsWithin ing.Namespace names c
      (addBackend env (path.fullSvcName ing) path.Backend.ServicePort ingBackAnn c).2 :=
    within_addBackend env ing.Namespace names path.Backend.ServiceName _ ingBackAnn c hns hname
      hmem
  cases hr : ((c.frontend hostname).FindPath path.uri).isSome with
  | true =>
    rw [syncPath_registered _ _ _ _ _ _ _ hr]
    exact BackendsWithin.of_backends rfl
  | false =>
    cases hp : (addBackend env (path.fullSvcName ing) path.Backend.ServicePort ingBackAnn
        c).2.panicked.isSome with
    | true =>
      rw [syncPath_panicked _ _ _ _ _ _ _ hr hp]
      exact hb
    | false =>
      cases he : (addBackend env (path.fullSvcName ing) path.Backend.ServicePort ingBackAnn
          c).1 with
      | error err =>
        rw [syncPath_error _ _ _ _ _ _ _ err hr hp he]
        exact hb.withinThen (BackendsWithin.of_backends rfl)
      | ok k =>
        rw [syncPath_ok _ _ _ _ _ _ _ k hr hp he]
        exact (hb.withinThen (BackendsWithin.of_backends rfl)).withinThen
          (within_addHTTPPassthrough env ing.Namespace names path.Backend.ServiceName _ _ _
            hns hname hmem)

theorem within_syncDefaultBackend (env : Env) (ing : Ingress) (names : List String)
    (ingFrontAnn : Nat) (ingBackAnn : BackendAnnotations) (c : Converter)
    (hns : slashFree ing.Namespace)
    (hb : ∀ b, ing.Backend = some b → slashFree b.ServiceName ∧ b.ServiceName ∈ names) :
    BackendsWithin ing.Namespace names c
      (syncDefaultBackend env ing ingFrontAnn ingBackAnn c) := by
  cases hbk : ing.Backend with
  | none =>
    rw [syncDefaultBackend_none _ _ _ _ _ hbk]
    exact BackendsWithin.withinRefl _ _ c
  | some b =>
    obtain ⟨hname, hmem⟩ := hb b hbk
    have hadd : BackendsWithin ing.Namespace names c
        (addBackend env (FullQualifiedName ing.Namespace b.ServiceName) b.ServicePort
          ingBackAnn c).2 :=
      within_addBackend env ing.Namespace names b.ServiceName _ ingBackAnn c hns hname hmem
    have hd : BackendsWithin ing.Namespace names c
        (addDefaultHostBackend env (FullQualifiedName ing.Namespace b.ServiceName)
          b.ServicePort ingFrontAnn ingBackAnn c).2 := by
      cases ho : defaultHostOccupied c with
      | true =>
        rw [addDefaultHostBackend_occupied _ _ _ _ _ _ ho]
        exact BackendsWithin.withinRefl _ _ c
      | false =>
        cases hp : (addBackend env (FullQualifiedName ing.Namespace b.ServiceName)
            b.ServicePort ingBackAnn c).2.panicked.isSome with
        | true =>
          rw [addDefaultHostBackend_panicked _ _ _ _ _ _ ho hp]
          exact hadd
        | false =>
          cases he : (addBackend env (FullQualifiedName ing.Namespace b.ServiceName)
              b.ServicePort ingBackAnn c).1 with
          | error err =>
            rw [addDefaultHostBackend_error _ _ _ _ _ _ err ho hp he]
            exact hadd
          | ok k =>
            rw [addDefaultHostBackend_ok _ _ _ _ _ _ k ho hp he]
            exact hadd.withinThen (BackendsWithin.of_backends
              (keepsBack_addFrontend env "*" ingFrontAnn _).1)
    cases hp : (addDefaultHostBackend env (FullQualifiedName ing.Namespace b.ServiceName)
        b.ServicePort ingFrontAnn ingBackAnn c).2.panicked with
    | some p =>
      rw [syncDefaultBackend_pass env ing _ _ c b hbk (Or.inl (by simp [hp]))]
      exact hd
    | none =>
      cases he : (addDefaultHostBackend env (FullQualifiedName ing.Namespace b.ServiceName)
          b.ServicePort ingFrontAnn ingBackAnn c).1 with
      | none =>
        rw [syncDefaultBackend_pass env ing _ _ c b hbk (Or.inr he)]
        exact hd
      | some err =>
        rw [syncDefaultBackend_skip env ing _ _ c b err hbk hp he]
        exact hd.withinThen (BackendsWithin.of_backends rfl)

theorem within_syncRule (env : Env) (ing : Ingress) (names : List String) (ingFrontAnn : Nat)
    (ingBackAnn : BackendAnnotations) (rule : IngressRule) (c : Converter)
    (hns : slashFree ing.Namespace)
    (hr : ∀ paths, rule.HTTP = some paths → ∀ p ∈ paths,
      slashFree p.Backend.ServiceName ∧ p.Backend.ServiceName ∈ names) :
    BackendsWithin ing.Namespace names c
      (syncRule env ing ingFrontAnn ingBackAnn rule c) := by
  cases hh : rule.HTTP with
  | none =>
    rw [syncRule_none _ _ _ _ _ _ hh]
    exact BackendsWithin.withinRefl _ _ c
  | some paths =>
    rw [syncRule_http _ _ _ _ _ paths _ hh]
    have h1 : BackendsWithin ing.Namespace names c
        (addFrontend env rule.hostname ingFrontAnn c) :=
      BackendsWithin.of_backends (keepsBack_addFrontend env rule.hostname ingFrontAnn c).1
    have h2 := forEach_rel (BackendsWithin ing.Namespace names)
      (BackendsWithin.withinRefl _ _) (fun _ _ _ => BackendsWithin.withinThen)
      (syncPath env ing rule.hostname ingFrontAnn ingBackAnn) paths
      (fun p hp s _ => within_syncPath env ing names rule.hostname ingFrontAnn ingBackAnn p s
        hns (hr paths hh p hp).1 (hr paths hh p hp).2)
      (addFrontend env rule.hostname ingFrontAnn c)
    have h3 := forEach_rel (BackendsWithin ing.Namespace names)
      (BackendsWithin.withinRefl _ _) (fun _ _ _ => BackendsWithin.withinThen)
      (fun tls => forEach (syncTLSHost env ing rule.hostname tls) tls.Hosts) ing.TLS
      (fun tls _ s _ => forEach_rel (BackendsWithin ing.Namespace names)
        (BackendsWithin.withinRefl _ _) (fun _ _ _ => BackendsWithin.withinThen)
        (syncTLSHost env ing rule.hostname tls) tls.Hosts
        (fun host _ t _ => BackendsWithin.of_backends
          (keepsBack_syncTLSHost env ing rule.hostname tls host t).1) s)
      (forEach (syncPath env ing rule.hostname ingFrontAnn ingBackAnn) paths
        (addFrontend env rule.hostname ingFrontAnn c))
    exact (h1.withinThen h2).withinThen h3

theorem serviceNames_backend (ing : Ingress) (b : IngressBackend) (h : ing.Backend = some b) :
    b.ServiceName ∈ ing.serviceNames := by
  unfold Ingress.serviceNames
  rw [h]
  simp

theorem serviceNames_path (ing : Ingress) (rule : IngressRule) (paths : List HTTPIngressPath)
    (p : HTTPIngressPath) (hr : rule ∈ ing.Rules) (hh : rule.HTTP = some paths)
    (hp : p ∈ paths) : p.Backend.ServiceName ∈ ing.serviceNames := by
  unfold Ingress.serviceNames
  apply List.mem_append_right
  rw [List.mem_flatMap]
  exact ⟨rule, hr, by rw [hh]; exact List.mem_map.mpr ⟨p, hp, rfl⟩⟩

theorem within_syncIngress (env : Env) (ing : Ingress) (c : Converter)
    (hns : slashFree ing.Namespace) (hnames : ∀ s ∈ ing.serviceNames, slashFree s) :
    BackendsWithin ing.Namespace ing.serviceNames c (syncIngress env ing c) := by
  rw [syncIngress_eq]
  have h1 : BackendsWithin ing.Namespace ing.serviceNames c (syncIngressStart env ing c) :=
    BackendsWithin.of_backends (keepsBack_syncIngressStart env ing c).1
  have h2 := within_syncDefaultBackend env ing ing.serviceNames c.frontendRecords.length
    (backView env ing) (syncIngressStart env ing c) hns
    (fun b hb => ⟨hnames _ (serviceNames_backend ing b hb), serviceNames_backend ing b hb⟩)
  have h3 := forEach_rel (BackendsWithin ing.Namespace ing.serviceNames)
    (BackendsWithin.withinRefl _ _) (fun _ _ _ => BackendsWithin.withinThen)
    (syncRule env ing c.frontendRecords.length (backView env ing)) ing.Rules
    (fun rule hr s _ => within_syncRule env ing ing.serviceNames _ _ rule s hns
      (fun paths hh p hp => ⟨hnames _ (serviceNames_path ing rule paths p hr hh hp),
        serviceNames_path ing rule paths p hr hh hp⟩))
    (syncDefaultBackend env ing c.frontendRecords.length (backView env ing)
      (syncIngressStart env ing c))
  exact (h1.withinThen h2).withinThen h3

theorem within_Sync (env : Env) (ings : List Ingress) (c : Converter)
    (hvalid : ∀ ing ∈ ings, slashFree ing.Namespace ∧ ∀ s ∈ ing.serviceNames, slashFree s) :
    ∀ k ∈ (Sync env ings c).haproxy.backends.map Backend.key,
      k ∈ c.haproxy.backends.map Backend.key
        ∨ ∃ ing ∈ ings, k.Namespace = ing.Namespace ∧ k.Name ∈ ing.serviceNames := by
  rw [(onlyCalls_Sync env ings c).1]
  unfold syncAll
  exact forEach_rel
    (fun a b => ∀ k ∈ b.haproxy.backends.map Backend.key,
      k ∈ a.haproxy.backends.map Backend.key
        ∨ ∃ ing ∈ ings, k.Namespace = ing.Namespace ∧ k.Name ∈ ing.serviceNames)
    (fun _ _ hk => Or.inl hk)
    (fun _ _ _ h1 h2 k hk => by
      rcases h2 k hk with h | h
      · exact h1 k h
      · exact Or.inr h)
    (syncIngress env) ings
    (fun ing hing s _ k hk => by
      rcases within_syncIngress env ing s (hvalid ing hing).1 (hvalid ing hing).2 k hk with h | h
      · exact Or.inl h
      · exact Or.inr ⟨ing, hing, h⟩)
    c

/-- C26: services are resolved in the namespace of the resource. For resources
whose namespace and service names have no `/`: a reference of a resource to the
service `s` is resolved by the lookup of `namespace/s` and resolves to a backend
of that namespace and that name; a path entry that is registered maps its path
to such a backend; every backend of the proxy model after `syncIngress` was
there before or lies in the namespace of the resource under the name of a
service the resource refers to, and every backend after `Sync` was there before
or belongs in this way to one of the resources; so two resources of different
namespaces that refer to the same service name resolve to different backends. -/
theorem backends_in_own_namespace (env : Env) (ings : List Ingress)
    (hvalid : ∀ ing ∈ ings, slashFree ing.Namespace ∧ ∀ s ∈ ing.serviceNames, slashFree s) :
    (∀ ing ∈ ings, ∀ s ∈ ing.serviceNames, ∀ (port : Int) (svc : Service) (k : BackendKey),
        resolveBackend env (FullQualifiedName ing.Namespace s) port = .backend svc k →
        k.Namespace = ing.Namespace ∧ k.Name = s
          ∧ env.cache.GetService (FullQualifiedName ing.Namespace s) = .ok svc)
    ∧ (∀ ing ∈ ings, ∀ rule ∈ ing.Rules, ∀ paths, rule.HTTP = some paths → ∀ path ∈ paths,
        ∀ (ingFrontAnn : Nat) (ingBackAnn : BackendAnnotations) (c : Converter)
          (k : BackendKey),
        (c.haproxy.FindFrontend rule.hostname).isSome = true →
        (c.frontend rule.hostname).FindPath path.uri = none →
        (addBackend env (path.fullSvcName ing) path.Backend.ServicePort ingBackAnn
          c).2.panicked = none →
        (addBackend env (path.fullSvcName ing) path.Backend.ServicePort ingBackAnn c).1
          = .ok k →
        ((syncPath env ing rule.hostname ingFrontAnn ingBackAnn path c).frontend
            rule.hostname).FindPath path.uri = some ⟨path.uri, k⟩
          ∧ k.Namespace = ing.Namespace ∧ k.Name = path.Backend.ServiceName)
    ∧ (∀ ing ∈ ings, ∀ c,
        BackendsWithin ing.Namespace ing.serviceNames c (syncIngress env ing c))
    ∧ (∀ c, ∀ k ∈ (Sync env ings c).haproxy.backends.map Backend.key,
        k ∈ c.haproxy.backends.map Backend.key
          ∨ ∃ ing ∈ ings, k.Namespace = ing.Namespace ∧ k.Name ∈ ing.serviceNames)
    ∧ (∀ ing1 ∈ ings, ∀ ing2 ∈ ings, ing1.Namespace ≠ ing2.Namespace →
        ∀ s, s ∈ ing1.serviceNames → s ∈ ing2.serviceNames →
        ∀ (port1 port2 : Int) (svc1 svc2 : Service) (k1 k2 : BackendKey),
        resolveBackend env (FullQualifiedName ing1.Namespace s) port1 = .backend svc1 k1 →
        resolveBackend env (FullQualifiedName ing2.Namespace s) port2 = .backend svc2 k2 →
        k1 ≠ k2) := by
  refine ⟨?_, ?_, ?_, fun c => within_Sync env ings c hvalid, ?_⟩
  · intro ing hing s hs port svc k hres
    exact resolveBackend_namespace env ing.Namespace s port svc k (hvalid ing hing).1
      ((hvalid ing hing).2 s hs) hres
  · intro ing hing rule hrule paths hh path hpath ingFrontAnn ingBackAnn c k hex hnone hp he
    refine ⟨syncPath_registers env ing rule.hostname ingFrontAnn ingBackAnn path c k hex hnone
      hp he, ?_⟩
    obtain ⟨svc, hres⟩ := addBackend_ok_resolved env _ _ ingBackAnn c k hp he
    have hmem := serviceNames_path ing rule paths path hrule hh hpath
    have := resolveBackend_namespace env ing.Namespace path.Backend.ServiceName _ svc k
      (hvalid ing hing).1 ((hvalid ing hing).2 _ hmem) hres
    exact ⟨this.1, this.2.1⟩
  · intro ing hing c
    exact within_syncIngress env ing c (hvalid ing hing).1 (hvalid ing hing).2
  · intro ing1 h1 ing2 h2 hne s hs1 hs2 port1 port2 svc1 svc2 k1 k2 hr1 hr2 heq
    have e1 := resolveBackend_namespace env ing1.Namespace s port1 svc1 k1 (hvalid ing1 h1).1
      ((hvalid ing1 h1).2 s hs1) hr1
    have e2 := resolveBackend_namespace env ing2.Namespace s port2 svc2 k2 (hvalid ing2 h2).1
      ((hvalid ing2 h2).2 s hs2) hr2
    apply hne
    rw [← e1.1, ← e2.1, heq]

/-- C26 on the scenario of the two namespaces: the resources `ns1/echo` and
`ns2/echo` refer to the service `echo` and obtain the backends `ns1/echo:8080`
and `ns2/echo:8080`, each with the endpoint of its own service. -/
theorem backends_in_own_namespace_witness :
    (∀ ing ∈ [ns1Ingress, ns2Ingress],
        slashFree ing.Namespace ∧ ∀ s ∈ ing.serviceNames, slashFree s)
    ∧ (∀ k ∈ (Sync twoNamespacesEnv [ns1Ingress, ns2Ingress]
          freshConverter).haproxy.backends.map Backend.key,
        k ∈ freshConverter.haproxy.backends.map Backend.key
          ∨ ∃ ing ∈ [ns1Ingress, ns2Ingress],
              k.Namespace = ing.Namespace ∧ k.Name ∈ ing.serviceNames)
    ∧ (Sync twoNamespacesEnv [ns1Ingress, ns2Ingress] freshConverter).haproxy.backends
      = [⟨"ns1", "echo", 8080, [⟨"172.17.0.11", 8080, "ns1/echo-xxxxx"⟩], false⟩,
         ⟨"ns2", "echo", 8080, [⟨"172.17.0.12", 8080, "ns2/echo-xxxxx"⟩], false⟩]
    ∧ (Sync twoNamespacesEnv [ns1Ingress, ns2Ingress] freshConverter).haproxy.frontends.map
        (fun f => (f.Hostname, f.Paths))
      = [("echo.example.com",
          [⟨"/app2", ⟨"ns2", "echo", 8080⟩⟩, ⟨"/app1", ⟨"ns1", "echo", 8080⟩⟩])] :=
  ⟨by decide,
    (backends_in_own_namespace twoNamespacesEnv [ns1Ingress, ns2Ingress] (by decide)).2.2.2.1
      freshConverter,
    by decide, by decide⟩

/-! ## The backend of the HTTP port of ssl-passthrough -/

theorem updateStructFront_self (d : ConfigDefaults) (r : FrontendAnnotations) :
    (UpdateStructFront d r r).2 = r := by
  cases r
  simp [UpdateStructFront, mergeField]

theorem RecordFixed.fixedRefl (ref : Nat) (c : Converter) : RecordFixed ref c c := rfl

theorem RecordFixed.fixedThen {ref : Nat} {a b c : Converter} (h1 : RecordFixed ref a b)
    (h2 : RecordFixed ref b c) : RecordFixed ref a c := by
  unfold RecordFixed at *
  rw [h2, h1]

theorem RecordFixed.of_records {ref : Nat} {c c' : Converter}
    (h : c'.frontendRecords = c.frontendRecords) : RecordFixed ref c c' := by
  unfold RecordFixed Converter.frontAnn
  rw [h]

theorem fixed_addFrontend (env : Env) (host : String) (ref : Nat) (c : Converter) :
    RecordFixed ref c (addFrontend env host ref c) := by
  cases hl : c.frontendAnnotations.lookup host with
  | none =>
    rw [addFrontend_new env host ref c hl]
    exact RecordFixed.of_records rfl
  | some ann =>
    rw [addFrontend_merge env host ref ann c hl]
    have hm : RecordFixed ref c (addFrontendMerged env host ref ann c) := by
      unfold RecordFixed
      rw [frontAnn_set c ann ref
        (UpdateStructFront env.globalConfig (c.frontAnn ref) (c.frontAnn ann)).2
        (addFrontendMerged env host ref ann c) rfl]
      split
      · rename_i h
        rw [← h.1, updateStructFront_self]
      · rfl
    split
    · exact hm.fixedThen (RecordFixed.of_records rfl)
    · exact hm

theorem records_syncPath (env : Env) (ing : Ingress) (hostname : String) (ingFrontAnn : Nat)
    (ingBackAnn : BackendAnnotations) (path : HTTPIngressPath) (c : Converter) :
    (syncPath env ing hostname ingFrontAnn ingBackAnn path c).frontendRecords
      = c.frontendRecords := by
  have hb := (keepsFront_addBackend env (path.fullSvcName ing) path.Backend.ServicePort
    ingBackAnn c).2.1
  cases hr : ((c.frontend hostname).FindPath path.uri).isSome with
  | true =>
    rw [syncPath_registered _ _ _ _ _ _ _ hr]
    rfl
  | false =>
    cases hp : (addBackend env (path.fullSvcName ing) path.Backend.ServicePort ingBackAnn
        c).2.panicked.isSome with
    | true =>
      rw [syncPath_panicked _ _ _ _ _ _ _ hr hp]
      exact hb
    | false =>
      cases he : (addBackend env (path.fullSvcName ing) path.Backend.ServicePort ingBackAnn
          c).1 with
      | error err =>
        rw [syncPath_error _ _ _ _ _ _ _ err hr hp he]
        exact hb
      | ok k =>
        rw [syncPath_ok _ _ _ _ _ _ _ k hr hp he,
          (keepsFront_addHTTPPassthrough env _ _ _ _).2.1]
        exact hb

theorem records_syncTLSHost (env : Env) (ing : Ingress) (hostname : String) (tls : IngressTLS)
    (host : String) (c : Converter) :
    (syncTLSHost env ing hostname tls host c).frontendRecords = c.frontendRecords := by
  have hf := (addTLS_frame env ing.Namespace tls.SecretName c).2.1
  by_cases hh : host = hostname
  · subst hh
    cases he : (addTLS env ing.Namespace tls.SecretName c).1 with
    | error err =>
      rw [syncTLSHost_error _ _ _ _ _ err he]
      exact hf
    | ok tlsPath =>
      by_cases hempty :
          ((addTLS env ing.Namespace tls.SecretName c).2.frontend host).TLS.TLSFilename = ""
      · rw [syncTLSHost_assign _ _ _ _ _ tlsPath he hempty]
        exact hf
      · by_cases hd :
            ((addTLS env ing.Namespace tls.SecretName c).2.frontend host).TLS.TLSFilename
              = tlsPath
        · rw [syncTLSHost_same _ _ _ _ _ tlsPath he hempty hd]
          exact hf
        · rw [syncTLSHost_conflict _ _ _ _ _ tlsPath he hempty hd]
          exact hf
  · rw [syncTLSHost_other _ _ _ _ _ _ hh]

theorem fixed_syncDefaultBackend (env : Env) (ing : Ingress) (ref : Nat)
    (ingBackAnn : BackendAnnotations) (c : Converter) :
    RecordFixed ref c (syncDefaultBackend env ing ref ingBackAnn c) := by
  cases hbk : ing.Backend with
  | none =>
    rw [syncDefaultBackend_none _ _ _ _ _ hbk]
    exact RecordFixed.fixedRefl ref c
  | some b =>
    have hadd : RecordFixed ref c
        (addBackend env (FullQualifiedName ing.Namespace b.ServiceName) b.ServicePort
          ingBackAnn c).2 :=
      RecordFixed.of_records (keepsFront_addBackend env _ _ _ c).2.1
    have hd : RecordFixed ref c
        (addDefaultHostBackend env (FullQualifiedName ing.Namespace b.ServiceName)
          b.ServicePort ref ingBackAnn c).2 := by
      cases ho : defaultHostOccupied c with
      | true =>
        rw [addDefaultHostBackend_occupied _ _ _ _ _ _ ho]
        exact RecordFixed.fixedRefl ref c
      | false =>
        cases hp : (addBackend env (FullQualifiedName ing.Namespace b.ServiceName)
            b.ServicePort ingBackAnn c).2.panicked.isSome with
        | true =>
          rw [addDefaultHostBackend_panicked _ _ _ _ _ _ ho hp]
          exact hadd
        | false =>
          cases he : (addBackend env (FullQualifiedName ing.Namespace b.ServiceName)
              b.ServicePort ingBackAnn c).1 with
          | error err =>
            rw [addDefaultHostBackend_error _ _ _ _ _ _ err ho hp he]
            exact hadd
          | ok k =>
            rw [addDefaultHostBackend_ok _ _ _ _ _ _ k ho hp he]
            exact (hadd.fixedThen (fixed_addFrontend env "*" ref _)).fixedThen
              (RecordFixed.of_records rfl)
    cases hp : (addDefaultHostBackend env (FullQualifiedName ing.Namespace b.ServiceName)
        b.ServicePort ref ingBackAnn c).2.panicked with
    | some p =>
      rw [syncDefaultBackend_pass env ing _ _ c b hbk (Or.inl (by simp [hp]))]
      exact hd
    | none =>
      cases he : (addDefaultHostBackend env (FullQualifiedName ing.Namespace b.ServiceName)
          b.ServicePort ref ingBackAnn c).1 with
      | none =>
        rw [syncDefaultBackend_pass env ing _ _ c b hbk (Or.inr he)]
        exact hd
      | some err =>
        rw [syncDefaultBackend_skip env ing _ _ c b err hbk hp he]
        exact hd.fixedThen (RecordFixed.of_records rfl)

theorem fixed_syncRule (env : Env) (ing : Ingress) (ref : Nat)
    (ingBackAnn : BackendAnnotations) (rule : IngressRule) (c : Converter) :
    RecordFixed ref c (syncRule env ing ref ingBackAnn rule c) := by
  cases hh : rule.HTTP with
  | none =>
    rw [syncRule_none _ _ _ _ _ _ hh]
    exact RecordFixed.fixedRefl ref c
  | some paths =>
    rw [syncRule_http _ _ _ _ _ paths _ hh]
    have h2 := forEach_rel (RecordFixed ref) (RecordFixed.fixedRefl ref)
      (fun _ _ _ => RecordFixed.fixedThen)
      (syncPath env ing rule.hostname ref ingBackAnn) paths
      (fun p _ s _ => RecordFixed.of_records
        (records_syncPath env ing rule.hostname ref ingBackAnn p s))
      (addFrontend env rule.hostname ref c)
    have h3 := forEach_rel (RecordFixed ref) (RecordFixed.fixedRefl ref)
      (fun _ _ _ => RecordFixed.fixedThen)
      (fun tls => forEach (syncTLSHost env ing rule.hostname tls) tls.Hosts) ing.TLS
      (fun tls _ s _ => forEach_rel (RecordFixed ref) (RecordFixed.fixedRefl ref)
        (fun _ _ _ => RecordFixed.fixedThen)
        (syncTLSHost env ing rule.hostname tls) tls.Hosts
        (fun host _ t _ => RecordFixed.of_records
          (records_syncTLSHost env ing rule.hostname tls host t)) s)
      (forEach (syncPath env ing rule.hostname ref ingBackAnn) paths
        (addFrontend env rule.hostname ref c))
    exact ((fixed_addFrontend env rule.hostname ref c).fixedThen h2).fixedThen h3

theorem resolveBackend_otherPort (env : Env) (fullSvcName : String) (port port' : Int)
    (svc : Service) (k : BackendKey)
    (h : resolveBackend env fullSvcName port = .backend svc k) (hp : port' ≠ 0) :
    resolveBackend env fullSvcName port' = .backend svc ⟨k.Namespace, k.Name, port'⟩ := by
  unfold resolveBackend at h ⊢
  cases hg : env.cache.GetService fullSvcName with
  | error e =>
    rw [hg] at h
    cases h
  | ok svc0 =>
    rw [hg] at h
    simp only at h ⊢
    cases hs : Split fullSvcName '/' with
    | nil =>
      rw [hs] at h
      cases h
    | cons a rest =>
      cases rest with
      | nil =>
        rw [hs] at h
        cases h
      | cons b rest2 =>
        rw [hs] at h
        simp only at h ⊢
        cases hport : (if port = 0 then svc0.Ports.head?.map (fun p => p.TargetPort)
            else some port) with
        | none =>
          rw [hport] at h
          cases h
        | some q =>
          rw [hport] at h
          simp only [Resolved.backend.injEq] at h
          obtain ⟨h1, h2⟩ := h
          subst h1
          subst h2
          simp only [hp, if_false]

theorem addBackend_pending_found (env : Env) (fullSvcName : String) (svcPort : Int)
    (ingAnn : BackendAnnotations) (c : Converter) (svc : Service) (k : BackendKey)
    (ann : BackendAnnotations)
    (hres : resolveBackend env fullSvcName svcPort = .backend svc k)
    (hl : c.backendAnnotations.lookup (buildID k) = some ann) :
    (addBackend env fullSvcName svcPort ingAnn c).2.backendAnnotations.lookup (buildID k)
      = some (UpdateStructBack env.globalConfig ingAnn ann).2 := by
  rw [addBackend_found env _ _ _ c svc k ann hres hl]
  show (addBackendFound env fullSvcName ingAnn k ann c).backendAnnotations.lookup (buildID k)
    = _
  rw [addBackendFound_backendAnnotations, lookup_mapSet]
  simp

theorem addBackend_pending_new (env : Env) (fullSvcName : String) (svcPort : Int)
    (ingAnn : BackendAnnotations) (c : Converter) (svc : Service) (k : BackendKey)
    (hres : resolveBackend env fullSvcName svcPort = .backend svc k)
    (hl : c.backendAnnotations.lookup (buildID k) = none)
    (hp : (addBackend env fullSvcName svcPort ingAnn c).2.panicked = none) :
    (addBackend env fullSvcName svcPort ingAnn c).2.backendAnnotations.lookup (buildID k)
      = some (UpdateStructBack env.globalConfig ingAnn (serviceView env k svc)).2 := by
  cases hpop : (addBackendPopulated env fullSvcName svc k c).2.panicked.isSome with
  | true =>
    rw [addBackend_new_panicked env _ _ _ c svc k hres hl hpop] at hp
    simp only at hp
    rw [hp] at hpop
    simp at hpop
  | false =>
    rw [addBackend_new env _ _ _ c svc k hres hl hpop]
    show (addBackendNew env fullSvcName ingAnn svc k c).backendAnnotations.lookup (buildID k)
      = _
    rw [addBackendNew_backendAnnotations, lookup_mapSet]
    simp

theorem addHTTPPassthrough_disabled (env : Env) (fullSvcName : String) (ingFrontAnn : Nat)
    (ingBackAnn : BackendAnnotations) (c : Converter)
    (h : (c.frontAnn ingFrontAnn).SSLPassthrough = false
      ∨ (c.frontAnn ingFrontAnn).SSLPassthroughHTTPPort = 0) :
    addHTTPPassthrough env fullSvcName ingFrontAnn ingBackAnn c = c := by
  unfold addHTTPPassthrough
  rcases h with h | h
  · simp [h]
  · simp [h]

theorem addHTTPPassthrough_enabled (env : Env) (fullSvcName : String) (ingFrontAnn : Nat)
    (ingBackAnn : BackendAnnotations) (c : Converter)
    (h1 : (c.frontAnn ingFrontAnn).SSLPassthrough = true)
    (h2 : (c.frontAnn ingFrontAnn).SSLPassthroughHTTPPort ≠ 0) :
    addHTTPPassthrough env fullSvcName ingFrontAnn ingBackAnn c
      = (addBackend env fullSvcName (c.frontAnn ingFrontAnn).SSLPassthroughHTTPPort
          ingBackAnn c).2 := by
  unfold addHTTPPassthrough
  simp [h1, h2]

/-- C29: the backend of the HTTP port of ssl-passthrough. When the frontend
record of the resource has ssl-passthrough disabled or the HTTP port 0,
`addHTTPPassthrough` returns the state as it received it. When the record
enables ssl-passthrough with an HTTP port other than 0, `addHTTPPassthrough` is
`addBackend` for the same service at that port: for a service that resolves,
the backend of the same namespace and name at the HTTP port is in the proxy
model afterwards, and its pending record is the old one with the backend view
of the resource merged into it, or, for a backend without pending record and a
call that ends without a panic, the view of the service with the view of the
resource merged into it. After `syncPath` has registered a path for such a
resource the backend at the HTTP port is in the proxy model. The record of the
resource is its frontend view when its processing starts, and the default
backend, the rules and the path entries of the resource leave it as it is. -/
theorem http_passthrough_backend (env : Env) (ingFrontAnn : Nat)
    (ingBackAnn : BackendAnnotations) (c : Converter) :
    (∀ fullSvcName, (c.frontAnn ingFrontAnn).SSLPassthrough = false
        ∨ (c.frontAnn ingFrontAnn).SSLPassthroughHTTPPort = 0 →
        addHTTPPassthrough env fullSvcName ingFrontAnn ingBackAnn c = c)
    ∧ (∀ fullSvcName, (c.frontAnn ingFrontAnn).SSLPassthrough = true →
        (c.frontAnn ingFrontAnn).SSLPassthroughHTTPPort ≠ 0 →
        addHTTPPassthrough env fullSvcName ingFrontAnn ingBackAnn c
          = (addBackend env fullSvcName (c.frontAnn ingFrontAnn).SSLPassthroughHTTPPort
              ingBackAnn c).2
        ∧ ∀ (port : Int) (svc : Service) (k : BackendKey),
            resolveBackend env fullSvcName port = .backend svc k →
            ((addHTTPPassthrough env fullSvcName ingFrontAnn ingBackAnn c).haproxy.FindBackend
              ⟨k.Namespace, k.Name, (c.frontAnn ingFrontAnn).SSLPassthroughHTTPPort⟩).isSome
                = true
            ∧ (∀ ann, c.backendAnnotations.lookup
                  (buildID ⟨k.Namespace, k.Name,
                    (c.frontAnn ingFrontAnn).SSLPassthroughHTTPPort⟩) = some ann →
                (addHTTPPassthrough env fullSvcName ingFrontAnn ingBackAnn
                  c).backendAnnotations.lookup
                    (buildID ⟨k.Namespace, k.Name,
                      (c.frontAnn ingFrontAnn).SSLPassthroughHTTPPort⟩)
                  = some (UpdateStructBack env.globalConfig ingBackAnn ann).2)
            ∧ (c.backendAnnotations.lookup
                  (buildID ⟨k.Namespace, k.Name,
                    (c.frontAnn ingFrontAnn).SSLPassthroughHTTPPort⟩) = none →
                (addHTTPPassthrough env fullSvcName ingFrontAnn ingBackAnn c).panicked = none →
                (addHTTPPassthrough env fullSvcName ingFrontAnn ingBackAnn
                  c).backendAnnotations.lookup
                    (buildID ⟨k.Namespace, k.Name,
                      (c.frontAnn ingFrontAnn).SSLPassthroughHTTPPort⟩)
                  = some (UpdateStructBack env.globalConfig ingBackAnn
                      (serviceView env ⟨k.Namespace, k.Name,
                        (c.frontAnn ingFrontAnn).SSLPassthroughHTTPPort⟩ svc)).2))
    ∧ (∀ (ing : Ingress) (hostname : String) (path : HTTPIngressPath) (k : BackendKey),
        ((c.frontend hostname).FindPath path.uri).isSome = false →
        (addBackend env (path.fullSvcName ing) path.Backend.ServicePort ingBackAnn
          c).2.panicked = none →
        (addBackend env (path.fullSvcName ing) path.Backend.ServicePort ingBackAnn c).1
          = .ok k →
        (c.frontAnn ingFrontAnn).SSLPassthrough = true →
        (c.frontAnn ingFrontAnn).SSLPassthroughHTTPPort ≠ 0 →
        ((syncPath env ing hostname ingFrontAnn ingBackAnn path c).haproxy.FindBackend
          ⟨k.Namespace, k.Name, (c.frontAnn ingFrontAnn).SSLPassthroughHTTPPort⟩).isSome
            = true)
    ∧ (∀ (ing : Ingress) (s : Converter),
        (syncIngressStart env ing s).frontAnn s.frontendRecords.length = frontView env ing)
    ∧ (∀ (ing : Ingress), RecordFixed ingFrontAnn c
        (syncDefaultBackend env ing ingFrontAnn ingBackAnn c))
    ∧ (∀ (ing : Ingress) (rule : IngressRule), RecordFixed ingFrontAnn c
        (syncRule env ing ingFrontAnn ingBackAnn rule c))
    ∧ (∀ (ing : Ingress) (hostname : String) (path : HTTPIngressPath),
        RecordFixed ingFrontAnn c
          (syncPath env ing hostname ingFrontAnn ingBackAnn path c)) := by
  refine ⟨fun fullSvcName h => addHTTPPassthrough_disabled env fullSvcName _ _ c h, ?_, ?_,
    fun ing s => syncIngressStart_frontAnn env ing s,
    fun ing => fixed_syncDefaultBackend env ing _ _ c,
    fun ing rule => fixed_syncRule env ing _ _ rule c,
    fun ing hostname path => RecordFixed.of_records
      (records_syncPath env ing hostname _ _ path c)⟩
  · intro fullSvcName h1 h2
    have e := addHTTPPassthrough_enabled env fullSvcName ingFrontAnn ingBackAnn c h1 h2
    refine ⟨e, ?_⟩
    intro port svc k hres
    have hres' := resolveBackend_otherPort env fullSvcName port
      (c.frontAnn ingFrontAnn).SSLPassthroughHTTPPort svc k hres h2
    rw [e]
    exact ⟨addBackend_acquired env _ _ ingBackAnn c svc _ hres',
      fun ann hl => addBackend_pending_found env _ _ ingBackAnn c svc _ ann hres' hl,
      fun hl hp => addBackend_pending_new env _ _ ingBackAnn c svc _ hres' hl hp⟩
  · intro ing hostname path k hr hp he h1 h2
    have hp' : (addBackend env (path.fullSvcName ing) path.Backend.ServicePort ingBackAnn
        c).2.panicked.isSome = false := by simp [hp]
    obtain ⟨svc, hres⟩ := addBackend_ok_resolved env _ _ ingBackAnn c k hp he
    have hres' := resolveBackend_otherPort env (path.fullSvcName ing) _
      (c.frontAnn ingFrontAnn).SSLPassthroughHTTPPort svc k hres h2
    have hrec : ({ (addBackend env (path.fullSvcName ing) path.Backend.ServicePort ingBackAnn
          c).2 with
        haproxy := (addBackend env (path.fullSvcName ing) path.Backend.ServicePort ingBackAnn
          c).2.haproxy.modifyFrontend hostname
            (fun f => f.AddPath k path.uri) } : Converter).frontAnn ingFrontAnn
        = c.frontAnn ingFrontAnn := by
      unfold Converter.frontAnn
      simp only
      rw [(keepsFront_addBackend env _ _ ingBackAnn c).2.1]
    rw [syncPath_ok _ _ _ _ _ _ _ k hr hp' he,
      addHTTPPassthrough_enabled env _ ingFrontAnn ingBackAnn _ (by rw [hrec]; exact h1)
        (by rw [hrec]; exact h2), hrec]
    exact addBackend_acquired env _ _ ingBackAnn _ svc _ hres'

/-- C29 on the scenario of the resource that enables ssl-passthrough with the
HTTP port 8000: besides the backend of the path, the backend of the same service
at the port 8000 is acquired, and both have a pending record. -/
theorem http_passthrough_backend_witness :
    (frontView demoEnv passthroughIngress).SSLPassthrough = true
    ∧ (frontView demoEnv passthroughIngress).SSLPassthroughHTTPPort = 8000
    ∧ (Sync demoEnv [passthroughIngress] freshConverter).haproxy.backends.map Backend.key
      = [⟨"default", "echo1", 8080⟩, ⟨"default", "echo1", 8000⟩]
    ∧ (Sync demoEnv [passthroughIngress] freshConverter).backendAnnotations.map (fun kv => kv.1)
      = ["default_echo1_8080", "default_echo1_8000"]
    ∧ addHTTPPassthrough demoEnv "default/echo1" 0 (backView demoEnv echo1Ingress)
        (syncIngressStart demoEnv echo1Ingress freshConverter)
      = syncIngressStart demoEnv echo1Ingress freshConverter :=
  ⟨by decide, by decide, by decide, by decide,
    (http_passthrough_backend demoEnv 0 (backView demoEnv echo1Ingress)
      (syncIngressStart demoEnv echo1Ingress freshConverter)).1 "default/echo1"
      (Or.inl (by decide))⟩

/-! ## The updater: ssl-passthrough and client certificates -/

theorem findFrontend_modify (cfg : Config) (h : String) (g : Frontend → Frontend)
    (hg : ∀ f, (g f).Hostname = f.Hostname) :
    (cfg.modifyFrontend h g).FindFrontend h = (cfg.FindFrontend h).map g := by
  unfold Config.FindFrontend Config.modifyFrontend
  simp only
  rw [find?_modifyFirst]
  intro x
  simp [hg]

theorem findFrontend_modify_other (cfg : Config) (host h : String) (g : Frontend → Frontend)
    (hg : ∀ f, (g f).Hostname = f.Hostname) (hh : h ≠ host) :
    (cfg.modifyFrontend host g).FindFrontend h = cfg.FindFrontend h := by
  unfold Config.FindFrontend Config.modifyFrontend
  simp only
  rw [find?_modifyFirst_other]
  intro x hx
  have hx' : x.Hostname = host := by simpa using hx
  have hne : ¬ host = h := fun e => hh e.symm
  simp [hg, hx', hne]

theorem warnNonRootPaths_eq (source : Source) (paths : List FrontendPath) (u : Updater) :
    warnNonRootPaths source paths u
      = { u with logger := u.logger ++ nonRootWarnings source paths } := by
  unfold warnNonRootPaths nonRootWarnings
  induction paths generalizing u with
  | nil => simp
  | cons p ps ih =>
    rw [List.foldl_cons, ih]
    by_cases hp : p.Path = "/"
    · simp [hp]
    · simp [hp, Updater.log, List.filter_cons]

theorem passthrough_off (d : frontData) (u : Updater) (h : d.ann.SSLPassthrough = false) :
    buildFrontendSSLPassthrough d u = u := by
  simp [buildFrontendSSLPassthrough, h]

theorem passthrough_noRoot (d : frontData) (u : Updater) (h : d.ann.SSLPassthrough = true)
    (hroot : (u.frontend d.frontend).FindPath "/" = none) :
    buildFrontendSSLPassthrough d u = u.log (UpdaterLog.skippingSSL d.ann.Source) := by
  simp [buildFrontendSSLPassthrough, h, hroot]

theorem passthrough_marks (d : frontData) (u : Updater) (root : FrontendPath)
    (h : d.ann.SSLPassthrough = true)
    (hroot : (u.frontend d.frontend).FindPath "/" = some root) :
    buildFrontendSSLPassthrough d u
      = { haproxy :=
            (((if d.ann.SSLPassthroughHTTPPort ≠ 0 then
                u.haproxy.modifyFrontend d.frontend (fun f =>
                  { f with
                    HTTPPassthroughBackend :=
                      (u.haproxy.FindBackend
                        ⟨root.Backend.Namespace, root.Backend.Name,
                          d.ann.SSLPassthroughHTTPPort⟩).map Backend.key })
              else u.haproxy).modifyBackend root.Backend
                (fun b => { b with ModeTCP := true })).modifyFrontend d.frontend
                  (fun f => { f with SSLPassthrough := true }))
          logger := u.logger ++ nonRootWarnings d.ann.Source (u.frontend d.frontend).Paths } := by
  unfold buildFrontendSSLPassthrough
  simp only [h, not_true_eq_false, if_false, hroot, warnNonRootPaths_eq]
  split <;> rfl

theorem updater_frontend_of_find (u : Updater) (h : String) (f : Frontend)
    (hf : u.haproxy.FindFrontend h = some f) : u.frontend h = f := by
  simp [Updater.frontend, hf]

theorem updater_root_in_model (u : Updater) (h : String) (root : FrontendPath)
    (hroot : (u.frontend h).FindPath "/" = some root) :
    u.haproxy.FindFrontend h = some (u.frontend h) := by
  unfold Updater.frontend at hroot ⊢
  cases hf : u.haproxy.FindFrontend h with
  | some f => rfl
  | none =>
    rw [hf] at hroot
    simp [createFrontend, Frontend.FindPath] at hroot

theorem passthrough_frontend (d : frontData) (u : Updater) (f : Frontend) (root : FrontendPath)
    (h : d.ann.SSLPassthrough = true) (hf : u.haproxy.FindFrontend d.frontend = some f)
    (hroot : f.FindPath "/" = some root) :
    (buildFrontendSSLPassthrough d u).haproxy.FindFrontend d.frontend
      = some { f with
          SSLPassthrough := true
          HTTPPassthroughBackend :=
            if d.ann.SSLPassthroughHTTPPort ≠ 0 then
              (u.haproxy.FindBackend
                ⟨root.Backend.Namespace, root.Backend.Name,
                  d.ann.SSLPassthroughHTTPPort⟩).map Backend.key
            else f.HTTPPassthroughBackend } := by
  have hfr : u.frontend d.frontend = f := updater_frontend_of_find u _ f hf
  rw [passthrough_marks d u root h (by rw [hfr]; exact hroot)]
  simp only
  rw [findFrontend_modify]
  swap
  · exact fun _ => rfl
  have hb : ∀ cfg : Config, (cfg.modifyBackend root.Backend
      (fun b => { b with ModeTCP := true })).FindFrontend d.frontend
        = cfg.FindFrontend d.frontend := fun _ => rfl
  rw [hb]
  by_cases hp : d.ann.SSLPassthroughHTTPPort = 0
  · simp [hp, hf]
  · simp only [ne_eq, hp, not_false_eq_true, if_true]
    rw [findFrontend_modify]
    swap
    · exact fun _ => rfl
    rw [hf]
    rfl

theorem passthrough_backends (d : frontData) (u : Updater) (root : FrontendPath)
    (h : d.ann.SSLPassthrough = true)
    (hroot : (u.frontend d.frontend).FindPath "/" = some root) :
    (buildFrontendSSLPassthrough d u).haproxy.backends
      = modifyFirst (fun b => b.key = root.Backend) (fun b => { b with ModeTCP := true })
          u.haproxy.backends := by
  rw [passthrough_marks d u root h hroot]
  simp only [Config.modifyFrontend, Config.modifyBackend]
  split <;> rfl

theorem passthrough_paths (d : frontData) (u : Updater) :
    ((buildFrontendSSLPassthrough d u).frontend d.frontend).Paths
      = (u.frontend d.frontend).Paths := by
  cases h : d.ann.SSLPassthrough with
  | false => rw [passthrough_off d u h]
  | true =>
    cases hroot : (u.frontend d.frontend).FindPath "/" with
    | none =>
      rw [passthrough_noRoot d u h hroot]
      rfl
    | some root =>
      have hf := updater_root_in_model u d.frontend root hroot
      rw [updater_frontend_of_find _ _ _
        (passthrough_frontend d u (u.frontend d.frontend) root h hf hroot)]

/-- C31: `buildFrontendSSLPassthrough`. When the pending record has
ssl-passthrough off the state is returned as it was received; when it is on and
the frontend has no path `/`, the proxy model is unchanged and exactly one
warning is logged. When it is on and the frontend has the root path, the
frontend is marked as ssl-passthrough, every other frontend is as before, the
backend of the root path is switched to TCP mode and every other backend is as
before, and the log gains one warning for each path of the frontend other than
`/`, in the order of the paths. In every case the paths of the frontend are
unchanged. So a frontend that was not marked before is marked afterwards exactly
when the record enables ssl-passthrough and the frontend has the root path. -/
theorem ssl_passthrough_marks (d : frontData) (u : Updater) :
    (d.ann.SSLPassthrough = false → buildFrontendSSLPassthrough d u = u)
    ∧ (d.ann.SSLPassthrough = true → (u.frontend d.frontend).FindPath "/" = none →
        (buildFrontendSSLPassthrough d u).haproxy = u.haproxy
        ∧ (buildFrontendSSLPassthrough d u).logger
          = u.logger ++ [UpdaterLog.skippingSSL d.ann.Source])
    ∧ (∀ f root, d.ann.SSLPassthrough = true → u.haproxy.FindFrontend d.frontend = some f →
        f.FindPath "/" = some root →
        (buildFrontendSSLPassthrough d u).haproxy.FindFrontend d.frontend
            = some { f with
                SSLPassthrough := true
                HTTPPassthroughBackend :=
                  if d.ann.SSLPassthroughHTTPPort ≠ 0 then
                    (u.haproxy.FindBackend
                      ⟨root.Backend.Namespace, root.Backend.Name,
                        d.ann.SSLPassthroughHTTPPort⟩).map Backend.key
                  else f.HTTPPassthroughBackend }
        ∧ (∀ h, h ≠ d.frontend →
            (buildFrontendSSLPassthrough d u).haproxy.FindFrontend h
              = u.haproxy.FindFrontend h)
        ∧ (buildFrontendSSLPassthrough d u).haproxy.FindBackend root.Backend
            = (u.haproxy.FindBackend root.Backend).map (fun b => { b with ModeTCP := true })
        ∧ (∀ k, k ≠ root.Backend →
            (buildFrontendSSLPassthrough d u).haproxy.FindBackend k = u.haproxy.FindBackend k)
        ∧ (buildFrontendSSLPassthrough d u).haproxy.defaultBackend = u.haproxy.defaultBackend
        ∧ (buildFrontendSSLPassthrough d u).logger
            = u.logger ++ nonRootWarnings d.ann.Source f.Paths
        ∧ (nonRootWarnings d.ann.Source f.Paths).length
            = (f.Paths.filter (fun p => decide (p.Path ≠ "/"))).length)
    ∧ ((buildFrontendSSLPassthrough d u).frontend d.frontend).Paths
        = (u.frontend d.frontend).Paths
    ∧ ((u.frontend d.frontend).SSLPassthrough = false →
        (((buildFrontendSSLPassthrough d u).frontend d.frontend).SSLPassthrough = true
          ↔ d.ann.SSLPassthrough = true
            ∧ ((u.frontend d.frontend).FindPath "/").isSome = true)) := by
  refine ⟨passthrough_off d u, ?_, ?_, passthrough_paths d u, ?_⟩
  · intro h hroot
    rw [passthrough_noRoot d u h hroot]
    exact ⟨rfl, rfl⟩
  · intro f root h hf hroot
    have hfr : u.frontend d.frontend = f := updater_frontend_of_find u _ f hf
    have hroot' : (u.frontend d.frontend).FindPath "/" = some root := by rw [hfr]; exact hroot
    have hm := passthrough_marks d u root h hroot'
    refine ⟨passthrough_frontend d u f root h hf hroot, ?_, ?_, ?_, ?_, ?_, ?_⟩
    · intro h' hne
      rw [hm]
      simp only
      rw [findFrontend_modify_other _ _ _ _ ?_ hne]
      swap
      · exact fun _ => rfl
      have hb : ∀ cfg : Config, (cfg.modifyBackend root.Backend
          (fun b => { b with ModeTCP := true })).FindFrontend h' = cfg.FindFrontend h' :=
        fun _ => rfl
      rw [hb]
      split
      · refine findFrontend_modify_other _ _ _ _ ?_ hne
        exact fun _ => rfl
      · rfl
    · unfold Config.FindBackend
      rw [passthrough_backends d u root h hroot', find?_modifyFirst]
      intro x
      simp [Backend.key]
    · intro k hk
      unfold Config.FindBackend
      rw [passthrough_backends d u root h hroot', find?_modifyFirst_other]
      intro x hx
      have hx' : x.key = root.Backend := by simpa using hx
      have hne : ¬ root.Backend = k := fun e => hk e.symm
      simp [Backend.key, hx', hne] at hx' ⊢
      intro e
      exact hne (hx'.symm.trans e)
    · rw [hm]
      simp only [Config.modifyFrontend, Config.modifyBackend]
      split <;> rfl
    · rw [hm, hfr]
    · simp [nonRootWarnings]
  · intro hflag
    cases h : d.ann.SSLPassthrough with
    | false =>
      rw [passthrough_off d u h, hflag]
      simp
    | true =>
      cases hroot : (u.frontend d.frontend).FindPath "/" with
      | none =>
        rw [passthrough_noRoot d u h hroot]
        show ((u.frontend d.frontend).SSLPassthrough = true ↔ _)
        rw [hflag]
        simp
      | some root =>
        have hf := updater_root_in_model u d.frontend root hroot
        rw [updater_frontend_of_find _ _ _
          (passthrough_frontend d u (u.frontend d.frontend) root h hf hroot)]
        simp

/-- C31 on a frontend with the paths `/app` and `/`: the frontend is marked, the
backend of `/` is switched to TCP mode, the backend of `/app` is not, and one
warning names the path `/app`. -/
theorem ssl_passthrough_marks_witness :
    (buildFrontendSSLPassthrough ⟨"echo.example.com", passthroughRecord⟩
        twoPathsUpdater).haproxy.FindFrontend "echo.example.com"
      = some { createFrontend "echo.example.com" with
          Paths := [⟨"/app", ⟨"default", "echo2", 8080⟩⟩, ⟨"/", ⟨"default", "echo1", 8080⟩⟩],
          TLS := ⟨"/tls/tls-default.pem", "", "", false⟩,
          SSLPassthrough := true }
    ∧ (buildFrontendSSLPassthrough ⟨"echo.example.com", passthroughRecord⟩
        twoPathsUpdater).haproxy.backends
      = [{ createBackend ⟨"default", "echo1", 8080⟩ with ModeTCP := true },
         createBackend ⟨"default", "echo2", 8080⟩]
    ∧ (buildFrontendSSLPassthrough ⟨"echo.example.com", passthroughRecord⟩
        twoPathsUpdater).logger
      = [UpdaterLog.ignoringPath "/app" ⟨"default", "echo", "ingress"⟩]
    ∧ buildFrontendSSLPassthrough ⟨"other.example.com", passthroughRecord⟩ twoPathsUpdater
      = twoPathsUpdater.log (UpdaterLog.skippingSSL ⟨"default", "echo", "ingress"⟩) := by
  refine ⟨?_, by decide, by decide, by decide⟩
  have h := ((ssl_passthrough_marks ⟨"echo.example.com", passthroughRecord⟩
    twoPathsUpdater).2.2.1
    { createFrontend "echo.example.com" with
      Paths := [⟨"/app", ⟨"default", "echo2", 8080⟩⟩, ⟨"/", ⟨"default", "echo1", 8080⟩⟩],
      TLS := ⟨"/tls/tls-default.pem", "", "", false⟩ }
    ⟨"/", ⟨"default", "echo1", 8080⟩⟩ rfl rfl rfl).1
  rw [h]
  rfl

/-! ## Client certificates -/

theorem authTLS_none (cache : UpdaterCache) (d : frontData) (u : Updater)
    (h : d.ann.AuthTLSSecret = "") : buildFrontendAuthTLS cache d u = u := by
  simp [buildFrontendAuthTLS, h]

theorem authTLS_error (cache : UpdaterCache) (d : frontData) (u : Updater)
    (h : (cache.GetCASecretPath d.ann.AuthTLSSecret).2 ≠ none) :
    buildFrontendAuthTLS cache d u = u := by
  unfold buildFrontendAuthTLS
  split
  · rfl
  · split
    · rename_i heq
      rw [heq] at h
      exact absurd rfl h
    · rfl

theorem authTLS_set (cache : UpdaterCache) (d : frontData) (u : Updater) (cafile : String)
    (hs : d.ann.AuthTLSSecret ≠ "")
    (h : cache.GetCASecretPath d.ann.AuthTLSSecret = (cafile, none)) :
    buildFrontendAuthTLS cache d u
      = { u with
          haproxy := u.haproxy.modifyFrontend d.frontend (fun f =>
            { f with
              TLS := { f.TLS with
                CAFilename := cafile
                ErrorPage := d.ann.AuthTLSErrorPage
                AddCertHeader := d.ann.AuthTLSCertHeader } }) } := by
  unfold buildFrontendAuthTLS
  simp only [hs, if_false, h]

theorem authTLS_tlsFilename (cache : UpdaterCache) (d : frontData) (u : Updater) (h : String) :
    ((buildFrontendAuthTLS cache d u).frontend h).TLS.TLSFilename
      = (u.frontend h).TLS.TLSFilename := by
  by_cases hs : d.ann.AuthTLSSecret = ""
  · rw [authTLS_none cache d u hs]
  · cases hg : cache.GetCASecretPath d.ann.AuthTLSSecret with
    | mk cafile err =>
      cases err with
      | some e => rw [authTLS_error cache d u (by rw [hg]; simp)]
      | none =>
        rw [authTLS_set cache d u cafile hs hg]
        unfold Updater.frontend
        simp only
        by_cases hh : h = d.frontend
        · subst hh
          rw [findFrontend_modify]
          swap
          · exact fun _ => rfl
          cases u.haproxy.FindFrontend d.frontend with
          | none => rfl
          | some f => rfl
        · rw [findFrontend_modify_other _ _ _ _ ?_ hh]
          exact fun _ => rfl

/-- C33: `buildFrontendAuthTLS`. When the secret name of the pending record is
empty or the lookup of its CA file returns an error, the state is returned as it
was received. When the name is not empty and the lookup succeeds, the frontend
gets the CA file of the lookup and the error page and the certificate header
flag of the record, every other field of the frontend, every other frontend,
the backends and the log are as before. In no case does the certificate file of
a frontend change. With the cache of the controller the lookup succeeds exactly
when the secret has a certificate with a non-empty CA file name, which is the
name the frontend gets. -/
theorem auth_tls_settings (cache : UpdaterCache) (d : frontData) (u : Updater) :
    (d.ann.AuthTLSSecret = "" → buildFrontendAuthTLS cache d u = u)
    ∧ ((cache.GetCASecretPath d.ann.AuthTLSSecret).2 ≠ none →
        buildFrontendAuthTLS cache d u = u)
    ∧ (∀ cafile f, d.ann.AuthTLSSecret ≠ "" →
        cache.GetCASecretPath d.ann.AuthTLSSecret = (cafile, none) →
        u.haproxy.FindFrontend d.frontend = some f →
        (buildFrontendAuthTLS cache d u).haproxy.FindFrontend d.frontend
            = some { f with
                TLS := ⟨f.TLS.TLSFilename, cafile, d.ann.AuthTLSErrorPage,
                  d.ann.AuthTLSCertHeader⟩ }
        ∧ (∀ h, h ≠ d.frontend →
            (buildFrontendAuthTLS cache d u).haproxy.FindFrontend h = u.haproxy.FindFrontend h)
        ∧ (buildFrontendAuthTLS cache d u).haproxy.backends = u.haproxy.backends
        ∧ (buildFrontendAuthTLS cache d u).haproxy.defaultBackend = u.haproxy.defaultBackend
        ∧ (buildFrontendAuthTLS cache d u).logger = u.logger)
    ∧ (∀ h, ((buildFrontendAuthTLS cache d u).frontend h).TLS.TLSFilename
        = (u.frontend h).TLS.TLSFilename)
    ∧ (buildFrontendAuthTLS cache d u ≠ u →
        d.ann.AuthTLSSecret ≠ "" ∧ (cache.GetCASecretPath d.ann.AuthTLSSecret).2 = none)
    ∧ (∀ (cc : ControllerCache) (cert : SSLCert),
        cache = cc.toUpdaterCache →
        ((cache.GetCASecretPath d.ann.AuthTLSSecret).2 = none
          ↔ ∃ cert, cc.controller.GetCertificate d.ann.AuthTLSSecret = .ok cert
              ∧ cert.CAFileName ≠ "")
        ∧ (cc.controller.GetCertificate d.ann.AuthTLSSecret = .ok cert →
            cert.CAFileName ≠ "" →
            cache.GetCASecretPath d.ann.AuthTLSSecret = (cert.CAFileName, none))) := by
  refine ⟨authTLS_none cache d u, authTLS_error cache d u, ?_,
    authTLS_tlsFilename cache d u, ?_, ?_⟩
  · intro cafile f hs hg hf
    rw [authTLS_set cache d u cafile hs hg]
    refine ⟨?_, ?_, rfl, rfl, rfl⟩
    · simp only
      rw [findFrontend_modify]
      swap
      · exact fun _ => rfl
      rw [hf]
      rfl
    · intro h hne
      refine findFrontend_modify_other _ _ _ _ ?_ hne
      exact fun _ => rfl
  · intro hne
    by_cases hs : d.ann.AuthTLSSecret = ""
    · exact absurd (authTLS_none cache d u hs) hne
    · refine ⟨hs, ?_⟩
      by_contra herr
      exact hne (authTLS_error cache d u herr)
  · intro cc cert hc
    subst hc
    obtain ⟨a1, a2, a3⟩ := getCASecretPath_cases cc d.ann.AuthTLSSecret
    refine ⟨?_, fun hg hne => a3 cert hg hne⟩
    show ((cc.GetCASecretPath d.ann.AuthTLSSecret).2 = none ↔ _)
    cases hg : cc.controller.GetCertificate d.ann.AuthTLSSecret with
    | error err =>
      rw [a1 err hg]
      simp
    | ok c0 =>
      by_cases hca : c0.CAFileName = ""
      · rw [a2 c0 hg hca]
        simp [hca]
      · rw [a3 c0 hg hca]
        simp [hca]

/-- C33 on the frontend `echo.example.com` and the secret `default/tls` of the
controller: the three settings are written and the certificate file stays. -/
theorem auth_tls_settings_witness :
    (buildFrontendAuthTLS demoController.toUpdaterCache
        ⟨"echo.example.com", passthroughRecord⟩
        twoPathsUpdater).haproxy.FindFrontend "echo.example.com"
      = some { createFrontend "echo.example.com" with
          Paths := [⟨"/app", ⟨"default", "echo2", 8080⟩⟩, ⟨"/", ⟨"default", "echo1", 8080⟩⟩],
          TLS := ⟨"/tls/tls-default.pem", "/tls/default/ca.pem", "/error.html", true⟩ }
    ∧ buildFrontendAuthTLS demoController.toUpdaterCache
        ⟨"echo.example.com", { passthroughRecord with AuthTLSSecret := "default/empty" }⟩
        twoPathsUpdater = twoPathsUpdater
    ∧ buildFrontendAuthTLS demoController.toUpdaterCache
        ⟨"echo.example.com", { passthroughRecord with AuthTLSSecret := "" }⟩
        twoPathsUpdater = twoPathsUpdater := by
  refine ⟨?_, by decide, by decide⟩
  have h := ((auth_tls_settings demoController.toUpdaterCache
    ⟨"echo.example.com", passthroughRecord⟩ twoPathsUpdater).2.2.1
    "/tls/default/ca.pem"
    { createFrontend "echo.example.com" with
      Paths := [⟨"/app", ⟨"default", "echo2", 8080⟩⟩, ⟨"/", ⟨"default", "echo1", 8080⟩⟩],
      TLS := ⟨"/tls/tls-default.pem", "", "", false⟩ }
    (by decide) rfl rfl).1
  rw [h]
  rfl

/-! ## The backend of the HTTP port in the second phase -/

theorem ReadyStep.readyRefl (p : Int) (h : String) (ref : Nat) (v : FrontendAnnotations)
    (c : Converter) : ReadyStep p h ref v c c := ⟨rfl, fun _ hr => hr⟩

theorem ReadyStep.readyThen {p : Int} {h : String} {ref : Nat} {v : FrontendAnnotations}
    {a b c : Converter} (h1 : ReadyStep p h ref v a b) (h2 : ReadyStep p h ref v b c) :
    ReadyStep p h ref v a c :=
  ⟨h2.1.trans h1.1, fun hv hr => h2.2 (h1.1.trans hv) (h1.2 hv hr)⟩

theorem ready_mono (p : Int) (h : String) (cfg cfg' : Config)
    (hb : ∀ k, k ∈ cfg.backends.map Backend.key → k ∈ cfg'.backends.map Backend.key)
    (hf : ∀ f' root, cfg'.FindFrontend h = some f' → f'.FindPath "/" = some root →
      (∃ f, cfg.FindFrontend h = some f ∧ f.FindPath "/" = some root)
      ∨ (⟨root.Backend.Namespace, root.Backend.Name, p⟩ : BackendKey)
          ∈ cfg'.backends.map Backend.key)
    (hr : RootReady p h cfg) : RootReady p h cfg' := by
  intro f' root hf' hroot
  rw [findBackend_isSome]
  rcases hf f' root hf' hroot with ⟨f, h1, h2⟩ | hk
  · exact hb _ ((findBackend_isSome _ _).mp (hr f root h1 h2))
  · exact hk

theorem ready_grow (p : Int) (h : String) (cfg cfg' : Config)
    (hfr : cfg'.frontends = cfg.frontends)
    (hb : ∀ k, k ∈ cfg.backends.map Backend.key → k ∈ cfg'.backends.map Backend.key)
    (hr : RootReady p h cfg) : RootReady p h cfg' := by
  refine ready_mono p h cfg cfg' hb ?_ hr
  intro f' root hf' hroot
  refine Or.inl ⟨f', ?_, hroot⟩
  unfold Config.FindFrontend at hf' ⊢
  rw [← hfr]
  exact hf'

theorem ready_acquireFrontend (p : Int) (h : String) (cfg : Config) (host : String)
    (hr : RootReady p h cfg) : RootReady p h (cfg.AcquireFrontend host) := by
  unfold Config.AcquireFrontend
  cases hfo : cfg.FindFrontend host with
  | some f0 => exact hr
  | none =>
    refine ready_mono p h cfg _ (fun k hk => hk) ?_ hr
    intro f' root hf' hroot
    refine Or.inl ⟨f', ?_, hroot⟩
    unfold Config.FindFrontend at hf' ⊢
    simp only [List.find?_append] at hf'
    cases hc : cfg.frontends.find? (fun f => decide (f.Hostname = h)) with
    | some f1 =>
      rw [hc] at hf'
      exact hf'
    | none =>
      rw [hc] at hf'
      simp only [Option.none_or, List.find?_cons, List.find?_nil] at hf'
      split at hf'
      · cases hf'
        simp [createFrontend, Frontend.FindPath] at hroot
      · cases hf'

theorem ready_modifyFrontend (p : Int) (h : String) (cfg : Config) (host : String)
    (g : Frontend → Frontend) (hg1 : ∀ f, (g f).Hostname = f.Hostname)
    (hg2 : host = h → ∀ f, (g f).FindPath "/" = f.FindPath "/")
    (hr : RootReady p h cfg) : RootReady p h (cfg.modifyFrontend host g) := by
  refine ready_mono p h cfg _ (fun k hk => hk) ?_ hr
  intro f' root hf' hroot
  by_cases hh : h = host
  · subst hh
    rw [findFrontend_modify cfg h g hg1] at hf'
    cases hc : cfg.FindFrontend h with
    | none =>
      rw [hc] at hf'
      cases hf'
    | some f =>
      rw [hc] at hf'
      simp only [Option.map_some', Option.some.injEq] at hf'
      subst hf'
      rw [hg2 rfl] at hroot
      exact Or.inl ⟨f, rfl, hroot⟩
  · rw [findFrontend_modify_other cfg host h g hg1 hh] at hf'
    exact Or.inl ⟨f', hf', hroot⟩

theorem ready_modifyBackend (p : Int) (h : String) (cfg : Config) (k : BackendKey)
    (g : Backend → Backend) (hg : ∀ b, (g b).key = b.key)
    (hr : RootReady p h cfg) : RootReady p h (cfg.modifyBackend k g) := by
  refine ready_grow p h cfg _ rfl ?_ hr
  intro k0 hk
  unfold Config.modifyBackend
  simp only
  rw [modifyFirst_map _ _ _ _ hg]
  exact hk

theorem addBackend_keys_mono (env : Env) (fullSvcName : String) (svcPort : Int)
    (ingAnn : BackendAnnotations) (c : Converter) :
    KeysGrow c (addBackend env fullSvcName svcPort ingAnn c).2 := by
  intro k hk
  cases hres : resolveBackend env fullSvcName svcPort with
  | notFound err =>
    rw [addBackend_notFound env _ _ _ c err hres]
    exact hk
  | panics =>
    rw [addBackend_panics env _ _ _ c hres]
    exact hk
  | backend svc k0 =>
    rw [addBackend_keys env _ _ _ c svc k0 hres, acquireBackend_keys]
    exact Or.inl hk

theorem KeysGrow.keysOfBackends {c c' : Converter} (h : c'.haproxy.backends = c.haproxy.backends) :
    KeysGrow c c' := by
  intro k hk
  rw [h]
  exact hk

theorem keysGrow_invariant (env : Env) : StepInvariant env KeysGrow where
  stepRefl := fun _ _ hk => hk
  stepTrans := fun _ _ _ h1 h2 k hk => h2 k (h1 k hk)
  stepLog := fun _ _ => KeysGrow.keysOfBackends rfl
  stepBackend := addBackend_keys_mono env
  stepFrontend := fun host ingAnn c => KeysGrow.keysOfBackends (keepsBack_addFrontend env host ingAnn c).1
  stepTLS := fun ns secretName c => KeysGrow.keysOfBackends (by rw [(addTLS_frame env ns secretName c).1])
  stepAddPath := fun _ _ _ _ _ => KeysGrow.keysOfBackends rfl
  stepSetTLS := fun _ _ _ _ => KeysGrow.keysOfBackends rfl
  stepStart := fun ing c => KeysGrow.keysOfBackends (keepsBack_syncIngressStart env ing c).1

theorem ready_addBackend (p : Int) (h : String) (env : Env) (fullSvcName : String)
    (svcPort : Int) (ingAnn : BackendAnnotations) (c : Converter)
    (hr : RootReady p h c.haproxy) :
    RootReady p h (addBackend env fullSvcName svcPort ingAnn c).2.haproxy :=
  ready_grow p h _ _ (keepsFront_addBackend env fullSvcName svcPort ingAnn c).1
    (addBackend_keys_mono env fullSvcName svcPort ingAnn c) hr

theorem findPath_addPath_other (f : Frontend) (k : BackendKey) (uri q : String) (h : uri ≠ q) :
    (f.AddPath k uri).FindPath q = f.FindPath q := by
  unfold Frontend.AddPath Frontend.FindPath
  simp only
  rw [find?_insertSorted_of_not]
  simp [h]

theorem ready_registered (p : Int) (h : String) (env : Env) (fullSvcName : String)
    (svcPort : Int) (ingBackAnn : BackendAnnotations) (hostname uri : String) (svc : Service)
    (k : BackendKey) (c s : Converter) (hp : p ≠ 0)
    (hr : ((c.frontend hostname).FindPath uri).isSome = false)
    (hres : resolveBackend env fullSvcName svcPort = .backend svc k)
    (hfr : s.haproxy.frontends
      = modifyFirst (fun f => f.Hostname = hostname) (fun f => f.AddPath k uri)
          c.haproxy.frontends)
    (hbk : KeysGrow c s)
    (hready : RootReady p h c.haproxy) :
    RootReady p h (addBackend env fullSvcName p ingBackAnn s).2.haproxy := by
  have hres' := resolveBackend_otherPort env fullSvcName svcPort p svc k hres hp
  have hacq := (findBackend_isSome _ _).mp
    (addBackend_acquired env fullSvcName p ingBackAnn s svc _ hres')
  refine ready_mono p h c.haproxy _
    (fun k0 hk0 => addBackend_keys_mono env fullSvcName p ingBackAnn s k0 (hbk k0 hk0)) ?_
    hready
  intro f' root hf' hroot
  have hfind : (addBackend env fullSvcName p ingBackAnn s).2.haproxy.FindFrontend h
      = (c.haproxy.modifyFrontend hostname (fun f => f.AddPath k uri)).FindFrontend h := by
    unfold Config.FindFrontend Config.modifyFrontend
    rw [(keepsFront_addBackend env fullSvcName p ingBackAnn s).1, hfr]
  rw [hfind] at hf'
  by_cases hh : h = hostname
  · subst hh
    rw [findFrontend_modify c.haproxy h (fun f => f.AddPath k uri) (fun _ => rfl)] at hf'
    cases hc : c.haproxy.FindFrontend h with
    | none =>
      rw [hc] at hf'
      cases hf'
    | some f =>
      rw [hc] at hf'
      simp only [Option.map_some', Option.some.injEq] at hf'
      subst hf'
      by_cases hu : uri = "/"
      · subst hu
        have hnone : f.FindPath "/" = none := by
          rw [frontend_eq_of_find c h f hc] at hr
          cases hx : f.FindPath "/" with
          | none => rfl
          | some x =>
            rw [hx] at hr
            cases hr
        rw [findPath_addPath f k "/" hnone] at hroot
        cases hroot
        exact Or.inr hacq
      · rw [findPath_addPath_other f k uri "/" hu] at hroot
        exact Or.inl ⟨f, rfl, hroot⟩
  · rw [findFrontend_modify_other c.haproxy hostname h (fun f => f.AddPath k uri)
      (fun _ => rfl) hh] at hf'
    exact Or.inl ⟨f', hf', hroot⟩

theorem readyStep_syncPath (env : Env) (p : Int) (h : String) (hp : p ≠ 0) (ing : Ingress)
    (hostname : String) (ref : Nat) (ingBackAnn : BackendAnnotations) (path : HTTPIngressPath)
    (c : Converter) (v : FrontendAnnotations)
    (hv : v.SSLPassthrough = true ∧ v.SSLPassthroughHTTPPort = p) :
    ReadyStep p h ref v c (syncPath env ing hostname ref ingBackAnn path c) := by
  refine ⟨?_, ?_⟩
  · unfold Converter.frontAnn
    rw [records_syncPath]
  intro hrec hready
  have hadd := ready_addBackend p h env (path.fullSvcName ing) path.Backend.ServicePort
    ingBackAnn c hready
  cases hr : ((c.frontend hostname).FindPath path.uri).isSome with
  | true =>
    rw [syncPath_registered _ _ _ _ _ _ _ hr]
    exact hready
  | false =>
    cases hpn : (addBackend env (path.fullSvcName ing) path.Backend.ServicePort ingBackAnn
        c).2.panicked.isSome with
    | true =>
      rw [syncPath_panicked _ _ _ _ _ _ _ hr hpn]
      exact hadd
    | false =>
      cases he : (addBackend env (path.fullSvcName ing) path.Backend.ServicePort ingBackAnn
          c).1 with
      | error err =>
        rw [syncPath_error _ _ _ _ _ _ _ err hr hpn he]
        exact hadd
      | ok k =>
        rw [syncPath_ok _ _ _ _ _ _ _ k hr hpn he]
        have hpn' : (addBackend env (path.fullSvcName ing) path.Backend.ServicePort
            ingBackAnn c).2.panicked = none := by
          cases hx : (addBackend env (path.fullSvcName ing) path.Backend.ServicePort
              ingBackAnn c).2.panicked with
          | none => rfl
          | some x =>
            rw [hx] at hpn
            cases hpn
        obtain ⟨svc, hres⟩ := addBackend_ok_resolved env _ _ ingBackAnn c k hpn' he
        have hrec' : ({ (addBackend env (path.fullSvcName ing) path.Backend.ServicePort
              ingBackAnn c).2 with
            haproxy := (addBackend env (path.fullSvcName ing) path.Backend.ServicePort
              ingBackAnn c).2.haproxy.modifyFrontend hostname
                (fun f => f.AddPath k path.uri) } : Converter).frontAnn ref = v := by
          rw [← hrec]
          unfold Converter.frontAnn
          simp only
          rw [(keepsFront_addBackend env _ _ ingBackAnn c).2.1]
        rw [addHTTPPassthrough_enabled env _ ref ingBackAnn _
          (by rw [hrec']; exact hv.1) (by rw [hrec', hv.2]; exact hp),
          hrec', hv.2]
        refine ready_registered p h env (path.fullSvcName ing) path.Backend.ServicePort
          ingBackAnn hostname path.uri svc k c _ hp hr hres ?_ ?_ hready
        · show modifyFirst _ _ _ = modifyFirst _ _ _
          rw [(keepsFront_addBackend env _ _ ingBackAnn c).1]
        · exact addBackend_keys_mono env _ _ ingBackAnn c

theorem ready_syncTLSHost (p : Int) (h : String) (env : Env) (ing : Ingress)
    (hostname : String) (tls : IngressTLS) (host : String) (c : Converter)
    (hr : RootReady p h c.haproxy) :
    RootReady p h (syncTLSHost env ing hostname tls host c).haproxy := by
  have hf := (addTLS_frame env ing.Namespace tls.SecretName c).1
  have hx : RootReady p h (addTLS env ing.Namespace tls.SecretName c).2.haproxy := by
    rw [hf]
    exact hr
  by_cases hh : host = hostname
  · subst hh
    cases he : (addTLS env ing.Namespace tls.SecretName c).1 with
    | error err =>
      rw [syncTLSHost_error _ _ _ _ _ err he]
      exact hx
    | ok tlsPath =>
      by_cases hempty :
          ((addTLS env ing.Namespace tls.SecretName c).2.frontend host).TLS.TLSFilename = ""
      · rw [syncTLSHost_assign _ _ _ _ _ tlsPath he hempty]
        exact ready_modifyFrontend p h _ host (setTLSFilename tlsPath) (fun _ => rfl)
          (fun _ _ => rfl) hx
      · by_cases hd :
            ((addTLS env ing.Namespace tls.SecretName c).2.frontend host).TLS.TLSFilename
              = tlsPath
        · rw [syncTLSHost_same _ _ _ _ _ tlsPath he hempty hd]
          exact hx
        · rw [syncTLSHost_conflict _ _ _ _ _ tlsPath he hempty hd]
          exact hx
  · rw [syncTLSHost_other _ _ _ _ _ _ hh]
    exact hr

theorem readyStep_syncTLSHost (p : Int) (h : String) (ref : Nat) (v : FrontendAnnotations)
    (env : Env) (ing : Ingress) (hostname : String) (tls : IngressTLS) (host : String)
    (c : Converter) : ReadyStep p h ref v c (syncTLSHost env ing hostname tls host c) := by
  refine ⟨?_, fun _ hr => ready_syncTLSHost p h env ing hostname tls host c hr⟩
  unfold Converter.frontAnn
  rw [records_syncTLSHost]

theorem readyStep_addFrontend (p : Int) (h : String) (ref : Nat) (v : FrontendAnnotations)
    (env : Env) (host : String) (c : Converter) :
    ReadyStep p h ref v c (addFrontend env host ref c) := by
  refine ⟨fixed_addFrontend env host ref c, fun _ hr => ?_⟩
  rw [addFrontend_haproxy]
  exact ready_acquireFrontend p h _ host hr

theorem readyStep_syncRule (env : Env) (p : Int) (h : String) (hp : p ≠ 0) (ing : Ingress)
    (ref : Nat) (ingBackAnn : BackendAnnotations) (rule : IngressRule) (c : Converter)
    (v : FrontendAnnotations)
    (hv : v.SSLPassthrough = true ∧ v.SSLPassthroughHTTPPort = p) :
    ReadyStep p h ref v c (syncRule env ing ref ingBackAnn rule c) := by
  cases hh : rule.HTTP with
  | none =>
    rw [syncRule_none _ _ _ _ _ _ hh]
    exact ReadyStep.readyRefl p h ref v c
  | some paths =>
    rw [syncRule_http _ _ _ _ _ paths _ hh]
    have h1 := readyStep_addFrontend p h ref v env rule.hostname c
    have h2 := forEach_rel (ReadyStep p h ref v) (ReadyStep.readyRefl p h ref v)
      (fun _ _ _ => ReadyStep.readyThen)
      (syncPath env ing rule.hostname ref ingBackAnn) paths
      (fun path _ s _ => readyStep_syncPath env p h hp ing rule.hostname ref ingBackAnn
        path s v hv)
      (addFrontend env rule.hostname ref c)
    have h3 := forEach_rel (ReadyStep p h ref v) (ReadyStep.readyRefl p h ref v)
      (fun _ _ _ => ReadyStep.readyThen)
      (fun tls => forEach (syncTLSHost env ing rule.hostname tls) tls.Hosts) ing.TLS
      (fun tls _ s _ => forEach_rel (ReadyStep p h ref v) (ReadyStep.readyRefl p h ref v)
        (fun _ _ _ => ReadyStep.readyThen) (syncTLSHost env ing rule.hostname tls) tls.Hosts
        (fun host _ s' _ => readyStep_syncTLSHost p h ref v env ing rule.hostname tls host s')
        s)
      (forEach (syncPath env ing rule.hostname ref ingBackAnn) paths
        (addFrontend env rule.hostname ref c))
    exact (h1.readyThen h2).readyThen h3

theorem ready_addDefaultHostBackend (p : Int) (h : String) (env : Env) (fullSvcName : String)
    (svcPort : Int) (ref : Nat) (ingBackAnn : BackendAnnotations) (c : Converter)
    (hh : h ≠ "*") (hr : RootReady p h c.haproxy) :
    RootReady p h (addDefaultHostBackend env fullSvcName svcPort ref ingBackAnn c).2.haproxy := by
  have hadd := ready_addBackend p h env fullSvcName svcPort ingBackAnn c hr
  cases ho : defaultHostOccupied c with
  | true =>
    rw [addDefaultHostBackend_occupied _ _ _ _ _ _ ho]
    exact hr
  | false =>
    cases hpn : (addBackend env fullSvcName svcPort ingBackAnn c).2.panicked.isSome with
    | true =>
      rw [addDefaultHostBackend_panicked _ _ _ _ _ _ ho hpn]
      exact hadd
    | false =>
      cases he : (addBackend env fullSvcName svcPort ingBackAnn c).1 with
      | error err =>
        rw [addDefaultHostBackend_error _ _ _ _ _ _ err ho hpn he]
        exact hadd
      | ok k =>
        rw [addDefaultHostBackend_ok _ _ _ _ _ _ k ho hpn he]
        refine ready_modifyFrontend p h _ "*" (fun f => f.AddPath k "/") (fun _ => rfl)
          (fun e => absurd e.symm hh) ?_
        rw [addFrontend_haproxy]
        exact ready_acquireFrontend p h _ "*" hadd

theorem readyStep_syncDefaultBackend (p : Int) (h : String) (v : FrontendAnnotations)
    (env : Env) (ing : Ingress) (ref : Nat) (ingBackAnn : BackendAnnotations) (c : Converter)
    (hd : h = "*" → ing.Backend = none) :
    ReadyStep p h ref v c (syncDefaultBackend env ing ref ingBackAnn c) := by
  refine ⟨fixed_syncDefaultBackend env ing ref ingBackAnn c, fun _ hr => ?_⟩
  cases hbk : ing.Backend with
  | none =>
    rw [syncDefaultBackend_none _ _ _ _ _ hbk]
    exact hr
  | some b =>
    have hh : h ≠ "*" := by
      intro e
      rw [hd e] at hbk
      cases hbk
    have hx := ready_addDefaultHostBackend p h env
      (FullQualifiedName ing.Namespace b.ServiceName) b.ServicePort ref ingBackAnn c hh hr
    cases hpn : (addDefaultHostBackend env (FullQualifiedName ing.Namespace b.ServiceName)
        b.ServicePort ref ingBackAnn c).2.panicked with
    | some x =>
      rw [syncDefaultBackend_pass env ing _ _ c b hbk (Or.inl (by simp [hpn]))]
      exact hx
    | none =>
      cases he : (addDefaultHostBackend env (FullQualifiedName ing.Namespace b.ServiceName)
          b.ServicePort ref ingBackAnn c).1 with
      | none =>
        rw [syncDefaultBackend_pass env ing _ _ c b hbk (Or.inr he)]
        exact hx
      | some err =>
        rw [syncDefaultBackend_skip env ing _ _ c b err hbk hpn he]
        exact hx

theorem syncIngressStart_haproxy (env : Env) (ing : Ingress) (c : Converter) :
    (syncIngressStart env ing c).haproxy = c.haproxy := by
  unfold syncIngressStart
  simp only
  rw [readAnnotations_state]

theorem ready_syncIngress (env : Env) (p : Int) (h : String) (hp : p ≠ 0) (ing : Ingress)
    (c : Converter)
    (hv : (frontView env ing).SSLPassthrough = true
      ∧ (frontView env ing).SSLPassthroughHTTPPort = p)
    (hd : h = "*" → ing.Backend = none)
    (hr : RootReady p h c.haproxy) :
    RootReady p h (syncIngress env ing c).haproxy := by
  rw [syncIngress_eq]
  have h1 := readyStep_syncDefaultBackend p h (frontView env ing) env ing
    c.frontendRecords.length (backView env ing) (syncIngressStart env ing c) hd
  have h2 := forEach_rel (ReadyStep p h c.frontendRecords.length (frontView env ing))
    (ReadyStep.readyRefl p h _ _) (fun _ _ _ => ReadyStep.readyThen)
    (syncRule env ing c.frontendRecords.length (backView env ing)) ing.Rules
    (fun rule _ s _ => readyStep_syncRule env p h hp ing _ _ rule s (frontView env ing) hv)
    (syncDefaultBackend env ing c.frontendRecords.length (backView env ing)
      (syncIngressStart env ing c))
  refine (h1.readyThen h2).2 (syncIngressStart_frontAnn env ing c) ?_
  rw [syncIngressStart_haproxy]
  exact hr

theorem converter_root_in_model (c : Converter) (h : String) (root : FrontendPath)
    (hroot : (c.frontend h).FindPath "/" = some root) :
    c.haproxy.FindFrontend h = some (c.frontend h) := by
  unfold Converter.frontend at hroot ⊢
  cases hf : c.haproxy.FindFrontend h with
  | some f => rfl
  | none =>
    rw [hf] at hroot
    simp [createFrontend, Frontend.FindPath] at hroot

theorem findBackend_key (cfg : Config) (k : BackendKey) (b : Backend)
    (h : cfg.FindBackend k = some b) : b.key = k := by
  unfold Config.FindBackend at h
  have := List.find?_some h
  simpa using this

theorem passthrough_keys (d : frontData) (u : Updater) :
    (buildFrontendSSLPassthrough d u).haproxy.backends.map Backend.key
      = u.haproxy.backends.map Backend.key := by
  cases hs : d.ann.SSLPassthrough with
  | false => rw [passthrough_off d u hs]
  | true =>
    cases hroot : (u.frontend d.frontend).FindPath "/" with
    | none =>
      rw [passthrough_noRoot d u hs hroot]
      rfl
    | some root =>
      rw [passthrough_backends d u root hs hroot, modifyFirst_map]
      exact fun _ => rfl

theorem root_registered_ready (env : Env) (p : Int) (h : String) (pre : List Ingress)
    (ing : Ingress) (c : Converter) (hp : p ≠ 0)
    (hbefore : ((syncAll env pre c).frontend h).FindPath "/" = none)
    (hv : (frontView env ing).SSLPassthrough = true
      ∧ (frontView env ing).SSLPassthroughHTTPPort = p)
    (hd : h = "*" → ing.Backend = none) :
    RootReady p h (syncAll env (pre ++ [ing]) c).haproxy := by
  have e1 : syncAll env (pre ++ [ing]) c
      = forEach (syncIngress env) [ing] (syncAll env pre c) := by
    unfold syncAll
    rw [forEach_append]
  have hready0 : RootReady p h (syncAll env pre c).haproxy := by
    intro f root' hf hroot'
    rw [frontend_eq_of_find _ h f hf, hroot'] at hbefore
    cases hbefore
  cases hp0 : (syncAll env pre c).panicked with
  | some x =>
    rw [e1, forEach_panicked _ _ _ (by simp [hp0])]
    exact hready0
  | none =>
    rw [e1, forEach_cons _ _ _ _ hp0, forEach_nil]
    exact ready_syncIngress env p h hp ing _ hv hd hready0

/-- C32, as amended: the backend of the HTTP port in the second phase. Take a
list of resources, a host `h` and a resource `ing` of the list such that the
frontend of `h` has no root path after the resources before `ing` and has the
root path `root` after `ing`, so that `ing` registers the root path of `h`;
let the annotations of `ing` enable ssl-passthrough with the HTTP port `p`,
which is not 0, and let `ing` declare no default backend when `h` is the default
host. Then after `Sync` of the whole list the frontend of `h` is in the proxy
model with the root path `root`, and the backend of the service of `root` at the
port `p` is in the proxy model. So when `buildFrontendSSLPassthrough` runs on
that proxy model for `h` with a record that enables ssl-passthrough with the
HTTP port `p`, the frontend is marked, its `HTTPPassthroughBackend` is that
backend, and the backend is in the proxy model afterwards. -/
theorem passthrough_backend_present (env : Env) (p : Int) (h : String)
    (pre post : List Ingress) (ing : Ingress) (c : Converter) (root : FrontendPath)
    (hp : p ≠ 0)
    (hbefore : ((syncAll env pre c).frontend h).FindPath "/" = none)
    (hafter : ((syncAll env (pre ++ [ing]) c).frontend h).FindPath "/" = some root)
    (hflag : (frontView env ing).SSLPassthrough = true)
    (hport : (frontView env ing).SSLPassthroughHTTPPort = p)
    (hd : h = "*" → ing.Backend = none) :
    ∃ f, (Sync env (pre ++ ing :: post) c).haproxy.FindFrontend h = some f
      ∧ f.FindPath "/" = some root
      ∧ ((Sync env (pre ++ ing :: post) c).haproxy.FindBackend
          ⟨root.Backend.Namespace, root.Backend.Name, p⟩).isSome = true
      ∧ ∀ ann : FrontendAnnotations, ann.SSLPassthrough = true →
          ann.SSLPassthroughHTTPPort = p →
          (buildFrontendSSLPassthrough ⟨h, ann⟩
              (Sync env (pre ++ ing :: post) c).toUpdater).haproxy.FindFrontend h
            = some { f with
                SSLPassthrough := true
                HTTPPassthroughBackend :=
                  some ⟨root.Backend.Namespace, root.Backend.Name, p⟩ }
          ∧ ((buildFrontendSSLPassthrough ⟨h, ann⟩
              (Sync env (pre ++ ing :: post) c).toUpdater).haproxy.FindBackend
                ⟨root.Backend.Namespace, root.Backend.Name, p⟩).isSome = true := by
  have hready := root_registered_ready env p h pre ing c hp hbefore ⟨hflag, hport⟩ hd
  have hf1 := converter_root_in_model _ h root hafter
  have hb1 := hready _ root hf1 hafter
  have e2 : (Sync env (pre ++ ing :: post) c).haproxy
      = (syncAll env post (syncAll env (pre ++ [ing]) c)).haproxy := by
    rw [(onlyCalls_Sync env _ c).1]
    have : pre ++ ing :: post = (pre ++ [ing]) ++ post := by simp
    rw [this]
    unfold syncAll
    rw [forEach_append]
  obtain ⟨f, hf, _, hpaths⟩ :=
    (frontEvolves_syncAll env post (syncAll env (pre ++ [ing]) c)).1 h _ hf1
  have hroot : f.FindPath "/" = some root := hpaths "/" root hafter
  have hgrow := invariant_syncAll (keysGrow_invariant env) post (syncAll env (pre ++ [ing]) c)
  have hb2 : ((Sync env (pre ++ ing :: post) c).haproxy.FindBackend
      ⟨root.Backend.Namespace, root.Backend.Name, p⟩).isSome = true := by
    rw [e2, findBackend_isSome]
    exact hgrow _ ((findBackend_isSome _ _).mp hb1)
  have hf2 : (Sync env (pre ++ ing :: post) c).haproxy.FindFrontend h = some f := by
    rw [e2]
    exact hf
  refine ⟨f, hf2, hroot, hb2, ?_⟩
  intro ann hs hport'
  have hfu : (Sync env (pre ++ ing :: post) c).toUpdater.haproxy.FindFrontend h = some f := hf2
  have hbu : ((Sync env (pre ++ ing :: post) c).toUpdater.haproxy.FindBackend
      ⟨root.Backend.Namespace, root.Backend.Name, p⟩).isSome = true := hb2
  refine ⟨?_, ?_⟩
  · rw [passthrough_frontend ⟨h, ann⟩ _ f root hs hfu hroot]
    simp only [hport']
    cases hb : (Sync env (pre ++ ing :: post) c).toUpdater.haproxy.FindBackend
        ⟨root.Backend.Namespace, root.Backend.Name, p⟩ with
    | none =>
      rw [hb] at hbu
      cases hbu
    | some b =>
      simp only [ne_eq, hp, not_false_eq_true, if_true, Option.map_some',
        findBackend_key _ _ b hb]
  · rw [findBackend_isSome, passthrough_keys]
    exact (findBackend_isSome _ _).mp hbu

/-- C32, as amended, on a list of two resources for `echo.example.com`: the
first declares `/` for `default/echo1` and enables ssl-passthrough with the HTTP
port 8000, the second declares `/` again, without annotations, and is skipped.
The frontend is marked and refers to the backend `default/echo1` at the port
8000, which is in the proxy model. -/
theorem passthrough_backend_present_witness :
    (buildFrontendSSLPassthrough
        ⟨"echo.example.com",
          (Sync demoEnv [passthroughIngress, rootIngress] freshConverter).frontAnn 0⟩
        (Sync demoEnv [passthroughIngress, rootIngress]
          freshConverter).toUpdater).haproxy.FindFrontend "echo.example.com"
      = some { createFrontend "echo.example.com" with
          Paths := [⟨"/", ⟨"default", "echo1", 8080⟩⟩]
          SSLPassthrough := true
          HTTPPassthroughBackend := some ⟨"default", "echo1", 8000⟩ }
    ∧ ((buildFrontendSSLPassthrough
        ⟨"echo.example.com",
          (Sync demoEnv [passthroughIngress, rootIngress] freshConverter).frontAnn 0⟩
        (Sync demoEnv [passthroughIngress, rootIngress]
          freshConverter).toUpdater).haproxy.FindBackend
          ⟨"default", "echo1", 8000⟩).isSome = true := by
  obtain ⟨f, hf, _, _, hall⟩ := passthrough_backend_present demoEnv 8000 "echo.example.com"
    [] [rootIngress] passthroughIngress freshConverter ⟨"/", ⟨"default", "echo1", 8080⟩⟩
    (by decide) (by decide) (by decide) (by decide) (by decide) (by decide)
  have hf' : f = { createFrontend "echo.example.com" with
      Paths := [⟨"/", ⟨"default", "echo1", 8080⟩⟩] } :=
    Option.some.inj (hf.symm.trans (by decide))
  subst hf'
  exact hall _ (by decide) (by decide)

/-- C32, as stated, fails: the resource `default/echo1` declares `/` on
`echo.example.com` for `default/echo1` without annotations, and the resource
`default/echo2` declares `/app` on the same host for `default/echo2` and enables
ssl-passthrough with the HTTP port 8000. The first phase ends without a panic,
the pending record of the host enables ssl-passthrough with the HTTP port 8000,
and the backends of the proxy model are `echo1:8080`, `echo2:8080` and
`echo2:8000`. The second phase marks the frontend and looks up the backend of
the service of the root path, `default/echo1`, at the port 8000, which is not in
the proxy model: `HTTPPassthroughBackend` is left absent. -/
theorem passthrough_backend_absent :
    (Sync demoEnv [rootIngress, passthroughAppIngress] freshConverter).panicked = none
    ∧ (Sync demoEnv [rootIngress, passthroughAppIngress] freshConverter).frontendAnnotations
        = [("echo.example.com", 0)]
    ∧ ((Sync demoEnv [rootIngress, passthroughAppIngress] freshConverter).frontAnn
        0).SSLPassthrough = true
    ∧ ((Sync demoEnv [rootIngress, passthroughAppIngress] freshConverter).frontAnn
        0).SSLPassthroughHTTPPort = 8000
    ∧ (Sync demoEnv [rootIngress, passthroughAppIngress] freshConverter).haproxy.backends.map
        Backend.key
        = [⟨"default", "echo1", 8080⟩, ⟨"default", "echo2", 8080⟩, ⟨"default", "echo2", 8000⟩]
    ∧ (Sync demoEnv [rootIngress, passthroughAppIngress] freshConverter).haproxy.frontends
        = [{ createFrontend "echo.example.com" with
              Paths := [⟨"/app", ⟨"default", "echo2", 8080⟩⟩,
                ⟨"/", ⟨"default", "echo1", 8080⟩⟩] }]
    ∧ (buildFrontendSSLPassthrough
          ⟨"echo.example.com",
            (Sync demoEnv [rootIngress, passthroughAppIngress] freshConverter).frontAnn 0⟩
          (Sync demoEnv [rootIngress, passthroughAppIngress]
            freshConverter).toUpdater).haproxy.frontends
        = [{ createFrontend "echo.example.com" with
              Paths := [⟨"/app", ⟨"default", "echo2", 8080⟩⟩,
                ⟨"/", ⟨"default", "echo1", 8080⟩⟩]
              SSLPassthrough := true
              HTTPPassthroughBackend := none }] := by
  decide

/-- The default backend of a resource: the resource `default/echo` declares
`default/echo1` as default backend and enables ssl-passthrough with the HTTP
port 8000. `addDefaultHostBackend` registers `/` on the default host and acquires
the backend `echo1:8080` only; the second phase marks the default host and
leaves `HTTPPassthroughBackend` absent. -/
theorem default_backend_passthrough_absent :
    (Sync demoEnv [passthroughDefaultIngress] freshConverter).panicked = none
    ∧ (Sync demoEnv [passthroughDefaultIngress] freshConverter).frontendAnnotations = [("*", 0)]
    ∧ ((Sync demoEnv [passthroughDefaultIngress] freshConverter).frontAnn 0).SSLPassthrough = true
    ∧ ((Sync demoEnv [passthroughDefaultIngress] freshConverter).frontAnn 0).SSLPassthroughHTTPPort
        = 8000
    ∧ (Sync demoEnv [passthroughDefaultIngress] freshConverter).haproxy.backends.map Backend.key
        = [⟨"default", "echo1", 8080⟩]
    ∧ (buildFrontendSSLPassthrough
          ⟨"*", (Sync demoEnv [passthroughDefaultIngress] freshConverter).frontAnn 0⟩
          (Sync demoEnv [passthroughDefaultIngress] freshConverter).toUpdater).haproxy.frontends
        = [{ createFrontend "*" with
              Paths := [⟨"/", ⟨"default", "echo1", 8080⟩⟩], SSLPassthrough := true,
              HTTPPassthroughBackend := none }] := by
  decide

/-- C2: once the TLS file name of a frontend is non-empty it stays the same
through every step of a pass and so through `Sync` as a whole, whatever
resources follow; and a TLS binding for that host that resolves to a different
certificate path leaves the proxy model unchanged and logs exactly one warning
after the messages of `addTLS`: the warning that the secret of the binding, or
the default secret when the binding names none, is skipped because the TLS of
the host was already assigned. -/
theorem tls_assignment_kept (env : Env) :
    (∀ (ing : Ingress) (hostname : String) (tls : IngressTLS) (host : String) (c : Converter),
        TLSKept c (syncTLSHost env ing hostname tls host c))
    ∧ (∀ (ing : Ingress) (hostname : String) (ingFrontAnn : Nat)
        (ingBackAnn : BackendAnnotations) (path : HTTPIngressPath) (c : Converter),
        TLSKept c (syncPath env ing hostname ingFrontAnn ingBackAnn path c))
    ∧ (∀ (ing : Ingress) (ingFrontAnn : Nat) (ingBackAnn : BackendAnnotations) (c : Converter),
        TLSKept c (syncDefaultBackend env ing ingFrontAnn ingBackAnn c))
    ∧ (∀ (ing : Ingress) (ingFrontAnn : Nat) (ingBackAnn : BackendAnnotations)
        (rule : IngressRule) (c : Converter),
        TLSKept c (syncRule env ing ingFrontAnn ingBackAnn rule c))
    ∧ (∀ (ing : Ingress) (c : Converter), TLSKept c (syncIngress env ing c))
    ∧ (∀ (ingress : List Ingress) (c : Converter), TLSKept c (Sync env ingress c))
    ∧ (∀ (ing : Ingress) (hostname : String) (tls : IngressTLS) (c : Converter)
        (tlsPath : String),
        (addTLS env ing.Namespace tls.SecretName c).1 = .ok tlsPath →
        (c.frontend hostname).TLS.TLSFilename ≠ "" →
        (c.frontend hostname).TLS.TLSFilename ≠ tlsPath →
        (syncTLSHost env ing hostname tls hostname c).haproxy = c.haproxy
          ∧ (syncTLSHost env ing hostname tls hostname c).logger
            = (addTLS env ing.Namespace tls.SecretName c).2.logger
                ++ [if tls.SecretName ≠ "" then
                      LogEntry.skippingTLSSecret tls.SecretName
                        (ing.Namespace ++ "/" ++ ing.Name)
                        ("TLS of host '" ++ hostname ++ "' was already assigned")
                    else
                      LogEntry.skippingDefaultTLSSecret (ing.Namespace ++ "/" ++ ing.Name)
                        ("TLS of host '" ++ hostname ++ "' was already assigned")]
          ∧ ((syncTLSHost env ing hostname tls hostname c).logger.map LogEntry.render
              = (addTLS env ing.Namespace tls.SecretName c).2.logger.map LogEntry.render
                ++ [if tls.SecretName ≠ "" then
                      "WARN skipping TLS secret '" ++ tls.SecretName ++ "' of ingress '"
                        ++ (ing.Namespace ++ "/" ++ ing.Name) ++ "': "
                        ++ ("TLS of host '" ++ hostname ++ "' was already assigned")
                    else
                      "WARN skipping default TLS secret of ingress '"
                        ++ (ing.Namespace ++ "/" ++ ing.Name) ++ "': "
                        ++ ("TLS of host '" ++ hostname ++ "' was already assigned")])
          ∧ ∀ e ∈ (addTLS env ing.Namespace tls.SecretName c).2.logger,
              e ∈ c.logger ∨ ∃ name err, e = LogEntry.usingDefaultCertificate name err) := by
  refine ⟨fun ing hostname tls host c =>
      tlsKept_of_frontEvolves (frontEvolves_syncTLSHost env ing hostname tls host c),
    fun ing hostname a b path c =>
      tlsKept_of_frontEvolves (frontEvolves_syncPath env ing hostname a b path c),
    fun ing a b c => tlsKept_of_frontEvolves (frontEvolves_syncDefaultBackend env ing a b c),
    fun ing a b rule c => tlsKept_of_frontEvolves (frontEvolves_syncRule env ing a b rule c),
    fun ing c => tlsKept_of_frontEvolves (frontEvolves_syncIngress env ing c),
    fun ingress c => tlsKept_of_frontEvolves (frontEvolves_Sync env ingress c), ?_⟩
  · intro ing hostname tls c tlsPath he ht hd
    have hf := (addTLS_frame env ing.Namespace tls.SecretName c).1
    have hfr : (addTLS env ing.Namespace tls.SecretName c).2.frontend hostname
        = c.frontend hostname := frontend_congr _ _ _ (by rw [hf])
    rw [syncTLSHost_conflict _ _ _ _ _ tlsPath he (by rw [hfr]; exact ht)
      (by rw [hfr]; exact hd), hfr, frontend_hostname]
    refine ⟨by simp [Converter.log, hf], ?_, ?_, ?_⟩
    · simp only [Converter.log, tlsWarning, alreadyAssignedError, Ingress.fullName]
    · simp only [Converter.log, tlsWarning, alreadyAssignedError, Ingress.fullName,
        List.map_append, List.map_cons, List.map_nil]
      split <;> rfl
    intro e he
    rcases addTLS_logger env ing.Namespace tls.SecretName c with h | ⟨name, err, h⟩
    · rw [h] at he
      exact Or.inl he
    · rw [h] at he
      rcases List.mem_append.mp he with he | he
      · exact Or.inl he
      · exact Or.inr ⟨name, err, by simpa using he⟩

/-- A concrete instance of C2: after the default certificate was assigned to
`echo.example.com`, a binding of the custom certificate `tls-echo1` by the
resource `default/echo2` changes nothing in the proxy model and logs the one
warning that the secret is skipped because the TLS of the host was already
assigned. -/
theorem tls_assignment_kept_witness :
    (syncTLSHost demoEnv customTLSIngress "echo.example.com" ⟨["echo.example.com"], "tls-echo1"⟩
        "echo.example.com" defaultTLSConverter).haproxy = defaultTLSConverter.haproxy
    ∧ (syncTLSHost demoEnv customTLSIngress "echo.example.com" ⟨["echo.example.com"], "tls-echo1"⟩
        "echo.example.com" defaultTLSConverter).logger
      = [LogEntry.skippingTLSSecret "tls-echo1" "default/echo2"
          "TLS of host 'echo.example.com' was already assigned"]
    ∧ (syncTLSHost demoEnv customTLSIngress "echo.example.com" ⟨["echo.example.com"], "tls-echo1"⟩
        "echo.example.com" defaultTLSConverter).logger.map LogEntry.render
      = ["WARN skipping TLS secret 'tls-echo1' of ingress 'default/echo2': TLS of host 'echo.example.com' was already assigned"] := by
  have h := (tls_assignment_kept demoEnv).2.2.2.2.2.2 customTLSIngress "echo.example.com"
    ⟨["echo.example.com"], "tls-echo1"⟩ defaultTLSConverter "/tls/default/tls-echo1.pem" rfl
    (by decide) (by decide)
  refine ⟨h.1, h.2.1.trans (by decide), h.2.2.1.trans (by decide)⟩

theorem addFrontend_conflict_log (env : Env) (host : String) (ingAnn ann : Nat) (c : Converter)
    (f : FrontField)
    (h : c.frontendAnnotations.lookup host = some ann)
    (hs : (c.frontAnn ingAnn).get f ≠ env.globalConfig.front f)
    (hd : (c.frontAnn ann).get f ≠ env.globalConfig.front f)
    (hne : (c.frontAnn ann).get f ≠ (c.frontAnn ingAnn).get f) :
    f.key ∈ (UpdateStructFront env.globalConfig (c.frontAnn ingAnn) (c.frontAnn ann)).1
    ∧ (addFrontend env host ingAnn c).logger
      = c.logger ++ [LogEntry.skippingFrontendAnnotations (c.frontAnn ingAnn).Source
          (UpdateStructFront env.globalConfig (c.frontAnn ingAnn) (c.frontAnn ann)).1] := by
  have hkey := updateStructFront_conflict env.globalConfig (c.frontAnn ingAnn) (c.frontAnn ann)
    f hs hd hne
  refine ⟨hkey, ?_⟩
  have hne' : ingAnn ≠ ann := by
    intro e
    rw [e] at hne
    exact hne rfl
  have hsrc : ((addFrontendMerged env host ingAnn ann c).frontAnn ingAnn).Source
      = (c.frontAnn ingAnn).Source := by
    rw [frontAnn_set c ann ingAnn
      (UpdateStructFront env.globalConfig (c.frontAnn ingAnn) (c.frontAnn ann)).2
      (addFrontendMerged env host ingAnn ann c) rfl]
    simp [hne']
  have hlen : (addFrontendSkipped env ingAnn ann c).length > 0 := by
    unfold addFrontendSkipped
    exact List.length_pos_of_mem hkey
  rw [addFrontend_merge env host ingAnn ann c h]
  simp only [hlen, if_true, hsrc]
  rfl

/-- C4, as the code has it: for two resources that each have a rule with an HTTP
section for the same host and whose frontend views give one field different
non-default values, a `Sync` of the two on a converter without pending record
for that host, when it runs to completion, leaves the value of the first
resource in the pending record of the host and logs an informational message
that names the source of the second resource and lists the field among the
skipped ones. The statement holds for either order of the two resources. Every
merge by `addFrontend` of a record whose value for the field conflicts with the
value of the pending record of the host appends exactly one such message, which
names the source of the merged record and lists the field, and leaves the value
of the pending record. -/
theorem first_writer_wins_frontend (env : Env) (first second : Ingress) (h : String)
    (f : FrontField) (c : Converter) (hc : c.panicked = none)
    (hfresh : c.frontendAnnotations.lookup h = none)
    (hfirst : ∃ rule ∈ first.Rules, rule.HTTP.isSome = true ∧ rule.hostname = h)
    (hsecond : ∃ rule ∈ second.Rules, rule.HTTP.isSome = true ∧ rule.hostname = h)
    (hv1 : (frontView env first).get f ≠ env.globalConfig.front f)
    (hv2 : (frontView env second).get f ≠ env.globalConfig.front f)
    (hne : (frontView env first).get f ≠ (frontView env second).get f)
    (hdone : (Sync env [first, second] c).panicked = none) :
    ((Sync env [first, second] c).pendingFront h).map (fun r => r.get f)
        = some ((frontView env first).get f)
      ∧ (∃ skipped, f.key ∈ skipped
          ∧ LogEntry.skippingFrontendAnnotations ⟨second.Namespace, second.Name, "ingress"⟩
              skipped ∈ (Sync env [first, second] c).logger)
      ∧ ∀ (s : Converter) (ref ann : Nat), s.frontendAnnotations.lookup h = some ann →
          ann < s.frontendRecords.length →
          (s.frontAnn ref).get f ≠ env.globalConfig.front f →
          (s.frontAnn ann).get f ≠ env.globalConfig.front f →
          (s.frontAnn ann).get f ≠ (s.frontAnn ref).get f →
          (∃ skipped, f.key ∈ skipped
            ∧ (addFrontend env h ref s).logger
              = s.logger ++ [LogEntry.skippingFrontendAnnotations (s.frontAnn ref).Source
                  skipped])
          ∧ (addFrontend env h ref s).frontendAnnotations.lookup h = some ann
          ∧ ((addFrontend env h ref s).frontAnn ann).get f = (s.frontAnn ann).get f := by
  have hsync := onlyCalls_Sync env [first, second] c
  have hall : (syncAll env [first, second] c).panicked = none := by
    rw [← hsync.2.2.2.2.2]
    exact hdone
  have h1 : syncAll env [first, second] c
      = forEach (syncIngress env) [second] (syncIngress env first c) := by
    unfold syncAll
    rw [forEach_cons _ _ _ _ hc]
  have hcA : (syncIngress env first c).panicked = none := by
    by_contra hp
    rw [h1, forEach_panicked _ _ _ hp] at hall
    exact hp hall
  have h2 : syncAll env [first, second] c
      = syncIngress env second (syncIngress env first c) := by
    rw [h1, forEach_cons _ _ _ _ hcA]
    rfl
  rw [h2] at hall hsync
  obtain ⟨hmapA, hgetA, hlenA⟩ :=
    pending_after_syncIngress env first h f c hfresh hfirst hcA hv1
  obtain ⟨⟨skipped, hkey, hlog⟩, hmapB, hgetB⟩ :=
    conflict_logged env second h f (syncIngress env first c) c.frontendRecords.length hmapA
      hlenA (by rw [hgetA]; exact hv1) hsecond hall hv2 (by rw [hgetA]; exact hne)
  refine ⟨?_, ?_, ?_⟩
  · unfold Converter.pendingFront Converter.frontAnn
    rw [hsync.2.2.1, hsync.2.2.2.1, hmapB]
    simp only [Option.map_some']
    have := hgetB.trans hgetA
    unfold Converter.frontAnn at this
    rw [this]
  · refine ⟨skipped, hkey, ?_⟩
    rw [hsync.2.1]
    exact hlog
  · intro s ref ann hl hlt hs hd hne'
    obtain ⟨hk, hlg⟩ := addFrontend_conflict_log env h ref ann s f hl hs hd hne'
    refine ⟨⟨_, hk, hlg⟩, ?_, ?_⟩
    · rw [addFrontend_lookup, hl]
      rfl
    · rw [addFrontend_merged_record env h ref ann s hl hlt]
      exact updateStructFront_get_kept _ _ _ f hd

/-- A concrete instance of C4: with client timeouts `1s` and `2s` for
`echo.example.com`, the first resource wins and the second is reported, in
either order, by the one message of the pass. -/
theorem first_writer_wins_frontend_witness :
    (((Sync demoEnv [timeout1Ingress, timeout2Ingress] freshConverter).pendingFront
          "echo.example.com").map (fun r => r.get FrontField.TimeoutClient)
        = some ((frontView demoEnv timeout1Ingress).get FrontField.TimeoutClient)
      ∧ ∃ skipped, FrontField.TimeoutClient.key ∈ skipped
          ∧ LogEntry.skippingFrontendAnnotations ⟨"default", "echo2", "ingress"⟩ skipped
            ∈ (Sync demoEnv [timeout1Ingress, timeout2Ingress] freshConverter).logger)
    ∧ (((Sync demoEnv [timeout2Ingress, timeout1Ingress] freshConverter).pendingFront
          "echo.example.com").map (fun r => r.get FrontField.TimeoutClient)
        = some ((frontView demoEnv timeout2Ingress).get FrontField.TimeoutClient)
      ∧ ∃ skipped, FrontField.TimeoutClient.key ∈ skipped
          ∧ LogEntry.skippingFrontendAnnotations ⟨"default", "echo1", "ingress"⟩ skipped
            ∈ (Sync demoEnv [timeout2Ingress, timeout1Ingress] freshConverter).logger)
    ∧ (Sync demoEnv [timeout1Ingress, timeout2Ingress] freshConverter).logger
        = [LogEntry.skippingFrontendAnnotations ⟨"default", "echo2", "ingress"⟩
            ["timeout-client"]]
    ∧ (Sync demoEnv [timeout2Ingress, timeout1Ingress] freshConverter).logger
        = [LogEntry.skippingFrontendAnnotations ⟨"default", "echo1", "ingress"⟩
            ["timeout-client"]] :=
  ⟨⟨(first_writer_wins_frontend demoEnv timeout1Ingress timeout2Ingress "echo.example.com"
      FrontField.TimeoutClient freshConverter rfl rfl (by decide) (by decide) (by decide)
      (by decide) (by decide) (by decide)).1,
    (first_writer_wins_frontend demoEnv timeout1Ingress timeout2Ingress "echo.example.com"
      FrontField.TimeoutClient freshConverter rfl rfl (by decide) (by decide) (by decide)
      (by decide) (by decide) (by decide)).2.1⟩,
   ⟨(first_writer_wins_frontend demoEnv timeout2Ingress timeout1Ingress "echo.example.com"
      FrontField.TimeoutClient freshConverter rfl rfl (by decide) (by decide) (by decide)
      (by decide) (by decide) (by decide)).1,
    (first_writer_wins_frontend demoEnv timeout2Ingress timeout1Ingress "echo.example.com"
      FrontField.TimeoutClient freshConverter rfl rfl (by decide) (by decide) (by decide)
      (by decide) (by decide) (by decide)).2.1⟩,
   by decide, by decide⟩

/-- C4 as stated fails: (a) when the rule of the first resource for the host has
no HTTP section, the pending record of the host carries the value of the second
resource and nothing is logged; (b) when the second resource has two rules for
the host, two informational messages name it. -/
theorem first_writer_needs_http_rule :
    (noHTTPIngress.Rules.map (fun r => r.hostname) = ["echo.example.com"]
      ∧ (frontView demoEnv noHTTPIngress).TimeoutClient = "1s"
      ∧ ((Sync demoEnv [noHTTPIngress, timeout2Ingress] freshConverter).pendingFront
          "echo.example.com").map (fun r => r.TimeoutClient) = some "2s"
      ∧ (Sync demoEnv [noHTTPIngress, timeout2Ingress] freshConverter).logger = [])
    ∧ (Sync demoEnv [timeout1Ingress, twoRulesIngress] freshConverter).logger
        = [LogEntry.skippingFrontendAnnotations ⟨"default", "echo2", "ingress"⟩
            ["timeout-client"],
           LogEntry.skippingFrontendAnnotations ⟨"default", "echo2", "ingress"⟩
            ["timeout-client"]] := by
  decide

/-- C9: `addTLS` fails exactly when the lookup of the requested identity fails
and either that identity is the default secret or the lookup of the default
secret fails too. When the requested identity is the default the cache is
consulted once and its error is returned unchanged; when both lookups fail the
error combines both failures: it is the text `failed to use custom and default
certificate. custom: ` followed by the error of the requested identity, `; default: `
and the error of the default secret. -/
theorem addTLS_error_iff (env : Env) (ns secretName : String) (c : Converter) :
    ((∃ err, (addTLS env ns secretName c).1 = .error err) ↔
      ((∃ e, env.cache.GetTLSSecretPath (tlsSecretName env ns secretName) = .error e) ∧
        (tlsSecretName env ns secretName = env.options.DefaultSSLSecret ∨
          ∃ e, env.cache.GetTLSSecretPath env.options.DefaultSSLSecret = .error e)))
    ∧ (tlsSecretName env ns secretName = env.options.DefaultSSLSecret →
        (addTLS env ns secretName c).2.calls
            = c.calls ++ [Call.GetTLSSecretPath env.options.DefaultSSLSecret]
          ∧ ∀ e, env.cache.GetTLSSecretPath env.options.DefaultSSLSecret = .error e →
              (addTLS env ns secretName c).1 = .error e)
    ∧ (tlsSecretName env ns secretName ≠ env.options.DefaultSSLSecret →
        ∀ e1 e2, env.cache.GetTLSSecretPath (tlsSecretName env ns secretName) = .error e1 →
          env.cache.GetTLSSecretPath env.options.DefaultSSLSecret = .error e2 →
          (addTLS env ns secretName c).1
              = .error ("failed to use custom and default certificate. custom: " ++ e1
                  ++ "; default: " ++ e2)
            ∧ (addTLS env ns secretName c).2.calls
              = c.calls ++ [Call.GetTLSSecretPath (tlsSecretName env ns secretName),
                  Call.GetTLSSecretPath env.options.DefaultSSLSecret])
    ∧ tlsSecretName env ns secretName
        = (if secretName = "" then env.options.DefaultSSLSecret else ns ++ "/" ++ secretName) := by
  refine ⟨?_, ?_, ?_, ?_⟩
  · cases h1 : env.cache.GetTLSSecretPath (tlsSecretName env ns secretName) with
    | ok p => simp [addTLS, h1]
    | error e1 =>
      by_cases hd : tlsSecretName env ns secretName = env.options.DefaultSSLSecret
      · rw [hd] at h1
        simp [addTLS, h1, hd]
      · cases h2 : env.cache.GetTLSSecretPath env.options.DefaultSSLSecret with
        | ok p => simp [addTLS, h1, hd, h2]
        | error e2 => simp [addTLS, h1, hd, h2]
  · intro hd
    cases h1 : env.cache.GetTLSSecretPath (tlsSecretName env ns secretName) with
    | ok p =>
      rw [hd] at h1
      simp [addTLS, h1, hd, Converter.call]
    | error e1 =>
      rw [hd] at h1
      simp [addTLS, h1, hd, Converter.call]
  · intro hd e1 e2 h1 h2
    simp [addTLS, hd, h1, h2, Converter.call, customAndDefaultError]
  · by_cases h : secretName = "" <;> simp [tlsSecretName, h]

/-- A concrete instance of C9: without any certificate the default binding fails
after one lookup and a named binding fails with the combined error. -/
theorem addTLS_error_iff_witness :
    ((addTLS noTLSEnv "default" "" freshConverter).2.calls
        = freshConverter.calls ++ [Call.GetTLSSecretPath noTLSEnv.options.DefaultSSLSecret]
      ∧ ∀ e, noTLSEnv.cache.GetTLSSecretPath noTLSEnv.options.DefaultSSLSecret = .error e →
          (addTLS noTLSEnv "default" "" freshConverter).1 = .error e)
    ∧ (addTLS noTLSEnv "default" "tls-invalid" freshConverter).1
        = .error "failed to use custom and default certificate. custom: secret not found: 'default/tls-invalid'; default: secret not found: 'system/ingress-default'" :=
  ⟨(addTLS_error_iff noTLSEnv "default" "" freshConverter).2.1 (by decide),
   ((addTLS_error_iff noTLSEnv "default" "tls-invalid" freshConverter).2.2.1 (by decide)
      "secret not found: 'default/tls-invalid'" "secret not found: 'system/ingress-default'"
      rfl rfl).1.trans (congrArg Except.error (by decide))⟩

theorem readAnnotationsLog_level (env : Env) (source : Source)
    (annotations : List (String × String)) :
    ∀ e ∈ readAnnotationsLog env source annotations,
      e.level = "ERROR"
        ∧ ∃ err, e = LogEntry.errorMergingFrontendAnnotations source err
          ∨ e = LogEntry.errorMergingBackendAnnotations source err := by
  intro e he
  unfold readAnnotationsLog at he
  rw [List.mem_append] at he
  rcases he with he | he
  · cases hm : (MergeMapFront (readAnnotationsMap env annotations)
        (defaultsToFront source env.globalConfig)).2 with
    | none =>
      rw [hm] at he
      simp at he
    | some err =>
      rw [hm] at he
      simp at he
      subst he
      exact ⟨rfl, err, Or.inl rfl⟩
  · cases hm : (MergeMapBack (readAnnotationsMap env annotations)
        (defaultsToBack source env.globalConfig)).2 with
    | none =>
      rw [hm] at he
      simp at he
    | some err =>
      rw [hm] at he
      simp at he
      subst he
      exact ⟨rfl, err, Or.inr rfl⟩

/-- C18, as the code has it: when the service of a backend without pending
record resolves but the read of its endpoints fails, `addBackend` returns the
backend without error and without panic, the proxy model only acquires the
backend (no endpoint is added), the message that the endpoints could not be
added is logged once, followed only by the messages of the annotations: the
error messages of `readAnnotations` for the views of the service that cannot be
decoded, and the informational message of the merge. So the error messages of
the call are that one message and the decoding errors, and that one message
alone when the annotations of the service decode. The pending record of the
backend is created, and `syncPath` registers the path to that backend. -/
theorem unreadable_endpoints_keep_backend (env : Env) (fullSvcName : String) (svcPort : Int)
    (ingAnn : BackendAnnotations) (c : Converter) (svc : Service) (k : BackendKey)
    (err : String)
    (hres : resolveBackend env fullSvcName svcPort = .backend svc k)
    (hnew : c.backendAnnotations.lookup (buildID k) = none)
    (hge : env.cache.GetEndpoints svc = .error err)
    (hc : c.panicked = none) :
    (addBackend env fullSvcName svcPort ingAnn c).1 = .ok k
    ∧ (addBackend env fullSvcName svcPort ingAnn c).2.panicked = none
    ∧ (addBackend env fullSvcName svcPort ingAnn c).2.haproxy = c.haproxy.AcquireBackend k
    ∧ endpointsAt (addBackend env fullSvcName svcPort ingAnn c).2 k = endpointsAt c k
    ∧ (c.haproxy.FindBackend k = none →
        (addBackend env fullSvcName svcPort ingAnn c).2.haproxy.FindBackend k
          = some (createBackend k)
        ∧ (createBackend k).Endpoints = [])
    ∧ (addBackend env fullSvcName svcPort ingAnn c).2.logger
        = c.logger ++ [LogEntry.errorAddingEndpoints fullSvcName err]
          ++ readAnnotationsLog env ⟨k.Namespace, k.Name, "service"⟩ svc.Annotations
          ++ mergeInfo env k ingAnn (serviceView env k svc)
    ∧ (∀ e ∈ mergeInfo env k ingAnn (serviceView env k svc), e.level = "INFO")
    ∧ (∀ e ∈ readAnnotationsLog env ⟨k.Namespace, k.Name, "service"⟩ svc.Annotations,
        e.level = "ERROR"
          ∧ ∃ err', e = LogEntry.errorMergingFrontendAnnotations
                ⟨k.Namespace, k.Name, "service"⟩ err'
            ∨ e = LogEntry.errorMergingBackendAnnotations ⟨k.Namespace, k.Name, "service"⟩ err')
    ∧ (addBackend env fullSvcName svcPort ingAnn c).2.logger.filter
          (fun e => e.level = "ERROR")
        = c.logger.filter (fun e => e.level = "ERROR")
          ++ [LogEntry.errorAddingEndpoints fullSvcName err]
          ++ readAnnotationsLog env ⟨k.Namespace, k.Name, "service"⟩ svc.Annotations
    ∧ (readAnnotationsLog env ⟨k.Namespace, k.Name, "service"⟩ svc.Annotations = [] →
        (addBackend env fullSvcName svcPort ingAnn c).2.logger.filter
            (fun e => e.level = "ERROR")
          = c.logger.filter (fun e => e.level = "ERROR")
            ++ [LogEntry.errorAddingEndpoints fullSvcName err])
    ∧ ((addBackend env fullSvcName svcPort ingAnn c).2.backendAnnotations.lookup
        (buildID k)).isSome = true
    ∧ (∀ (ing : Ingress) (hostname : String) (ingFrontAnn : Nat) (path : HTTPIngressPath),
        path.fullSvcName ing = fullSvcName → path.Backend.ServicePort = svcPort →
        (c.haproxy.FindFrontend hostname).isSome = true →
        (c.frontend hostname).FindPath path.uri = none →
        ((syncPath env ing hostname ingFrontAnn ingAnn path c).frontend hostname).FindPath
          path.uri = some ⟨path.uri, k⟩) := by
  have hpop := addBackendPopulated_error env fullSvcName svc k c err hge
  have hp0 : (addBackendPopulated env fullSvcName svc k c).2.panicked = none := by
    rw [hpop]
    exact hc
  have hp' : (addBackendPopulated env fullSvcName svc k c).2.panicked.isSome = false := by
    simp [hp0]
  have hadd := addBackend_new env fullSvcName svcPort ingAnn c svc k hres hnew hp'
  have hfr := addBackendNew_frame env fullSvcName ingAnn svc k c
  have hh : (addBackend env fullSvcName svcPort ingAnn c).2.haproxy
      = c.haproxy.AcquireBackend k := by
    rw [hadd]
    simp only [hfr.1, hpop]
    rfl
  have hpan : (addBackend env fullSvcName svcPort ingAnn c).2.panicked = none := by
    rw [hadd]
    simp only [hfr.2]
    exact hp0
  have hinfo : ∀ e ∈ mergeInfo env k ingAnn (serviceView env k svc), e.level = "INFO" := by
    intro e he
    unfold mergeInfo at he
    split at he
    · simp at he
      subst he
      rfl
    · simp at he
  have hlog : (addBackend env fullSvcName svcPort ingAnn c).2.logger
      = c.logger ++ [LogEntry.errorAddingEndpoints fullSvcName err]
        ++ readAnnotationsLog env ⟨k.Namespace, k.Name, "service"⟩ svc.Annotations
        ++ mergeInfo env k ingAnn (serviceView env k svc) := by
    rw [hadd]
    simp only [addBackendNew_logger, hpop]
    rfl
  have hno : (mergeInfo env k ingAnn (serviceView env k svc)).filter
      (fun e => e.level = "ERROR") = [] := by
    rw [List.filter_eq_nil_iff]
    intro e he
    simp [hinfo e he]
  have h1 : [LogEntry.errorAddingEndpoints fullSvcName err].filter
      (fun e => e.level = "ERROR") = [LogEntry.errorAddingEndpoints fullSvcName err] := by
    simp [List.filter_cons, LogEntry.level]
  have hall : (readAnnotationsLog env ⟨k.Namespace, k.Name, "service"⟩ svc.Annotations).filter
      (fun e => e.level = "ERROR")
        = readAnnotationsLog env ⟨k.Namespace, k.Name, "service"⟩ svc.Annotations := by
    rw [List.filter_eq_self]
    intro e he
    simp [(readAnnotationsLog_level env _ _ e he).1]
  refine ⟨by rw [hadd], hpan, hh, ?_, ?_, hlog, hinfo,
    readAnnotationsLog_level env _ _, ?_, ?_, ?_, ?_⟩
  · unfold endpointsAt
    rw [hh]
    exact endpoints_acquire c.haproxy k k
  · intro hnone
    rw [hh, findBackend_acquire, hnone]
    exact ⟨rfl, rfl⟩
  · rw [hlog]
    simp only [List.filter_append, hno, h1, hall, List.append_nil]
  · intro hdec
    rw [hlog, hdec]
    simp only [List.filter_append, hno, h1, List.filter_nil, List.append_nil]
  · rw [hadd]
    simp only [addBackendNew_backendAnnotations, lookup_mapSet, if_true, Option.isSome_some]
  · intro ing hostname ingFrontAnn path hsvc hport hex hnone
    subst hsvc
    subst hport
    exact syncPath_registers env ing hostname ingFrontAnn ingAnn path c k hex hnone hpan
      (by rw [hadd])

theorem unreadable_endpoints_keep_backend_witness :
    (addBackend noEndpointsEnv "default/echo" 8080 zeroBackendAnnotations freshConverter).1
        = .ok ⟨"default", "echo", 8080⟩
    ∧ (addBackend noEndpointsEnv "default/echo" 8080 zeroBackendAnnotations
        freshConverter).2.haproxy
      = freshConverter.haproxy.AcquireBackend ⟨"default", "echo", 8080⟩ :=
  ⟨(unreadable_endpoints_keep_backend noEndpointsEnv "default/echo" 8080
      zeroBackendAnnotations freshConverter (mkService "default" "echo" 8080)
      ⟨"default", "echo", 8080⟩ "could not find endpoints for service 'default/echo'" rfl rfl
      rfl rfl).1,
   (unreadable_endpoints_keep_backend noEndpointsEnv "default/echo" 8080
      zeroBackendAnnotations freshConverter (mkService "default" "echo" 8080)
      ⟨"default", "echo", 8080⟩ "could not find endpoints for service 'default/echo'" rfl rfl
      rfl rfl).2.2.1⟩

/-- C18 as stated fails: the service `default/echo` resolves, the read of its
endpoints fails and its annotation `maxconn-server` cannot be decoded. The call
of `addBackend` for the new backend returns the backend and logs two error
messages: that the endpoints could not be added, and the decoding error of the
backend view of the service. -/
theorem undecodable_annotation_second_error :
    (addBackend undecodableSvcEnv "default/echo" 8080 zeroBackendAnnotations
        freshConverter).1 = .ok ⟨"default", "echo", 8080⟩
    ∧ (addBackend undecodableSvcEnv "default/echo" 8080 zeroBackendAnnotations
        freshConverter).2.panicked = none
    ∧ (addBackend undecodableSvcEnv "default/echo" 8080 zeroBackendAnnotations
        freshConverter).2.logger.map LogEntry.level = ["ERROR", "ERROR"]
    ∧ (addBackend undecodableSvcEnv "default/echo" 8080 zeroBackendAnnotations
        freshConverter).2.logger.head?
      = some (LogEntry.errorAddingEndpoints "default/echo"
          "could not find endpoints for service 'default/echo'")
    ∧ ∃ err, (addBackend undecodableSvcEnv "default/echo" 8080 zeroBackendAnnotations
        freshConverter).2.logger.getLast?
      = some (LogEntry.errorMergingBackendAnnotations ⟨"default", "echo", "service"⟩ err) :=
  ⟨rfl, by decide, by decide, by decide, ⟨_, rfl⟩⟩

/-- C21, as the code has it: the port of the backend that `addBackend` acquires.
For a service that the cache returns under a name of the form `namespace/name`,
a reference with a port other than 0 resolves to the backend of that namespace,
name and port, and a reference with the port 0 to a service with a port entry
resolves to the backend whose port is the target port of the first port entry of
the service, whatever port that entry declares. The backend a reference resolves
to is in the proxy model after `addBackend`, and it is the backend `addBackend`
returns when it ends without a panic. -/
theorem backend_port_fallback (env : Env) (fullSvcName : String) (svcPort : Int)
    (ingAnn : BackendAnnotations) (c : Converter) (svc : Service) (ns name : String)
    (rest : List String)
    (hget : env.cache.GetService fullSvcName = .ok svc)
    (hsplit : Split fullSvcName '/' = ns :: name :: rest) :
    (svcPort ≠ 0 →
        resolveBackend env fullSvcName svcPort = .backend svc ⟨ns, name, svcPort⟩
        ∧ ((addBackend env fullSvcName svcPort ingAnn c).2.haproxy.FindBackend
            ⟨ns, name, svcPort⟩).isSome = true
        ∧ ((addBackend env fullSvcName svcPort ingAnn c).2.panicked = none →
            (addBackend env fullSvcName svcPort ingAnn c).1 = .ok ⟨ns, name, svcPort⟩))
    ∧ (∀ (declared target : Int) (ports : List ServicePort), svcPort = 0 →
        svc.Ports = ⟨declared, target⟩ :: ports →
        resolveBackend env fullSvcName svcPort = .backend svc ⟨ns, name, target⟩
        ∧ ((addBackend env fullSvcName svcPort ingAnn c).2.haproxy.FindBackend
            ⟨ns, name, target⟩).isSome = true
        ∧ ((addBackend env fullSvcName svcPort ingAnn c).2.panicked = none →
            (addBackend env fullSvcName svcPort ingAnn c).1 = .ok ⟨ns, name, target⟩)
        ∧ (addBackend env fullSvcName svcPort ingAnn c).2.haproxy.backends.map Backend.key
            = (c.haproxy.AcquireBackend ⟨ns, name, target⟩).backends.map Backend.key) := by
  refine ⟨?_, ?_⟩
  · intro hport
    have hres := resolveBackend_port env fullSvcName svcPort svc ns name rest hget hsplit hport
    exact ⟨hres, addBackend_acquired env _ _ ingAnn c svc _ hres,
      addBackend_result env _ _ ingAnn c svc _ hres⟩
  · intro declared target ports h0 hports
    subst h0
    have hres := resolveBackend_first env fullSvcName svc ns name rest ⟨declared, target⟩ ports
      hget hsplit hports
    exact ⟨hres, addBackend_acquired env _ _ ingAnn c svc _ hres,
      addBackend_result env _ _ ingAnn c svc _ hres,
      addBackend_keys env _ _ ingAnn c svc _ hres⟩

/-- C21 on the scenario of the default service, which is referred to without a
port: the backend is acquired with the target port of the first port entry of
the service; a reference with a port is acquired with that port. -/
theorem backend_port_fallback_witness :
    defaultSvcEnv.cache.GetService "system/default" = .ok (mkService "system" "default" 8080)
    ∧ Split "system/default" '/' = ["system", "default"]
    ∧ (addBackend defaultSvcEnv "system/default" 0 zeroBackendAnnotations freshConverter).1
      = .ok ⟨"system", "default", 8080⟩
    ∧ (addBackend defaultSvcEnv "default/echo1" 8081 zeroBackendAnnotations freshConverter).1
      = .ok ⟨"default", "echo1", 8081⟩ :=
  ⟨rfl, by decide,
    ((backend_port_fallback defaultSvcEnv "system/default" 0 zeroBackendAnnotations
      freshConverter (mkService "system" "default" 8080) "system" "default" [] rfl
      (by decide)).2 8080 8080 [] rfl rfl).2.2.1 (by decide),
    rfl⟩

/-- C21 as stated fails: the first port entry of the service `system/default`
declares the port 80 and targets the port 8080. A reference without port
acquires the backend with the port 8080; no backend with the declared port 80 is
in the proxy model. -/
theorem target_port_not_declared_port :
    mappedPortEnv.cache.GetService "system/default"
      = .ok ⟨"system", "default", [], [⟨80, 8080⟩]⟩
    ∧ (addBackend mappedPortEnv "system/default" 0 zeroBackendAnnotations freshConverter).1
      = .ok ⟨"system", "default", 8080⟩
    ∧ (addBackend mappedPortEnv "system/default" 0 zeroBackendAnnotations
        freshConverter).2.panicked = none
    ∧ (addBackend mappedPortEnv "system/default" 0 zeroBackendAnnotations
        freshConverter).2.haproxy.backends.map Backend.key = [⟨"system", "default", 8080⟩]
    ∧ (addBackend mappedPortEnv "system/default" 0 zeroBackendAnnotations
        freshConverter).2.haproxy.FindBackend ⟨"system", "default", 80⟩ = none :=
  ⟨rfl, rfl, by decide, by decide, by decide⟩

theorem newIngressConverter_nopanic (env : Env) (haproxy : Config) (svc : Service)
    (k : BackendKey)
    (hres : resolveBackend env env.options.DefaultBackend 0 = .backend svc k)
    (href : ∀ endpoints, env.cache.GetEndpoints svc = .ok endpoints →
      TargetRefsPresent k.Port endpoints) :
    (NewIngressConverter env haproxy).panicked = none := by
  have hl : (emptyConverter haproxy).backendAnnotations.lookup (buildID k) = none := rfl
  have hpop : (addBackendPopulated env env.options.DefaultBackend svc k
      (emptyConverter haproxy)).2.panicked = none := by
    cases hg : env.cache.GetEndpoints svc with
    | error err =>
      rw [addBackendPopulated_error env _ svc k _ err hg]
      rfl
    | ok endpoints =>
      unfold addBackendPopulated
      simp only
      rw [(addEndpoints_appends env svc k.Port k _ endpoints hg rfl (href endpoints hg)).1]
      rfl
  have hadd := addBackend_new env env.options.DefaultBackend 0 zeroBackendAnnotations
    (emptyConverter haproxy) svc k hres hl (by rw [hpop]; rfl)
  have hpn : (addBackendNew env env.options.DefaultBackend zeroBackendAnnotations svc k
      (emptyConverter haproxy)).panicked = none := by
    rw [(addBackendNew_frame env _ zeroBackendAnnotations svc k _).2]
    exact hpop
  unfold NewIngressConverter
  rw [hadd]
  simp only [hpn, Option.isSome_none, Bool.false_eq_true, if_false]

/-- C27, as the code has it: `NewIngressConverter` and the default service. When
the lookup of the configured default service fails, the converter is returned
without a panic, its proxy model is the one it was given (no backend is acquired
and no default backend is designated), its log holds exactly the error that the
default service cannot be read, and a later `Sync` ends in the state that it
reaches from a converter that did not look for the default service, with that
error and that lookup in front of its log and its calls. When the cache returns
the service under a name of the form `namespace/name`, the service has a port
entry and the addresses of its endpoints carry target references, the
constructor ends without a panic, the backend of the service with the target
port of its first port entry, whatever port that entry declares, is in the proxy
model and is designated as default backend, the error is not logged, its
endpoints are appended when the cache returns them, and it has the endpoints it
had when the cache does not return them. So for a default service of that form,
on a proxy model without default backend, the constructor designates a default
backend exactly when the cache returns the service. -/
theorem default_service_designated (env : Env) (haproxy : Config) :
    (∀ err, env.cache.GetService env.options.DefaultBackend = .error err →
        (NewIngressConverter env haproxy).logger = [LogEntry.errorReadingDefaultService err]
        ∧ (NewIngressConverter env haproxy).haproxy = haproxy
        ∧ (NewIngressConverter env haproxy).panicked = none
        ∧ (NewIngressConverter env haproxy).calls
          = [Call.GetService env.options.DefaultBackend]
        ∧ ∀ ings, Sync env ings (NewIngressConverter env haproxy)
            = (Sync env ings (emptyConverter haproxy)).after
                [LogEntry.errorReadingDefaultService err]
                [Call.GetService env.options.DefaultBackend])
    ∧ (∀ (svc : Service) (ns name : String) (rest : List String) (declared target : Int)
        (ports : List ServicePort),
        env.cache.GetService env.options.DefaultBackend = .ok svc →
        Split env.options.DefaultBackend '/' = ns :: name :: rest →
        svc.Ports = ⟨declared, target⟩ :: ports →
        (∀ endpoints, env.cache.GetEndpoints svc = .ok endpoints →
          TargetRefsPresent target endpoints) →
        (NewIngressConverter env haproxy).panicked = none
        ∧ (NewIngressConverter env haproxy).haproxy.defaultBackend = some ⟨ns, name, target⟩
        ∧ ((NewIngressConverter env haproxy).haproxy.FindBackend ⟨ns, name, target⟩).isSome
            = true
        ∧ (∀ err, LogEntry.errorReadingDefaultService err
            ∉ (NewIngressConverter env haproxy).logger)
        ∧ (∀ endpoints, env.cache.GetEndpoints svc = .ok endpoints →
            (NewIngressConverter env haproxy).haproxy.FindBackend ⟨ns, name, target⟩
              = some { (haproxy.FindBackend ⟨ns, name, target⟩).getD
                    (createBackend ⟨ns, name, target⟩) with
                  Endpoints := ((haproxy.FindBackend ⟨ns, name, target⟩).getD
                      (createBackend ⟨ns, name, target⟩)).Endpoints
                    ++ expectedEndpoints target endpoints })
        ∧ (∀ err, env.cache.GetEndpoints svc = .error err →
            (NewIngressConverter env haproxy).haproxy.FindBackend ⟨ns, name, target⟩
              = some ((haproxy.FindBackend ⟨ns, name, target⟩).getD
                  (createBackend ⟨ns, name, target⟩))))
    ∧ (haproxy.defaultBackend = none →
        (∀ svc, env.cache.GetService env.options.DefaultBackend = .ok svc →
          (∃ ns name rest, Split env.options.DefaultBackend '/' = ns :: name :: rest)
          ∧ ∃ declared target ports, svc.Ports = ⟨declared, target⟩ :: ports
            ∧ ∀ endpoints, env.cache.GetEndpoints svc = .ok endpoints →
                TargetRefsPresent target endpoints) →
        ((NewIngressConverter env haproxy).haproxy.defaultBackend.isSome = true
          ↔ ∃ svc, env.cache.GetService env.options.DefaultBackend = .ok svc)) := by
  refine ⟨?_, ?_, ?_⟩
  · intro err h
    have e := newIngressConverter_notFound env haproxy err h
    refine ⟨by rw [e]; rfl, by rw [e]; rfl, by rw [e]; rfl, by rw [e]; rfl, ?_⟩
    intro ings
    rw [e, after_Sync]
  · intro svc ns name rest declared target ports hget hsplit hports href
    have hres := resolveBackend_first env env.options.DefaultBackend svc ns name rest
      ⟨declared, target⟩ ports hget hsplit hports
    have hp := newIngressConverter_nopanic env haproxy svc ⟨ns, name, target⟩ hres href
    have e := newIngressConverter_resolved env haproxy svc ⟨ns, name, target⟩ hres hp
    refine ⟨hp, by rw [e]; rfl, ?_, newIngressConverter_logger env haproxy svc _ hres hp,
      ?_, ?_⟩
    · rw [e]
      show ((addBackendNew env env.options.DefaultBackend zeroBackendAnnotations svc
        ⟨ns, name, target⟩ (emptyConverter haproxy)).haproxy.FindBackend
          ⟨ns, name, target⟩).isSome = true
      rw [(addBackendNew_frame env _ zeroBackendAnnotations svc _ _).1, findBackend_isSome,
        addBackendPopulated_keys, acquireBackend_keys]
      exact Or.inr rfl
    · intro endpoints hge
      rw [e]
      exact addBackendNew_populates env env.options.DefaultBackend zeroBackendAnnotations svc
        ⟨ns, name, target⟩ endpoints (emptyConverter haproxy) rfl hge (href endpoints hge)
    · intro err hge
      rw [e]
      show (addBackendNew env env.options.DefaultBackend zeroBackendAnnotations svc
        ⟨ns, name, target⟩ (emptyConverter haproxy)).haproxy.FindBackend ⟨ns, name, target⟩
          = _
      rw [(addBackendNew_frame env _ zeroBackendAnnotations svc _ _).1,
        addBackendPopulated_error env _ svc _ _ err hge]
      exact findBackend_acquire haproxy ⟨ns, name, target⟩
  · intro h0 hwf
    cases hg : env.cache.GetService env.options.DefaultBackend with
    | error err =>
      rw [newIngressConverter_notFound env haproxy err hg]
      show (haproxy.defaultBackend.isSome = true ↔ _)
      rw [h0]
      simp
    | ok svc =>
      obtain ⟨⟨ns, name, rest, hsplit⟩, declared, target, ports, hports, href⟩ := hwf svc hg
      have hres := resolveBackend_first env env.options.DefaultBackend svc ns name rest
        ⟨declared, target⟩ ports hg hsplit hports
      have hp := newIngressConverter_nopanic env haproxy svc ⟨ns, name, target⟩ hres href
      rw [newIngressConverter_resolved env haproxy svc ⟨ns, name, target⟩ hres hp]
      simp [Config.ConfigDefaultBackend]

/-- C27 on the scenarios of the default service: it is not found in `demoEnv`,
where the error is the only message of the constructor and of a later `Sync`
that registers the resource; it resolves in `defaultSvcEnv`, where its backend
is designated with its endpoint. -/
theorem default_service_designated_witness :
    (NewIngressConverter demoEnv ⟨[], [], none⟩).logger
      = [LogEntry.errorReadingDefaultService "service not found: 'system/default'"]
    ∧ (Sync demoEnv [echo1Ingress] (NewIngressConverter demoEnv ⟨[], [], none⟩)).logger
      = [LogEntry.errorReadingDefaultService "service not found: 'system/default'"]
    ∧ (Sync demoEnv [echo1Ingress]
        (NewIngressConverter demoEnv ⟨[], [], none⟩)).haproxy.frontends.map
          (fun f => (f.Hostname, f.Paths))
      = [("echo.example.com", [⟨"/p1", ⟨"default", "echo1", 8080⟩⟩])]
    ∧ (Sync demoEnv [echo1Ingress]
        (NewIngressConverter demoEnv ⟨[], [], none⟩)).haproxy.defaultBackend = none
    ∧ (NewIngressConverter defaultSvcEnv ⟨[], [], none⟩).panicked = none
    ∧ (NewIngressConverter defaultSvcEnv ⟨[], [], none⟩).haproxy.defaultBackend
      = some ⟨"system", "default", 8080⟩
    ∧ (NewIngressConverter defaultSvcEnv ⟨[], [], none⟩).haproxy
      = ⟨[], [⟨"system", "default", 8080, [⟨"172.17.0.99", 8080, "system/default-xxxxx"⟩],
          false⟩], some ⟨"system", "default", 8080⟩⟩
    ∧ (NewIngressConverter defaultSvcEnv ⟨[], [], none⟩).logger = [] :=
  ⟨((default_service_designated demoEnv ⟨[], [], none⟩).1
      "service not found: 'system/default'" rfl).1,
    by decide, by decide, by decide,
    ((default_service_designated defaultSvcEnv ⟨[], [], none⟩).2.1
      (mkService "system" "default" 8080) "system" "default" [] 8080 8080 [] rfl (by decide)
      rfl (fun endpoints hge => by
        cases hge
        intro subset hsub _ addr haddr
        simp [mkEndpoints] at hsub
        subst hsub
        simp at haddr
        subst haddr
        simp)).1,
    ((default_service_designated defaultSvcEnv ⟨[], [], none⟩).2.1
      (mkService "system" "default" 8080) "system" "default" [] 8080 8080 [] rfl (by decide)
      rfl (fun endpoints hge => by
        cases hge
        intro subset hsub _ addr haddr
        simp [mkEndpoints] at hsub
        subst hsub
        simp at haddr
        subst haddr
        simp)).2.1,
    by decide, by decide⟩

/-- C27 as stated fails: the default service `system/default` resolves and its
first port entry declares the port 80 and targets the port 8080; the constructor
designates the backend with the port 8080, and no backend with the declared port
80 is in the proxy model. And when the default service resolves but has no port
entry, the constructor ends in a panic and designates no default backend. -/
theorem default_service_target_port :
    (mappedPortEnv.cache.GetService "system/default"
        = .ok ⟨"system", "default", [], [⟨80, 8080⟩]⟩
      ∧ (NewIngressConverter mappedPortEnv ⟨[], [], none⟩).panicked = none
      ∧ (NewIngressConverter mappedPortEnv ⟨[], [], none⟩).haproxy.defaultBackend
        = some ⟨"system", "default", 8080⟩
      ∧ (NewIngressConverter mappedPortEnv ⟨[], [], none⟩).haproxy.backends.map Backend.key
        = [⟨"system", "default", 8080⟩])
    ∧ (noPortEnv.cache.GetService "system/default" = .ok ⟨"system", "default", [], []⟩
      ∧ (NewIngressConverter noPortEnv ⟨[], [], none⟩).panicked
        = some Panic.indexOutOfRange
      ∧ (NewIngressConverter noPortEnv ⟨[], [], none⟩).haproxy.defaultBackend = none) :=
  ⟨⟨rfl, by decide, by decide, by decide⟩, ⟨rfl, by decide, by decide⟩⟩

end IngressConverter
